import Mathlib

/-!
# AgaveClientInterface: the remote file operator

A shallow embedding of `remoteFiles/fileoperator.cpp` (class `FileOperator`) and of the
parts of the mirror tree it drives.  The operator is a record of its member variables;
every member function is a function on that record.  Remote calls, emitted Qt signals and
lock releases are recorded in the record so that they can be observed.

Conventions
* a remote path `/a/b` is kept as its list of components `["a", "b"]`
  (`FileMetaData::getPathNameList`);
* a `FileTreeNode *` is the position of the node in the tree, i.e. the path that was
  looked up; `nullptr` is `none`;
* a `RemoteDataReply *` is a natural number, the index of the call in the call log;
* human readable message strings of `fileOpDone` are not kept, its status is.
-/

namespace AgaveClient

/-! ## Data model -/

/-- Remote path as the list of its components. -/
abbrev Path := List String

/-- Result status carried by every reply and by `fileOpDone`; `OTHER` stands for the
remaining members of the enumeration. -/
inductive RequestState where
  | GOOD
  | INVALID_PARAM
  | NOT_READY
  | LOCAL_FILE_ERROR
  | STOPPED_BY_USER
  | UNCLASSIFIED
  | OTHER (code : Nat)
  deriving DecidableEq, Repr

/-- Entry kind of a remote entry. -/
inductive FileType where
  | FILE
  | DIR
  | UNKNOWN
  deriving DecidableEq, Repr

/-- Load state of a mirror node as reported by `getNodeState`. -/
inductive NodeState where
  | NON_EXTANT
  | UNLOADED
  | LISTING
  | FOLDER_CONTENTS_LOADED
  deriving DecidableEq, Repr

/-- The recursive-task flag `currentRecursiveTask`. -/
inductive FileOp_RecursiveTask where
  | NONE
  | DOWNLOAD
  | UPLOAD
  deriving DecidableEq, Repr

/-- Error codes of the recursive walks. -/
inductive RecursiveErrorCodes where
  | NONE
  | MKDIR_FAIL
  | UPLOAD_FAIL
  | TYPE_MISSMATCH
  | LOST_FILE
  deriving DecidableEq, Repr

/-- Metadata of one remote entry, as delivered by the remote interface. -/
structure FileMetaData where
  fullPath : Path
  fileType : FileType
  size : Nat
  deriving DecidableEq, Repr

/-- Last component of the path. -/
def FileMetaData.getFileName (d : FileMetaData) : String :=
  d.fullPath.getLast?.getD ""

/-- Path of the containing folder. -/
def FileMetaData.getContainingPath (d : FileMetaData) : Path :=
  d.fullPath.dropLast

/-- Rendering of a path as one string, every component preceded by a slash. -/
def pathString (p : Path) : String :=
  p.foldl (fun acc c => acc ++ "/" ++ c) ""

/-- Modelled from the spec: the declaration of `FileNodeRef` (filenoderef.h) is missing.
A value snapshot of an entry: path, kind, size, timestamp, and the flag telling the nil
reference from every real entry. -/
structure FileNodeRef extends FileMetaData where
  timestamp : Nat
  isNil : Bool
  deriving DecidableEq, Repr

/-- The nil reference. -/
def FileNodeRef.nil : FileNodeRef :=
  { fullPath := [], fileType := FileType.UNKNOWN, size := 0, timestamp := 0, isNil := true }

/-- Modelled from the spec: the class `FileTreeNode` (filetreenode.h) is missing.
One mirror node: its data, load state, optional cached buffer, optional pending list
task, optional pending buffer task, and the children it owns. -/
inductive FileTreeNode where
  | mk (fileData : FileNodeRef) (nodeState : NodeState) (fileDataBuffer : Option (List Nat))
      (lsTask : Option Nat) (bufferTask : Option Nat) (childList : List FileTreeNode)

namespace FileTreeNode

def getFileData : FileTreeNode → FileNodeRef
  | mk d _ _ _ _ _ => d

def getNodeState : FileTreeNode → NodeState
  | mk _ st _ _ _ _ => st

def getFileBuffer : FileTreeNode → Option (List Nat)
  | mk _ _ b _ _ _ => b

def getLStask : FileTreeNode → Option Nat
  | mk _ _ _ l _ _ => l

def getBuffTask : FileTreeNode → Option Nat
  | mk _ _ _ _ t _ => t

def getChildList : FileTreeNode → List FileTreeNode
  | mk _ _ _ _ _ ch => ch

def haveLStask (n : FileTreeNode) : Bool := n.getLStask.isSome

def haveBuffTask (n : FileTreeNode) : Bool := n.getBuffTask.isSome

def isFile (n : FileTreeNode) : Bool := n.getFileData.fileType == FileType.FILE

def isFolder (n : FileTreeNode) : Bool := n.getFileData.fileType == FileType.DIR

def getName (n : FileTreeNode) : String := n.getFileData.getFileName

/-- Modelled from the spec: `childByName(name) -> node-or-null`; children are keyed by
name. -/
def getChildNodeWithName (n : FileTreeNode) (name : String) : Option FileTreeNode :=
  n.getChildList.find? (fun c => c.getName == name)

/-- Walk down from a node along the given child names; `none` as soon as one is missing. -/
def descend : FileTreeNode → List String → Option FileTreeNode
  | n, [] => some n
  | n, c :: cs =>
    match n.getChildNodeWithName c with
    | none => none
    | some ch => descend ch cs

/-- Walk down from a node along the given child names and stop at the last node found. -/
def descendClosest : FileTreeNode → List String → FileTreeNode
  | n, [] => n
  | n, c :: cs =>
    match n.getChildNodeWithName c with
    | none => n
    | some ch => descendClosest ch cs

/-- Modelled from the spec: `resolve(path) -> node-or-null` of the missing class
`FileTreeNode`, called on the root.  The first component names the root, the others are
followed child by child. -/
def getNodeWithName (root : FileTreeNode) (p : Path) : Option FileTreeNode :=
  match p with
  | [] => none
  | r :: rest => if r == root.getName then root.descend rest else none

/-- Modelled from the spec: the closest known node of the missing class `FileTreeNode`:
the deepest mirror node on the path; no node when the path does not start at the root. -/
def getClosestNodeWithName (root : FileTreeNode) (p : Path) : Option FileTreeNode :=
  match p with
  | [] => none
  | r :: rest => if r == root.getName then some (root.descendClosest rest) else none

/-- Apply `f` to the first child carrying the given name. -/
def modifyChild (name : String) (f : FileTreeNode → FileTreeNode) :
    List FileTreeNode → List FileTreeNode
  | [] => []
  | c :: cs => if c.getName == name then f c :: cs else c :: modifyChild name f cs

/-- Apply `f` to the node reached from `n` along the given child names. -/
def modifyBelow (f : FileTreeNode → FileTreeNode) : FileTreeNode → List String → FileTreeNode
  | n, [] => f n
  | mk d st b l t ch, c :: cs => mk d st b l t (modifyChild c (fun x => modifyBelow f x cs) ch)

/-- Apply `f` to the node that `getNodeWithName` finds for `p`; a pointer write. -/
def modifyAt (root : FileTreeNode) (p : Path) (f : FileTreeNode → FileTreeNode) : FileTreeNode :=
  match p with
  | [] => root
  | r :: rest => if r == root.getName then root.modifyBelow f rest else root

/-- Modelled from the spec: `setLStask` of the missing class `FileTreeNode` records the
pending list operation; an unloaded node is then being listed. -/
def setLStask (h : Nat) : FileTreeNode → FileTreeNode
  | mk d st b _ t ch =>
    mk d (if st == NodeState.UNLOADED then NodeState.LISTING else st) b (some h) t ch

/-- Modelled from the spec: `setBuffTask` of the missing class `FileTreeNode` records the
pending buffer operation. -/
def setBuffTask (h : Nat) : FileTreeNode → FileTreeNode
  | mk d st b l _ ch => mk d st b l (some h) ch

/-- Modelled from the spec: `deleteFolderContentsData` of the missing class `FileTreeNode`
drops the children, whose set is then no longer authoritative. -/
def deleteFolderContentsData : FileTreeNode → FileTreeNode
  | mk d _ b l t _ => mk d (if l.isSome then NodeState.LISTING else NodeState.UNLOADED) b l t []

/-- Modelled from the spec: `setBuffer(bytes)` of the missing class `FileTreeNode`. -/
def setFileBuffer (buf : Option (List Nat)) : FileTreeNode → FileTreeNode
  | mk d st _ l t ch => mk d st buf l t ch

/-- A node freshly created for a listing entry. -/
def fresh (d : FileMetaData) (stamp : Nat) : FileTreeNode :=
  mk { toFileMetaData := d, timestamp := stamp, isNil := false } NodeState.UNLOADED none none none []

/-- Modelled from the spec: `setChildren(entries)` of the missing class `FileTreeNode`:
the children are made to match the listing; a child whose data is unchanged is kept, any
other entry gets a new node, children absent from the listing are destroyed. -/
def setChildren (entries : List FileMetaData) (stamp : Nat) : FileTreeNode → FileTreeNode
  | mk d _ b l t ch =>
    mk d NodeState.FOLDER_CONTENTS_LOADED b l t
      (entries.map (fun e =>
        match ch.find? (fun c => c.getFileData.toFileMetaData == e) with
        | some c => c
        | none => fresh e stamp))

/-- Clear the pending list task. -/
def clearLStask : FileTreeNode → FileTreeNode
  | mk d st b _ t ch => mk d st b none t ch

/-- Clear the pending buffer task. -/
def clearBuffTask : FileTreeNode → FileTreeNode
  | mk d st b l _ ch => mk d st b l none ch

end FileTreeNode

/-! ## Collaborators -/

/-- Modelled from the spec: the class `EasyBoolLock` (easyboollock.h) is missing.
A single-flight lock: a claim/release gate with rejection, not queueing, for contenders.
The two counters record how often the lock was claimed and how often `release` was
called. -/
structure EasyBoolLock where
  myValue : Bool
  claimed : Nat
  released : Nat
  deriving DecidableEq, Repr

namespace EasyBoolLock

def lockClosed (l : EasyBoolLock) : Bool := l.myValue

/-- Claim the lock when it is open; the result tells whether the claim succeeded. -/
def checkAndClaim (l : EasyBoolLock) : Bool × EasyBoolLock :=
  if l.myValue then (false, l) else (true, { l with myValue := true, claimed := l.claimed + 1 })

def release (l : EasyBoolLock) : EasyBoolLock :=
  { l with myValue := false, released := l.released + 1 }

/-- An open lock that was never used. -/
def fresh : EasyBoolLock := { myValue := false, claimed := 0, released := 0 }

end EasyBoolLock

/-- One entry of the local file system as `QDir::entryInfoList` reports it; the entries
of a directory stand in the order of that list, which is sorted by name. -/
inductive QFileInfo where
  | file (fileName : String)
  | dir (fileName : String) (entries : List QFileInfo)
  | other (fileName : String)

/-- Name of a local entry. -/
def QFileInfo.fileName : QFileInfo → String
  | QFileInfo.file n => n
  | QFileInfo.dir n _ => n
  | QFileInfo.other n => n

/-- A local directory handle: where it is, whether it exists and is readable, and the
directory it denotes. -/
structure QDir where
  absolutePath : String
  dirExists : Bool
  isReadable : Bool
  info : QFileInfo

def QDir.dirName (d : QDir) : String := d.info.fileName

/-- The unset directory handle. -/
def QDir.unset : QDir :=
  { absolutePath := "", dirExists := false, isReadable := false, info := QFileInfo.dir "" [] }

/-- A call on the remote interface (`ae_globals::get_connection()`). -/
inductive RemoteCall where
  | remoteLS (path : Path)
  | deleteFile (path : Path)
  | moveFile (path : Path) (newName : String)
  | copyFile (path : Path) (newName : String)
  | renameFile (path : Path) (newName : String)
  | mkRemoteDir (path : Path) (newName : String)
  | uploadFile (path : Path) (localFile : String)
  | uploadBuffer (path : Path) (fileBuff : List Nat) (newName : String)
  | downloadFile (localDest : String) (path : Path)
  | downloadBuffer (path : Path)
  | runRemoteJob (jobName : String) (jobParameters : List (String × String)) (target : String)
  deriving DecidableEq, Repr

/-- The slot a reply is connected to: a reply handler of the operator, or the list or
buffer handler of the mirror node at the given position. -/
inductive Slot where
  | getDeleteReply
  | getMoveReply
  | getCopyReply
  | getRenameReply
  | getMkdirReply
  | getUploadReply
  | getDownloadReply
  | getCompressReply
  | getDecompressReply
  | getRecursiveUploadReply
  | getRecursiveMkdirReply
  | deliverLSdata (node : Path)
  | deliverBuffData (node : Path)
  deriving DecidableEq, Repr

/-- An outstanding reply object, connected to its slot. -/
structure RemoteDataReply where
  handle : Nat
  slot : Slot
  deriving DecidableEq, Repr

/-- What a reply delivers: its status and the payload of its kind. -/
structure ReplyData where
  replyState : RequestState
  fileData : FileMetaData
  path : Path
  fileList : List FileMetaData
  buffer : Option (List Nat)
  stamp : Nat
  deriving DecidableEq, Repr

/-- Signals emitted by the operator. -/
inductive Signal where
  | fileOpStarted
  | fileOpDone (opState : RequestState)
  | fileSystemChange (changedFile : FileNodeRef)
  deriving DecidableEq, Repr

/-- A completed write to the local file system. -/
inductive LocalWrite where
  | mkdir (name : String)
  | writeFile (name : String) (content : List Nat)
  deriving DecidableEq, Repr

/-! ## The operator -/

/-- The member variables of `FileOperator`, followed by the collaborators it talks to and
by what an observer sees of it.

* `verifyDefault`: the default of `verifyTimestamp` in the missing header;
* `connection`: whether the next calls on the remote interface return a reply object
  (`AgaveThread` returns `nullptr` while the remote thread is not ready); once the list
  is used up every call does;
* `localOutcomes`: whether the next steps on the local file system come out favourably;
* `calls`: every call made on the remote interface, in order;
* `pending`: the reply objects that have not delivered their reply yet;
* `signals`: the signals emitted so far;
* `localLog`: the completed local writes;
* `fatalPopups`: how often `totalResetErrorProcedure` ran. -/
structure FileOperator where
  rootFileNode : FileTreeNode
  fileOpPending : EasyBoolLock
  recursivefileOpPending : EasyBoolLock
  currentRecursiveTask : FileOp_RecursiveTask
  recursiveRemoteHead : Option Path
  recursiveLocalHead : QDir
  verifyDefault : Bool
  connection : List Bool
  localOutcomes : List Bool
  calls : List RemoteCall
  pending : List RemoteDataReply
  signals : List Signal
  localLog : List LocalWrite
  fatalPopups : Nat
  /-- Set when a null pointer has been dereferenced: the program has stopped. -/
  crashed : Bool := false

namespace FileOperator

/-- A null pointer is dereferenced: the program stops. -/
def crash (s : FileOperator) : FileOperator :=
  { s with crashed := true }

/-- The statements `f` that follow a call: they run unless the program has stopped. -/
def andThen (s : FileOperator) (f : FileOperator → FileOperator) : FileOperator :=
  if s.crashed then s else f s

/-- Emit a signal. -/
def emit (s : FileOperator) (sig : Signal) : FileOperator :=
  { s with signals := s.signals ++ [sig] }

/-- The call `fileOpPending->release()`. -/
def releaseFileOp (s : FileOperator) : FileOperator :=
  { s with fileOpPending := s.fileOpPending.release }

/-- The call `recursivefileOpPending->release()`. -/
def releaseRecursive (s : FileOperator) : FileOperator :=
  { s with recursivefileOpPending := s.recursivefileOpPending.release }

/-- A pointer write to the mirror node at the given position. -/
def onNode (s : FileOperator) (p : Path) (f : FileTreeNode → FileTreeNode) : FileOperator :=
  { s with rootFileNode := s.rootFileNode.modifyAt p f }

/-- One call on the remote interface; when it returns a reply object the object is
connected to the given slot.  The result is the reply object, if any. -/
def remoteCall (s : FileOperator) (c : RemoteCall) (slot : Slot) : Option Nat × FileOperator :=
  if s.connection.headD true then
    (some s.calls.length,
      { s with connection := s.connection.tail, calls := s.calls ++ [c],
               pending := s.pending ++ [{ handle := s.calls.length, slot := slot }] })
  else (none, { s with connection := s.connection.tail, calls := s.calls ++ [c] })

/-- One step on the local file system; the result tells whether it came out favourably.
Once the list is used up every step does. -/
def localStep (s : FileOperator) : Bool × FileOperator :=
  (s.localOutcomes.headD true, { s with localOutcomes := s.localOutcomes.tail })

def totalResetErrorProcedure (s : FileOperator) : FileOperator :=
  { s with fatalPopups := s.fatalPopups + 1 }

def getFileNodeFromNodeRef (s : FileOperator) (thedata : FileNodeRef) (verifyTimestamp : Bool) :
    Option FileTreeNode :=
  if thedata.isNil then none
  else
    match s.rootFileNode.getNodeWithName thedata.fullPath with
    | none => none
    | some ret =>
      if !verifyTimestamp then some ret
      else if ret.getFileData.timestamp != thedata.timestamp then none
      else some ret

def fileStillExtant (s : FileOperator) (theFile : FileNodeRef) : Bool :=
  (s.getFileNodeFromNodeRef theFile s.verifyDefault).isSome

/-- Modelled from the spec: `FileNodeRef::fileNodeExtant` (filenoderef.cpp) is missing;
the existence check of a reference: it is not nil and still resolves. -/
def fileNodeExtant (s : FileOperator) (ref : FileNodeRef) : Bool :=
  !ref.isNil && s.fileStillExtant ref

def getFileNodeState (s : FileOperator) (theFile : FileNodeRef) : NodeState :=
  match s.getFileNodeFromNodeRef theFile s.verifyDefault with
  | none => NodeState.NON_EXTANT
  | some scanNode => scanNode.getNodeState

/-- Modelled from the spec: `FileNodeRef::folderContentsLoaded` (filenoderef.cpp) is
missing; the node the reference resolves to is a loaded folder. -/
def folderContentsLoaded (s : FileOperator) (ref : FileNodeRef) : Bool :=
  s.getFileNodeState ref == NodeState.FOLDER_CONTENTS_LOADED

def getChildWithName (s : FileOperator) (baseFile : FileNodeRef) (childName : String) : FileNodeRef :=
  match s.getFileNodeFromNodeRef baseFile s.verifyDefault with
  | none => FileNodeRef.nil
  | some baseNode =>
    match baseNode.getChildNodeWithName childName with
    | none => FileNodeRef.nil
    | some childNode => childNode.getFileData

def operationIsPending (s : FileOperator) : Bool := s.fileOpPending.lockClosed

def performingRecursiveDownload (s : FileOperator) : Bool :=
  s.currentRecursiveTask == FileOp_RecursiveTask.DOWNLOAD

def performingRecursiveUpload (s : FileOperator) : Bool :=
  s.currentRecursiveTask == FileOp_RecursiveTask.UPLOAD

def emitStdFileOpErr (s : FileOperator) (errState : RequestState) : FileOperator :=
  s.emit (Signal.fileOpDone errState)

/-! ### Listing refresh and buffer fetch -/

def enactRootRefresh (s : FileOperator) : FileOperator :=
  match s.remoteCall (RemoteCall.remoteLS [s.rootFileNode.getName])
      (Slot.deliverLSdata [s.rootFileNode.getName]) with
  | (none, s1) => s1.totalResetErrorProcedure
  | (some h, s1) => s1.onNode [s1.rootFileNode.getName] (FileTreeNode.setLStask h)

def enactFolderRefresh (s : FileOperator) (selectedNode : FileNodeRef) (clearData : Bool) :
    FileOperator :=
  match s.getFileNodeFromNodeRef selectedNode s.verifyDefault with
  | none => s
  | some found =>
    let trueNode := if clearData then found.deleteFolderContentsData else found
    let s0 := if clearData then s.onNode selectedNode.fullPath FileTreeNode.deleteFolderContentsData
      else s
    if trueNode.haveLStask then s0
    else
      match s0.remoteCall (RemoteCall.remoteLS trueNode.getFileData.fullPath)
          (Slot.deliverLSdata selectedNode.fullPath) with
      | (none, s1) => s1.totalResetErrorProcedure
      | (some h, s1) => s1.onNode selectedNode.fullPath (FileTreeNode.setLStask h)

def sendDownloadBuffReq (s : FileOperator) (targetFile : FileNodeRef) : FileOperator :=
  if !s.fileNodeExtant targetFile then s
  else
    match s.getFileNodeFromNodeRef targetFile s.verifyDefault with
    | none => s
    | some trueNode =>
      if trueNode.haveBuffTask then s
      else
        match s.remoteCall (RemoteCall.downloadBuffer targetFile.fullPath)
            (Slot.deliverBuffData targetFile.fullPath) with
        | (none, s1) => s1
        | (some h, s1) => s1.onNode targetFile.fullPath (FileTreeNode.setBuffTask h)

/-- Refresh of the closest known node; the source dereferences the result of the lookup
without a check, so the program stops when there is none. -/
def lsClosestNode (s : FileOperator) (fullPath : Path) (clearData : Bool) : FileOperator :=
  match s.rootFileNode.getClosestNodeWithName fullPath with
  | none => s.crash
  | some nodeToRefresh => s.enactFolderRefresh nodeToRefresh.getFileData clearData

/-- Refresh of the parent of the node at the path (of the node itself when it is the
root), else of the closest known node.  A node found at a path of one component is the
root; the parent of any other is the node found at the path without its last component.
The closest known node is dereferenced without a check, so the program stops when there
is none. -/
def lsClosestNodeToParent (s : FileOperator) (fullPath : Path) (clearData : Bool) : FileOperator :=
  match s.rootFileNode.getNodeWithName fullPath with
  | some nodeToRefresh =>
    if fullPath.length ≤ 1 then s.enactFolderRefresh nodeToRefresh.getFileData clearData
    else
      match s.rootFileNode.getNodeWithName fullPath.dropLast with
      | none => s
      | some parentNode => s.enactFolderRefresh parentNode.getFileData clearData
  | none =>
    match s.rootFileNode.getClosestNodeWithName fullPath with
    | none => s.crash
    | some nodeToRefresh => s.enactFolderRefresh nodeToRefresh.getFileData false

/-! ### Single operations -/

/-- The shape shared by the single-operation triggers: the existence check, the claim of
the top-level lock, the remote call, the release when no reply object comes back, and the
start signal. -/
def claimAndCall (s : FileOperator) (ref : FileNodeRef) (c : RemoteCall) (slot : Slot) :
    FileOperator :=
  if !s.fileNodeExtant ref then s
  else
    let claim := s.fileOpPending.checkAndClaim
    if !claim.1 then s
    else
      match ({ s with fileOpPending := claim.2 }).remoteCall c slot with
      | (none, s1) => s1.releaseFileOp
      | (some _, s1) => s1.emit Signal.fileOpStarted

def sendDeleteReq (s : FileOperator) (selectedNode : FileNodeRef) : FileOperator :=
  s.claimAndCall selectedNode (RemoteCall.deleteFile selectedNode.fullPath) Slot.getDeleteReply

def getDeleteReply (s : FileOperator) (replyState : RequestState) (toDelete : Path) : FileOperator :=
  let s1 := s.releaseFileOp
  if replyState = RequestState.GOOD then
    (s1.lsClosestNodeToParent toDelete false).andThen
      (fun s2 => s2.emit (Signal.fileOpDone replyState))
  else s1.emit (Signal.fileOpDone replyState)

def sendMoveReq (s : FileOperator) (moveFrom : FileNodeRef) (newName : String) : FileOperator :=
  s.claimAndCall moveFrom (RemoteCall.moveFile moveFrom.fullPath newName) Slot.getMoveReply

def getMoveReply (s : FileOperator) (replyState : RequestState) (revisedFileData : FileMetaData)
    (from_ : Path) : FileOperator :=
  let s1 := s.releaseFileOp
  if replyState = RequestState.GOOD then
    ((s1.lsClosestNodeToParent from_ false).andThen
      (fun s2 => s2.lsClosestNode revisedFileData.fullPath false)).andThen
      (fun s3 => s3.emit (Signal.fileOpDone replyState))
  else s1.emitStdFileOpErr replyState

def sendCopyReq (s : FileOperator) (copyFrom : FileNodeRef) (newName : String) : FileOperator :=
  s.claimAndCall copyFrom (RemoteCall.copyFile copyFrom.fullPath newName) Slot.getCopyReply

def getCopyReply (s : FileOperator) (replyState : RequestState) (newFileData : FileMetaData) :
    FileOperator :=
  let s1 := s.releaseFileOp
  if replyState = RequestState.GOOD then
    (s1.lsClosestNode newFileData.fullPath false).andThen
      (fun s2 => s2.emit (Signal.fileOpDone replyState))
  else s1.emitStdFileOpErr replyState

def sendRenameReq (s : FileOperator) (selectedNode : FileNodeRef) (newName : String) : FileOperator :=
  s.claimAndCall selectedNode (RemoteCall.renameFile selectedNode.fullPath newName)
    Slot.getRenameReply

def getRenameReply (s : FileOperator) (replyState : RequestState) (newFileData : FileMetaData)
    (oldName : Path) : FileOperator :=
  let s1 := s.releaseFileOp
  if replyState = RequestState.GOOD then
    ((s1.lsClosestNodeToParent oldName false).andThen
      (fun s2 => s2.lsClosestNodeToParent newFileData.fullPath false)).andThen
      (fun s3 => s3.emit (Signal.fileOpDone replyState))
  else s1.emitStdFileOpErr replyState

def sendCreateFolderReq (s : FileOperator) (selectedNode : FileNodeRef) (newName : String) :
    FileOperator :=
  s.claimAndCall selectedNode (RemoteCall.mkRemoteDir selectedNode.fullPath newName)
    Slot.getMkdirReply

def getMkdirReply (s : FileOperator) (replyState : RequestState) (newFolderData : FileMetaData) :
    FileOperator :=
  let s1 := s.releaseFileOp
  if replyState = RequestState.GOOD then
    (s1.lsClosestNode newFolderData.getContainingPath false).andThen
      (fun s2 => s2.emit (Signal.fileOpDone replyState))
  else s1.emitStdFileOpErr replyState

def sendUploadReq (s : FileOperator) (uploadTarget : FileNodeRef) (localFile : String) : FileOperator :=
  s.claimAndCall uploadTarget (RemoteCall.uploadFile uploadTarget.fullPath localFile)
    Slot.getUploadReply

def sendUploadBuffReq (s : FileOperator) (uploadTarget : FileNodeRef) (fileBuff : List Nat)
    (newName : String) : FileOperator :=
  s.claimAndCall uploadTarget (RemoteCall.uploadBuffer uploadTarget.fullPath fileBuff newName)
    Slot.getUploadReply

def getUploadReply (s : FileOperator) (replyState : RequestState) (newFileData : FileMetaData) :
    FileOperator :=
  let s1 := s.releaseFileOp
  if replyState = RequestState.GOOD then
    (s1.lsClosestNodeToParent newFileData.fullPath false).andThen
      (fun s2 => s2.emit (Signal.fileOpDone replyState))
  else s1.emitStdFileOpErr replyState

def sendDownloadReq (s : FileOperator) (targetFile : FileNodeRef) (localDest : String) : FileOperator :=
  s.claimAndCall targetFile (RemoteCall.downloadFile localDest targetFile.fullPath)
    Slot.getDownloadReply

def getDownloadReply (s : FileOperator) (replyState : RequestState) : FileOperator :=
  let s1 := s.releaseFileOp
  if replyState = RequestState.GOOD then s1.emit (Signal.fileOpDone replyState)
  else s1.emitStdFileOpErr replyState

/-! ### Compress and decompress -/

def sendCompressReq (s : FileOperator) (selectedFolder : FileNodeRef) : FileOperator :=
  if !s.fileNodeExtant selectedFolder then s
  else
    let claim := s.fileOpPending.checkAndClaim
    if !claim.1 then s
    else
      let s0 := { s with fileOpPending := claim.2 }
      if selectedFolder.fileType ≠ FileType.DIR then s0.releaseFileOp
      else
        match s0.remoteCall
            (RemoteCall.runRemoteJob "compress" [("compression_type", "tgz")]
              (pathString selectedFolder.fullPath))
            Slot.getCompressReply with
        | (none, s1) => s1.releaseFileOp
        | (some _, s1) => s1.emit Signal.fileOpStarted

def getCompressReply (s : FileOperator) (finalState : RequestState) : FileOperator :=
  s.releaseFileOp.emit (Signal.fileOpDone finalState)

def sendDecompressReq (s : FileOperator) (selectedFolder : FileNodeRef) : FileOperator :=
  if !s.fileNodeExtant selectedFolder then s
  else
    let claim := s.fileOpPending.checkAndClaim
    if !claim.1 then s
    else
      let s0 := { s with fileOpPending := claim.2 }
      if selectedFolder.fileType = FileType.DIR then s0.releaseFileOp
      else
        match s0.remoteCall
            (RemoteCall.runRemoteJob "extract" [("inputFile", pathString selectedFolder.fullPath)] "")
            Slot.getDecompressReply with
        | (none, s1) => s1.releaseFileOp
        | (some _, s1) => s1.emit Signal.fileOpStarted

def getDecompressReply (s : FileOperator) (finalState : RequestState) : FileOperator :=
  s.releaseFileOp.emit (Signal.fileOpDone finalState)

/-! ### Recursive download -/

mutual
/-- The retrieval walk; the node is read as it is when the walk reaches it, requests go
through its reference. -/
def recursiveDownloadRetrivalHelper : FileTreeNode → FileOperator → Bool × FileOperator
  | FileTreeNode.mk d st b l t ch, s =>
    if (FileTreeNode.mk d st b l t ch).isFile then
      if b.isNone then (false, s.sendDownloadBuffReq d) else (true, s)
    else if !(FileTreeNode.mk d st b l t ch).isFolder then (true, s)
    else if st ≠ NodeState.FOLDER_CONTENTS_LOADED then
      recursiveDownloadRetrivalChildren ch false (s.enactFolderRefresh d false)
    else recursiveDownloadRetrivalChildren ch true s
/-- The loop of the retrieval walk over the child list. -/
def recursiveDownloadRetrivalChildren :
    List FileTreeNode → Bool → FileOperator → Bool × FileOperator
  | [], foundAll, s => (foundAll, s)
  | aChild :: rest, foundAll, s =>
    let r := recursiveDownloadRetrivalHelper aChild s
    recursiveDownloadRetrivalChildren rest (if !r.1 then false else foundAll) r.2
end

def emitBufferToFile (s : FileOperator) (nodeToGet : FileTreeNode) (errNum : RecursiveErrorCodes) :
    Bool × RecursiveErrorCodes × FileOperator :=
  if !nodeToGet.isFile then (false, RecursiveErrorCodes.TYPE_MISSMATCH, s)
  else
    let dirThere := s.localStep
    if !dirThere.1 then (false, RecursiveErrorCodes.LOST_FILE, dirThere.2)
    else
      let nameFree := dirThere.2.localStep
      if !nameFree.1 then (false, errNum, nameFree.2)
      else
        match nodeToGet.getFileBuffer with
        | none => (false, errNum, nameFree.2)
        | some content =>
          let opened := nameFree.2.localStep
          if !opened.1 then (false, errNum, opened.2)
          else
            let written := opened.2.localStep
            if !written.1 then (false, errNum, written.2)
            else
              (true, errNum,
                { written.2 with
                  localLog := written.2.localLog ++ [LocalWrite.writeFile nodeToGet.getName content] })

mutual
/-- The terminal commit of a recursive download. -/
def recursiveDownloadFolderEmitHelper :
    FileTreeNode → RecursiveErrorCodes → FileOperator → Bool × RecursiveErrorCodes × FileOperator
  | FileTreeNode.mk d st b l t ch, errNum, s =>
    if !(FileTreeNode.mk d st b l t ch).isFolder then (false, RecursiveErrorCodes.TYPE_MISSMATCH, s)
    else
      let dirThere := s.localStep
      if !dirThere.1 then (false, RecursiveErrorCodes.LOST_FILE, dirThere.2)
      else recursiveDownloadFolderEmitChildren ch errNum dirThere.2
/-- The loop of the terminal commit over the child list. -/
def recursiveDownloadFolderEmitChildren :
    List FileTreeNode → RecursiveErrorCodes → FileOperator →
      Bool × RecursiveErrorCodes × FileOperator
  | [], errNum, s => (true, errNum, s)
  | aChild :: rest, errNum, s =>
    if aChild.getFileData.fileType = FileType.DIR then
      let made := s.localStep
      if !made.1 then (false, errNum, made.2)
      else
        let s1 := { made.2 with localLog := made.2.localLog ++ [LocalWrite.mkdir aChild.getName] }
        let entered := s1.localStep
        if !entered.1 then (false, errNum, entered.2)
        else
          let r := recursiveDownloadFolderEmitHelper aChild errNum entered.2
          if !r.1 then r else recursiveDownloadFolderEmitChildren rest r.2.1 r.2.2
    else if aChild.getFileData.fileType = FileType.FILE then
      let r := emitBufferToFile s aChild errNum
      if !r.1 then r else recursiveDownloadFolderEmitChildren rest r.2.1 r.2.2
    else recursiveDownloadFolderEmitChildren rest errNum s
end

/-- The node `recursiveRemoteHead` points to. -/
def remoteHeadNode (s : FileOperator) : Option FileTreeNode :=
  match s.recursiveRemoteHead with
  | none => none
  | some p => s.rootFileNode.getNodeWithName p

def recursiveDownloadProcessRetry (s : FileOperator) : FileOperator :=
  match s.remoteHeadNode with
  | none => s
  | some head =>
    let walk := recursiveDownloadRetrivalHelper head s
    if walk.1 then
      let commit := recursiveDownloadFolderEmitHelper head RecursiveErrorCodes.NONE walk.2
      if commit.1 then
        ({ commit.2.2 with currentRecursiveTask := FileOp_RecursiveTask.NONE }).releaseFileOp.emit
          (Signal.fileOpDone RequestState.GOOD)
      else
        ({ commit.2.2 with currentRecursiveTask := FileOp_RecursiveTask.NONE }).releaseFileOp.emit
          (Signal.fileOpDone RequestState.UNCLASSIFIED)
    else walk.2

/-! ### Recursive upload -/

def sendRecursiveCreateFolderReq (s : FileOperator) (selectedNode : FileTreeNode) (newName : String) :
    Bool × FileOperator :=
  let claim := s.recursivefileOpPending.checkAndClaim
  if !claim.1 then (false, s)
  else
    match ({ s with recursivefileOpPending := claim.2 }).remoteCall
        (RemoteCall.mkRemoteDir selectedNode.getFileData.fullPath newName)
        Slot.getRecursiveMkdirReply with
    | (none, s1) => (false, s1.releaseRecursive)
    | (some _, s1) => (true, s1)

def sendRecursiveUploadReq (s : FileOperator) (uploadTarget : FileTreeNode) (localFile : String) :
    Bool × FileOperator :=
  let claim := s.recursivefileOpPending.checkAndClaim
  if !claim.1 then (false, s)
  else
    match ({ s with recursivefileOpPending := claim.2 }).remoteCall
        (RemoteCall.uploadFile uploadTarget.getFileData.fullPath localFile)
        Slot.getRecursiveUploadReply with
    | (none, s1) => (false, s1.releaseRecursive)
    | (some _, s1) => (true, s1)

mutual
/-- The upload walk over one local directory: `localPath` is the directory, `absPath` its
absolute path. -/
def recursiveUploadHelper :
    FileTreeNode → QFileInfo → String → FileOperator → Bool × RecursiveErrorCodes × FileOperator
  | nodeToSend, localPath, absPath, s =>
    if s.recursivefileOpPending.lockClosed then (false, RecursiveErrorCodes.NONE, s)
    else if !nodeToSend.isFolder then (false, RecursiveErrorCodes.TYPE_MISSMATCH, s)
    else if nodeToSend.getNodeState ≠ NodeState.FOLDER_CONTENTS_LOADED then
      (false, RecursiveErrorCodes.NONE, s.enactFolderRefresh nodeToSend.getFileData false)
    else
      match localPath with
      | QFileInfo.dir _ entries =>
        recursiveUploadEntries nodeToSend entries absPath RecursiveErrorCodes.NONE s
      | QFileInfo.file _ => (true, RecursiveErrorCodes.NONE, s)
      | QFileInfo.other _ => (true, RecursiveErrorCodes.NONE, s)
/-- The loop of the upload walk over the entries of the local directory. -/
def recursiveUploadEntries :
    FileTreeNode → List QFileInfo → String → RecursiveErrorCodes → FileOperator →
      Bool × RecursiveErrorCodes × FileOperator
  | _, [], _, errNum, s => (true, errNum, s)
  | nodeToSend, QFileInfo.dir fileName entries :: rest, absPath, errNum, s =>
    match nodeToSend.getChildNodeWithName fileName with
    | none =>
      let sent := s.sendRecursiveCreateFolderReq nodeToSend fileName
      (false, if !sent.1 then RecursiveErrorCodes.MKDIR_FAIL else errNum, sent.2)
    | some childNode =>
      let r := recursiveUploadHelper childNode (QFileInfo.dir fileName entries)
        (absPath ++ "/" ++ fileName) s
      if !r.1 then r else recursiveUploadEntries nodeToSend rest absPath r.2.1 r.2.2
  | nodeToSend, QFileInfo.file fileName :: rest, absPath, errNum, s =>
    match nodeToSend.getChildNodeWithName fileName with
    | none =>
      let sent := s.sendRecursiveUploadReq nodeToSend (absPath ++ "/" ++ fileName)
      (false, if !sent.1 then RecursiveErrorCodes.UPLOAD_FAIL else errNum, sent.2)
    | some childNode =>
      if !childNode.isFile then (false, RecursiveErrorCodes.TYPE_MISSMATCH, s)
      else recursiveUploadEntries nodeToSend rest absPath errNum s
  | nodeToSend, QFileInfo.other _ :: rest, absPath, errNum, s =>
    recursiveUploadEntries nodeToSend rest absPath errNum s
end

def recursiveUploadProcessRetry (s : FileOperator) : FileOperator :=
  if s.recursivefileOpPending.lockClosed then s
  else
    match s.remoteHeadNode with
    | none => s
    | some head =>
      match head.getChildNodeWithName s.recursiveLocalHead.dirName with
      | none => (s.sendRecursiveCreateFolderReq head s.recursiveLocalHead.dirName).2
      | some trueRemoteHead =>
        let walk := recursiveUploadHelper trueRemoteHead s.recursiveLocalHead.info
          s.recursiveLocalHead.absolutePath s
        if walk.1 then
          ({ walk.2.2 with currentRecursiveTask := FileOp_RecursiveTask.NONE }).releaseFileOp.emit
            (Signal.fileOpDone RequestState.GOOD)
        else if walk.2.1 = RecursiveErrorCodes.NONE then walk.2.2
        else
          let s1 := ({ walk.2.2 with currentRecursiveTask := FileOp_RecursiveTask.NONE }).releaseFileOp
          if walk.2.1 = RecursiveErrorCodes.MKDIR_FAIL then
            s1.emit (Signal.fileOpDone RequestState.UNCLASSIFIED)
          else if walk.2.1 = RecursiveErrorCodes.UPLOAD_FAIL then
            s1.emit (Signal.fileOpDone RequestState.UNCLASSIFIED)
          else if walk.2.1 = RecursiveErrorCodes.TYPE_MISSMATCH then
            s1.emit (Signal.fileOpDone RequestState.UNCLASSIFIED)
          else s1

/-! ### Starting and stopping the recursive operations -/

/-- Last check of `enactRecursiveDownload`, reached with the local folder created and
`recursiveLocalHead` set to the destination: the folder is entered, then the walk starts. -/
def enactRecursiveDownloadEnter (s : FileOperator) (targetFolder : FileNodeRef)
    (containingDestFolder : String) : FileOperator :=
  if !s.localStep.1 then
    s.localStep.2.releaseFileOp.emit (Signal.fileOpDone RequestState.LOCAL_FILE_ERROR)
  else
    (({ s.localStep.2 with
        recursiveLocalHead :=
          { absolutePath := containingDestFolder ++ "/" ++ targetFolder.getFileName,
            dirExists := true, isReadable := true,
            info := QFileInfo.dir targetFolder.getFileName [] }
        recursiveRemoteHead :=
          (s.localStep.2.getFileNodeFromNodeRef targetFolder s.verifyDefault).map
            (fun _ => targetFolder.fullPath)
        currentRecursiveTask := FileOp_RecursiveTask.DOWNLOAD } : FileOperator).emit
      Signal.fileOpStarted).recursiveDownloadProcessRetry

/-- Third local check of `enactRecursiveDownload`: the local folder is created. -/
def enactRecursiveDownloadCreate (s : FileOperator) (targetFolder : FileNodeRef)
    (containingDestFolder : String) : FileOperator :=
  if !s.localStep.1 then
    s.localStep.2.releaseFileOp.emit (Signal.fileOpDone RequestState.LOCAL_FILE_ERROR)
  else
    ({ s.localStep.2 with
        localLog := s.localStep.2.localLog ++ [LocalWrite.mkdir targetFolder.getFileName]
        recursiveLocalHead :=
          { absolutePath := containingDestFolder, dirExists := true, isReadable := true,
            info := QFileInfo.dir "" [] } } : FileOperator).enactRecursiveDownloadEnter
      targetFolder containingDestFolder

/-- Second local check of `enactRecursiveDownload`: the destination holds no entry of the
target's name. -/
def enactRecursiveDownloadFree (s : FileOperator) (targetFolder : FileNodeRef)
    (containingDestFolder : String) : FileOperator :=
  if !s.localStep.1 then
    s.localStep.2.releaseFileOp.emit (Signal.fileOpDone RequestState.LOCAL_FILE_ERROR)
  else s.localStep.2.enactRecursiveDownloadCreate targetFolder containingDestFolder

/-- The checks of `enactRecursiveDownload` that follow the claim of the lock: the kind
of the target, then that the destination exists. -/
def enactRecursiveDownloadChecks (s : FileOperator) (targetFolder : FileNodeRef)
    (containingDestFolder : String) : FileOperator :=
  if targetFolder.fileType ≠ FileType.DIR then
    s.releaseFileOp.emit (Signal.fileOpDone RequestState.INVALID_PARAM)
  else if !s.localStep.1 then
    s.localStep.2.releaseFileOp.emit (Signal.fileOpDone RequestState.LOCAL_FILE_ERROR)
  else s.localStep.2.enactRecursiveDownloadFree targetFolder containingDestFolder

def enactRecursiveDownload (s : FileOperator) (targetFolder : FileNodeRef)
    (containingDestFolder : String) : FileOperator :=
  if !s.fileNodeExtant targetFolder then s
  else if s.currentRecursiveTask ≠ FileOp_RecursiveTask.NONE then s
  else if !s.fileOpPending.checkAndClaim.1 then s
  else
    ({ s with fileOpPending := s.fileOpPending.checkAndClaim.2 } :
      FileOperator).enactRecursiveDownloadChecks targetFolder containingDestFolder

/-- The part of `enactRecursiveUpload` that follows the assignment of
`recursiveLocalHead`: the remaining checks, each releasing the claimed lock when it
fails, and the start of the walk. -/
def enactRecursiveUploadChecks (s : FileOperator) (containingDestFolder : FileNodeRef) :
    FileOperator :=
  if !s.recursiveLocalHead.dirExists then
    s.releaseFileOp.emit (Signal.fileOpDone RequestState.INVALID_PARAM)
  else if !s.recursiveLocalHead.isReadable then
    s.releaseFileOp.emit (Signal.fileOpDone RequestState.LOCAL_FILE_ERROR)
  else if s.recursiveLocalHead.dirName.isEmpty then
    s.releaseFileOp.emit (Signal.fileOpDone RequestState.INVALID_PARAM)
  else if containingDestFolder.fileType ≠ FileType.DIR then
    s.releaseFileOp.emit (Signal.fileOpDone RequestState.INVALID_PARAM)
  else if !s.folderContentsLoaded containingDestFolder then
    s.releaseFileOp.emit (Signal.fileOpDone RequestState.INVALID_PARAM)
  else if !(s.getChildWithName containingDestFolder s.recursiveLocalHead.dirName).isNil then
    s.releaseFileOp.emit (Signal.fileOpDone RequestState.INVALID_PARAM)
  else
    (({ s with
        recursiveRemoteHead :=
          (s.getFileNodeFromNodeRef containingDestFolder s.verifyDefault).map
            (fun _ => containingDestFolder.fullPath)
        currentRecursiveTask := FileOp_RecursiveTask.UPLOAD } : FileOperator).emit
      Signal.fileOpStarted).recursiveUploadProcessRetry

def enactRecursiveUpload (s : FileOperator) (containingDestFolder : FileNodeRef)
    (localFolderToCopy : QDir) : FileOperator :=
  if !s.fileNodeExtant containingDestFolder then s
  else if s.currentRecursiveTask ≠ FileOp_RecursiveTask.NONE then s
  else if !s.fileOpPending.checkAndClaim.1 then s
  else if s.recursivefileOpPending.lockClosed then
    ({ s with fileOpPending := s.fileOpPending.checkAndClaim.2 } : FileOperator).releaseFileOp.emit
      (Signal.fileOpDone RequestState.NOT_READY)
  else
    ({ s with fileOpPending := s.fileOpPending.checkAndClaim.2
              recursiveLocalHead := localFolderToCopy } : FileOperator).enactRecursiveUploadChecks
      containingDestFolder

def abortRecursiveProcess (s : FileOperator) : FileOperator :=
  if s.currentRecursiveTask = FileOp_RecursiveTask.NONE then s
  else
    ({ s with currentRecursiveTask := FileOp_RecursiveTask.NONE }).releaseFileOp.emit
      (Signal.fileOpDone RequestState.STOPPED_BY_USER)

/-! ### Replies of the recursive walks and mirror changes -/

def fileNodesChange (s : FileOperator) (changedFile : FileNodeRef) : FileOperator :=
  let s1 := s.emit (Signal.fileSystemChange changedFile)
  if s1.performingRecursiveDownload then s1.recursiveDownloadProcessRetry
  else if s1.performingRecursiveUpload then s1.recursiveUploadProcessRetry
  else s1

def getRecursiveUploadReply (s : FileOperator) (replyState : RequestState)
    (newFileData : FileMetaData) : FileOperator :=
  let s1 := s.releaseRecursive
  if replyState ≠ RequestState.GOOD then
    ({ s1 with currentRecursiveTask := FileOp_RecursiveTask.NONE }).releaseFileOp.emitStdFileOpErr
      replyState
  else s1.lsClosestNodeToParent newFileData.fullPath false

def getRecursiveMkdirReply (s : FileOperator) (replyState : RequestState)
    (newFolderData : FileMetaData) : FileOperator :=
  let s1 := s.releaseRecursive
  if replyState ≠ RequestState.GOOD then
    ({ s1 with currentRecursiveTask := FileOp_RecursiveTask.NONE }).releaseFileOp.emitStdFileOpErr
      replyState
  else s1.lsClosestNode newFolderData.getContainingPath false

/-- Modelled from the spec: the list handler of the missing class `FileTreeNode`.  The
reply reaches the node only while the node still waits for this very reply object; the
pending marker is cleared, a good listing replaces the children, and the change is
notified to the operator. -/
def deliverLSdata (s : FileOperator) (node : Path) (h : Nat) (r : ReplyData) : FileOperator :=
  match s.rootFileNode.getNodeWithName node with
  | none => s
  | some n =>
    if n.getLStask ≠ some h then s
    else
      (s.onNode node (fun x =>
        (if r.replyState = RequestState.GOOD then x.setChildren r.fileList r.stamp
          else x).clearLStask)).fileNodesChange n.getFileData

/-- Modelled from the spec: the buffer handler of the missing class `FileTreeNode`.  The
reply reaches the node only while the node still waits for this very reply object; the
pending marker is cleared, the returned bytes are stored on success, and the change is
notified to the operator. -/
def deliverBuffData (s : FileOperator) (node : Path) (h : Nat) (r : ReplyData) : FileOperator :=
  match s.rootFileNode.getNodeWithName node with
  | none => s
  | some n =>
    if n.getBuffTask ≠ some h then s
    else
      (s.onNode node (fun x =>
        (if r.replyState = RequestState.GOOD then x.setFileBuffer r.buffer
          else x).clearBuffTask)).fileNodesChange n.getFileData

/-- Delivery of the reply of the reply object `h`: the object leaves the outstanding ones
and its slot runs.  A reply object delivers one reply only. -/
def deliver (s : FileOperator) (h : Nat) (r : ReplyData) : FileOperator :=
  match s.pending.find? (fun p => p.handle == h) with
  | none => s
  | some p =>
    let s1 := { s with pending := s.pending.filter (fun q => q.handle != h) }
    match p.slot with
    | Slot.getDeleteReply => s1.getDeleteReply r.replyState r.path
    | Slot.getMoveReply => s1.getMoveReply r.replyState r.fileData r.path
    | Slot.getCopyReply => s1.getCopyReply r.replyState r.fileData
    | Slot.getRenameReply => s1.getRenameReply r.replyState r.fileData r.path
    | Slot.getMkdirReply => s1.getMkdirReply r.replyState r.fileData
    | Slot.getUploadReply => s1.getUploadReply r.replyState r.fileData
    | Slot.getDownloadReply => s1.getDownloadReply r.replyState
    | Slot.getCompressReply => s1.getCompressReply r.replyState
    | Slot.getDecompressReply => s1.getDecompressReply r.replyState
    | Slot.getRecursiveUploadReply => s1.getRecursiveUploadReply r.replyState r.fileData
    | Slot.getRecursiveMkdirReply => s1.getRecursiveMkdirReply r.replyState r.fileData
    | Slot.deliverLSdata node => s1.deliverLSdata node h r
    | Slot.deliverBuffData node => s1.deliverBuffData node h r

end FileOperator

/-! ## The operator as a transition system -/

/-- The twelve top-level operation triggers with their arguments. -/
inductive Trigger where
  | sendDeleteReq (selectedNode : FileNodeRef)
  | sendMoveReq (moveFrom : FileNodeRef) (newName : String)
  | sendCopyReq (copyFrom : FileNodeRef) (newName : String)
  | sendRenameReq (selectedNode : FileNodeRef) (newName : String)
  | sendCreateFolderReq (selectedNode : FileNodeRef) (newName : String)
  | sendUploadReq (uploadTarget : FileNodeRef) (localFile : String)
  | sendUploadBuffReq (uploadTarget : FileNodeRef) (fileBuff : List Nat) (newName : String)
  | sendDownloadReq (targetFile : FileNodeRef) (localDest : String)
  | sendCompressReq (selectedFolder : FileNodeRef)
  | sendDecompressReq (selectedFolder : FileNodeRef)
  | enactRecursiveDownload (targetFolder : FileNodeRef) (containingDestFolder : String)
  | enactRecursiveUpload (containingDestFolder : FileNodeRef) (localFolderToCopy : QDir)

/-- Run one top-level trigger. -/
def FileOperator.trigger (s : FileOperator) : Trigger → FileOperator
  | Trigger.sendDeleteReq n => s.sendDeleteReq n
  | Trigger.sendMoveReq n x => s.sendMoveReq n x
  | Trigger.sendCopyReq n x => s.sendCopyReq n x
  | Trigger.sendRenameReq n x => s.sendRenameReq n x
  | Trigger.sendCreateFolderReq n x => s.sendCreateFolderReq n x
  | Trigger.sendUploadReq n f => s.sendUploadReq n f
  | Trigger.sendUploadBuffReq n b x => s.sendUploadBuffReq n b x
  | Trigger.sendDownloadReq n d => s.sendDownloadReq n d
  | Trigger.sendCompressReq n => s.sendCompressReq n
  | Trigger.sendDecompressReq n => s.sendDecompressReq n
  | Trigger.enactRecursiveDownload n d => s.enactRecursiveDownload n d
  | Trigger.enactRecursiveUpload n d => s.enactRecursiveUpload n d

/-- Everything that can happen to the operator: a top-level trigger, an abort request,
a refresh or buffer request of the tree view, the delivery of a reply, and a change of
how the collaborators will behave next. -/
inductive Action where
  | trigger (t : Trigger)
  | abortRecursiveProcess
  | enactFolderRefresh (selectedNode : FileNodeRef) (clearData : Bool)
  | sendDownloadBuffReq (targetFile : FileNodeRef)
  | deliver (h : Nat) (r : ReplyData)
  | environment (connection : List Bool) (localOutcomes : List Bool)

/-- What an action does to the running operator. -/
def FileOperator.act (s : FileOperator) : Action → FileOperator
  | Action.trigger t => s.trigger t
  | Action.abortRecursiveProcess => s.abortRecursiveProcess
  | Action.enactFolderRefresh n c => s.enactFolderRefresh n c
  | Action.sendDownloadBuffReq n => s.sendDownloadBuffReq n
  | Action.deliver h r => s.deliver h r
  | Action.environment c l => { s with connection := c, localOutcomes := l }

/-- One step of the operator; a program that has stopped takes no step. -/
def FileOperator.step (s : FileOperator) (a : Action) : FileOperator :=
  if s.crashed then s else s.act a

/-- Run a sequence of actions. -/
def FileOperator.run (s : FileOperator) (acts : List Action) : FileOperator :=
  acts.foldl FileOperator.step s

/-- The initial state over a given mirror: both locks open and unused, the recursive-task
flag NONE, nothing called, nothing outstanding, nothing emitted. -/
def FileOperator.initial (root : FileTreeNode) (verifyDefault : Bool) : FileOperator :=
  { rootFileNode := root
    fileOpPending := EasyBoolLock.fresh
    recursivefileOpPending := EasyBoolLock.fresh
    currentRecursiveTask := FileOp_RecursiveTask.NONE
    recursiveRemoteHead := none
    recursiveLocalHead := QDir.unset
    verifyDefault := verifyDefault
    connection := []
    localOutcomes := []
    calls := []
    pending := []
    signals := []
    localLog := []
    fatalPopups := 0 }

/-- The states the operator can be in. -/
inductive Reachable : FileOperator → Prop where
  | initial (root : FileTreeNode) (verifyDefault : Bool) :
      Reachable (FileOperator.initial root verifyDefault)
  | step (s : FileOperator) (a : Action) : Reachable s → Reachable (s.step a)


/-! ## Observations -/

/-- The calls that create a remote entry: mkdir and upload of a file. -/
def RemoteCall.isMkdirOrUpload : RemoteCall → Bool
  | RemoteCall.mkRemoteDir _ _ => true
  | RemoteCall.uploadFile _ _ => true
  | _ => false

/-- The slots of the sub-calls of the recursive upload walk. -/
def Slot.isRecursiveSub : Slot → Bool
  | Slot.getRecursiveUploadReply => true
  | Slot.getRecursiveMkdirReply => true
  | _ => false

/-- The slots of the single top-level operations. -/
def Slot.isTopLevel : Slot → Bool
  | Slot.getDeleteReply => true
  | Slot.getMoveReply => true
  | Slot.getCopyReply => true
  | Slot.getRenameReply => true
  | Slot.getMkdirReply => true
  | Slot.getUploadReply => true
  | Slot.getDownloadReply => true
  | Slot.getCompressReply => true
  | Slot.getDecompressReply => true
  | _ => false

namespace FileOperator

/-- Number of mkdir or upload sub-calls of the recursive upload walk whose reply is still
outstanding. -/
def subCallsOutstanding (s : FileOperator) : Nat :=
  (s.pending.filter (fun p => p.slot.isRecursiveSub)).length

/-- Number of top-level operations in flight: the single operations whose reply is still
outstanding, and the recursive operation while the recursive-task flag is set. -/
def topLevelInFlight (s : FileOperator) : Nat :=
  (s.pending.filter (fun p => p.slot.isTopLevel)).length +
    (if s.currentRecursiveTask = FileOp_RecursiveTask.NONE then 0 else 1)

/-- The bookkeeping of reply objects: every outstanding reply object stems from a call
in the log, no two share a handle, and the secondary lock is closed exactly while one
sub-call of the upload walk is outstanding. -/
structure Inv (s : FileOperator) : Prop where
  fresh : ∀ p ∈ s.pending, p.handle < s.calls.length
  nodup : (s.pending.map RemoteDataReply.handle).Nodup
  sub : s.subCallsOutstanding = if s.recursivefileOpPending.myValue then 1 else 0

/-- A property of the operator that only looks at the outstanding reply objects, the
call log and the secondary lock, and that survives a call connected to a slot other than
the two sub-call slots of the upload walk. -/
structure Stable (P : FileOperator → Prop) : Prop where
  congr : ∀ {s t : FileOperator}, P s → t.pending = s.pending → t.calls = s.calls →
    t.recursivefileOpPending = s.recursivefileOpPending → P t
  call : ∀ {s : FileOperator} (c : RemoteCall) (slot : Slot), slot.isRecursiveSub = false →
    P s → P (s.remoteCall c slot).2

end FileOperator

/-! ## An example mirror and example runs -/

namespace Example

def fileA : FileTreeNode :=
  FileTreeNode.fresh { fullPath := ["home", "a.txt"], fileType := FileType.FILE, size := 1 } 7

def fileB : FileTreeNode :=
  FileTreeNode.fresh { fullPath := ["home", "b.txt"], fileType := FileType.FILE, size := 1 } 7

def homeRef : FileNodeRef :=
  { fullPath := ["home"], fileType := FileType.DIR, size := 0, timestamp := 7, isNil := false }

/-- The mirror: the loaded root folder `/home` with the two files `a.txt` and `b.txt`. -/
def home : FileTreeNode :=
  FileTreeNode.mk homeRef NodeState.FOLDER_CONTENTS_LOADED none none none [fileA, fileB]

/-- The local folder `proj` with the subfolder `sub` and the file `x.txt`, listed by name
as `entryInfoList` lists them. -/
def proj : QDir :=
  { absolutePath := "/tmp/proj", dirExists := true, isReadable := true,
    info := QFileInfo.dir "proj" [QFileInfo.dir "sub" [], QFileInfo.file "x.txt"] }

def projData : FileMetaData :=
  { fullPath := ["home", "proj"], fileType := FileType.DIR, size := 0 }

def xData : FileMetaData :=
  { fullPath := ["home", "proj", "x.txt"], fileType := FileType.FILE, size := 1 }

def subData : FileMetaData :=
  { fullPath := ["home", "proj", "sub"], fileType := FileType.DIR, size := 0 }

/-- A failing reply. -/
def failure : ReplyData :=
  { replyState := RequestState.UNCLASSIFIED, fileData := projData, path := [], fileList := [],
    buffer := none, stamp := 8 }

/-- The good reply to `mkdir(/home, proj)`. -/
def created : ReplyData :=
  { replyState := RequestState.GOOD, fileData := projData, path := [], fileList := [],
    buffer := none, stamp := 8 }

/-- The good listing of `/home` once `proj` exists. -/
def homeListing : ReplyData :=
  { replyState := RequestState.GOOD, fileData := homeRef.toFileMetaData, path := [],
    fileList := [fileA.getFileData.toFileMetaData, fileB.getFileData.toFileMetaData, projData],
    buffer := none, stamp := 9 }

/-- The good listing of the empty folder `/home/proj`. -/
def projListing : ReplyData :=
  { replyState := RequestState.GOOD, fileData := projData, path := [], fileList := [],
    buffer := none, stamp := 10 }

/-- The operator right after start-up over the example mirror. -/
def start : FileOperator := FileOperator.initial home true

def uploadProj : Action := Action.trigger (Trigger.enactRecursiveUpload homeRef proj)

/-- A recursive upload is started and aborted, a delete is accepted, the reply to the
mkdir of the aborted upload arrives late and fails, and a move is requested. -/
def lateFailure : List Action :=
  [uploadProj, Action.abortRecursiveProcess,
    Action.trigger (Trigger.sendDeleteReq fileA.getFileData), Action.deliver 0 failure,
    Action.trigger (Trigger.sendMoveReq fileB.getFileData "c.txt")]

/-- A recursive upload is started and aborted, and the reply to its mkdir fails. -/
def abortedUpload : List Action :=
  [uploadProj, Action.abortRecursiveProcess, Action.deliver 0 failure]

/-- A recursive upload is started while the remote interface hands out no reply object. -/
def firstMkdirRefused : List Action :=
  [Action.environment [false] [], uploadProj]

/-- The good reply to `mkdir(/home/proj, sub)`. -/
def createdSub : ReplyData :=
  { replyState := RequestState.GOOD, fileData := subData, path := [], fileList := [],
    buffer := none, stamp := 11 }

/-- The good listing of `/home/proj` once `sub` is there. -/
def projWithSub : ReplyData :=
  { replyState := RequestState.GOOD, fileData := projData, path := [], fileList := [subData],
    buffer := none, stamp := 12 }

/-- The good listing of the empty folder `/home/proj/sub`. -/
def subListing : ReplyData :=
  { replyState := RequestState.GOOD, fileData := subData, path := [], fileList := [],
    buffer := none, stamp := 13 }

/-- A recursive upload whose mkdirs and listings succeed, and whose upload of `x.txt` is
refused by the remote interface. -/
def laterUploadRefused : List Action :=
  [uploadProj, Action.deliver 0 created, Action.deliver 1 homeListing,
    Action.deliver 2 projListing, Action.deliver 3 createdSub, Action.deliver 4 projWithSub,
    Action.environment [false] [], Action.deliver 5 subListing]

/-- A recursive download of `/home` is started while the remote interface hands out no
reply object for the two buffer fetches. -/
def downloadRefused : List Action :=
  [Action.environment [false, false] [],
    Action.trigger (Trigger.enactRecursiveDownload homeRef "/tmp/dest")]

/-- A recursive upload is started and its first mkdir has been answered. -/
def mkdirAnswered : List Action :=
  [uploadProj, Action.deliver 0 created]

/-- A move is in flight. -/
def moveStarted : List Action :=
  [Action.trigger (Trigger.sendMoveReq fileB.getFileData "c.txt")]

end Example

/-! ## Further observations -/

/-- The reply handlers of the single operations that report a failure by status. -/
inductive SingleReply where
  | getDeleteReply
  | getMoveReply
  | getCopyReply
  | getRenameReply
  | getMkdirReply
  | getUploadReply
  | getDownloadReply
  deriving DecidableEq, Repr

/-- Run one of the reply handlers of the single operations on a reply with the given
status, entry data and path. -/
def FileOperator.singleReply (s : FileOperator) (h : SingleReply) (replyState : RequestState)
    (fileData : FileMetaData) (path : Path) : FileOperator :=
  match h with
  | SingleReply.getDeleteReply => s.getDeleteReply replyState path
  | SingleReply.getMoveReply => s.getMoveReply replyState fileData path
  | SingleReply.getCopyReply => s.getCopyReply replyState fileData
  | SingleReply.getRenameReply => s.getRenameReply replyState fileData path
  | SingleReply.getMkdirReply => s.getMkdirReply replyState fileData
  | SingleReply.getUploadReply => s.getUploadReply replyState fileData
  | SingleReply.getDownloadReply => s.getDownloadReply replyState

namespace FileOperator

/-- What a listing or buffer request leaves alone: the locks, the recursive task and its
heads, the default of the timestamp check, the upcoming outcomes of local steps, the
events and the local log. -/
structure RequestFrame (s t : FileOperator) : Prop where
  fileOpPending : t.fileOpPending = s.fileOpPending
  recursivefileOpPending : t.recursivefileOpPending = s.recursivefileOpPending
  currentRecursiveTask : t.currentRecursiveTask = s.currentRecursiveTask
  recursiveRemoteHead : t.recursiveRemoteHead = s.recursiveRemoteHead
  recursiveLocalHead : t.recursiveLocalHead = s.recursiveLocalHead
  verifyDefault : t.verifyDefault = s.verifyDefault
  localOutcomes : t.localOutcomes = s.localOutcomes
  signals : t.signals = s.signals
  localLog : t.localLog = s.localLog

/-- What the terminal commit of a recursive download leaves alone: the mirror, the locks,
the recursive task and its heads, the default of the timestamp check, the connection, the
calls, the outstanding replies and the events. -/
structure CommitFrame (s t : FileOperator) : Prop where
  rootFileNode : t.rootFileNode = s.rootFileNode
  fileOpPending : t.fileOpPending = s.fileOpPending
  recursivefileOpPending : t.recursivefileOpPending = s.recursivefileOpPending
  currentRecursiveTask : t.currentRecursiveTask = s.currentRecursiveTask
  recursiveRemoteHead : t.recursiveRemoteHead = s.recursiveRemoteHead
  recursiveLocalHead : t.recursiveLocalHead = s.recursiveLocalHead
  verifyDefault : t.verifyDefault = s.verifyDefault
  connection : t.connection = s.connection
  calls : t.calls = s.calls
  pending : t.pending = s.pending
  signals : t.signals = s.signals

/-- The calls that `t` has made beyond those of `s` are list calls only. -/
def OnlyListings (s t : FileOperator) : Prop :=
  ∃ l : List RemoteCall, t.calls = s.calls ++ l ∧ ∀ c ∈ l, ∃ p, c = RemoteCall.remoteLS p

/-- The outcome of the step on the local file system that comes after `k` further steps. -/
def localOutcome : FileOperator → Nat → Bool
  | s, 0 => s.localStep.1
  | s, k + 1 => localOutcome s.localStep.2 k

/-- The request made in state `s` was turned down with the status `st`: in the resulting
state `t` the top-level lock is open, no recursive task is running, nothing was called and
the one event added is the operation-finished event with that status. -/
structure RejectedWith (s t : FileOperator) (st : RequestState) : Prop where
  lockOpen : t.fileOpPending.lockClosed = false
  idle : t.currentRecursiveTask = FileOp_RecursiveTask.NONE
  calls : t.calls = s.calls
  pending : t.pending = s.pending
  signals : t.signals = s.signals ++ [Signal.fileOpDone st]
  notGood : st ≠ RequestState.GOOD

end FileOperator


namespace FileTreeNode

/-- The node `m2` is the node `m` after `f` was applied to it or to a node below it, or it
is `m` itself. -/
def Touched (f : FileTreeNode → FileTreeNode) (m m2 : FileTreeNode) : Prop :=
  m2 = m ∨ ∃ p : List String, m2 = modifyBelow f m p

end FileTreeNode

namespace FileTreeNode

/-- Every path finds in `b` what it finds in `a`, up to the markers: nothing where `a` has
nothing, else a node with the same file data; likewise for the closest node. -/
structure SameLookups (a b : FileTreeNode) : Prop where
  missing : ∀ q, a.getNodeWithName q = none → b.getNodeWithName q = none
  found : ∀ q m, a.getNodeWithName q = some m →
    ∃ m2, b.getNodeWithName q = some m2 ∧ m2.getFileData = m.getFileData
  closestMissing : ∀ q, a.getClosestNodeWithName q = none → b.getClosestNodeWithName q = none
  closest : ∀ q m, a.getClosestNodeWithName q = some m →
    ∃ m2, b.getClosestNodeWithName q = some m2 ∧ m2.getFileData = m.getFileData

end FileTreeNode


namespace FileOperator

/-- What one pass of the upload walk below `node` may call: a listing, or a mkdir or an
upload into a folder `m` below `node` that is loaded and has no child of the name sent. -/
def UploadStep (node : FileTreeNode) (c : RemoteCall) : Prop :=
  (∃ p, c = RemoteCall.remoteLS p) ∨
    ∃ (names : List String) (m : FileTreeNode) (name : String),
      node.descend names = some m ∧ m.isFolder = true ∧
        m.getNodeState = NodeState.FOLDER_CONTENTS_LOADED ∧
        m.getChildNodeWithName name = none ∧
        (c = RemoteCall.mkRemoteDir m.getFileData.fullPath name ∨
          ∃ dir, c = RemoteCall.uploadFile m.getFileData.fullPath (dir ++ "/" ++ name))

/-- The outcome `r` of a pass of the upload walk below `node` from the state `s`: a pass
that reports success has changed nothing, and any pass makes at most one call, one that
`UploadStep` allows. -/
def UploadOutcome (node : FileTreeNode) (s : FileOperator)
    (r : Bool × RecursiveErrorCodes × FileOperator) : Prop :=
  (r.1 = true → r.2.2 = s) ∧
    (r.2.2.calls = s.calls ∨ ∃ c, r.2.2.calls = s.calls ++ [c] ∧ UploadStep node c)

end FileOperator

namespace Example

/-- The good reply to the upload of `x.txt` into `/home/proj`. -/
def uploaded : ReplyData :=
  { replyState := RequestState.GOOD, fileData := xData, path := [], fileList := [],
    buffer := none, stamp := 14 }

/-- The good listing of `/home/proj` once `sub` and `x.txt` are there. -/
def projComplete : ReplyData :=
  { replyState := RequestState.GOOD, fileData := projData, path := [],
    fileList := [subData, xData], buffer := none, stamp := 15 }

/-- The whole recursive upload of `proj` into `/home`, every call answered well and in
turn. -/
def wholeUpload : List Action :=
  [uploadProj, Action.deliver 0 created, Action.deliver 1 homeListing,
    Action.deliver 2 projListing, Action.deliver 3 createdSub, Action.deliver 4 projWithSub,
    Action.deliver 5 subListing, Action.deliver 6 uploaded, Action.deliver 7 projComplete]

/-- The listing of `/home` as it was before the upload began. -/
def homeStale : ReplyData :=
  { replyState := RequestState.GOOD, fileData := homeRef.toFileMetaData, path := [],
    fileList := [fileA.getFileData.toFileMetaData, fileB.getFileData.toFileMetaData],
    buffer := none, stamp := 8 }

/-- A refresh of `/home` is under way when the upload of `proj` begins; the mkdir of
`proj` is answered well, and then the listing arrives that was asked for before it. -/
def staleListing : List Action :=
  [Action.enactFolderRefresh homeRef false, uploadProj, Action.deliver 1 created,
    Action.deliver 0 homeStale]

/-- The run `staleListing` continued to the end of the upload, every call answered
well. -/
def staleUpload : List Action :=
  staleListing ++
    [Action.deliver 2 created, Action.deliver 3 homeListing, Action.deliver 4 projListing,
      Action.deliver 5 createdSub, Action.deliver 6 projWithSub, Action.deliver 7 subListing,
      Action.deliver 8 uploaded, Action.deliver 9 projComplete]

end Example


namespace FileTreeNode

mutual
/-- The nodes of the subtree of a node, the node itself first. -/
def subtree : FileTreeNode → List FileTreeNode
  | mk d st b l t ch => mk d st b l t ch :: subtreeList ch
/-- The nodes of the subtrees of the nodes of a list. -/
def subtreeList : List FileTreeNode → List FileTreeNode
  | [] => []
  | c :: cs => subtree c ++ subtreeList cs
end

/-- The mirror `b` is the mirror `a` with, at most, more pending markers: what a path
finds in `b` it finds in `a`, with the same file data, and a marker set in `a` is set in
`b`. -/
def MarksGrow (a b : FileTreeNode) : Prop :=
  ∀ (q : Path) (m2 : FileTreeNode), b.getNodeWithName q = some m2 →
    ∃ m, a.getNodeWithName q = some m ∧ m2.getFileData = m.getFileData ∧
      (m.haveBuffTask = true → m2.haveBuffTask = true) ∧
      (m.haveLStask = true → m2.haveLStask = true)

end FileTreeNode

namespace FileOperator

/-- The call `c` is a request that the node `m` of the walk is in need of in the state
`s0`: the buffer fetch for a file without a buffer whose mirror node waits for no buffer,
or the listing for a folder that is not loaded and whose mirror node waits for no
listing. -/
def FetchFor (s0 : FileOperator) (m : FileTreeNode) (c : RemoteCall) : Prop :=
  (m.isFile = true ∧ m.getFileBuffer = none ∧
      c = RemoteCall.downloadBuffer m.getFileData.fullPath ∧
      ∃ n, s0.getFileNodeFromNodeRef m.getFileData s0.verifyDefault = some n ∧
        n.haveBuffTask = false) ∨
    (m.isFile = false ∧ m.isFolder = true ∧
      m.getNodeState ≠ NodeState.FOLDER_CONTENTS_LOADED ∧
      ∃ n, s0.getFileNodeFromNodeRef m.getFileData s0.verifyDefault = some n ∧
        n.haveLStask = false ∧ c = RemoteCall.remoteLS n.getFileData.fullPath)

/-- From `s` to `t` only requests were made that nodes of `ms` are in need of in the
state `s0`, and the mirror has at most gained pending markers. -/
structure FetchesOnly (s0 : FileOperator) (ms : List FileTreeNode) (s t : FileOperator) :
    Prop where
  marks : FileTreeNode.MarksGrow s.rootFileNode t.rootFileNode
  verify : t.verifyDefault = s.verifyDefault
  calls : ∃ l : List RemoteCall, t.calls = s.calls ++ l ∧
    ∀ c ∈ l, ∃ m ∈ ms, FetchFor s0 m c

/-- The outcome `r` of a part of the retrieval walk over the nodes `ms` from the state `s`,
entered with `foundAll` at `b`: only requests that those nodes are in need of in the state
`s0`, and none at all when the part reports that everything was found, which it does only
when entered so. -/
def RetrievalOutcome (s0 : FileOperator) (ms : List FileTreeNode) (s : FileOperator)
    (b : Bool) (r : Bool × FileOperator) : Prop :=
  FetchesOnly s0 ms s r.2 ∧ (r.1 = true → r.2 = s ∧ b = true)

end FileOperator

namespace Example

/-- The good reply to the buffer fetch of `a.txt`. -/
def bufferA : ReplyData :=
  { replyState := RequestState.GOOD, fileData := fileA.getFileData.toFileMetaData, path := [],
    fileList := [], buffer := some [104, 105], stamp := 16 }

/-- The good reply to the buffer fetch of `b.txt`. -/
def bufferB : ReplyData :=
  { replyState := RequestState.GOOD, fileData := fileB.getFileData.toFileMetaData, path := [],
    fileList := [], buffer := some [111], stamp := 17 }

/-- The listing of `/home` with the contents the mirror has from the start. -/
def sameListing : ReplyData :=
  { replyState := RequestState.GOOD, fileData := homeRef.toFileMetaData, path := [],
    fileList := [fileA.getFileData.toFileMetaData, fileB.getFileData.toFileMetaData],
    buffer := none, stamp := 18 }

def downloadHome : Action :=
  Action.trigger (Trigger.enactRecursiveDownload homeRef "/tmp/dest")

/-- A recursive download of `/home` is started, and a listing of `/home` with the known
contents is requested and answered while the two buffer fetches are outstanding. -/
def downloadRelisted : List Action :=
  [downloadHome, Action.enactFolderRefresh homeRef false, Action.deliver 2 sameListing]

/-- The whole recursive download of `/home`: both buffers arrive. -/
def wholeDownload : List Action :=
  [downloadHome, Action.deliver 0 bufferA, Action.deliver 1 bufferB]

end Example


/-! ## Speculative nodes -/

namespace FileTreeNode

/-- Modelled from the spec: the constructor of the missing class `FileTreeNode` with a
parent makes the new node a child of the parent; here the step on the parent. -/
def addChild (c : FileTreeNode) : FileTreeNode → FileTreeNode
  | mk d st b l t ch => mk d st b l t (ch ++ [c])

/-- Every path that finds a node in `a` finds a node with the same file data in `b`. -/
def Keeps (a b : FileTreeNode) : Prop :=
  ∀ (q : Path) (m : FileTreeNode), a.getNodeWithName q = some m →
    ∃ m2, b.getNodeWithName q = some m2 ∧ m2.getFileData = m.getFileData

end FileTreeNode

namespace FileOperator

/-- The loop and the tail of `speculateFileWithName(baseNode, addedPath, folder)`;
`searchNode` is the mirror node at the position `pos`, `stamp` the time at which new nodes
are made.  The source follows `searchNode` as a pointer; here nothing happens should the
position hold no node. -/
def speculateFileWithNameLoop (folder : Bool) (stamp : Nat) :
    List String → Path → FileOperator → FileNodeRef × FileOperator
  | [], pos, s =>
    match s.rootFileNode.getNodeWithName pos with
    | none => (FileNodeRef.nil, s)
    | some searchNode =>
      if folder then
        if searchNode.getNodeState ≠ NodeState.FOLDER_CONTENTS_LOADED then
          (searchNode.getFileData, s.enactFolderRefresh searchNode.getFileData false)
        else (searchNode.getFileData, s)
      else if searchNode.getFileBuffer.isNone then
        (searchNode.getFileData, s.sendDownloadBuffReq searchNode.getFileData)
      else (searchNode.getFileData, s)
  | part :: rest, pos, s =>
    match s.rootFileNode.getNodeWithName pos with
    | none => (FileNodeRef.nil, s)
    | some searchNode =>
      match searchNode.getChildNodeWithName part with
      | some _ => speculateFileWithNameLoop folder stamp rest (pos ++ [part]) s
      | none =>
        if !searchNode.isFolder then (FileNodeRef.nil, s)
        else if searchNode.getNodeState = NodeState.FOLDER_CONTENTS_LOADED then
          (FileNodeRef.nil, s)
        else
          speculateFileWithNameLoop folder stamp rest (pos ++ [part])
            ((s.onNode pos (FileTreeNode.addChild (FileTreeNode.fresh
              { fullPath := searchNode.getFileData.fullPath ++ [part]
                fileType := if rest.isEmpty && !folder then FileType.FILE else FileType.DIR
                size := 0 } stamp))).enactFolderRefresh searchNode.getFileData false)

/-- The overload `speculateFileWithName(baseNode, addedPath, folder)`; `addedPath` is given
by its components.  The source dereferences the node of `baseNode` without a check; here
nothing happens when the reference does not resolve. -/
def speculateFileWithName (s : FileOperator) (baseNode : FileNodeRef) (addedPath : List String)
    (folder : Bool) (stamp : Nat) : FileNodeRef × FileOperator :=
  match s.getFileNodeFromNodeRef baseNode s.verifyDefault with
  | none => (FileNodeRef.nil, s)
  | some _ => speculateFileWithNameLoop folder stamp addedPath baseNode.fullPath s

end FileOperator


namespace Example

/-- The operator over a mirror that holds the root folder `/home` only, not yet listed. -/
def unlisted : FileOperator :=
  FileOperator.initial (FileTreeNode.mk homeRef NodeState.UNLOADED none none none []) true

end Example


namespace Example

/-- A recursive upload is started and aborted, a delete is accepted, the reply to the mkdir
of the aborted upload arrives late and fails, the upload is started anew, and the reply to
the delete arrives. -/
def lockLostUnderUpload : List Action :=
  [uploadProj, Action.abortRecursiveProcess,
    Action.trigger (Trigger.sendDeleteReq fileA.getFileData), Action.deliver 0 failure,
    uploadProj, Action.deliver 1 failure]

end Example


/-! ## Speculation from a full path -/

/-- Modelled from the spec: `FileMetaData::getPathNameList` (filemetadata.cpp) is missing;
the components of a path string, which are the pieces between slashes that are not
empty.  `cur` holds the characters of the piece being read, last one first. -/
def getPathNameListAux : List Char → List Char → List String
  | [], cur => if cur.isEmpty then [] else [String.mk cur.reverse]
  | c :: rest, cur =>
    if c = '/' then
      if cur.isEmpty then getPathNameListAux rest []
      else String.mk cur.reverse :: getPathNameListAux rest []
    else getPathNameListAux rest (c :: cur)

/-- Modelled from the spec: `FileMetaData::getPathNameList`, see `getPathNameListAux`. -/
def FileMetaData.getPathNameList (fullPath : String) : List String :=
  getPathNameListAux fullPath.data []

namespace FileOperator

/-- The loop of `speculateFileWithName(fullPath, folder)` that builds `pathSoFar`: the
first `accountedParts` components are passed over, every later one is appended behind a
slash. -/
def speculatePathSoFar : List String → Nat → String → String
  | [], _, pathSoFar => pathSoFar
  | part :: rest, accountedParts, pathSoFar =>
    if accountedParts ≤ 0 then speculatePathSoFar rest accountedParts (pathSoFar ++ "/" ++ part)
    else speculatePathSoFar rest (accountedParts - 1) pathSoFar

/-- The overload `speculateFileWithName(fullPath, folder)`; the full path is given by its
components, `stamp` is the time at which new nodes are made. -/
def speculateFileWithNameByPath (s : FileOperator) (fullPath : Path) (folder : Bool)
    (stamp : Nat) : FileNodeRef × FileOperator :=
  match s.rootFileNode.getNodeWithName fullPath with
  | some scanNode => (scanNode.getFileData, s)
  | none =>
    match s.rootFileNode.getClosestNodeWithName fullPath with
    | none => (FileNodeRef.nil, s)
    | some scanNode =>
      s.speculateFileWithName scanNode.getFileData
        (FileMetaData.getPathNameList
          (speculatePathSoFar fullPath scanNode.getFileData.fullPath.length ""))
        folder stamp

end FileOperator


/-! ## The nodes of the retrieval walk -/

namespace FileTreeNode

mutual
/-- The nodes that the retrieval walk of a recursive download visits from a node, in the
order of the walk: the node itself, and the children of a folder one after the other.
The walk does not look below a node that is no folder. -/
def walked : FileTreeNode → List FileTreeNode
  | mk d st b l t ch =>
    mk d st b l t ch ::
      (if (mk d st b l t ch).isFile then []
       else if !(mk d st b l t ch).isFolder then []
       else walkedList ch)
/-- The nodes that the retrieval walk visits from the nodes of a child list. -/
def walkedList : List FileTreeNode → List FileTreeNode
  | [] => []
  | c :: cs => walked c ++ walkedList cs
end

mutual
/-- Only folders have children, in the whole subtree. -/
def onlyFoldersHaveChildren : FileTreeNode → Bool
  | mk d st b l t ch =>
    ((mk d st b l t ch).isFolder || ch.isEmpty) && onlyFoldersHaveChildrenList ch
/-- Only folders have children, in the subtrees of a list. -/
def onlyFoldersHaveChildrenList : List FileTreeNode → Bool
  | [] => true
  | c :: cs => onlyFoldersHaveChildren c && onlyFoldersHaveChildrenList cs
end

/-- A file without a cached buffer. -/
def needsFetch (m : FileTreeNode) : Bool := m.isFile && m.getFileBuffer.isNone

/-- A folder whose contents are not loaded. -/
def needsListing (m : FileTreeNode) : Bool :=
  !m.isFile && m.isFolder && (m.getNodeState != NodeState.FOLDER_CONTENTS_LOADED)

/-- A node that the retrieval walk finds unsatisfied. -/
def unsatisfied (m : FileTreeNode) : Bool := m.needsFetch || m.needsListing

end FileTreeNode

/-- The request that the retrieval walk makes for an unsatisfied node: the buffer fetch
for a file, the refresh for a folder. -/
def FileOperator.retrievalRequest (s : FileOperator) (m : FileTreeNode) : FileOperator :=
  if m.isFile then s.sendDownloadBuffReq m.getFileData
  else s.enactFolderRefresh m.getFileData false


/-! ## The outcome of one pass of the upload walk -/

/-- The entries of a local directory as `entryInfoList` reports them; an entry that is no
directory has none. -/
def QFileInfo.entryInfoList : QFileInfo → List QFileInfo
  | QFileInfo.dir _ entries => entries
  | QFileInfo.file _ => []
  | QFileInfo.other _ => []

/-- Where a pass of the upload walk stops.  `pos` are the names of the folders entered
below the node at which the pass started. -/
inductive UploadVerdict where
  /-- Every local entry has its node: the pass returns true. -/
  | complete
  /-- A node of the wrong kind was reached. -/
  | typeMismatch
  /-- The folder `node` at `pos` has its contents not loaded. -/
  | notLoaded (pos : List String) (node : FileTreeNode)
  /-- The folder `parent` at `pos` has no child for the local directory `name`. -/
  | missingDir (pos : List String) (parent : FileTreeNode) (name : String)
  /-- The folder `parent` at `pos` has no child for the local file `name`. -/
  | missingFile (pos : List String) (parent : FileTreeNode) (name : String) (localFile : String)

namespace UploadVerdict

def isComplete : UploadVerdict → Bool
  | complete => true
  | _ => false

/-- The verdict seen from the parent: the folder `name` was entered first. -/
def under (name : String) : UploadVerdict → UploadVerdict
  | complete => complete
  | typeMismatch => typeMismatch
  | notLoaded pos node => notLoaded (name :: pos) node
  | missingDir pos parent n => missingDir (name :: pos) parent n
  | missingFile pos parent n localFile => missingFile (name :: pos) parent n localFile

end UploadVerdict

mutual
/-- Where `recursiveUploadHelper` stops on `nodeToSend` and the local directory, the
secondary lock being open: its checks in their order, without the operator. -/
def FileTreeNode.uploadVerdict : FileTreeNode → QFileInfo → String → UploadVerdict
  | nodeToSend, localPath, absPath =>
    if !nodeToSend.isFolder then UploadVerdict.typeMismatch
    else if nodeToSend.getNodeState ≠ NodeState.FOLDER_CONTENTS_LOADED then
      UploadVerdict.notLoaded [] nodeToSend
    else
      match localPath with
      | QFileInfo.dir _ entries => FileTreeNode.uploadVerdictEntries nodeToSend entries absPath
      | QFileInfo.file _ => UploadVerdict.complete
      | QFileInfo.other _ => UploadVerdict.complete
/-- Where the loop of `recursiveUploadHelper` over the local entries stops. -/
def FileTreeNode.uploadVerdictEntries : FileTreeNode → List QFileInfo → String → UploadVerdict
  | _, [], _ => UploadVerdict.complete
  | nodeToSend, QFileInfo.dir fileName entries :: rest, absPath =>
    match nodeToSend.getChildNodeWithName fileName with
    | none => UploadVerdict.missingDir [] nodeToSend fileName
    | some childNode =>
      let v := FileTreeNode.uploadVerdict childNode (QFileInfo.dir fileName entries)
        (absPath ++ "/" ++ fileName)
      if !v.isComplete then v.under fileName
      else FileTreeNode.uploadVerdictEntries nodeToSend rest absPath
  | nodeToSend, QFileInfo.file fileName :: rest, absPath =>
    match nodeToSend.getChildNodeWithName fileName with
    | none => UploadVerdict.missingFile [] nodeToSend fileName (absPath ++ "/" ++ fileName)
    | some childNode =>
      if !childNode.isFile then UploadVerdict.typeMismatch
      else FileTreeNode.uploadVerdictEntries nodeToSend rest absPath
  | nodeToSend, QFileInfo.other _ :: rest, absPath =>
    FileTreeNode.uploadVerdictEntries nodeToSend rest absPath
end

/-- What `recursiveUploadHelper` returns and does for a verdict: nothing when the pass is
complete or found a wrong kind, the refresh of the folder not loaded, the mkdir or the
upload for the missing entry with the error code of a refused call. -/
def FileOperator.uploadResult (s : FileOperator) :
    UploadVerdict → Bool × RecursiveErrorCodes × FileOperator
  | UploadVerdict.complete => (true, RecursiveErrorCodes.NONE, s)
  | UploadVerdict.typeMismatch => (false, RecursiveErrorCodes.TYPE_MISSMATCH, s)
  | UploadVerdict.notLoaded _ node =>
    (false, RecursiveErrorCodes.NONE, s.enactFolderRefresh node.getFileData false)
  | UploadVerdict.missingDir _ parent name =>
    (false,
      if !(s.sendRecursiveCreateFolderReq parent name).1 then RecursiveErrorCodes.MKDIR_FAIL
      else RecursiveErrorCodes.NONE,
      (s.sendRecursiveCreateFolderReq parent name).2)
  | UploadVerdict.missingFile _ parent _ localFile =>
    (false,
      if !(s.sendRecursiveUploadReq parent localFile).1 then RecursiveErrorCodes.UPLOAD_FAIL
      else RecursiveErrorCodes.NONE,
      (s.sendRecursiveUploadReq parent localFile).2)

def UploadVerdict.isTypeMismatch : UploadVerdict → Bool
  | UploadVerdict.typeMismatch => true
  | _ => false

/-- Where the body of the loop of `recursiveUploadHelper` stops on one local entry;
complete when the loop goes on to the next entry. -/
def FileTreeNode.uploadVerdictEntry (nodeToSend : FileTreeNode) (anEntry : QFileInfo)
    (absPath : String) : UploadVerdict :=
  match anEntry with
  | QFileInfo.dir fileName _ =>
    match nodeToSend.getChildNodeWithName fileName with
    | none => UploadVerdict.missingDir [] nodeToSend fileName
    | some childNode =>
      (childNode.uploadVerdict anEntry (absPath ++ "/" ++ fileName)).under fileName
  | QFileInfo.file fileName =>
    match nodeToSend.getChildNodeWithName fileName with
    | none => UploadVerdict.missingFile [] nodeToSend fileName (absPath ++ "/" ++ fileName)
    | some childNode =>
      if !childNode.isFile then UploadVerdict.typeMismatch else UploadVerdict.complete
  | QFileInfo.other _ => UploadVerdict.complete


/-! ## The local entries without a node in the mirror -/

/-- The local root folder of the upload as an entry of the folder that holds it. -/
def QDir.asEntry (d : QDir) : QFileInfo := QFileInfo.dir d.dirName d.info.entryInfoList

mutual
/-- Number of directories and files in a local entry, the entry itself included. -/
def QFileInfo.entryCount : QFileInfo → Nat
  | QFileInfo.file _ => 1
  | QFileInfo.dir _ entries => 1 + QFileInfo.entryCountList entries
  | QFileInfo.other _ => 0
/-- Number of directories and files in a list of local entries and below them. -/
def QFileInfo.entryCountList : List QFileInfo → Nat
  | [] => 0
  | e :: es => e.entryCount + QFileInfo.entryCountList es
end

namespace FileTreeNode

mutual
/-- Number of directories and files in a local entry of the folder mirrored by the node,
the entry included, that have no node of their name at their place in the mirror. -/
def unmatchedEntry : FileTreeNode → QFileInfo → Nat
  | n, QFileInfo.file fileName => if (n.getChildNodeWithName fileName).isNone then 1 else 0
  | n, QFileInfo.dir fileName entries =>
    match n.getChildNodeWithName fileName with
    | none => 1 + QFileInfo.entryCountList entries
    | some c => unmatchedIn c entries
  | _, QFileInfo.other _ => 0
/-- Number of directories and files in and below the local entries of the folder mirrored
by the node that have no node of their name at their place in the mirror. -/
def unmatchedIn : FileTreeNode → List QFileInfo → Nat
  | _, [] => 0
  | n, e :: es => unmatchedEntry n e + unmatchedIn n es
end

/-- A position found below the child `fileName`, seen from the parent. -/
def underName (fileName : String) :
    Option (List String × QFileInfo) → Option (List String × QFileInfo)
  | none => none
  | some r => some (fileName :: r.1, r.2)

mutual
/-- The first directory or file, entries in listing order and a directory before its
contents, that has no node of its name at its place in the mirror: the names of the
folders above it below the node, and the entry. -/
def firstUnmatchedEntry : FileTreeNode → QFileInfo → Option (List String × QFileInfo)
  | n, QFileInfo.file fileName =>
    if (n.getChildNodeWithName fileName).isNone then some ([], QFileInfo.file fileName) else none
  | n, QFileInfo.dir fileName entries =>
    match n.getChildNodeWithName fileName with
    | none => some ([], QFileInfo.dir fileName entries)
    | some c => underName fileName (firstUnmatchedIn c entries)
  | _, QFileInfo.other _ => none
/-- The first unmatched directory or file in a list of local entries. -/
def firstUnmatchedIn : FileTreeNode → List QFileInfo → Option (List String × QFileInfo)
  | _, [] => none
  | n, e :: es =>
    match firstUnmatchedEntry n e with
    | some r => some r
    | none => firstUnmatchedIn n es
end

/-- A change of a node that keeps its data and every child a name finds. -/
def KeepsChildren (g : FileTreeNode → FileTreeNode) : Prop :=
  (∀ x, (g x).getFileData = x.getFileData) ∧
    ∀ (x : FileTreeNode) (name : String) (c : FileTreeNode),
      x.getChildNodeWithName name = some c → (g x).getChildNodeWithName name = some c

end FileTreeNode

/-- The missing entry of a verdict is the entry `first`, found from the node `n`: the
folder of the verdict is the node at its position below `n`, and the entry is the
directory or the file named by the verdict.  Nothing is said of the other verdicts. -/
def UploadVerdict.Finds (v : UploadVerdict) (n : FileTreeNode)
    (first : Option (List String × QFileInfo)) : Prop :=
  match v with
  | UploadVerdict.missingDir pos parent name =>
    n.descend pos = some parent ∧ ∃ sub, first = some (pos, QFileInfo.dir name sub)
  | UploadVerdict.missingFile pos parent name localFile =>
    n.descend pos = some parent ∧ first = some (pos, QFileInfo.file name) ∧
      ∃ d, localFile = d ++ "/" ++ name
  | _ => True

/-! ## Properties kept by everything but the sub-calls of the upload walk -/

namespace FileOperator

theorem remoteCall_lock (s : FileOperator) (c : RemoteCall) (slot : Slot) :
    (s.remoteCall c slot).2.recursivefileOpPending = s.recursivefileOpPending := by
  unfold remoteCall; split <;> rfl

theorem remoteCall_calls (s : FileOperator) (c : RemoteCall) (slot : Slot) :
    (s.remoteCall c slot).2.calls = s.calls ++ [c] := by
  unfold remoteCall; split <;> rfl

theorem remoteCall_pending (s : FileOperator) (c : RemoteCall) (slot : Slot) :
    (s.remoteCall c slot).2.pending =
      if (s.remoteCall c slot).1.isSome then s.pending ++ [⟨s.calls.length, slot⟩]
      else s.pending := by
  unfold remoteCall; split <;> rfl

theorem stable_andThen {P : FileOperator → Prop} {s : FileOperator} (h : P s)
    (f : FileOperator → FileOperator) (hf : ∀ t, P t → P (f t)) : P (s.andThen f) := by
  unfold FileOperator.andThen
  split
  · exact h
  · exact hf s h

section

variable {P : FileOperator → Prop} (hP : Stable P)

include hP

theorem stable_emit {s : FileOperator} (h : P s) (sig : Signal) : P (s.emit sig) :=
  hP.congr h rfl rfl rfl

theorem stable_releaseFileOp {s : FileOperator} (h : P s) : P s.releaseFileOp :=
  hP.congr h rfl rfl rfl

theorem stable_onNode {s : FileOperator} (h : P s) (p : Path) (f : FileTreeNode → FileTreeNode) :
    P (s.onNode p f) :=
  hP.congr h rfl rfl rfl

theorem stable_crash {s : FileOperator} (h : P s) : P s.crash :=
  hP.congr h rfl rfl rfl

theorem stable_localStep {s : FileOperator} (h : P s) : P s.localStep.2 :=
  hP.congr h rfl rfl rfl

theorem stable_totalResetErrorProcedure {s : FileOperator} (h : P s) :
    P s.totalResetErrorProcedure :=
  hP.congr h rfl rfl rfl

theorem stable_claimFileOp {s : FileOperator} (h : P s) (l : EasyBoolLock) :
    P ({ s with fileOpPending := l } : FileOperator) :=
  hP.congr h rfl rfl rfl

theorem stable_setTask {s : FileOperator} (h : P s) (t : FileOp_RecursiveTask) :
    P ({ s with currentRecursiveTask := t } : FileOperator) :=
  hP.congr h rfl rfl rfl

theorem stable_refreshTail {s0 : FileOperator} (h0 : P s0) (trueNode : FileTreeNode) (p : Path) :
    P (if trueNode.haveLStask = true then s0
      else
        match s0.remoteCall (RemoteCall.remoteLS trueNode.getFileData.fullPath)
            (Slot.deliverLSdata p) with
        | (none, s1) => s1.totalResetErrorProcedure
        | (some h, s1) => s1.onNode p (FileTreeNode.setLStask h)) := by
  split
  · exact h0
  · split
    · rename_i heq
      have := hP.call (RemoteCall.remoteLS trueNode.getFileData.fullPath)
        (Slot.deliverLSdata p) rfl h0
      rw [heq] at this
      exact stable_totalResetErrorProcedure hP this
    · rename_i heq
      have := hP.call (RemoteCall.remoteLS trueNode.getFileData.fullPath)
        (Slot.deliverLSdata p) rfl h0
      rw [heq] at this
      exact stable_onNode hP this _ _

theorem stable_enactFolderRefresh {s : FileOperator} (h : P s) (ref : FileNodeRef) (c : Bool) :
    P (s.enactFolderRefresh ref c) := by
  unfold FileOperator.enactFolderRefresh
  split
  · exact h
  · refine stable_refreshTail hP ?_ _ _
    split
    · exact stable_onNode hP h _ _
    · exact h

theorem stable_sendDownloadBuffReq {s : FileOperator} (h : P s) (ref : FileNodeRef) :
    P (s.sendDownloadBuffReq ref) := by
  unfold FileOperator.sendDownloadBuffReq
  split
  · exact h
  · split
    · exact h
    · split
      · exact h
      · have := hP.call (RemoteCall.downloadBuffer ref.fullPath)
          (Slot.deliverBuffData ref.fullPath) rfl h
        split
        · rename_i heq
          rw [heq] at this
          exact this
        · rename_i heq
          rw [heq] at this
          exact stable_onNode hP this _ _

theorem stable_lsClosestNode {s : FileOperator} (h : P s) (p : Path) (c : Bool) :
    P (s.lsClosestNode p c) := by
  unfold FileOperator.lsClosestNode
  split
  · exact stable_crash hP h
  · exact stable_enactFolderRefresh hP h _ _

theorem stable_lsClosestNodeToParent {s : FileOperator} (h : P s) (p : Path) (c : Bool) :
    P (s.lsClosestNodeToParent p c) := by
  unfold FileOperator.lsClosestNodeToParent
  split
  · split
    · exact stable_enactFolderRefresh hP h _ _
    · split
      · exact h
      · exact stable_enactFolderRefresh hP h _ _
  · split
    · exact stable_crash hP h
    · exact stable_enactFolderRefresh hP h _ _

theorem stable_claimAndCall {s : FileOperator} (h : P s) (ref : FileNodeRef) (c : RemoteCall)
    (slot : Slot) (hs : slot.isRecursiveSub = false) : P (s.claimAndCall ref c slot) := by
  unfold FileOperator.claimAndCall
  split
  · exact h
  · simp only []
    split
    · exact h
    · have := hP.call c slot hs (stable_claimFileOp hP h (s.fileOpPending.checkAndClaim).2)
      split
      · rename_i heq
        rw [heq] at this
        exact stable_releaseFileOp hP this
      · rename_i heq
        rw [heq] at this
        exact stable_emit hP this _

theorem stable_getDeleteReply {s : FileOperator} (h : P s) (st : RequestState) (p : Path) :
    P (s.getDeleteReply st p) := by
  unfold FileOperator.getDeleteReply
  simp only []
  split
  · exact stable_andThen (stable_lsClosestNodeToParent hP (stable_releaseFileOp hP h) _ _) _
      (fun _ ht => stable_emit hP ht _)
  · exact stable_emit hP (stable_releaseFileOp hP h) _

theorem stable_getMoveReply {s : FileOperator} (h : P s) (st : RequestState) (d : FileMetaData)
    (p : Path) : P (s.getMoveReply st d p) := by
  unfold FileOperator.getMoveReply
  simp only []
  split
  · exact stable_andThen (stable_andThen
      (stable_lsClosestNodeToParent hP (stable_releaseFileOp hP h) _ _) _
      (fun _ ht => stable_lsClosestNode hP ht _ _)) _ (fun _ ht => stable_emit hP ht _)
  · exact stable_emit hP (stable_releaseFileOp hP h) _

theorem stable_getCopyReply {s : FileOperator} (h : P s) (st : RequestState) (d : FileMetaData) :
    P (s.getCopyReply st d) := by
  unfold FileOperator.getCopyReply
  simp only []
  split
  · exact stable_andThen (stable_lsClosestNode hP (stable_releaseFileOp hP h) _ _) _
      (fun _ ht => stable_emit hP ht _)
  · exact stable_emit hP (stable_releaseFileOp hP h) _

theorem stable_getRenameReply {s : FileOperator} (h : P s) (st : RequestState)
    (d : FileMetaData) (p : Path) : P (s.getRenameReply st d p) := by
  unfold FileOperator.getRenameReply
  simp only []
  split
  · exact stable_andThen (stable_andThen
      (stable_lsClosestNodeToParent hP (stable_releaseFileOp hP h) _ _) _
      (fun _ ht => stable_lsClosestNodeToParent hP ht _ _)) _ (fun _ ht => stable_emit hP ht _)
  · exact stable_emit hP (stable_releaseFileOp hP h) _

theorem stable_getMkdirReply {s : FileOperator} (h : P s) (st : RequestState)
    (d : FileMetaData) : P (s.getMkdirReply st d) := by
  unfold FileOperator.getMkdirReply
  simp only []
  split
  · exact stable_andThen (stable_lsClosestNode hP (stable_releaseFileOp hP h) _ _) _
      (fun _ ht => stable_emit hP ht _)
  · exact stable_emit hP (stable_releaseFileOp hP h) _

theorem stable_getUploadReply {s : FileOperator} (h : P s) (st : RequestState)
    (d : FileMetaData) : P (s.getUploadReply st d) := by
  unfold FileOperator.getUploadReply
  simp only []
  split
  · exact stable_andThen (stable_lsClosestNodeToParent hP (stable_releaseFileOp hP h) _ _) _
      (fun _ ht => stable_emit hP ht _)
  · exact stable_emit hP (stable_releaseFileOp hP h) _

theorem stable_getDownloadReply {s : FileOperator} (h : P s) (st : RequestState) :
    P (s.getDownloadReply st) := by
  unfold FileOperator.getDownloadReply
  simp only []
  split
  · exact stable_emit hP (stable_releaseFileOp hP h) _
  · exact stable_emit hP (stable_releaseFileOp hP h) _

theorem stable_sendCompressReq {s : FileOperator} (h : P s) (ref : FileNodeRef) :
    P (s.sendCompressReq ref) := by
  unfold FileOperator.sendCompressReq
  split
  · exact h
  · simp only []
    split
    · exact h
    · split
      · exact stable_releaseFileOp hP (stable_claimFileOp hP h _)
      · have := hP.call
          (RemoteCall.runRemoteJob "compress" [("compression_type", "tgz")]
            (pathString ref.fullPath)) Slot.getCompressReply rfl
          (stable_claimFileOp hP h (s.fileOpPending.checkAndClaim).2)
        split
        · rename_i heq
          rw [heq] at this
          exact stable_releaseFileOp hP this
        · rename_i heq
          rw [heq] at this
          exact stable_emit hP this _

theorem stable_sendDecompressReq {s : FileOperator} (h : P s) (ref : FileNodeRef) :
    P (s.sendDecompressReq ref) := by
  unfold FileOperator.sendDecompressReq
  split
  · exact h
  · simp only []
    split
    · exact h
    · split
      · exact stable_releaseFileOp hP (stable_claimFileOp hP h _)
      · have := hP.call
          (RemoteCall.runRemoteJob "extract" [("inputFile", pathString ref.fullPath)] "")
          Slot.getDecompressReply rfl
          (stable_claimFileOp hP h (s.fileOpPending.checkAndClaim).2)
        split
        · rename_i heq
          rw [heq] at this
          exact stable_releaseFileOp hP this
        · rename_i heq
          rw [heq] at this
          exact stable_emit hP this _

end

mutual
theorem stable_recursiveDownloadRetrivalHelper {P : FileOperator → Prop} (hP : Stable P) :
    ∀ (n : FileTreeNode) (s : FileOperator), P s → P (recursiveDownloadRetrivalHelper n s).2
  | FileTreeNode.mk d st b l t ch, s, h => by
    rw [recursiveDownloadRetrivalHelper]
    split
    · split
      · exact stable_sendDownloadBuffReq hP h _
      · exact h
    · split
      · exact h
      · split
        · exact stable_recursiveDownloadRetrivalChildren hP ch false _
            (stable_enactFolderRefresh hP h _ _)
        · exact stable_recursiveDownloadRetrivalChildren hP ch true _ h
theorem stable_recursiveDownloadRetrivalChildren {P : FileOperator → Prop} (hP : Stable P) :
    ∀ (ch : List FileTreeNode) (acc : Bool) (s : FileOperator), P s →
      P (recursiveDownloadRetrivalChildren ch acc s).2
  | [], acc, s, h => by
    rw [recursiveDownloadRetrivalChildren]; exact h
  | c :: cs, acc, s, h => by
    rw [recursiveDownloadRetrivalChildren]
    exact stable_recursiveDownloadRetrivalChildren hP cs _ _
      (stable_recursiveDownloadRetrivalHelper hP c s h)
end

theorem stable_emitBufferToFile {P : FileOperator → Prop} (hP : Stable P) {s : FileOperator}
    (h : P s) (n : FileTreeNode) (e : RecursiveErrorCodes) : P (s.emitBufferToFile n e).2.2 := by
  unfold FileOperator.emitBufferToFile
  simp only []
  repeat' split
  all_goals exact hP.congr h rfl rfl rfl

mutual
theorem stable_recursiveDownloadFolderEmitHelper {P : FileOperator → Prop} (hP : Stable P) :
    ∀ (n : FileTreeNode) (e : RecursiveErrorCodes) (s : FileOperator), P s →
      P (recursiveDownloadFolderEmitHelper n e s).2.2
  | FileTreeNode.mk d st b l t ch, e, s, h => by
    rw [recursiveDownloadFolderEmitHelper]
    simp only []
    split
    · exact h
    · split
      · exact stable_localStep hP h
      · exact stable_recursiveDownloadFolderEmitChildren hP ch e _ (stable_localStep hP h)
theorem stable_recursiveDownloadFolderEmitChildren {P : FileOperator → Prop} (hP : Stable P) :
    ∀ (ch : List FileTreeNode) (e : RecursiveErrorCodes) (s : FileOperator), P s →
      P (recursiveDownloadFolderEmitChildren ch e s).2.2
  | [], e, s, h => by
    rw [recursiveDownloadFolderEmitChildren]; exact h
  | c :: cs, e, s, h => by
    rw [recursiveDownloadFolderEmitChildren]
    simp only []
    split
    · split
      · exact stable_localStep hP h
      · split
        · exact hP.congr h rfl rfl rfl
        · have h1 : P (recursiveDownloadFolderEmitHelper c e
              ({ s.localStep.2 with
                  localLog := s.localStep.2.localLog ++ [LocalWrite.mkdir c.getName] } :
                FileOperator).localStep.2).2.2 :=
            stable_recursiveDownloadFolderEmitHelper hP c e _ (hP.congr h rfl rfl rfl)
          split
          · exact h1
          · exact stable_recursiveDownloadFolderEmitChildren hP cs _ _ h1
    · split
      · have h1 := stable_emitBufferToFile hP h c e
        split
        · exact h1
        · exact stable_recursiveDownloadFolderEmitChildren hP cs _ _ h1
      · exact stable_recursiveDownloadFolderEmitChildren hP cs e s h
end

section

variable {P : FileOperator → Prop} (hP : Stable P)

include hP

theorem stable_recursiveDownloadProcessRetry {s : FileOperator} (h : P s) :
    P s.recursiveDownloadProcessRetry := by
  unfold FileOperator.recursiveDownloadProcessRetry
  split
  · exact h
  · rename_i head _
    have hw := stable_recursiveDownloadRetrivalHelper hP head s h
    have hc := stable_recursiveDownloadFolderEmitHelper hP head RecursiveErrorCodes.NONE _ hw
    simp only []
    split
    · split
      · exact stable_emit hP (stable_releaseFileOp hP (stable_setTask hP hc _)) _
      · exact stable_emit hP (stable_releaseFileOp hP (stable_setTask hP hc _)) _
    · exact hw

theorem stable_enactRecursiveDownloadEnter {s : FileOperator} (h : P s) (ref : FileNodeRef)
    (dest : String) : P (s.enactRecursiveDownloadEnter ref dest) := by
  unfold FileOperator.enactRecursiveDownloadEnter
  split
  · exact hP.congr h rfl rfl rfl
  · exact stable_recursiveDownloadProcessRetry hP (hP.congr h rfl rfl rfl)

theorem stable_enactRecursiveDownloadCreate {s : FileOperator} (h : P s) (ref : FileNodeRef)
    (dest : String) : P (s.enactRecursiveDownloadCreate ref dest) := by
  unfold FileOperator.enactRecursiveDownloadCreate
  split
  · exact hP.congr h rfl rfl rfl
  · refine stable_enactRecursiveDownloadEnter hP ?_ _ _
    exact hP.congr h rfl rfl rfl

theorem stable_enactRecursiveDownloadFree {s : FileOperator} (h : P s) (ref : FileNodeRef)
    (dest : String) : P (s.enactRecursiveDownloadFree ref dest) := by
  unfold FileOperator.enactRecursiveDownloadFree
  split
  · exact hP.congr h rfl rfl rfl
  · exact stable_enactRecursiveDownloadCreate hP (stable_localStep hP h) _ _

theorem stable_enactRecursiveDownloadChecks {s : FileOperator} (h : P s) (ref : FileNodeRef)
    (dest : String) : P (s.enactRecursiveDownloadChecks ref dest) := by
  unfold FileOperator.enactRecursiveDownloadChecks
  split
  · exact hP.congr h rfl rfl rfl
  · split
    · exact hP.congr h rfl rfl rfl
    · exact stable_enactRecursiveDownloadFree hP (stable_localStep hP h) _ _

theorem stable_enactRecursiveDownload {s : FileOperator} (h : P s) (ref : FileNodeRef)
    (dest : String) : P (s.enactRecursiveDownload ref dest) := by
  unfold FileOperator.enactRecursiveDownload
  repeat' split
  all_goals first
    | exact h
    | (refine stable_enactRecursiveDownloadChecks hP ?_ _ _; exact hP.congr h rfl rfl rfl)

theorem stable_abortRecursiveProcess {s : FileOperator} (h : P s) :
    P s.abortRecursiveProcess := by
  unfold FileOperator.abortRecursiveProcess
  split
  · exact h
  · exact hP.congr h rfl rfl rfl

end

end FileOperator

/-! ## Bookkeeping of reply objects -/

namespace FileOperator

theorem inv_congr {s t : FileOperator} (h : s.Inv) (hp : t.pending = s.pending)
    (hc : t.calls = s.calls) (hl : t.recursivefileOpPending = s.recursivefileOpPending) :
    t.Inv := by
  refine ⟨?_, ?_, ?_⟩
  · rw [hp, hc]; exact h.fresh
  · rw [hp]; exact h.nodup
  · unfold subCallsOutstanding; rw [hp, hl]; exact h.sub

theorem fresh_append {s : FileOperator} (h : s.Inv) (c : RemoteCall) (slot : Slot) :
    (∀ p ∈ s.pending ++ [(⟨s.calls.length, slot⟩ : RemoteDataReply)],
        p.handle < (s.calls ++ [c]).length) ∧
      ((s.pending ++ [(⟨s.calls.length, slot⟩ : RemoteDataReply)]).map
        RemoteDataReply.handle).Nodup := by
  constructor
  · intro p hp
    rw [List.mem_append] at hp
    rw [List.length_append]
    rcases hp with hp | hp
    · have := h.fresh p hp; simp; omega
    · simp at hp; subst hp; simp
  · rw [List.map_append, List.nodup_append]
    refine ⟨h.nodup, by simp, ?_⟩
    intro a ha hb
    simp at hb
    rw [List.mem_map] at ha
    obtain ⟨p, hp, rfl⟩ := ha
    have := h.fresh p hp
    omega

/-- A call connected to a slot that is no sub-call of the upload walk keeps the
bookkeeping. -/
theorem inv_remoteCall {s : FileOperator} (h : s.Inv) (c : RemoteCall) (slot : Slot)
    (hs : slot.isRecursiveSub = false) : (s.remoteCall c slot).2.Inv := by
  have hf := fresh_append h c slot
  refine ⟨?_, ?_, ?_⟩
  · rw [remoteCall_calls, remoteCall_pending]
    split
    · exact hf.1
    · intro p hp; have := h.fresh p hp; simp; omega
  · rw [remoteCall_pending]
    split
    · exact hf.2
    · exact h.nodup
  · unfold subCallsOutstanding
    rw [remoteCall_lock, remoteCall_pending]
    split
    · rw [List.filter_append]; simp [hs]; exact h.sub
    · exact h.sub

theorem inv_stable : Stable Inv :=
  ⟨fun h hp hc hl => inv_congr h hp hc hl, fun c slot hs h => inv_remoteCall h c slot hs⟩

theorem inv_releaseRecursive {s : FileOperator} (hf : ∀ p ∈ s.pending, p.handle < s.calls.length)
    (hn : (s.pending.map RemoteDataReply.handle).Nodup) (h0 : s.subCallsOutstanding = 0) :
    s.releaseRecursive.Inv :=
  ⟨hf, hn, h0⟩

theorem claim_open (l : EasyBoolLock) (h : ¬ (!l.checkAndClaim.1) = true) :
    l.myValue = false ∧ l.checkAndClaim.2.myValue = true := by
  unfold EasyBoolLock.checkAndClaim at *
  cases hv : l.myValue <;> simp [hv] at h ⊢

/-- A sub-call of the upload walk issued with the secondary lock just claimed keeps the
bookkeeping: with a reply object the lock stays closed, without one it is released. -/
theorem inv_subCall {s : FileOperator} (h : s.Inv) (hv : s.recursivefileOpPending.myValue = false)
    (l : EasyBoolLock) (hl : l.myValue = true) (c : RemoteCall) (slot : Slot)
    (hs : slot.isRecursiveSub = true) :
    (match ({ s with recursivefileOpPending := l } : FileOperator).remoteCall c slot with
      | (none, s1) => (false, s1.releaseRecursive)
      | (some _, s1) => (true, s1)).2.Inv := by
  have h0 : s.subCallsOutstanding = 0 := by rw [h.sub, hv]; simp
  have hf := fresh_append h c slot
  have hcalls := remoteCall_calls ({ s with recursivefileOpPending := l } : FileOperator) c slot
  have hpend := remoteCall_pending ({ s with recursivefileOpPending := l } : FileOperator) c slot
  have hlock := remoteCall_lock ({ s with recursivefileOpPending := l } : FileOperator) c slot
  split
  · rename_i heq
    rw [heq] at hcalls hpend hlock
    simp only [Option.isSome_none, Bool.false_eq_true, if_false] at hpend
    refine inv_releaseRecursive ?_ ?_ ?_
    · rw [hcalls, hpend]; intro p hp; have := h.fresh p hp; simp; omega
    · rw [hpend]; exact h.nodup
    · unfold subCallsOutstanding; rw [hpend]; exact h0
  · rename_i heq
    rw [heq] at hcalls hpend hlock
    simp only [Option.isSome_some, if_true] at hpend
    refine ⟨?_, ?_, ?_⟩
    · show ∀ p ∈ FileOperator.pending _, p.handle < (FileOperator.calls _).length
      rw [hcalls, hpend]; exact hf.1
    · show (List.map RemoteDataReply.handle (FileOperator.pending _)).Nodup
      rw [hpend]; exact hf.2
    · show FileOperator.subCallsOutstanding _ = _
      unfold subCallsOutstanding at h0 ⊢
      rw [hpend, hlock]
      simp only [hl, if_true, List.filter_append, List.length_append, h0]
      simp [hs]

theorem inv_sendRecursiveCreateFolderReq {s : FileOperator} (h : s.Inv) (n : FileTreeNode)
    (name : String) : (s.sendRecursiveCreateFolderReq n name).2.Inv := by
  unfold FileOperator.sendRecursiveCreateFolderReq
  simp only []
  split
  · exact h
  · rename_i hc
    have := claim_open _ hc
    exact inv_subCall h this.1 _ this.2 _ _ rfl

theorem inv_sendRecursiveUploadReq {s : FileOperator} (h : s.Inv) (n : FileTreeNode)
    (f : String) : (s.sendRecursiveUploadReq n f).2.Inv := by
  unfold FileOperator.sendRecursiveUploadReq
  simp only []
  split
  · exact h
  · rename_i hc
    have := claim_open _ hc
    exact inv_subCall h this.1 _ this.2 _ _ rfl

mutual
theorem inv_recursiveUploadHelper :
    ∀ (n : FileTreeNode) (q : QFileInfo) (a : String) (s : FileOperator), s.Inv →
      (recursiveUploadHelper n q a s).2.2.Inv
  | n, QFileInfo.dir name entries, a, s, h => by
    rw [recursiveUploadHelper]
    split
    · exact h
    · split
      · exact h
      · split
        · exact stable_enactFolderRefresh inv_stable h _ _
        · exact inv_recursiveUploadEntries n entries a _ s h
  | n, QFileInfo.file name, a, s, h => by
    rw [recursiveUploadHelper]
    split
    · exact h
    · split
      · exact h
      · split
        · exact stable_enactFolderRefresh inv_stable h _ _
        · exact h
  | n, QFileInfo.other name, a, s, h => by
    rw [recursiveUploadHelper]
    split
    · exact h
    · split
      · exact h
      · split
        · exact stable_enactFolderRefresh inv_stable h _ _
        · exact h
theorem inv_recursiveUploadEntries :
    ∀ (n : FileTreeNode) (es : List QFileInfo) (a : String) (e : RecursiveErrorCodes)
      (s : FileOperator), s.Inv → (recursiveUploadEntries n es a e s).2.2.Inv
  | n, [], a, e, s, h => by
    rw [recursiveUploadEntries]; exact h
  | n, QFileInfo.dir name entries :: rest, a, e, s, h => by
    rw [recursiveUploadEntries]
    split
    · exact inv_sendRecursiveCreateFolderReq h _ _
    · rename_i childNode _
      have h1 := inv_recursiveUploadHelper childNode (QFileInfo.dir name entries)
        (a ++ "/" ++ name) s h
      simp only []
      split
      · exact h1
      · exact inv_recursiveUploadEntries n rest a _ _ h1
  | n, QFileInfo.file name :: rest, a, e, s, h => by
    rw [recursiveUploadEntries]
    split
    · exact inv_sendRecursiveUploadReq h _ _
    · split
      · exact h
      · exact inv_recursiveUploadEntries n rest a e s h
  | n, QFileInfo.other name :: rest, a, e, s, h => by
    rw [recursiveUploadEntries]
    exact inv_recursiveUploadEntries n rest a e s h
end

theorem inv_recursiveUploadProcessRetry {s : FileOperator} (h : s.Inv) :
    s.recursiveUploadProcessRetry.Inv := by
  unfold FileOperator.recursiveUploadProcessRetry
  split
  · exact h
  · split
    · exact h
    · split
      · exact inv_sendRecursiveCreateFolderReq h _ _
      · rename_i trueRemoteHead _
        have hw := inv_recursiveUploadHelper trueRemoteHead s.recursiveLocalHead.info
          s.recursiveLocalHead.absolutePath s h
        simp only []
        split
        · exact stable_emit inv_stable (stable_releaseFileOp inv_stable (stable_setTask inv_stable hw _)) _
        · split
          · exact hw
          · repeat' split
            all_goals first
              | exact stable_emit inv_stable (stable_releaseFileOp inv_stable (stable_setTask inv_stable hw _)) _
              | exact stable_releaseFileOp inv_stable (stable_setTask inv_stable hw _)

theorem inv_enactRecursiveUploadChecks {s : FileOperator} (h : s.Inv) (ref : FileNodeRef) :
    (s.enactRecursiveUploadChecks ref).Inv := by
  unfold FileOperator.enactRecursiveUploadChecks
  repeat' split
  all_goals first
    | exact stable_emit inv_stable (stable_releaseFileOp inv_stable h) _
    | exact inv_recursiveUploadProcessRetry (inv_congr h rfl rfl rfl)

theorem inv_enactRecursiveUpload {s : FileOperator} (h : s.Inv) (ref : FileNodeRef)
    (dir : QDir) : (s.enactRecursiveUpload ref dir).Inv := by
  unfold FileOperator.enactRecursiveUpload
  repeat' split
  all_goals first
    | exact h
    | exact inv_congr h rfl rfl rfl
    | (refine inv_enactRecursiveUploadChecks ?_ _; exact inv_congr h rfl rfl rfl)

theorem inv_fileNodesChange {s : FileOperator} (h : s.Inv) (ref : FileNodeRef) :
    (s.fileNodesChange ref).Inv := by
  unfold FileOperator.fileNodesChange
  simp only []
  split
  · exact stable_recursiveDownloadProcessRetry inv_stable (stable_emit inv_stable h _)
  · split
    · exact inv_recursiveUploadProcessRetry (stable_emit inv_stable h _)
    · exact stable_emit inv_stable h _

theorem inv_getRecursiveUploadReply {s : FileOperator}
    (hf : ∀ p ∈ s.pending, p.handle < s.calls.length)
    (hn : (s.pending.map RemoteDataReply.handle).Nodup) (h0 : s.subCallsOutstanding = 0)
    (st : RequestState) (d : FileMetaData) : (s.getRecursiveUploadReply st d).Inv := by
  have h := inv_releaseRecursive hf hn h0
  unfold FileOperator.getRecursiveUploadReply
  simp only []
  split
  · exact inv_congr h rfl rfl rfl
  · exact stable_lsClosestNodeToParent inv_stable h _ _

theorem inv_getRecursiveMkdirReply {s : FileOperator}
    (hf : ∀ p ∈ s.pending, p.handle < s.calls.length)
    (hn : (s.pending.map RemoteDataReply.handle).Nodup) (h0 : s.subCallsOutstanding = 0)
    (st : RequestState) (d : FileMetaData) : (s.getRecursiveMkdirReply st d).Inv := by
  have h := inv_releaseRecursive hf hn h0
  unfold FileOperator.getRecursiveMkdirReply
  simp only []
  split
  · exact inv_congr h rfl rfl rfl
  · exact stable_lsClosestNode inv_stable h _ _

theorem inv_deliverLSdata {s : FileOperator} (h : s.Inv) (node : Path) (k : Nat) (r : ReplyData) :
    (s.deliverLSdata node k r).Inv := by
  unfold FileOperator.deliverLSdata
  split
  · exact h
  · split
    · exact h
    · exact inv_fileNodesChange (stable_onNode inv_stable h _ _) _

theorem inv_deliverBuffData {s : FileOperator} (h : s.Inv) (node : Path) (k : Nat)
    (r : ReplyData) : (s.deliverBuffData node k r).Inv := by
  unfold FileOperator.deliverBuffData
  split
  · exact h
  · split
    · exact h
    · exact inv_fileNodesChange (stable_onNode inv_stable h _ _) _

/-- Taking the reply object with a given handle out of a list without repeated handles
removes exactly that object. -/
theorem filter_remove (f : RemoteDataReply → Bool) :
    ∀ (l : List RemoteDataReply), (l.map RemoteDataReply.handle).Nodup →
      ∀ p ∈ l, ((l.filter (fun q => q.handle != p.handle)).filter f).length
        + (if f p = true then 1 else 0) = (l.filter f).length
  | [], _, p, hp => by simp at hp
  | q :: l, hn, p, hp => by
    rw [List.map_cons, List.nodup_cons] at hn
    rcases List.mem_cons.mp hp with hpq | hpl
    · subst hpq
      have hall : l.filter (fun q => q.handle != p.handle) = l := by
        rw [List.filter_eq_self]
        intro a ha
        have : a.handle ≠ p.handle := by
          intro e; exact hn.1 (e ▸ List.mem_map_of_mem _ ha)
        simpa using this
      simp only [List.filter_cons, bne_self_eq_false, Bool.false_eq_true, if_false, hall]
      split <;> simp
    · have hne : q.handle ≠ p.handle := by
        intro e; exact hn.1 (e ▸ List.mem_map_of_mem _ hpl)
      have ih := filter_remove f l hn.2 p hpl
      have hq : (q.handle != p.handle) = true := by simpa using hne
      simp only [List.filter_cons, hq, if_true]
      split
      · simp only [List.length_cons]; omega
      · exact ih

theorem inv_deliver {s : FileOperator} (h : s.Inv) (k : Nat) (r : ReplyData) :
    (s.deliver k r).Inv := by
  unfold FileOperator.deliver
  split
  · exact h
  · rename_i p hfind
    have hmem : p ∈ s.pending := List.mem_of_find?_eq_some hfind
    have hk : p.handle = k := by
      have := List.find?_some hfind
      simpa using this
    subst hk
    have hfresh : ∀ q ∈ s.pending.filter (fun q => q.handle != p.handle),
        q.handle < s.calls.length := fun q hq => h.fresh q (List.mem_of_mem_filter hq)
    have hnodup : ((s.pending.filter (fun q => q.handle != p.handle)).map
        RemoteDataReply.handle).Nodup :=
      (h.nodup.sublist ((List.filter_sublist _).map _))
    have hcount := filter_remove (fun q => q.slot.isRecursiveSub) s.pending h.nodup p hmem
    have hsub : ∀ (_ : p.slot.isRecursiveSub = false),
        ({ s with pending := s.pending.filter (fun q => q.handle != p.handle) } :
          FileOperator).Inv := by
      intro hp
      refine ⟨hfresh, hnodup, ?_⟩
      have := h.sub
      unfold subCallsOutstanding at this ⊢
      simp only [hp, Bool.false_eq_true, if_false, Nat.add_zero] at hcount
      show (List.filter _ (List.filter _ s.pending)).length = _
      rw [hcount]; exact this
    have hzero : ∀ (_ : p.slot.isRecursiveSub = true),
        ({ s with pending := s.pending.filter (fun q => q.handle != p.handle) } :
          FileOperator).subCallsOutstanding = 0 := by
      intro hp
      have := h.sub
      unfold subCallsOutstanding at this ⊢
      simp only [hp, if_true] at hcount
      show (List.filter _ (List.filter _ s.pending)).length = 0
      split at this <;> omega
    cases hslot : p.slot with
    | getDeleteReply => exact stable_getDeleteReply inv_stable (hsub (by rw [hslot]; rfl)) _ _
    | getMoveReply => exact stable_getMoveReply inv_stable (hsub (by rw [hslot]; rfl)) _ _ _
    | getCopyReply => exact stable_getCopyReply inv_stable (hsub (by rw [hslot]; rfl)) _ _
    | getRenameReply => exact stable_getRenameReply inv_stable (hsub (by rw [hslot]; rfl)) _ _ _
    | getMkdirReply => exact stable_getMkdirReply inv_stable (hsub (by rw [hslot]; rfl)) _ _
    | getUploadReply => exact stable_getUploadReply inv_stable (hsub (by rw [hslot]; rfl)) _ _
    | getDownloadReply => exact stable_getDownloadReply inv_stable (hsub (by rw [hslot]; rfl)) _
    | getCompressReply => exact stable_emit inv_stable (stable_releaseFileOp inv_stable (hsub (by rw [hslot]; rfl))) _
    | getDecompressReply => exact stable_emit inv_stable (stable_releaseFileOp inv_stable (hsub (by rw [hslot]; rfl))) _
    | getRecursiveUploadReply =>
      exact inv_getRecursiveUploadReply hfresh hnodup (hzero (by rw [hslot]; rfl)) _ _
    | getRecursiveMkdirReply =>
      exact inv_getRecursiveMkdirReply hfresh hnodup (hzero (by rw [hslot]; rfl)) _ _
    | deliverLSdata node => exact inv_deliverLSdata (hsub (by rw [hslot]; rfl)) _ _ _
    | deliverBuffData node => exact inv_deliverBuffData (hsub (by rw [hslot]; rfl)) _ _ _

theorem inv_trigger {s : FileOperator} (h : s.Inv) (t : Trigger) : (s.trigger t).Inv := by
  cases t with
  | sendDeleteReq n => exact stable_claimAndCall inv_stable h _ _ _ rfl
  | sendMoveReq n x => exact stable_claimAndCall inv_stable h _ _ _ rfl
  | sendCopyReq n x => exact stable_claimAndCall inv_stable h _ _ _ rfl
  | sendRenameReq n x => exact stable_claimAndCall inv_stable h _ _ _ rfl
  | sendCreateFolderReq n x => exact stable_claimAndCall inv_stable h _ _ _ rfl
  | sendUploadReq n f => exact stable_claimAndCall inv_stable h _ _ _ rfl
  | sendUploadBuffReq n b x => exact stable_claimAndCall inv_stable h _ _ _ rfl
  | sendDownloadReq n d => exact stable_claimAndCall inv_stable h _ _ _ rfl
  | sendCompressReq n => exact stable_sendCompressReq inv_stable h _
  | sendDecompressReq n => exact stable_sendDecompressReq inv_stable h _
  | enactRecursiveDownload n d => exact stable_enactRecursiveDownload inv_stable h _ _
  | enactRecursiveUpload n d => exact inv_enactRecursiveUpload h _ _

theorem inv_act {s : FileOperator} (h : s.Inv) (a : Action) : (s.act a).Inv := by
  cases a with
  | trigger t => exact inv_trigger h t
  | abortRecursiveProcess => exact stable_abortRecursiveProcess inv_stable h
  | enactFolderRefresh n c => exact stable_enactFolderRefresh inv_stable h n c
  | sendDownloadBuffReq n => exact stable_sendDownloadBuffReq inv_stable h n
  | deliver k r => exact inv_deliver h k r
  | environment c l => exact inv_congr h rfl rfl rfl

theorem inv_step {s : FileOperator} (h : s.Inv) (a : Action) : (s.step a).Inv := by
  unfold FileOperator.step
  split
  · exact h
  · exact inv_act h a

theorem inv_initial (root : FileTreeNode) (v : Bool) : (FileOperator.initial root v).Inv :=
  ⟨(fun _ hp => by cases hp), List.nodup_nil, rfl⟩

theorem inv_of_reachable {s : FileOperator} (h : Reachable s) : s.Inv := by
  induction h with
  | initial root v => exact inv_initial root v
  | step s a _ ih => exact inv_step ih a

end FileOperator

/-! ## Runs that break the serialization of top-level operations -/

theorem reachable_run {s : FileOperator} (h : Reachable s) (acts : List Action) :
    Reachable (s.run acts) := by
  induction acts generalizing s with
  | nil => exact h
  | cons a rest ih => exact ih (Reachable.step s a h)

theorem reachable_example (acts : List Action) : Reachable (Example.start.run acts) :=
  reachable_run (Reachable.initial _ _) acts

/-- C1 (code bug): top-level operations are not serialized on every interleaving.  After
a recursive upload was aborted and a delete was accepted, the late failing reply to the
mkdir of the aborted upload releases the top-level lock that the delete holds; the move
requested next is accepted although the delete has not finished, so two top-level
operations are in flight. -/
theorem late_failure_admits_second_operation :
    Reachable (Example.start.run Example.lateFailure) ∧
      (Example.start.run Example.lateFailure).pending =
        [⟨1, Slot.getDeleteReply⟩, ⟨2, Slot.getMoveReply⟩] ∧
      (Example.start.run Example.lateFailure).topLevelInFlight = 2 ∧
      (Example.start.run (Example.lateFailure.take 4)).fileOpPending.lockClosed = false ∧
      (Example.start.run (Example.lateFailure.take 4)).topLevelInFlight = 1 :=
  ⟨reachable_example _, by decide, by decide, by decide, by decide⟩

/-- C4 (code bug): the top-level lock claimed once by a recursive upload is released
twice when the upload is aborted and the reply to its outstanding mkdir fails afterwards:
once by the abort and once more by the reply handler. -/
theorem aborted_upload_releases_twice :
    (Example.start.run Example.abortedUpload).fileOpPending.claimed = 1 ∧
      (Example.start.run (Example.abortedUpload.take 2)).fileOpPending.released = 1 ∧
      (Example.start.run Example.abortedUpload).fileOpPending.released = 2 :=
  ⟨by decide, by decide, by decide⟩

/-- C5 (code bug): when the remote interface hands out no reply object for the first
mkdir of a recursive upload, the operation returns with the top-level lock still closed,
the flag still UPLOAD and no finish event; when it does so for a later sub-call of the
walk, the lock is released and the failure is reported; when it does so for the buffer
fetches of a recursive download, the lock stays closed as well. -/
theorem refused_first_mkdir_keeps_lock :
    ((Example.start.run Example.firstMkdirRefused).calls =
        [RemoteCall.mkRemoteDir ["home"] "proj"] ∧
      (Example.start.run Example.firstMkdirRefused).pending = [] ∧
      (Example.start.run Example.firstMkdirRefused).fileOpPending.lockClosed = true ∧
      (Example.start.run Example.firstMkdirRefused).currentRecursiveTask =
        FileOp_RecursiveTask.UPLOAD ∧
      (Example.start.run Example.firstMkdirRefused).signals = [Signal.fileOpStarted]) ∧
    ((Example.start.run Example.laterUploadRefused).calls.getLast? =
        some (RemoteCall.uploadFile ["home", "proj"] "/tmp/proj/x.txt") ∧
      (Example.start.run Example.laterUploadRefused).fileOpPending.lockClosed = false ∧
      (Example.start.run Example.laterUploadRefused).currentRecursiveTask =
        FileOp_RecursiveTask.NONE ∧
      (Example.start.run Example.laterUploadRefused).signals.getLast? =
        some (Signal.fileOpDone RequestState.UNCLASSIFIED)) ∧
    ((Example.start.run Example.downloadRefused).calls =
        [RemoteCall.downloadBuffer ["home", "a.txt"], RemoteCall.downloadBuffer ["home", "b.txt"]] ∧
      (Example.start.run Example.downloadRefused).pending = [] ∧
      (Example.start.run Example.downloadRefused).fileOpPending.lockClosed = true ∧
      (Example.start.run Example.downloadRefused).currentRecursiveTask =
        FileOp_RecursiveTask.DOWNLOAD) :=
  ⟨⟨by decide, by decide, by decide, by decide, by decide⟩,
    ⟨by decide, by decide, by decide, by decide⟩,
    ⟨by decide, by decide, by decide, by decide⟩⟩

/-- C9 (counterexample): once the first mkdir of a recursive upload has been answered the
flag is UPLOAD and no mkdir or upload sub-call is in flight; the walk waits for a
listing. -/
theorem upload_waits_without_subcall :
    Reachable (Example.start.run Example.mkdirAnswered) ∧
      (Example.start.run Example.mkdirAnswered).currentRecursiveTask =
        FileOp_RecursiveTask.UPLOAD ∧
      (Example.start.run Example.mkdirAnswered).subCallsOutstanding = 0 ∧
      (Example.start.run Example.mkdirAnswered).calls =
        [RemoteCall.mkRemoteDir ["home"] "proj", RemoteCall.remoteLS ["home"]] :=
  ⟨reachable_example _, by decide, by decide, by decide⟩

/-! ## Triggers under a closed top-level lock -/

theorem claim_locked (l : EasyBoolLock) (h : l.lockClosed = true) : l.checkAndClaim = (false, l) := by
  unfold EasyBoolLock.lockClosed at h
  unfold EasyBoolLock.checkAndClaim
  rw [if_pos h]

theorem claimAndCall_locked (s : FileOperator) (ref : FileNodeRef) (c : RemoteCall) (slot : Slot)
    (h : s.fileOpPending.lockClosed = true) : s.claimAndCall ref c slot = s := by
  unfold FileOperator.claimAndCall
  rw [claim_locked _ h]
  split <;> rfl

/-- With the top-level lock closed every trigger hands back the operator it was given. -/
theorem trigger_locked (t : Trigger) (s : FileOperator) (h : s.fileOpPending.lockClosed = true) :
    s.trigger t = s := by
  cases t with
  | sendDeleteReq n => exact claimAndCall_locked s _ _ _ h
  | sendMoveReq n x => exact claimAndCall_locked s _ _ _ h
  | sendCopyReq n x => exact claimAndCall_locked s _ _ _ h
  | sendRenameReq n x => exact claimAndCall_locked s _ _ _ h
  | sendCreateFolderReq n x => exact claimAndCall_locked s _ _ _ h
  | sendUploadReq n f => exact claimAndCall_locked s _ _ _ h
  | sendUploadBuffReq n b x => exact claimAndCall_locked s _ _ _ h
  | sendDownloadReq n d => exact claimAndCall_locked s _ _ _ h
  | sendCompressReq n =>
    show s.sendCompressReq n = s
    unfold FileOperator.sendCompressReq
    rw [claim_locked _ h]
    split <;> rfl
  | sendDecompressReq n =>
    show s.sendDecompressReq n = s
    unfold FileOperator.sendDecompressReq
    rw [claim_locked _ h]
    split <;> rfl
  | enactRecursiveDownload n d =>
    show s.enactRecursiveDownload n d = s
    unfold FileOperator.enactRecursiveDownload
    rw [claim_locked _ h]
    split
    · rfl
    · split <;> rfl
  | enactRecursiveUpload n d =>
    show s.enactRecursiveUpload n d = s
    unfold FileOperator.enactRecursiveUpload
    rw [claim_locked _ h]
    split
    · rfl
    · split <;> rfl

/-- C2: a top-level trigger invoked while the top-level lock is held makes no remote call
and leaves the lock, the recursive-task flag, the remembered recursive heads and the
mirror as they were; indeed it leaves the whole operator unchanged. -/
theorem trigger_while_locked_changes_nothing (t : Trigger) (s : FileOperator)
    (h : s.fileOpPending.lockClosed = true) :
    (s.trigger t).calls = s.calls ∧ (s.trigger t).pending = s.pending ∧
      (s.trigger t).fileOpPending = s.fileOpPending ∧
      (s.trigger t).recursivefileOpPending = s.recursivefileOpPending ∧
      (s.trigger t).currentRecursiveTask = s.currentRecursiveTask ∧
      (s.trigger t).recursiveRemoteHead = s.recursiveRemoteHead ∧
      (s.trigger t).recursiveLocalHead.absolutePath = s.recursiveLocalHead.absolutePath ∧
      (s.trigger t).recursiveLocalHead.dirName = s.recursiveLocalHead.dirName ∧
      (s.trigger t).rootFileNode = s.rootFileNode ∧ s.trigger t = s := by
  rw [trigger_locked t s h]
  simp

/-- Witness for C2: while a move is in flight, a recursive upload is requested. -/
theorem trigger_while_locked_changes_nothing_witness :
    (Example.start.run Example.moveStarted).fileOpPending.lockClosed = true ∧
      ((Example.start.run Example.moveStarted).trigger
          (Trigger.enactRecursiveUpload Example.homeRef Example.proj)).calls =
        [RemoteCall.moveFile ["home", "b.txt"] "c.txt"] :=
  ⟨by decide,
    (trigger_while_locked_changes_nothing
      (Trigger.enactRecursiveUpload Example.homeRef Example.proj)
      (Example.start.run Example.moveStarted) (by decide)).1.trans (by decide)⟩

/-- C3 (counterexample): while a move holds the top-level lock a delete is requested;
no operation-finished event with status NOT_READY is emitted, indeed no event at all. -/
theorem locked_delete_reports_nothing :
    (Example.start.run Example.moveStarted).fileOpPending.lockClosed = true ∧
      ((Example.start.run Example.moveStarted).trigger
          (Trigger.sendDeleteReq Example.fileA.getFileData)).signals = [Signal.fileOpStarted] ∧
      (Example.start.run Example.moveStarted).signals = [Signal.fileOpStarted] ∧
      Signal.fileOpDone RequestState.NOT_READY ∉
        ((Example.start.run Example.moveStarted).trigger
          (Trigger.sendDeleteReq Example.fileA.getFileData)).signals :=
  ⟨by decide, by decide, by decide, by decide⟩

/-- C3 (amended): a top-level trigger invoked while the top-level lock is held is
rejected silently: it emits no signal, neither operation-started nor operation-finished,
and the lock stays closed, which `operationIsPending` reports. -/
theorem trigger_while_locked_is_silent (t : Trigger) (s : FileOperator)
    (h : s.fileOpPending.lockClosed = true) :
    (s.trigger t).signals = s.signals ∧
      (∀ st, Signal.fileOpDone st ∈ (s.trigger t).signals → Signal.fileOpDone st ∈ s.signals) ∧
      (s.trigger t).operationIsPending = true := by
  rw [trigger_locked t s h]
  exact ⟨rfl, fun _ hst => hst, h⟩

/-- Witness for C3 (amended): while a move is in flight, a delete is requested. -/
theorem trigger_while_locked_is_silent_witness :
    (Example.start.run Example.moveStarted).fileOpPending.lockClosed = true ∧
      ((Example.start.run Example.moveStarted).trigger
          (Trigger.sendDeleteReq Example.fileA.getFileData)).signals =
        (Example.start.run Example.moveStarted).signals :=
  ⟨by decide,
    (trigger_while_locked_is_silent (Trigger.sendDeleteReq Example.fileA.getFileData)
      (Example.start.run Example.moveStarted) (by decide)).1⟩

/-! ## Resolution of references, and abort -/

/-- C6: `getFileNodeFromNodeRef` yields no node for the nil reference and for a path that
does not resolve; with `verifyTimestamp` set it yields no node either when the timestamp of
the resolved node differs from that of the reference; in every other case it yields the
node of the path lookup.  Without `verifyTimestamp` the timestamp plays no role, with it a
node that is returned carries the timestamp of the reference. -/
theorem getFileNodeFromNodeRef_resolves (s : FileOperator) (ref : FileNodeRef)
    (verifyTimestamp : Bool) :
    (ref.isNil = true → s.getFileNodeFromNodeRef ref verifyTimestamp = none) ∧
      (s.rootFileNode.getNodeWithName ref.fullPath = none →
        s.getFileNodeFromNodeRef ref verifyTimestamp = none) ∧
      (∀ n, verifyTimestamp = true → s.rootFileNode.getNodeWithName ref.fullPath = some n →
        n.getFileData.timestamp ≠ ref.timestamp →
        s.getFileNodeFromNodeRef ref verifyTimestamp = none) ∧
      (∀ n, ref.isNil = false → s.rootFileNode.getNodeWithName ref.fullPath = some n →
        (verifyTimestamp = false ∨ n.getFileData.timestamp = ref.timestamp) →
        s.getFileNodeFromNodeRef ref verifyTimestamp = some n) ∧
      (∀ n, s.getFileNodeFromNodeRef ref verifyTimestamp = some n →
        ref.isNil = false ∧ s.rootFileNode.getNodeWithName ref.fullPath = some n) ∧
      (∀ ts, s.getFileNodeFromNodeRef { ref with timestamp := ts } false =
        s.getFileNodeFromNodeRef ref false) ∧
      (∀ n, s.getFileNodeFromNodeRef ref true = some n →
        n.getFileData.timestamp = ref.timestamp) := by
  unfold FileOperator.getFileNodeFromNodeRef
  refine ⟨?_, ?_, ?_, ?_, ?_, ?_, ?_⟩
  · intro h; simp [h]
  · intro h; simp [h]
  · intro n hv hn hts; simp [hv, hn, hts]
  · intro n hnil hn hv
    rcases hv with hv | hv <;> simp [hnil, hn, hv]
  · intro n h
    cases hnil : ref.isNil <;> simp [hnil] at h ⊢
    cases hn : s.rootFileNode.getNodeWithName ref.fullPath <;> simp [hn] at h ⊢
    cases verifyTimestamp <;> simp at h
    · exact h
    · exact h.2
  · intro ts; rfl
  · intro n h
    cases hnil : ref.isNil <;> simp [hnil] at h
    cases hn : s.rootFileNode.getNodeWithName ref.fullPath <;> simp [hn] at h
    obtain ⟨h1, h2⟩ := h
    subst h2
    exact h1

/-- C10: `abortRecursiveProcess` with the flag at DOWNLOAD or UPLOAD sets the flag to
NONE, releases the top-level lock and emits exactly one operation-finished event, with
status STOPPED_BY_USER; it makes no remote call and leaves the outstanding replies, the
mirror and the secondary lock alone.  With the flag at NONE it does nothing at all. -/
theorem abortRecursiveProcess_stops (s : FileOperator) :
    ((s.currentRecursiveTask = FileOp_RecursiveTask.DOWNLOAD ∨
        s.currentRecursiveTask = FileOp_RecursiveTask.UPLOAD) →
      s.abortRecursiveProcess.currentRecursiveTask = FileOp_RecursiveTask.NONE ∧
        s.abortRecursiveProcess.fileOpPending = s.fileOpPending.release ∧
        s.abortRecursiveProcess.fileOpPending.lockClosed = false ∧
        s.abortRecursiveProcess.fileOpPending.released = s.fileOpPending.released + 1 ∧
        s.abortRecursiveProcess.signals =
          s.signals ++ [Signal.fileOpDone RequestState.STOPPED_BY_USER] ∧
        s.abortRecursiveProcess.calls = s.calls ∧
        s.abortRecursiveProcess.pending = s.pending ∧
        s.abortRecursiveProcess.rootFileNode = s.rootFileNode ∧
        s.abortRecursiveProcess.recursivefileOpPending = s.recursivefileOpPending) ∧
      (s.currentRecursiveTask = FileOp_RecursiveTask.NONE → s.abortRecursiveProcess = s) := by
  unfold FileOperator.abortRecursiveProcess
  constructor
  · intro h
    have hne : s.currentRecursiveTask ≠ FileOp_RecursiveTask.NONE := by
      rcases h with h | h <;> rw [h] <;> decide
    rw [if_neg hne]
    exact ⟨rfl, rfl, rfl, rfl, rfl, rfl, rfl, rfl, rfl⟩
  · intro h
    rw [if_pos h]

/-! ## The secondary lock -/

theorem sec_stable (l : EasyBoolLock) :
    FileOperator.Stable (fun t => t.recursivefileOpPending = l) :=
  ⟨fun h _ _ hl => hl.trans h, fun c slot _ h => (FileOperator.remoteCall_lock _ c slot).trans h⟩

theorem recursiveUploadProcessRetry_closed (s : FileOperator)
    (h : s.recursivefileOpPending.lockClosed = true) : s.recursiveUploadProcessRetry = s := by
  unfold FileOperator.recursiveUploadProcessRetry
  rw [if_pos h]

theorem sec_fileNodesChange (s : FileOperator) (ref : FileNodeRef)
    (h : s.recursivefileOpPending.lockClosed = true) :
    (s.fileNodesChange ref).recursivefileOpPending = s.recursivefileOpPending := by
  unfold FileOperator.fileNodesChange
  simp only []
  split
  · exact FileOperator.stable_recursiveDownloadProcessRetry (sec_stable _) rfl
  · split
    · rw [recursiveUploadProcessRetry_closed (s.emit (Signal.fileSystemChange ref)) h]; rfl
    · rfl

theorem sec_deliverLSdata (s : FileOperator) (node : Path) (k : Nat) (r : ReplyData)
    (h : s.recursivefileOpPending.lockClosed = true) :
    (s.deliverLSdata node k r).recursivefileOpPending = s.recursivefileOpPending := by
  unfold FileOperator.deliverLSdata
  split
  · rfl
  · split
    · rfl
    · exact sec_fileNodesChange _ _ h

theorem sec_deliverBuffData (s : FileOperator) (node : Path) (k : Nat) (r : ReplyData)
    (h : s.recursivefileOpPending.lockClosed = true) :
    (s.deliverBuffData node k r).recursivefileOpPending = s.recursivefileOpPending := by
  unfold FileOperator.deliverBuffData
  split
  · rfl
  · split
    · rfl
    · exact sec_fileNodesChange _ _ h

theorem sec_enactRecursiveUpload (s : FileOperator) (ref : FileNodeRef) (dir : QDir)
    (h : s.recursivefileOpPending.lockClosed = true) :
    (s.enactRecursiveUpload ref dir).recursivefileOpPending = s.recursivefileOpPending := by
  unfold FileOperator.enactRecursiveUpload
  rw [if_pos h]
  repeat' split
  all_goals rfl

theorem sec_trigger (s : FileOperator) (t : Trigger)
    (h : s.recursivefileOpPending.lockClosed = true) :
    (s.trigger t).recursivefileOpPending = s.recursivefileOpPending := by
  cases t with
  | sendDeleteReq n => exact FileOperator.stable_claimAndCall (sec_stable _) rfl _ _ _ rfl
  | sendMoveReq n x => exact FileOperator.stable_claimAndCall (sec_stable _) rfl _ _ _ rfl
  | sendCopyReq n x => exact FileOperator.stable_claimAndCall (sec_stable _) rfl _ _ _ rfl
  | sendRenameReq n x => exact FileOperator.stable_claimAndCall (sec_stable _) rfl _ _ _ rfl
  | sendCreateFolderReq n x => exact FileOperator.stable_claimAndCall (sec_stable _) rfl _ _ _ rfl
  | sendUploadReq n f => exact FileOperator.stable_claimAndCall (sec_stable _) rfl _ _ _ rfl
  | sendUploadBuffReq n b x =>
    exact FileOperator.stable_claimAndCall (sec_stable _) rfl _ _ _ rfl
  | sendDownloadReq n d => exact FileOperator.stable_claimAndCall (sec_stable _) rfl _ _ _ rfl
  | sendCompressReq n => exact FileOperator.stable_sendCompressReq (sec_stable _) rfl _
  | sendDecompressReq n => exact FileOperator.stable_sendDecompressReq (sec_stable _) rfl _
  | enactRecursiveDownload n d =>
    exact FileOperator.stable_enactRecursiveDownload (sec_stable _) rfl _ _
  | enactRecursiveUpload n d => exact sec_enactRecursiveUpload s n d h

/-- An action that finds the secondary lock closed and leaves it open is the delivery of the
reply of an outstanding sub-call of the upload walk. -/
theorem sec_released_by_reply_act (s : FileOperator) (a : Action)
    (h : s.recursivefileOpPending.lockClosed = true)
    (h2 : (s.act a).recursivefileOpPending.lockClosed = false) :
    ∃ k r p, a = Action.deliver k r ∧ p ∈ s.pending ∧ p.handle = k ∧
      p.slot.isRecursiveSub = true := by
  have key : (s.act a).recursivefileOpPending = s.recursivefileOpPending →
      ∃ k r p, a = Action.deliver k r ∧ p ∈ s.pending ∧ p.handle = k ∧
        p.slot.isRecursiveSub = true := by
    intro e; rw [e, h] at h2; cases h2
  cases a with
  | trigger t => exact key (sec_trigger s t h)
  | abortRecursiveProcess =>
    exact key (FileOperator.stable_abortRecursiveProcess (sec_stable _) rfl)
  | enactFolderRefresh n c =>
    exact key (FileOperator.stable_enactFolderRefresh (sec_stable _) rfl n c)
  | sendDownloadBuffReq n =>
    exact key (FileOperator.stable_sendDownloadBuffReq (sec_stable _) rfl n)
  | environment c l => exact key rfl
  | deliver k r =>
    cases hfind : s.pending.find? (fun p => p.handle == k) with
    | none =>
      refine key ?_
      show (s.deliver k r).recursivefileOpPending = _
      unfold FileOperator.deliver
      rw [hfind]
    | some p =>
      have hmem : p ∈ s.pending := List.mem_of_find?_eq_some hfind
      have hk : p.handle = k := by simpa using List.find?_some hfind
      cases hsub : p.slot.isRecursiveSub with
      | true => exact ⟨k, r, p, rfl, hmem, hk, hsub⟩
      | false =>
        refine key ?_
        show (s.deliver k r).recursivefileOpPending = _
        unfold FileOperator.deliver
        rw [hfind]
        simp only []
        have h1 : ({ s with pending := s.pending.filter (fun q => q.handle != k) } :
            FileOperator).recursivefileOpPending.lockClosed = true := h
        cases hslot : p.slot with
        | getDeleteReply => exact FileOperator.stable_getDeleteReply (sec_stable _) rfl _ _
        | getMoveReply => exact FileOperator.stable_getMoveReply (sec_stable _) rfl _ _ _
        | getCopyReply => exact FileOperator.stable_getCopyReply (sec_stable _) rfl _ _
        | getRenameReply => exact FileOperator.stable_getRenameReply (sec_stable _) rfl _ _ _
        | getMkdirReply => exact FileOperator.stable_getMkdirReply (sec_stable _) rfl _ _
        | getUploadReply => exact FileOperator.stable_getUploadReply (sec_stable _) rfl _ _
        | getDownloadReply => exact FileOperator.stable_getDownloadReply (sec_stable _) rfl _
        | getCompressReply => rfl
        | getDecompressReply => rfl
        | getRecursiveUploadReply => rw [hslot] at hsub; cases hsub
        | getRecursiveMkdirReply => rw [hslot] at hsub; cases hsub
        | deliverLSdata node => exact sec_deliverLSdata _ _ _ _ h1
        | deliverBuffData node => exact sec_deliverBuffData _ _ _ _ h1

/-- A step that finds the secondary lock closed and leaves it open is the delivery of the
reply of an outstanding sub-call of the upload walk. -/
theorem sec_released_by_reply (s : FileOperator) (a : Action)
    (h : s.recursivefileOpPending.lockClosed = true)
    (h2 : (s.step a).recursivefileOpPending.lockClosed = false) :
    ∃ k r p, a = Action.deliver k r ∧ p ∈ s.pending ∧ p.handle = k ∧
      p.slot.isRecursiveSub = true := by
  unfold FileOperator.step at h2
  split at h2
  · rw [h] at h2; cases h2
  · exact sec_released_by_reply_act s a h h2

theorem subCalls_le_one {s : FileOperator} (h : s.Inv) :
    s.subCallsOutstanding ≤ 1 ∧
      (s.recursivefileOpPending.lockClosed = true ↔ s.subCallsOutstanding = 1) := by
  have := h.sub
  unfold EasyBoolLock.lockClosed
  cases hv : s.recursivefileOpPending.myValue <;> simp [hv] at this ⊢ <;> omega

/-- What a sub-call request does when it finds the secondary lock open. -/
theorem subCall_open (s : FileOperator) (h : s.Inv)
    (hopen : s.recursivefileOpPending.lockClosed = false) (c : RemoteCall) (slot : Slot)
    (hs : slot.isRecursiveSub = true)
    (r : Bool × FileOperator)
    (hr : r = (match ({ s with recursivefileOpPending := s.recursivefileOpPending.checkAndClaim.2 } :
          FileOperator).remoteCall c slot with
        | (none, s1) => (false, s1.releaseRecursive)
        | (some _, s1) => (true, s1))) :
    r.2.calls = s.calls ++ [c] ∧
      r.2.recursivefileOpPending.claimed = s.recursivefileOpPending.claimed + 1 ∧
      (r.1 = true → r.2.recursivefileOpPending.lockClosed = true ∧
        r.2.pending = s.pending ++ [⟨s.calls.length, slot⟩] ∧ r.2.subCallsOutstanding = 1) ∧
      (r.1 = false → r.2.recursivefileOpPending.lockClosed = false ∧ r.2.pending = s.pending ∧
        r.2.subCallsOutstanding = 0) := by
  have hv : s.recursivefileOpPending.myValue = false := hopen
  have h0 : (s.pending.filter (fun p => p.slot.isRecursiveSub)).length = 0 := by
    have := h.sub; rw [hv] at this; simpa [FileOperator.subCallsOutstanding] using this
  subst hr
  unfold FileOperator.remoteCall EasyBoolLock.checkAndClaim
  simp only [hv, Bool.false_eq_true, if_false]
  cases hc : s.connection.headD true
  · simp [FileOperator.releaseRecursive, EasyBoolLock.release, EasyBoolLock.lockClosed,
      FileOperator.subCallsOutstanding, h0]
  · simp [EasyBoolLock.lockClosed, FileOperator.subCallsOutstanding, List.filter_append, h0, hs]

/-- C8: at most one mkdir-or-upload sub-call of the recursive upload walk is outstanding
in every reachable state, and the secondary lock is closed exactly when one is.  In such
a state `sendRecursiveCreateFolderReq` and `sendRecursiveUploadReq` do nothing when the
lock is closed; when it is open they claim it and make exactly one call, which leaves the
lock closed with the reply outstanding, or, when no reply object comes back, the lock
released.  A closed secondary lock is opened only by the delivery of the reply of the
outstanding sub-call. -/
theorem secondary_lock_serializes_subcalls (s : FileOperator) (hs : Reachable s) :
    s.subCallsOutstanding ≤ 1 ∧
      (s.recursivefileOpPending.lockClosed = true ↔ s.subCallsOutstanding = 1) ∧
      (∀ node name, s.recursivefileOpPending.lockClosed = true →
        s.sendRecursiveCreateFolderReq node name = (false, s) ∧
          s.sendRecursiveUploadReq node name = (false, s)) ∧
      (∀ node name, s.recursivefileOpPending.lockClosed = false →
        (s.sendRecursiveCreateFolderReq node name).2.calls =
            s.calls ++ [RemoteCall.mkRemoteDir node.getFileData.fullPath name] ∧
          (s.sendRecursiveCreateFolderReq node name).2.recursivefileOpPending.claimed =
            s.recursivefileOpPending.claimed + 1 ∧
          ((s.sendRecursiveCreateFolderReq node name).1 = true →
            (s.sendRecursiveCreateFolderReq node name).2.recursivefileOpPending.lockClosed = true ∧
              (s.sendRecursiveCreateFolderReq node name).2.pending =
                s.pending ++ [⟨s.calls.length, Slot.getRecursiveMkdirReply⟩] ∧
              (s.sendRecursiveCreateFolderReq node name).2.subCallsOutstanding = 1) ∧
          ((s.sendRecursiveCreateFolderReq node name).1 = false →
            (s.sendRecursiveCreateFolderReq node name).2.recursivefileOpPending.lockClosed = false ∧
              (s.sendRecursiveCreateFolderReq node name).2.pending = s.pending ∧
              (s.sendRecursiveCreateFolderReq node name).2.subCallsOutstanding = 0)) ∧
      (∀ node localFile, s.recursivefileOpPending.lockClosed = false →
        (s.sendRecursiveUploadReq node localFile).2.calls =
            s.calls ++ [RemoteCall.uploadFile node.getFileData.fullPath localFile] ∧
          (s.sendRecursiveUploadReq node localFile).2.recursivefileOpPending.claimed =
            s.recursivefileOpPending.claimed + 1 ∧
          ((s.sendRecursiveUploadReq node localFile).1 = true →
            (s.sendRecursiveUploadReq node localFile).2.recursivefileOpPending.lockClosed = true ∧
              (s.sendRecursiveUploadReq node localFile).2.pending =
                s.pending ++ [⟨s.calls.length, Slot.getRecursiveUploadReply⟩] ∧
              (s.sendRecursiveUploadReq node localFile).2.subCallsOutstanding = 1) ∧
          ((s.sendRecursiveUploadReq node localFile).1 = false →
            (s.sendRecursiveUploadReq node localFile).2.recursivefileOpPending.lockClosed = false ∧
              (s.sendRecursiveUploadReq node localFile).2.pending = s.pending ∧
              (s.sendRecursiveUploadReq node localFile).2.subCallsOutstanding = 0)) ∧
      (∀ a, s.recursivefileOpPending.lockClosed = true →
        (s.step a).recursivefileOpPending.lockClosed = false →
        ∃ k r p, a = Action.deliver k r ∧ p ∈ s.pending ∧ p.handle = k ∧
          p.slot.isRecursiveSub = true) := by
  have hinv := FileOperator.inv_of_reachable hs
  refine ⟨(subCalls_le_one hinv).1, (subCalls_le_one hinv).2, ?_, ?_, ?_, ?_⟩
  · intro node name hc
    unfold FileOperator.sendRecursiveCreateFolderReq FileOperator.sendRecursiveUploadReq
    rw [claim_locked _ hc]
    exact ⟨rfl, rfl⟩
  · intro node name ho
    have hclaim : (!s.recursivefileOpPending.checkAndClaim.1) = false := by
      unfold EasyBoolLock.checkAndClaim
      have hv : s.recursivefileOpPending.myValue = false := ho
      simp [hv]
    refine subCall_open s hinv ho (RemoteCall.mkRemoteDir node.getFileData.fullPath name)
      Slot.getRecursiveMkdirReply rfl _ ?_
    unfold FileOperator.sendRecursiveCreateFolderReq
    simp only [hclaim, Bool.false_eq_true, if_false]
  · intro node localFile ho
    have hclaim : (!s.recursivefileOpPending.checkAndClaim.1) = false := by
      unfold EasyBoolLock.checkAndClaim
      have hv : s.recursivefileOpPending.myValue = false := ho
      simp [hv]
    refine subCall_open s hinv ho (RemoteCall.uploadFile node.getFileData.fullPath localFile)
      Slot.getRecursiveUploadReply rfl _ ?_
    unfold FileOperator.sendRecursiveUploadReq
    simp only [hclaim, Bool.false_eq_true, if_false]
  · intro a h1 h2
    exact sec_released_by_reply s a h1 h2

/-- Witness for C8: the operator right after a recursive upload was started. -/
theorem secondary_lock_serializes_subcalls_witness :
    Reachable (Example.start.run [Example.uploadProj]) ∧
      (Example.start.run [Example.uploadProj]).subCallsOutstanding = 1 ∧
      (Example.start.run [Example.uploadProj]).recursivefileOpPending.lockClosed = true :=
  ⟨reachable_example _, by decide,
    (secondary_lock_serializes_subcalls _ (reachable_example _)).2.1.mpr (by decide)⟩

/-- C9 (amended): in every reachable state in which the recursive-task flag is UPLOAD at
most one mkdir or upload sub-call is in flight: one exactly while the secondary lock is
closed, none while it is open. -/
theorem upload_has_at_most_one_subcall (s : FileOperator) (hs : Reachable s)
    (_hu : s.currentRecursiveTask = FileOp_RecursiveTask.UPLOAD) :
    s.subCallsOutstanding ≤ 1 ∧
      (s.subCallsOutstanding = 1 ↔ s.recursivefileOpPending.lockClosed = true) ∧
      (s.subCallsOutstanding = 0 ↔ s.recursivefileOpPending.lockClosed = false) := by
  have h := subCalls_le_one (FileOperator.inv_of_reachable hs)
  refine ⟨h.1, h.2.symm, ?_⟩
  cases hv : s.recursivefileOpPending.lockClosed
  · have : ¬ s.subCallsOutstanding = 1 := fun e => by
      have := h.2.mpr e; rw [hv] at this; cases this
    constructor
    · intro _; rfl
    · intro _; omega
  · have := h.2.mp hv
    constructor
    · intro e; omega
    · intro e; cases e

/-- Witness for C9 (amended): right after a recursive upload was started one sub-call is
in flight, and none once it has been answered. -/
theorem upload_has_at_most_one_subcall_witness :
    (Example.start.run [Example.uploadProj]).currentRecursiveTask = FileOp_RecursiveTask.UPLOAD ∧
      (Example.start.run [Example.uploadProj]).subCallsOutstanding ≤ 1 ∧
      (Example.start.run Example.mkdirAnswered).subCallsOutstanding ≤ 1 :=
  ⟨by decide,
    (upload_has_at_most_one_subcall _ (reachable_example _) (by decide)).1,
    (upload_has_at_most_one_subcall _ (reachable_example Example.mkdirAnswered) (by decide)).1⟩

/-! ## Pending markers of mirror nodes -/

namespace FileTreeNode

theorem getFileData_setLStask (h : Nat) (n : FileTreeNode) :
    (n.setLStask h).getFileData = n.getFileData := by
  cases n; rfl

theorem getFileData_setBuffTask (h : Nat) (n : FileTreeNode) :
    (n.setBuffTask h).getFileData = n.getFileData := by
  cases n; rfl

theorem getFileData_deleteFolderContentsData (n : FileTreeNode) :
    n.deleteFolderContentsData.getFileData = n.getFileData := by
  cases n; rfl

theorem getLStask_deleteFolderContentsData (n : FileTreeNode) :
    n.deleteFolderContentsData.getLStask = n.getLStask := by
  cases n; rfl

theorem getLStask_setLStask (h : Nat) (n : FileTreeNode) : (n.setLStask h).getLStask = some h := by
  cases n; rfl

theorem getName_modifyBelow (f : FileTreeNode → FileTreeNode)
    (hf : ∀ n, (f n).getFileData = n.getFileData) (n : FileTreeNode) (p : List String) :
    (modifyBelow f n p).getName = n.getName := by
  cases p with
  | nil => simp only [modifyBelow, getName, hf]
  | cons c cs => cases n; rfl

theorem find_modifyChild (c : String) (g : FileTreeNode → FileTreeNode)
    (hg : ∀ x, (g x).getName = x.getName) :
    ∀ (ch : List FileTreeNode) (x : FileTreeNode),
      ch.find? (fun y => y.getName == c) = some x →
      (modifyChild c g ch).find? (fun y => y.getName == c) = some (g x)
  | [], x, h => by simp at h
  | y :: ys, x, h => by
    by_cases hy : (y.getName == c) = true
    · simp only [List.find?_cons, hy, Option.some.injEq] at h
      subst h
      simp only [modifyChild, hy, if_true, List.find?_cons, hg]
    · simp only [List.find?_cons, hy] at h
      simp only [modifyChild, hy, Bool.false_eq_true, if_false, List.find?_cons]
      exact find_modifyChild c g hg ys x h

theorem descend_modifyBelow (f : FileTreeNode → FileTreeNode)
    (hf : ∀ n, (f n).getFileData = n.getFileData) :
    ∀ (p : List String) (n m : FileTreeNode), n.descend p = some m →
      (modifyBelow f n p).descend p = some (f m)
  | [], n, m, h => by
    simp only [descend, Option.some.injEq] at h
    subst h
    simp only [modifyBelow, descend]
  | c :: cs, n, m, h => by
    cases n with
    | mk d st b l t ch =>
      simp only [descend] at h
      simp only [modifyBelow, descend]
      cases hx : (mk d st b l t ch).getChildNodeWithName c with
      | none => rw [hx] at h; cases h
      | some x =>
        rw [hx] at h
        have hfind := find_modifyChild c (fun y => modifyBelow f y cs)
          (fun y => getName_modifyBelow f hf y cs) ch x hx
        have : (mk d st b l t
            (modifyChild c (fun y => modifyBelow f y cs) ch)).getChildNodeWithName c =
            some (modifyBelow f x cs) := hfind
        rw [this]
        exact descend_modifyBelow f hf cs x m h

theorem getNodeWithName_modifyAt (f : FileTreeNode → FileTreeNode)
    (hf : ∀ n, (f n).getFileData = n.getFileData) (root : FileTreeNode) (p : Path)
    (m : FileTreeNode) (h : root.getNodeWithName p = some m) :
    (root.modifyAt p f).getNodeWithName p = some (f m) := by
  cases p with
  | nil => cases h
  | cons r rest =>
    simp only [getNodeWithName] at h
    simp only [modifyAt, getNodeWithName]
    by_cases hr : (r == root.getName) = true
    · rw [if_pos hr] at h
      rw [if_pos hr, getName_modifyBelow f hf, if_pos hr]
      exact descend_modifyBelow f hf rest root m h
    · rw [if_neg hr] at h; cases h

end FileTreeNode

theorem resolve_lookup (s : FileOperator) (ref : FileNodeRef) (v : Bool) (node : FileTreeNode)
    (h : s.getFileNodeFromNodeRef ref v = some node) :
    s.rootFileNode.getNodeWithName ref.fullPath = some node := by
  unfold FileOperator.getFileNodeFromNodeRef at h
  cases hnil : ref.isNil <;> simp [hnil] at h
  cases hn : s.rootFileNode.getNodeWithName ref.fullPath <;> simp [hn] at h
  cases v <;> simp at h
  · rw [h]
  · rw [h.2]

theorem haveLStask_trueNode (c : Bool) (node : FileTreeNode) :
    (if c = true then node.deleteFolderContentsData else node).haveLStask = node.haveLStask := by
  cases c
  · rfl
  · simp only [if_true, FileTreeNode.haveLStask, FileTreeNode.getLStask_deleteFolderContentsData]

theorem fullPath_trueNode (c : Bool) (node : FileTreeNode) :
    (if c = true then node.deleteFolderContentsData else node).getFileData = node.getFileData := by
  cases c
  · rfl
  · simp only [if_true, FileTreeNode.getFileData_deleteFolderContentsData]

/-- A refresh of a node that waits for a listing calls nothing. -/
theorem enactFolderRefresh_marked (s : FileOperator) (ref : FileNodeRef) (c : Bool)
    (node : FileTreeNode) (hnode : s.getFileNodeFromNodeRef ref s.verifyDefault = some node)
    (hm : node.haveLStask = true) :
    (s.enactFolderRefresh ref c).calls = s.calls ∧
      (s.enactFolderRefresh ref c).pending = s.pending := by
  unfold FileOperator.enactFolderRefresh
  rw [hnode]
  simp only [haveLStask_trueNode, hm, if_true]
  cases c <;> exact ⟨rfl, rfl⟩

theorem remoteCall_ok (s : FileOperator) (c : RemoteCall) (slot : Slot)
    (h : s.connection.headD true = true) :
    s.remoteCall c slot =
      (some s.calls.length,
        { s with connection := s.connection.tail, calls := s.calls ++ [c],
                 pending := s.pending ++ [{ handle := s.calls.length, slot := slot }] }) := by
  unfold FileOperator.remoteCall
  rw [if_pos h]

theorem remoteCall_refused (s : FileOperator) (c : RemoteCall) (slot : Slot)
    (h : s.connection.headD true = false) :
    s.remoteCall c slot =
      (none, { s with connection := s.connection.tail, calls := s.calls ++ [c] }) := by
  unfold FileOperator.remoteCall
  rw [if_neg (by rw [h]; exact Bool.false_ne_true)]

/-- A refresh of a node that waits for no listing makes one list call and records the
reply object on the node. -/
theorem enactFolderRefresh_unmarked (s : FileOperator) (ref : FileNodeRef) (c : Bool)
    (node : FileTreeNode) (hnode : s.getFileNodeFromNodeRef ref s.verifyDefault = some node)
    (hm : node.haveLStask = false) :
    (s.enactFolderRefresh ref c).calls =
        s.calls ++ [RemoteCall.remoteLS node.getFileData.fullPath] ∧
      (s.connection.headD true = true →
        (s.enactFolderRefresh ref c).pending =
            s.pending ++ [⟨s.calls.length, Slot.deliverLSdata ref.fullPath⟩] ∧
          ((s.enactFolderRefresh ref c).rootFileNode.getNodeWithName ref.fullPath).bind
            FileTreeNode.getLStask = some s.calls.length) ∧
      (s.connection.headD true = false →
        (s.enactFolderRefresh ref c).pending = s.pending) := by
  have hl := resolve_lookup s ref _ node hnode
  unfold FileOperator.enactFolderRefresh
  rw [hnode]
  simp only [haveLStask_trueNode, fullPath_trueNode, hm, Bool.false_eq_true, if_false]
  cases hc : s.connection.headD true
  · cases c
    · rw [if_neg Bool.false_ne_true, remoteCall_refused _ _ _ hc]
      exact ⟨rfl, (fun h => Bool.noConfusion h), fun _ => rfl⟩
    · rw [if_pos rfl, remoteCall_refused
        (s.onNode ref.fullPath FileTreeNode.deleteFolderContentsData) _ _ hc]
      exact ⟨rfl, (fun h => Bool.noConfusion h), fun _ => rfl⟩
  · cases c
    · rw [if_neg Bool.false_ne_true, remoteCall_ok _ _ _ hc]
      refine ⟨rfl, fun _ => ⟨rfl, ?_⟩, (fun h => Bool.noConfusion h)⟩
      show (FileTreeNode.getNodeWithName (FileTreeNode.modifyAt s.rootFileNode _ _) _).bind _ = _
      rw [FileTreeNode.getNodeWithName_modifyAt _ (FileTreeNode.getFileData_setLStask _) _ _ _ hl]
      simp [FileTreeNode.getLStask_setLStask]
    · rw [if_pos rfl, remoteCall_ok
        (s.onNode ref.fullPath FileTreeNode.deleteFolderContentsData) _ _ hc]
      refine ⟨rfl, fun _ => ⟨rfl, ?_⟩, (fun h => Bool.noConfusion h)⟩
      show (FileTreeNode.getNodeWithName (FileTreeNode.modifyAt
        (FileTreeNode.modifyAt s.rootFileNode _ _) _ _) _).bind _ = _
      rw [FileTreeNode.getNodeWithName_modifyAt _ (FileTreeNode.getFileData_setLStask _) _ _ _
        (FileTreeNode.getNodeWithName_modifyAt _
          FileTreeNode.getFileData_deleteFolderContentsData _ _ _ hl)]
      show (FileTreeNode.setLStask _ _).getLStask = _
      rw [FileTreeNode.getLStask_setLStask]
      rfl

/-- C14: on a reply whose status is not GOOD each of the seven reply handlers of the
single operations releases the top-level lock and emits exactly one operation-finished
event, carrying the status of the reply; it makes no remote call, so requests no
listing refresh, and leaves the mirror unchanged. -/
theorem failing_reply_is_reported (s : FileOperator) (h : SingleReply) (st : RequestState)
    (d : FileMetaData) (p : Path) (hst : st ≠ RequestState.GOOD) :
    s.singleReply h st d p = s.releaseFileOp.emit (Signal.fileOpDone st) ∧
      (s.singleReply h st d p).fileOpPending = s.fileOpPending.release ∧
      (s.singleReply h st d p).fileOpPending.lockClosed = false ∧
      (s.singleReply h st d p).fileOpPending.released = s.fileOpPending.released + 1 ∧
      (s.singleReply h st d p).signals = s.signals ++ [Signal.fileOpDone st] ∧
      (s.singleReply h st d p).calls = s.calls ∧
      (s.singleReply h st d p).pending = s.pending ∧
      (s.singleReply h st d p).rootFileNode = s.rootFileNode := by
  have key : s.singleReply h st d p = s.releaseFileOp.emit (Signal.fileOpDone st) := by
    cases h <;>
      simp only [FileOperator.singleReply, FileOperator.getDeleteReply,
        FileOperator.getMoveReply, FileOperator.getCopyReply, FileOperator.getRenameReply,
        FileOperator.getMkdirReply, FileOperator.getUploadReply, FileOperator.getDownloadReply,
        FileOperator.emitStdFileOpErr, hst, if_false]
  rw [key]
  exact ⟨rfl, rfl, rfl, rfl, rfl, rfl, rfl, rfl⟩

/-- Witness for C14: the delete of `a.txt` is answered with a failure. -/
theorem failing_reply_is_reported_witness :
    (Example.start.singleReply SingleReply.getDeleteReply RequestState.UNCLASSIFIED
        Example.projData ["home", "a.txt"]).signals =
      [Signal.fileOpDone RequestState.UNCLASSIFIED] :=
  (failing_reply_is_reported Example.start SingleReply.getDeleteReply RequestState.UNCLASSIFIED
    Example.projData ["home", "a.txt"] (by decide)).2.2.2.2.1

/-! ## Compress and decompress -/

theorem claim_unlocked (l : EasyBoolLock) (h : l.lockClosed = false) :
    l.checkAndClaim = (true, { l with myValue := true, claimed := l.claimed + 1 }) := by
  unfold EasyBoolLock.lockClosed at h
  unfold EasyBoolLock.checkAndClaim
  rw [if_neg (by rw [h]; exact Bool.false_ne_true)]

/-- C18: for a reference that resolves, requested with the top-level lock open:
`sendCompressReq` on a kind other than DIR and `sendDecompressReq` on the kind DIR call
nothing and return with the lock open; on an admissible kind each makes exactly one call,
the batch job `compress` with the parameter `compression_type = tgz` on the full path of
the node, respectively the batch job `extract` with the parameter `inputFile` set to the
full path of the node and an empty target; the call leaves the lock closed when a reply
object comes back.  The two reply handlers release the lock and emit one
operation-finished event with the status of the reply; they call nothing and leave the
mirror alone. -/
theorem compress_and_decompress_check_kind (s : FileOperator) (ref : FileNodeRef)
    (hext : s.fileNodeExtant ref = true) (hopen : s.fileOpPending.lockClosed = false) :
    (ref.fileType ≠ FileType.DIR →
        (s.sendCompressReq ref).calls = s.calls ∧ (s.sendCompressReq ref).pending = s.pending ∧
          (s.sendCompressReq ref).fileOpPending.lockClosed = false) ∧
      (ref.fileType = FileType.DIR →
        (s.sendCompressReq ref).calls =
            s.calls ++ [RemoteCall.runRemoteJob "compress" [("compression_type", "tgz")]
              (pathString ref.fullPath)] ∧
          (s.connection.headD true = true →
            (s.sendCompressReq ref).pending =
                s.pending ++ [⟨s.calls.length, Slot.getCompressReply⟩] ∧
              (s.sendCompressReq ref).fileOpPending.lockClosed = true)) ∧
      (ref.fileType = FileType.DIR →
        (s.sendDecompressReq ref).calls = s.calls ∧
          (s.sendDecompressReq ref).pending = s.pending ∧
          (s.sendDecompressReq ref).fileOpPending.lockClosed = false) ∧
      (ref.fileType ≠ FileType.DIR →
        (s.sendDecompressReq ref).calls =
            s.calls ++ [RemoteCall.runRemoteJob "extract"
              [("inputFile", pathString ref.fullPath)] ""] ∧
          (s.connection.headD true = true →
            (s.sendDecompressReq ref).pending =
                s.pending ++ [⟨s.calls.length, Slot.getDecompressReply⟩] ∧
              (s.sendDecompressReq ref).fileOpPending.lockClosed = true)) ∧
      (∀ st, s.getCompressReply st = s.releaseFileOp.emit (Signal.fileOpDone st) ∧
        s.getDecompressReply st = s.releaseFileOp.emit (Signal.fileOpDone st) ∧
        (s.getCompressReply st).fileOpPending.lockClosed = false ∧
        (s.getCompressReply st).signals = s.signals ++ [Signal.fileOpDone st] ∧
        (s.getCompressReply st).calls = s.calls ∧
        (s.getCompressReply st).rootFileNode = s.rootFileNode ∧
        (s.getDecompressReply st).fileOpPending.lockClosed = false ∧
        (s.getDecompressReply st).signals = s.signals ++ [Signal.fileOpDone st] ∧
        (s.getDecompressReply st).calls = s.calls ∧
        (s.getDecompressReply st).rootFileNode = s.rootFileNode) := by
  have hne : (!s.fileNodeExtant ref) = false := by rw [hext]; rfl
  have hclaim := claim_unlocked s.fileOpPending hopen
  refine ⟨?_, ?_, ?_, ?_, ?_⟩
  · intro hk
    unfold FileOperator.sendCompressReq
    simp only [hne, hclaim, Bool.false_eq_true, if_false, Bool.not_true, ne_eq, hk,
      not_false_eq_true, if_true]
    exact ⟨rfl, rfl, rfl⟩
  · intro hk
    unfold FileOperator.sendCompressReq
    simp only [hne, hclaim, Bool.false_eq_true, if_false, Bool.not_true, ne_eq, hk,
      not_true_eq_false]
    cases hc : s.connection.headD true
    · rw [remoteCall_refused
        ({ s with fileOpPending := { s.fileOpPending with myValue := true, claimed := s.fileOpPending.claimed + 1 } } :
        FileOperator) _ _ hc]
      exact ⟨rfl, fun h => Bool.noConfusion h⟩
    · rw [remoteCall_ok
        ({ s with fileOpPending := { s.fileOpPending with myValue := true, claimed := s.fileOpPending.claimed + 1 } } :
        FileOperator) _ _ hc]
      exact ⟨rfl, fun _ => ⟨rfl, rfl⟩⟩
  · intro hk
    unfold FileOperator.sendDecompressReq
    simp only [hne, hclaim, Bool.false_eq_true, if_false, Bool.not_true, hk, if_true]
    exact ⟨rfl, rfl, rfl⟩
  · intro hk
    unfold FileOperator.sendDecompressReq
    simp only [hne, hclaim, Bool.false_eq_true, if_false, Bool.not_true, hk]
    cases hc : s.connection.headD true
    · rw [remoteCall_refused
        ({ s with fileOpPending := { s.fileOpPending with myValue := true, claimed := s.fileOpPending.claimed + 1 } } :
        FileOperator) _ _ hc]
      exact ⟨rfl, fun h => Bool.noConfusion h⟩
    · rw [remoteCall_ok
        ({ s with fileOpPending := { s.fileOpPending with myValue := true, claimed := s.fileOpPending.claimed + 1 } } :
        FileOperator) _ _ hc]
      exact ⟨rfl, fun _ => ⟨rfl, rfl⟩⟩
  · intro st
    exact ⟨rfl, rfl, rfl, rfl, rfl, rfl, rfl, rfl, rfl, rfl⟩

/-- Witness for C18: compress and decompress of the file `a.txt` right after start-up. -/
theorem compress_and_decompress_check_kind_witness :
    (Example.start.sendCompressReq Example.fileA.getFileData).calls = [] ∧
      (Example.start.sendDecompressReq Example.fileA.getFileData).calls =
        [RemoteCall.runRemoteJob "extract" [("inputFile", "/home/a.txt")] ""] :=
  ⟨((compress_and_decompress_check_kind Example.start Example.fileA.getFileData (by decide)
      (by decide)).1 (by decide)).1,
    ((compress_and_decompress_check_kind Example.start Example.fileA.getFileData (by decide)
      (by decide)).2.2.2.1 (by decide)).1.trans (by decide)⟩

/-- C19 (code bug): compress of a file and decompress of a folder are refused after the
lock was claimed: the lock is released and nothing is called, but no operation-finished
event is emitted.  The recursive download of a file, refused at the same point, does emit
the event with status INVALID_PARAM. -/
theorem wrong_kind_compress_reports_nothing :
    ((Example.start.sendCompressReq Example.fileA.getFileData).signals = [] ∧
      (Example.start.sendCompressReq Example.fileA.getFileData).calls = [] ∧
      (Example.start.sendCompressReq Example.fileA.getFileData).fileOpPending =
        { myValue := false, claimed := 1, released := 1 }) ∧
    ((Example.start.sendDecompressReq Example.homeRef).signals = [] ∧
      (Example.start.sendDecompressReq Example.homeRef).calls = [] ∧
      (Example.start.sendDecompressReq Example.homeRef).fileOpPending =
        { myValue := false, claimed := 1, released := 1 }) ∧
    ((Example.start.enactRecursiveDownload Example.fileA.getFileData "/tmp/dest").signals =
        [Signal.fileOpDone RequestState.INVALID_PARAM] ∧
      (Example.start.enactRecursiveDownload Example.fileA.getFileData "/tmp/dest").calls = [] ∧
      (Example.start.enactRecursiveDownload Example.fileA.getFileData
        "/tmp/dest").fileOpPending = { myValue := false, claimed := 1, released := 1 }) :=
  ⟨⟨by decide, by decide, by decide⟩, ⟨by decide, by decide, by decide⟩,
    ⟨by decide, by decide, by decide⟩⟩

/-! ## What the requests and the commit leave alone -/

namespace FileOperator

theorem RequestFrame.same_frame (s : FileOperator) : RequestFrame s s :=
  ⟨rfl, rfl, rfl, rfl, rfl, rfl, rfl, rfl, rfl⟩

theorem RequestFrame.then_frame {s t u : FileOperator} (h1 : RequestFrame s t)
    (h2 : RequestFrame t u) : RequestFrame s u :=
  ⟨h2.1.trans h1.1, h2.2.trans h1.2, h2.3.trans h1.3, h2.4.trans h1.4, h2.5.trans h1.5,
    h2.6.trans h1.6, h2.7.trans h1.7, h2.8.trans h1.8, h2.9.trans h1.9⟩

theorem frame_remoteCall (s : FileOperator) (c : RemoteCall) (slot : Slot) :
    RequestFrame s (s.remoteCall c slot).2 := by
  unfold FileOperator.remoteCall
  split <;> exact ⟨rfl, rfl, rfl, rfl, rfl, rfl, rfl, rfl, rfl⟩

theorem frame_onNode (s : FileOperator) (p : Path) (f : FileTreeNode → FileTreeNode) :
    RequestFrame s (s.onNode p f) :=
  ⟨rfl, rfl, rfl, rfl, rfl, rfl, rfl, rfl, rfl⟩

theorem frame_refreshTail {s s0 : FileOperator} (h0 : RequestFrame s s0)
    (trueNode : FileTreeNode) (p : Path) :
    RequestFrame s (if trueNode.haveLStask = true then s0
      else
        match s0.remoteCall (RemoteCall.remoteLS trueNode.getFileData.fullPath)
            (Slot.deliverLSdata p) with
        | (none, s1) => s1.totalResetErrorProcedure
        | (some h, s1) => s1.onNode p (FileTreeNode.setLStask h)) := by
  split
  · exact h0
  · have h1 := frame_remoteCall s0 (RemoteCall.remoteLS trueNode.getFileData.fullPath)
      (Slot.deliverLSdata p)
    split
    · rename_i heq
      rw [heq] at h1
      exact h0.then_frame (h1.then_frame ⟨rfl, rfl, rfl, rfl, rfl, rfl, rfl, rfl, rfl⟩)
    · rename_i heq
      rw [heq] at h1
      exact h0.then_frame (h1.then_frame (frame_onNode _ _ _))

theorem frame_enactFolderRefresh (s : FileOperator) (ref : FileNodeRef) (c : Bool) :
    RequestFrame s (s.enactFolderRefresh ref c) := by
  unfold FileOperator.enactFolderRefresh
  split
  · exact RequestFrame.same_frame s
  · refine frame_refreshTail ?_ _ _
    split
    · exact frame_onNode s _ _
    · exact RequestFrame.same_frame s

theorem frame_sendDownloadBuffReq (s : FileOperator) (ref : FileNodeRef) :
    RequestFrame s (s.sendDownloadBuffReq ref) := by
  unfold FileOperator.sendDownloadBuffReq
  split
  · exact RequestFrame.same_frame s
  · split
    · exact RequestFrame.same_frame s
    · split
      · exact RequestFrame.same_frame s
      · have h1 := frame_remoteCall s (RemoteCall.downloadBuffer ref.fullPath)
          (Slot.deliverBuffData ref.fullPath)
        split
        · rename_i heq
          rw [heq] at h1
          exact h1
        · rename_i heq
          rw [heq] at h1
          exact h1.then_frame (frame_onNode _ _ _)

theorem frame_lsClosestNode (s : FileOperator) (p : Path) (c : Bool) :
    RequestFrame s (s.lsClosestNode p c) := by
  unfold FileOperator.lsClosestNode
  split
  · exact ⟨rfl, rfl, rfl, rfl, rfl, rfl, rfl, rfl, rfl⟩
  · exact frame_enactFolderRefresh s _ _

theorem frame_lsClosestNodeToParent (s : FileOperator) (p : Path) (c : Bool) :
    RequestFrame s (s.lsClosestNodeToParent p c) := by
  unfold FileOperator.lsClosestNodeToParent
  split
  · split
    · exact frame_enactFolderRefresh s _ _
    · split
      · exact RequestFrame.same_frame s
      · exact frame_enactFolderRefresh s _ _
  · split
    · exact ⟨rfl, rfl, rfl, rfl, rfl, rfl, rfl, rfl, rfl⟩
    · exact frame_enactFolderRefresh s _ _

mutual
theorem frame_recursiveDownloadRetrivalHelper :
    ∀ (n : FileTreeNode) (s : FileOperator),
      RequestFrame s (recursiveDownloadRetrivalHelper n s).2
  | FileTreeNode.mk d st b l t ch, s => by
    rw [recursiveDownloadRetrivalHelper]
    split
    · split
      · exact frame_sendDownloadBuffReq s _
      · exact RequestFrame.same_frame s
    · split
      · exact RequestFrame.same_frame s
      · split
        · exact (frame_enactFolderRefresh s d false).then_frame
            (frame_recursiveDownloadRetrivalChildren ch false _)
        · exact frame_recursiveDownloadRetrivalChildren ch true s
theorem frame_recursiveDownloadRetrivalChildren :
    ∀ (ch : List FileTreeNode) (acc : Bool) (s : FileOperator),
      RequestFrame s (recursiveDownloadRetrivalChildren ch acc s).2
  | [], acc, s => by
    rw [recursiveDownloadRetrivalChildren]; exact RequestFrame.same_frame s
  | c :: cs, acc, s => by
    rw [recursiveDownloadRetrivalChildren]
    exact (frame_recursiveDownloadRetrivalHelper c s).then_frame
      (frame_recursiveDownloadRetrivalChildren cs _ _)
end

theorem CommitFrame.same_commit (s : FileOperator) : CommitFrame s s :=
  ⟨rfl, rfl, rfl, rfl, rfl, rfl, rfl, rfl, rfl, rfl, rfl⟩

theorem CommitFrame.then_commit {s t u : FileOperator} (h1 : CommitFrame s t)
    (h2 : CommitFrame t u) : CommitFrame s u :=
  ⟨h2.1.trans h1.1, h2.2.trans h1.2, h2.3.trans h1.3, h2.4.trans h1.4, h2.5.trans h1.5,
    h2.6.trans h1.6, h2.7.trans h1.7, h2.8.trans h1.8, h2.9.trans h1.9, h2.10.trans h1.10,
    h2.11.trans h1.11⟩

theorem commit_localStep (s : FileOperator) : CommitFrame s s.localStep.2 :=
  ⟨rfl, rfl, rfl, rfl, rfl, rfl, rfl, rfl, rfl, rfl, rfl⟩

theorem commit_emitBufferToFile (s : FileOperator) (n : FileTreeNode)
    (e : RecursiveErrorCodes) : CommitFrame s (s.emitBufferToFile n e).2.2 := by
  unfold FileOperator.emitBufferToFile
  simp only []
  repeat' split
  all_goals exact ⟨rfl, rfl, rfl, rfl, rfl, rfl, rfl, rfl, rfl, rfl, rfl⟩

mutual
theorem commit_recursiveDownloadFolderEmitHelper :
    ∀ (n : FileTreeNode) (e : RecursiveErrorCodes) (s : FileOperator),
      CommitFrame s (recursiveDownloadFolderEmitHelper n e s).2.2
  | FileTreeNode.mk d st b l t ch, e, s => by
    rw [recursiveDownloadFolderEmitHelper]
    simp only []
    split
    · exact CommitFrame.same_commit s
    · split
      · exact commit_localStep s
      · exact (commit_localStep s).then_commit
          (commit_recursiveDownloadFolderEmitChildren ch e _)
theorem commit_recursiveDownloadFolderEmitChildren :
    ∀ (ch : List FileTreeNode) (e : RecursiveErrorCodes) (s : FileOperator),
      CommitFrame s (recursiveDownloadFolderEmitChildren ch e s).2.2
  | [], e, s => by
    rw [recursiveDownloadFolderEmitChildren]; exact CommitFrame.same_commit s
  | c :: cs, e, s => by
    rw [recursiveDownloadFolderEmitChildren]
    simp only []
    split
    · split
      · exact commit_localStep s
      · split
        · exact ⟨rfl, rfl, rfl, rfl, rfl, rfl, rfl, rfl, rfl, rfl, rfl⟩
        · have h0 : CommitFrame s
              ({ s.localStep.2 with
                  localLog := s.localStep.2.localLog ++ [LocalWrite.mkdir c.getName] } :
                FileOperator).localStep.2 :=
            ⟨rfl, rfl, rfl, rfl, rfl, rfl, rfl, rfl, rfl, rfl, rfl⟩
          have h1 := h0.then_commit (commit_recursiveDownloadFolderEmitHelper c e _)
          split
          · exact h1
          · exact h1.then_commit (commit_recursiveDownloadFolderEmitChildren cs _ _)
    · split
      · have h1 := commit_emitBufferToFile s c e
        split
        · exact h1
        · exact h1.then_commit (commit_recursiveDownloadFolderEmitChildren cs _ _)
      · exact commit_recursiveDownloadFolderEmitChildren cs e s
end

end FileOperator

/-! ## The retry driver of the recursive download -/

theorem fileNodesChange_idle (s : FileOperator) (ref : FileNodeRef)
    (h : s.currentRecursiveTask = FileOp_RecursiveTask.NONE) :
    s.fileNodesChange ref = s.emit (Signal.fileSystemChange ref) := by
  unfold FileOperator.fileNodesChange FileOperator.performingRecursiveDownload
    FileOperator.performingRecursiveUpload
  have h1 : (s.emit (Signal.fileSystemChange ref)).currentRecursiveTask =
      FileOp_RecursiveTask.NONE := h
  simp only [h1]
  rfl

/-- C12: with the remembered remote head in the mirror, `recursiveDownloadProcessRetry`
runs the retrieval walk first.  When the walk is unsatisfied nothing else happens: no
local write, no event, the flag and the top-level lock as before.  When it is satisfied
the commit runs once, and whatever its outcome the flag becomes NONE, the lock is released
and exactly one operation-finished event is emitted, with status GOOD when the commit
succeeded and with the status UNCLASSIFIED, which is not GOOD, when it failed; nothing is
called any more and a later change notification does not re-enter the walk. -/
theorem recursiveDownloadProcessRetry_commits_when_satisfied (s : FileOperator)
    (head : FileTreeNode) (hhead : s.remoteHeadNode = some head) :
    ((FileOperator.recursiveDownloadRetrivalHelper head s).1 = false →
        s.recursiveDownloadProcessRetry = (FileOperator.recursiveDownloadRetrivalHelper head s).2 ∧
          s.recursiveDownloadProcessRetry.localLog = s.localLog ∧
          s.recursiveDownloadProcessRetry.localOutcomes = s.localOutcomes ∧
          s.recursiveDownloadProcessRetry.signals = s.signals ∧
          s.recursiveDownloadProcessRetry.currentRecursiveTask = s.currentRecursiveTask ∧
          s.recursiveDownloadProcessRetry.fileOpPending = s.fileOpPending) ∧
      ((FileOperator.recursiveDownloadRetrivalHelper head s).1 = true →
        s.recursiveDownloadProcessRetry.currentRecursiveTask = FileOp_RecursiveTask.NONE ∧
          s.recursiveDownloadProcessRetry.fileOpPending = s.fileOpPending.release ∧
          s.recursiveDownloadProcessRetry.fileOpPending.lockClosed = false ∧
          s.recursiveDownloadProcessRetry.signals =
            s.signals ++ [Signal.fileOpDone
              (if (FileOperator.recursiveDownloadFolderEmitHelper head RecursiveErrorCodes.NONE
                  (FileOperator.recursiveDownloadRetrivalHelper head s).2).1 = true
                then RequestState.GOOD else RequestState.UNCLASSIFIED)] ∧
          RequestState.UNCLASSIFIED ≠ RequestState.GOOD ∧
          s.recursiveDownloadProcessRetry.localLog =
            (FileOperator.recursiveDownloadFolderEmitHelper head RecursiveErrorCodes.NONE
              (FileOperator.recursiveDownloadRetrivalHelper head s).2).2.2.localLog ∧
          s.recursiveDownloadProcessRetry.calls =
            (FileOperator.recursiveDownloadRetrivalHelper head s).2.calls ∧
          (∀ ref, s.recursiveDownloadProcessRetry.fileNodesChange ref =
            s.recursiveDownloadProcessRetry.emit (Signal.fileSystemChange ref))) := by
  have hw := FileOperator.frame_recursiveDownloadRetrivalHelper head s
  have hc := FileOperator.commit_recursiveDownloadFolderEmitHelper head RecursiveErrorCodes.NONE
    (FileOperator.recursiveDownloadRetrivalHelper head s).2
  constructor
  · intro hf
    have key : s.recursiveDownloadProcessRetry =
        (FileOperator.recursiveDownloadRetrivalHelper head s).2 := by
      unfold FileOperator.recursiveDownloadProcessRetry
      rw [hhead]
      simp only [hf, Bool.false_eq_true, if_false]
    rw [key]
    exact ⟨rfl, hw.localLog, hw.localOutcomes, hw.signals, hw.currentRecursiveTask,
      hw.fileOpPending⟩
  · intro ht
    have key : s.recursiveDownloadProcessRetry =
        (({ (FileOperator.recursiveDownloadFolderEmitHelper head RecursiveErrorCodes.NONE
              (FileOperator.recursiveDownloadRetrivalHelper head s).2).2.2 with
            currentRecursiveTask := FileOp_RecursiveTask.NONE } :
          FileOperator).releaseFileOp.emit
          (Signal.fileOpDone
            (if (FileOperator.recursiveDownloadFolderEmitHelper head RecursiveErrorCodes.NONE
                (FileOperator.recursiveDownloadRetrivalHelper head s).2).1 = true
              then RequestState.GOOD else RequestState.UNCLASSIFIED))) := by
      unfold FileOperator.recursiveDownloadProcessRetry
      rw [hhead]
      simp only [ht, if_true]
      split <;> rfl
    have hflag : s.recursiveDownloadProcessRetry.currentRecursiveTask =
        FileOp_RecursiveTask.NONE := by rw [key]; rfl
    refine ⟨hflag, ?_, ?_, ?_, by decide, ?_, ?_, fun ref => fileNodesChange_idle _ ref hflag⟩
    · rw [key]
      show EasyBoolLock.release (FileOperator.fileOpPending _) = _
      congr 1
      exact hc.fileOpPending.trans hw.fileOpPending
    · rw [key]; rfl
    · rw [key]
      show FileOperator.signals _ ++ _ = _
      congr 1
      exact hc.signals.trans hw.signals
    · rw [key]; rfl
    · rw [key]
      exact hc.calls

/-- Witness for C12: the download of `/home` is re-entered while the buffers of its two
files are missing. -/
theorem recursiveDownloadProcessRetry_commits_when_satisfied_witness :
    ({ Example.start with recursiveRemoteHead := some ["home"] } :
        FileOperator).recursiveDownloadProcessRetry.localLog = [] :=
  ((recursiveDownloadProcessRetry_commits_when_satisfied
    ({ Example.start with recursiveRemoteHead := some ["home"] } : FileOperator)
    Example.home rfl).1 (by decide)).2.1


/-! ## The checks of the recursive triggers -/

theorem rejected_after_release (s X : FileOperator) (st : RequestState)
    (hflag : X.currentRecursiveTask = FileOp_RecursiveTask.NONE) (hc : X.calls = s.calls)
    (hp : X.pending = s.pending) (hs : X.signals = s.signals) (hst : st ≠ RequestState.GOOD) :
    FileOperator.RejectedWith s (X.releaseFileOp.emit (Signal.fileOpDone st)) st :=
  ⟨rfl, hflag, hc, hp, by show X.signals ++ _ = _; rw [hs], hst⟩

theorem enactRecursiveDownload_claimed (s : FileOperator) (ref : FileNodeRef) (dest : String)
    (hext : s.fileNodeExtant ref = true)
    (hflag : s.currentRecursiveTask = FileOp_RecursiveTask.NONE)
    (hopen : s.fileOpPending.lockClosed = false) :
    s.enactRecursiveDownload ref dest =
      ({ s with fileOpPending :=
          { s.fileOpPending with myValue := true, claimed := s.fileOpPending.claimed + 1 } } :
        FileOperator).enactRecursiveDownloadChecks ref dest := by
  have hne : (!s.fileNodeExtant ref) = false := by rw [hext]; rfl
  have hclaim := claim_unlocked s.fileOpPending hopen
  unfold FileOperator.enactRecursiveDownload
  simp only [hne, hclaim, hflag, Bool.false_eq_true, if_false, Bool.not_true, ne_eq,
    not_true_eq_false]

theorem enactRecursiveUpload_claimed (s : FileOperator) (ref : FileNodeRef) (src : QDir)
    (hext : s.fileNodeExtant ref = true)
    (hflag : s.currentRecursiveTask = FileOp_RecursiveTask.NONE)
    (hopen : s.fileOpPending.lockClosed = false)
    (hsec : s.recursivefileOpPending.lockClosed = false) :
    s.enactRecursiveUpload ref src =
      ({ s with fileOpPending :=
          { s.fileOpPending with myValue := true, claimed := s.fileOpPending.claimed + 1 }
                recursiveLocalHead := src } :
        FileOperator).enactRecursiveUploadChecks ref := by
  have hne : (!s.fileNodeExtant ref) = false := by rw [hext]; rfl
  have hclaim := claim_unlocked s.fileOpPending hopen
  unfold FileOperator.enactRecursiveUpload
  simp only [hne, hclaim, hflag, hsec, Bool.false_eq_true, if_false, Bool.not_true, ne_eq,
    not_true_eq_false]

theorem enactRecursiveUpload_notReady (s : FileOperator) (ref : FileNodeRef) (src : QDir)
    (hext : s.fileNodeExtant ref = true)
    (hflag : s.currentRecursiveTask = FileOp_RecursiveTask.NONE)
    (hopen : s.fileOpPending.lockClosed = false)
    (hsec : s.recursivefileOpPending.lockClosed = true) :
    s.enactRecursiveUpload ref src =
      ({ s with fileOpPending :=
          { s.fileOpPending with myValue := true, claimed := s.fileOpPending.claimed + 1 } } :
        FileOperator).releaseFileOp.emit (Signal.fileOpDone RequestState.NOT_READY) := by
  have hne : (!s.fileNodeExtant ref) = false := by rw [hext]; rfl
  have hclaim := claim_unlocked s.fileOpPending hopen
  unfold FileOperator.enactRecursiveUpload
  simp only [hne, hclaim, hflag, hsec, Bool.false_eq_true, if_false, Bool.not_true, ne_eq,
    not_true_eq_false, if_true]


theorem ite_not_eq_false {α : Type} (b : Bool) (x y : α) (h : b = false) :
    (if (!b) = true then x else y) = x := by
  subst h; rfl

theorem ite_not_eq_true {α : Type} (b : Bool) (x y : α) (h : b = true) :
    (if (!b) = true then x else y) = y := by
  subst h; rfl

/-- The checks of the recursive download, from the state `X` in which the lock is claimed:
each failing check ends in a release and one event, the passing ones in the walk. -/
theorem enactRecursiveDownloadChecks_cases (X : FileOperator) (ref : FileNodeRef)
    (dest : String) :
    (ref.fileType ≠ FileType.DIR →
      X.enactRecursiveDownloadChecks ref dest =
        X.releaseFileOp.emit (Signal.fileOpDone RequestState.INVALID_PARAM)) ∧
    (ref.fileType = FileType.DIR → X.localOutcome 0 = false →
      X.enactRecursiveDownloadChecks ref dest =
        X.localStep.2.releaseFileOp.emit (Signal.fileOpDone RequestState.LOCAL_FILE_ERROR)) ∧
    (ref.fileType = FileType.DIR → X.localOutcome 0 = true → X.localOutcome 1 = false →
      X.enactRecursiveDownloadChecks ref dest =
        X.localStep.2.localStep.2.releaseFileOp.emit
          (Signal.fileOpDone RequestState.LOCAL_FILE_ERROR)) ∧
    (ref.fileType = FileType.DIR → X.localOutcome 0 = true → X.localOutcome 1 = true →
      X.localOutcome 2 = false →
      X.enactRecursiveDownloadChecks ref dest =
        X.localStep.2.localStep.2.localStep.2.releaseFileOp.emit
          (Signal.fileOpDone RequestState.LOCAL_FILE_ERROR)) ∧
    (ref.fileType = FileType.DIR → X.localOutcome 0 = true → X.localOutcome 1 = true →
      X.localOutcome 2 = true → X.localOutcome 3 = false →
      ∃ Y : FileOperator,
        X.enactRecursiveDownloadChecks ref dest =
          Y.releaseFileOp.emit (Signal.fileOpDone RequestState.LOCAL_FILE_ERROR) ∧
        Y.currentRecursiveTask = X.currentRecursiveTask ∧ Y.calls = X.calls ∧
        Y.pending = X.pending ∧ Y.signals = X.signals) ∧
    (ref.fileType = FileType.DIR → X.localOutcome 0 = true → X.localOutcome 1 = true →
      X.localOutcome 2 = true → X.localOutcome 3 = true →
      ∃ Y : FileOperator,
        X.enactRecursiveDownloadChecks ref dest = Y.recursiveDownloadProcessRetry ∧
        Y.currentRecursiveTask = FileOp_RecursiveTask.DOWNLOAD ∧
        Y.fileOpPending = X.fileOpPending ∧
        Y.recursiveRemoteHead =
          (X.getFileNodeFromNodeRef ref X.verifyDefault).map (fun _ => ref.fullPath) ∧
        Y.signals = X.signals ++ [Signal.fileOpStarted] ∧ Y.calls = X.calls) := by
  refine ⟨?_, ?_, ?_, ?_, ?_, ?_⟩
  · intro hk
    unfold FileOperator.enactRecursiveDownloadChecks
    rw [if_pos hk]
  · intro hk h0
    simp only [FileOperator.localOutcome, FileOperator.localStep] at h0
    unfold FileOperator.enactRecursiveDownloadChecks
    simp only [FileOperator.localStep, h0, hk, ne_eq, not_true_eq_false, if_false,
      Bool.not_true, Bool.not_false, Bool.false_eq_true, if_true]
  · intro hk h0 h1
    simp only [FileOperator.localOutcome, FileOperator.localStep] at h0 h1
    unfold FileOperator.enactRecursiveDownloadChecks FileOperator.enactRecursiveDownloadFree
    simp only [FileOperator.localStep, h0, h1, hk, ne_eq, not_true_eq_false, if_false,
      Bool.not_true, Bool.not_false, Bool.false_eq_true, if_true]
  · intro hk h0 h1 h2
    simp only [FileOperator.localOutcome, FileOperator.localStep] at h0 h1 h2
    unfold FileOperator.enactRecursiveDownloadChecks FileOperator.enactRecursiveDownloadFree
      FileOperator.enactRecursiveDownloadCreate
    simp only [FileOperator.localStep, h0, h1, h2, hk, ne_eq, not_true_eq_false, if_false,
      Bool.not_true, Bool.not_false, Bool.false_eq_true, if_true]
  · intro hk h0 h1 h2 h3
    simp only [FileOperator.localOutcome, FileOperator.localStep] at h0 h1 h2 h3
    unfold FileOperator.enactRecursiveDownloadChecks FileOperator.enactRecursiveDownloadFree
      FileOperator.enactRecursiveDownloadCreate FileOperator.enactRecursiveDownloadEnter
    simp only [FileOperator.localStep, h0, h1, h2, h3, hk, ne_eq, not_true_eq_false, if_false,
      Bool.not_true, Bool.not_false, Bool.false_eq_true, if_true]
    exact ⟨_, rfl, rfl, rfl, rfl, rfl⟩
  · intro hk h0 h1 h2 h3
    simp only [FileOperator.localOutcome, FileOperator.localStep] at h0 h1 h2 h3
    unfold FileOperator.enactRecursiveDownloadChecks FileOperator.enactRecursiveDownloadFree
      FileOperator.enactRecursiveDownloadCreate FileOperator.enactRecursiveDownloadEnter
    simp only [FileOperator.localStep, h0, h1, h2, h3, hk, ne_eq, not_true_eq_false, if_false,
      Bool.not_true, Bool.not_false, Bool.false_eq_true, if_true]
    exact ⟨_, rfl, rfl, rfl, rfl, rfl, rfl⟩

/-- The checks of the recursive upload, from the state `X` in which the lock is claimed
and `recursiveLocalHead` is set. -/
theorem enactRecursiveUploadChecks_cases (X : FileOperator) (ref : FileNodeRef) :
    (X.recursiveLocalHead.dirExists = false →
      X.enactRecursiveUploadChecks ref =
        X.releaseFileOp.emit (Signal.fileOpDone RequestState.INVALID_PARAM)) ∧
    (X.recursiveLocalHead.dirExists = true → X.recursiveLocalHead.isReadable = false →
      X.enactRecursiveUploadChecks ref =
        X.releaseFileOp.emit (Signal.fileOpDone RequestState.LOCAL_FILE_ERROR)) ∧
    (X.recursiveLocalHead.dirExists = true → X.recursiveLocalHead.isReadable = true →
      (X.recursiveLocalHead.dirName.isEmpty = true ∨ ref.fileType ≠ FileType.DIR ∨
        X.folderContentsLoaded ref = false ∨
        (X.getChildWithName ref X.recursiveLocalHead.dirName).isNil = false) →
      X.enactRecursiveUploadChecks ref =
        X.releaseFileOp.emit (Signal.fileOpDone RequestState.INVALID_PARAM)) ∧
    (X.recursiveLocalHead.dirExists = true → X.recursiveLocalHead.isReadable = true →
      X.recursiveLocalHead.dirName.isEmpty = false → ref.fileType = FileType.DIR →
      X.folderContentsLoaded ref = true →
      (X.getChildWithName ref X.recursiveLocalHead.dirName).isNil = true →
      X.enactRecursiveUploadChecks ref =
        (({ X with
            recursiveRemoteHead :=
              (X.getFileNodeFromNodeRef ref X.verifyDefault).map (fun _ => ref.fullPath)
            currentRecursiveTask := FileOp_RecursiveTask.UPLOAD } : FileOperator).emit
          Signal.fileOpStarted).recursiveUploadProcessRetry) := by
  refine ⟨?_, ?_, ?_, ?_⟩
  · intro h1
    unfold FileOperator.enactRecursiveUploadChecks
    rw [ite_not_eq_false _ _ _ h1]
  · intro h1 h2
    unfold FileOperator.enactRecursiveUploadChecks
    rw [ite_not_eq_true _ _ _ h1, ite_not_eq_false _ _ _ h2]
  · intro h1 h2 h3
    unfold FileOperator.enactRecursiveUploadChecks
    rw [ite_not_eq_true _ _ _ h1, ite_not_eq_true _ _ _ h2]
    repeat' split
    all_goals first
      | rfl
      | (exfalso
         rcases h3 with h3 | h3 | h3 | h3
         · simp_all
         · simp_all
         · simp_all
         · simp_all)
  · intro h1 h2 h3 h4 h5 h6
    unfold FileOperator.enactRecursiveUploadChecks
    rw [ite_not_eq_true _ _ _ h1, ite_not_eq_true _ _ _ h2, if_neg (by rw [h3]; decide),
      if_neg (not_not.mpr h4), ite_not_eq_true _ _ _ h5, if_neg (by rw [h6]; decide)]

/-- C17: `enactRecursiveDownload` and `enactRecursiveUpload` on a reference that resolves,
requested while no recursive task runs and the top-level lock is open.  Every check that
fails after the claim leaves the lock open, the flag NONE and the calls as they were, and
adds exactly one operation-finished event, whose status is not GOOD.  Download:
INVALID_PARAM for a target that is no directory; LOCAL_FILE_ERROR when the destination
does not exist, holds an entry of the target's name already, cannot take the new folder or
the new folder cannot be entered (the four local steps, in this order).  Upload: NOT_READY
while the secondary lock is held; INVALID_PARAM for a source that does not exist;
LOCAL_FILE_ERROR for an unreadable one; INVALID_PARAM for an unnamed source, a
destination that is no directory, is not loaded or has a child of the source's name.
When every check passes the flag is set to DOWNLOAD, respectively UPLOAD, with the lock
held and the operation-started event emitted, and the walk is entered from that state. -/
theorem recursive_triggers_validate (s : FileOperator) (ref : FileNodeRef)
    (hext : s.fileNodeExtant ref = true)
    (hflag : s.currentRecursiveTask = FileOp_RecursiveTask.NONE)
    (hopen : s.fileOpPending.lockClosed = false) :
    (∀ dest : String,
      (ref.fileType ≠ FileType.DIR →
        FileOperator.RejectedWith s (s.enactRecursiveDownload ref dest)
          RequestState.INVALID_PARAM) ∧
      (ref.fileType = FileType.DIR → s.localOutcome 0 = false →
        FileOperator.RejectedWith s (s.enactRecursiveDownload ref dest)
          RequestState.LOCAL_FILE_ERROR) ∧
      (ref.fileType = FileType.DIR → s.localOutcome 0 = true → s.localOutcome 1 = false →
        FileOperator.RejectedWith s (s.enactRecursiveDownload ref dest)
          RequestState.LOCAL_FILE_ERROR) ∧
      (ref.fileType = FileType.DIR → s.localOutcome 0 = true → s.localOutcome 1 = true →
        s.localOutcome 2 = false →
        FileOperator.RejectedWith s (s.enactRecursiveDownload ref dest)
          RequestState.LOCAL_FILE_ERROR) ∧
      (ref.fileType = FileType.DIR → s.localOutcome 0 = true → s.localOutcome 1 = true →
        s.localOutcome 2 = true → s.localOutcome 3 = false →
        FileOperator.RejectedWith s (s.enactRecursiveDownload ref dest)
          RequestState.LOCAL_FILE_ERROR) ∧
      (ref.fileType = FileType.DIR → s.localOutcome 0 = true → s.localOutcome 1 = true →
        s.localOutcome 2 = true → s.localOutcome 3 = true →
        ∃ s2 : FileOperator,
          s.enactRecursiveDownload ref dest = s2.recursiveDownloadProcessRetry ∧
            s2.currentRecursiveTask = FileOp_RecursiveTask.DOWNLOAD ∧
            s2.fileOpPending.lockClosed = true ∧
            s2.recursiveRemoteHead = some ref.fullPath ∧
            s2.signals = s.signals ++ [Signal.fileOpStarted] ∧ s2.calls = s.calls)) ∧
    (∀ src : QDir,
      (s.recursivefileOpPending.lockClosed = true →
        FileOperator.RejectedWith s (s.enactRecursiveUpload ref src)
          RequestState.NOT_READY) ∧
      (s.recursivefileOpPending.lockClosed = false → src.dirExists = false →
        FileOperator.RejectedWith s (s.enactRecursiveUpload ref src)
          RequestState.INVALID_PARAM) ∧
      (s.recursivefileOpPending.lockClosed = false → src.dirExists = true →
        src.isReadable = false →
        FileOperator.RejectedWith s (s.enactRecursiveUpload ref src)
          RequestState.LOCAL_FILE_ERROR) ∧
      (s.recursivefileOpPending.lockClosed = false → src.dirExists = true →
        src.isReadable = true →
        (src.dirName.isEmpty = true ∨ ref.fileType ≠ FileType.DIR ∨
          s.folderContentsLoaded ref = false ∨
          (s.getChildWithName ref src.dirName).isNil = false) →
        FileOperator.RejectedWith s (s.enactRecursiveUpload ref src)
          RequestState.INVALID_PARAM) ∧
      (s.recursivefileOpPending.lockClosed = false → src.dirExists = true →
        src.isReadable = true → src.dirName.isEmpty = false → ref.fileType = FileType.DIR →
        s.folderContentsLoaded ref = true →
        (s.getChildWithName ref src.dirName).isNil = true →
        ∃ s2 : FileOperator,
          s.enactRecursiveUpload ref src = s2.recursiveUploadProcessRetry ∧
            s2.currentRecursiveTask = FileOp_RecursiveTask.UPLOAD ∧
            s2.fileOpPending.lockClosed = true ∧
            s2.recursiveRemoteHead = some ref.fullPath ∧
            s2.recursiveLocalHead = src ∧
            s2.signals = s.signals ++ [Signal.fileOpStarted] ∧ s2.calls = s.calls)) := by
  have hres : (s.getFileNodeFromNodeRef ref s.verifyDefault).map (fun _ => ref.fullPath) =
      some ref.fullPath := by
    unfold FileOperator.fileNodeExtant FileOperator.fileStillExtant at hext
    cases hg : s.getFileNodeFromNodeRef ref s.verifyDefault with
    | none => rw [hg] at hext; simp at hext
    | some n => rfl
  constructor
  · intro dest
    rw [enactRecursiveDownload_claimed s ref dest hext hflag hopen]
    have hcs := enactRecursiveDownloadChecks_cases
      ({ s with fileOpPending :=
          { s.fileOpPending with myValue := true, claimed := s.fileOpPending.claimed + 1 } } :
        FileOperator) ref dest
    refine ⟨?_, ?_, ?_, ?_, ?_, ?_⟩
    · intro hk
      rw [hcs.1 hk]
      exact rejected_after_release s _ _ hflag rfl rfl rfl (by decide)
    · intro hk h0
      rw [hcs.2.1 hk h0]
      exact rejected_after_release s _ _ hflag rfl rfl rfl (by decide)
    · intro hk h0 h1
      rw [hcs.2.2.1 hk h0 h1]
      exact rejected_after_release s _ _ hflag rfl rfl rfl (by decide)
    · intro hk h0 h1 h2
      rw [hcs.2.2.2.1 hk h0 h1 h2]
      exact rejected_after_release s _ _ hflag rfl rfl rfl (by decide)
    · intro hk h0 h1 h2 h3
      obtain ⟨Y, hY, hf, hc, hp, hs⟩ := hcs.2.2.2.2.1 hk h0 h1 h2 h3
      rw [hY]
      exact rejected_after_release s Y _ (hf.trans hflag) hc hp hs (by decide)
    · intro hk h0 h1 h2 h3
      obtain ⟨Y, hY, hf, hl, hh, hs, hc⟩ := hcs.2.2.2.2.2 hk h0 h1 h2 h3
      exact ⟨Y, hY, hf, by rw [hl]; rfl, hh.trans hres, hs, hc⟩
  · intro src
    refine ⟨?_, ?_⟩
    · intro hsec
      rw [enactRecursiveUpload_notReady s ref src hext hflag hopen hsec]
      exact rejected_after_release s _ _ hflag rfl rfl rfl (by decide)
    · have hcs := enactRecursiveUploadChecks_cases
        ({ s with fileOpPending :=
            { s.fileOpPending with myValue := true, claimed := s.fileOpPending.claimed + 1 }
                  recursiveLocalHead := src } : FileOperator) ref
      refine ⟨?_, ?_, ?_, ?_⟩
      · intro hsec h1
        rw [enactRecursiveUpload_claimed s ref src hext hflag hopen hsec, hcs.1 h1]
        exact rejected_after_release s _ _ hflag rfl rfl rfl (by decide)
      · intro hsec h1 h2
        rw [enactRecursiveUpload_claimed s ref src hext hflag hopen hsec, hcs.2.1 h1 h2]
        exact rejected_after_release s _ _ hflag rfl rfl rfl (by decide)
      · intro hsec h1 h2 h3
        rw [enactRecursiveUpload_claimed s ref src hext hflag hopen hsec, hcs.2.2.1 h1 h2 h3]
        exact rejected_after_release s _ _ hflag rfl rfl rfl (by decide)
      · intro hsec h1 h2 h3 h4 h5 h6
        rw [enactRecursiveUpload_claimed s ref src hext hflag hopen hsec,
          hcs.2.2.2 h1 h2 h3 h4 h5 h6]
        exact ⟨_, rfl, rfl, rfl, hres, rfl, rfl, rfl⟩

/-- Witness for C17: the recursive download of the file `a.txt` right after start-up is
turned down as an invalid parameter; the upload of `proj` into `/home` is started. -/
theorem recursive_triggers_validate_witness :
    (Example.start.enactRecursiveDownload Example.fileA.getFileData "/tmp/dest").signals =
        [Signal.fileOpDone RequestState.INVALID_PARAM] ∧
      ∃ s2 : FileOperator,
        Example.start.enactRecursiveUpload Example.homeRef Example.proj =
            s2.recursiveUploadProcessRetry ∧
          s2.currentRecursiveTask = FileOp_RecursiveTask.UPLOAD ∧
          s2.fileOpPending.lockClosed = true :=
  ⟨(((recursive_triggers_validate Example.start Example.fileA.getFileData (by decide)
      (by decide) (by decide)).1 "/tmp/dest").1 (by decide)).signals,
    match ((recursive_triggers_validate Example.start Example.homeRef (by decide)
      (by decide) (by decide)).2 Example.proj).2.2.2.2 (by decide) (by decide) (by decide)
      (by decide) (by decide) (by decide) (by decide) with
    | ⟨s2, h1, h2, h3, _⟩ => ⟨s2, h1, h2, h3⟩⟩


/-! ## Lookups along a path -/

namespace FileTreeNode

theorem descend_append : ∀ (p q : List String) (n : FileTreeNode),
    n.descend (p ++ q) = (n.descend p).bind (fun m => m.descend q)
  | [], q, n => rfl
  | c :: cs, q, n => by
    simp only [List.cons_append, descend]
    cases n.getChildNodeWithName c with
    | none => rfl
    | some ch => exact descend_append cs q ch

theorem descend_snoc (p : List String) (c : String) (n : FileTreeNode) :
    n.descend (p ++ [c]) = (n.descend p).bind (fun m => m.getChildNodeWithName c) := by
  rw [descend_append]
  congr 1
  funext m
  simp only [descend]
  cases m.getChildNodeWithName c <;> rfl

/-- A node found at a path of at least two components is the child, under the last
component, of the node found at the path without it. -/
theorem getNodeWithName_parent (root : FileTreeNode) (p : Path) (node : FileTreeNode)
    (h : root.getNodeWithName p = some node) (hp : 2 ≤ p.length) :
    ∃ parent c, p = p.dropLast ++ [c] ∧ root.getNodeWithName p.dropLast = some parent ∧
      parent.getChildNodeWithName c = some node := by
  cases p with
  | nil => cases h
  | cons r rest =>
    have hne : rest ≠ [] := by
      intro h0; subst h0; simp at hp
    obtain ⟨c, hc⟩ : ∃ c, rest = rest.dropLast ++ [c] :=
      ⟨rest.getLast hne, (List.dropLast_append_getLast hne).symm⟩
    have hd : (r :: rest).dropLast = r :: rest.dropLast := by
      cases rest with
      | nil => exact absurd rfl hne
      | cons a as => rfl
    simp only [getNodeWithName] at h
    by_cases hr : (r == root.getName) = true
    · rw [if_pos hr, hc, descend_snoc] at h
      cases hpar : root.descend rest.dropLast with
      | none => rw [hpar] at h; cases h
      | some parent =>
        rw [hpar] at h
        refine ⟨parent, c, ?_, ?_, h⟩
        · rw [hd, List.cons_append, ← hc]
        · rw [hd]
          simp only [getNodeWithName, if_pos hr]
          exact hpar
    · rw [if_neg hr] at h; cases h

/-- A node found at a path of one component is the root. -/
theorem getNodeWithName_root (root : FileTreeNode) (p : Path) (node : FileTreeNode)
    (h : root.getNodeWithName p = some node) (hp : p.length ≤ 1) : node = root := by
  cases p with
  | nil => cases h
  | cons r rest =>
    cases rest with
    | nil =>
      simp only [getNodeWithName] at h
      by_cases hr : (r == root.getName) = true
      · rw [if_pos hr] at h
        simp only [descend, Option.some.injEq] at h
        exact h.symm
      · rw [if_neg hr] at h; cases h
    | cons a as => simp at hp

theorem descendClosest_of_descend : ∀ (q : List String) (n m : FileTreeNode),
    n.descend q = some m → n.descendClosest q = m
  | [], n, m, h => by
    simp only [descend, Option.some.injEq] at h
    exact h
  | c :: cs, n, m, h => by
    simp only [descend] at h
    simp only [descendClosest]
    cases hx : n.getChildNodeWithName c with
    | none => rw [hx] at h; cases h
    | some ch =>
      rw [hx] at h
      exact descendClosest_of_descend cs ch m h

/-- The closest node is the deepest one on the path: it is found after some components,
and the next component, if there is one, is no child of it. -/
theorem descendClosest_deepest : ∀ (q : List String) (n : FileTreeNode),
    ∃ k, k ≤ q.length ∧ n.descend (q.take k) = some (n.descendClosest q) ∧
      (k < q.length → n.descend (q.take (k + 1)) = none)
  | [], n => ⟨0, Nat.le_refl _, rfl, fun h => absurd h (Nat.lt_irrefl _)⟩
  | c :: cs, n => by
    cases hx : n.getChildNodeWithName c with
    | none =>
      refine ⟨0, Nat.zero_le _, ?_, fun _ => ?_⟩
      · simp only [List.take_zero, descend, descendClosest, hx]
      · simp only [List.take_succ_cons, List.take_zero, descend, hx]
    | some ch =>
      obtain ⟨k, hk, h1, h2⟩ := descendClosest_deepest cs ch
      refine ⟨k + 1, Nat.succ_le_succ hk, ?_, fun hlt => ?_⟩
      · simp only [List.take_succ_cons, descend, descendClosest, hx]
        exact h1
      · simp only [List.take_succ_cons, descend, hx]
        exact h2 (Nat.lt_of_succ_lt_succ hlt)

theorem getClosestNodeWithName_of_found (root : FileTreeNode) (p : Path) (node : FileTreeNode)
    (h : root.getNodeWithName p = some node) : root.getClosestNodeWithName p = some node := by
  cases p with
  | nil => cases h
  | cons r rest =>
    simp only [getNodeWithName] at h
    simp only [getClosestNodeWithName]
    by_cases hr : (r == root.getName) = true
    · rw [if_pos hr] at h
      rw [if_pos hr, descendClosest_of_descend rest root node h]
    · rw [if_neg hr] at h; cases h

theorem getClosestNodeWithName_deepest (root : FileTreeNode) (p : Path)
    (closest : FileTreeNode) (h : root.getClosestNodeWithName p = some closest) :
    ∃ k, 0 < k ∧ k ≤ p.length ∧ root.getNodeWithName (p.take k) = some closest ∧
      (k < p.length → root.getNodeWithName (p.take (k + 1)) = none) := by
  cases p with
  | nil => cases h
  | cons r rest =>
    simp only [getClosestNodeWithName] at h
    by_cases hr : (r == root.getName) = true
    · rw [if_pos hr] at h
      simp only [Option.some.injEq] at h
      obtain ⟨k, hk, h1, h2⟩ := descendClosest_deepest rest root
      refine ⟨k + 1, Nat.succ_pos _, Nat.succ_le_succ hk, ?_, fun hlt => ?_⟩
      · simp only [List.take_succ_cons, getNodeWithName, if_pos hr]
        rw [h1, h]
      · simp only [List.take_succ_cons, getNodeWithName, if_pos hr]
        exact h2 (Nat.lt_of_succ_lt_succ hlt)
    · rw [if_neg hr] at h; cases h

end FileTreeNode

/-! ## The refresh requested by a good reply -/

/-- A refresh makes no call or one list call, for the stored path of the node that the
reference resolves to. -/
theorem enactFolderRefresh_calls (s : FileOperator) (ref : FileNodeRef) (c : Bool) :
    (s.enactFolderRefresh ref c).calls = s.calls ∨
      ∃ n, s.getFileNodeFromNodeRef ref s.verifyDefault = some n ∧
        (s.enactFolderRefresh ref c).calls =
          s.calls ++ [RemoteCall.remoteLS n.getFileData.fullPath] := by
  cases hnode : s.getFileNodeFromNodeRef ref s.verifyDefault with
  | none =>
    left
    unfold FileOperator.enactFolderRefresh
    rw [hnode]
  | some n =>
    cases hm : n.haveLStask with
    | true => exact Or.inl (enactFolderRefresh_marked s ref c n hnode hm).1
    | false => exact Or.inr ⟨n, rfl, (enactFolderRefresh_unmarked s ref c n hnode hm).1⟩

/-- The node whose refresh `lsClosestNodeToParent` requests. -/
theorem lsClosestNodeToParent_target (s : FileOperator) (q : Path) (c : Bool) :
    (∀ node, s.rootFileNode.getNodeWithName q = some node → q.length ≤ 1 →
      node = s.rootFileNode ∧
        s.lsClosestNodeToParent q c = s.enactFolderRefresh s.rootFileNode.getFileData c) ∧
    (∀ node, s.rootFileNode.getNodeWithName q = some node → 2 ≤ q.length →
      ∃ parent name, q = q.dropLast ++ [name] ∧
        s.rootFileNode.getNodeWithName q.dropLast = some parent ∧
        parent.getChildNodeWithName name = some node ∧
        s.lsClosestNodeToParent q c = s.enactFolderRefresh parent.getFileData c) ∧
    (s.rootFileNode.getNodeWithName q = none →
      ∀ closest, s.rootFileNode.getClosestNodeWithName q = some closest →
        (∃ k, 0 < k ∧ k ≤ q.length ∧ s.rootFileNode.getNodeWithName (q.take k) = some closest ∧
          (k < q.length → s.rootFileNode.getNodeWithName (q.take (k + 1)) = none)) ∧
        s.lsClosestNodeToParent q c = s.enactFolderRefresh closest.getFileData false) := by
  refine ⟨?_, ?_, ?_⟩
  · intro node h hq
    have hroot := FileTreeNode.getNodeWithName_root _ q node h hq
    refine ⟨hroot, ?_⟩
    unfold FileOperator.lsClosestNodeToParent
    rw [h]
    simp only [if_pos hq, hroot]
  · intro node h hq
    obtain ⟨parent, name, h1, h2, h3⟩ := FileTreeNode.getNodeWithName_parent _ q node h hq
    refine ⟨parent, name, h1, h2, h3, ?_⟩
    unfold FileOperator.lsClosestNodeToParent
    rw [h]
    simp only [if_neg (Nat.not_le.mpr hq), h2]
  · intro h closest hc
    refine ⟨FileTreeNode.getClosestNodeWithName_deepest _ q closest hc, ?_⟩
    unfold FileOperator.lsClosestNodeToParent
    rw [h]
    simp only [hc]

/-- The node whose refresh `lsClosestNode` requests. -/
theorem lsClosestNode_target (s : FileOperator) (q : Path) (c : Bool) :
    (∀ node, s.rootFileNode.getNodeWithName q = some node →
      s.lsClosestNode q c = s.enactFolderRefresh node.getFileData c) ∧
    (∀ closest, s.rootFileNode.getClosestNodeWithName q = some closest →
      (∃ k, 0 < k ∧ k ≤ q.length ∧ s.rootFileNode.getNodeWithName (q.take k) = some closest ∧
        (k < q.length → s.rootFileNode.getNodeWithName (q.take (k + 1)) = none)) ∧
      s.lsClosestNode q c = s.enactFolderRefresh closest.getFileData c) := by
  refine ⟨?_, ?_⟩
  · intro node h
    unfold FileOperator.lsClosestNode
    rw [FileTreeNode.getClosestNodeWithName_of_found _ q node h]
  · intro closest hc
    refine ⟨FileTreeNode.getClosestNodeWithName_deepest _ q closest hc, ?_⟩
    unfold FileOperator.lsClosestNode
    rw [hc]

theorem lsClosestNode_calls (s : FileOperator) (q : Path) (c : Bool) :
    (s.lsClosestNode q c).calls = s.calls ∨
      ∃ p, (s.lsClosestNode q c).calls = s.calls ++ [RemoteCall.remoteLS p] := by
  unfold FileOperator.lsClosestNode
  split
  · exact Or.inl rfl
  · rename_i n _
    rcases enactFolderRefresh_calls s n.getFileData c with h | ⟨m, _, h⟩
    · exact Or.inl h
    · exact Or.inr ⟨_, h⟩

theorem lsClosestNodeToParent_calls (s : FileOperator) (q : Path) (c : Bool) :
    (s.lsClosestNodeToParent q c).calls = s.calls ∨
      ∃ p, (s.lsClosestNodeToParent q c).calls = s.calls ++ [RemoteCall.remoteLS p] := by
  have key : ∀ (ref : FileNodeRef) (c : Bool), (s.enactFolderRefresh ref c).calls = s.calls ∨
      ∃ p, (s.enactFolderRefresh ref c).calls = s.calls ++ [RemoteCall.remoteLS p] := by
    intro ref c
    rcases enactFolderRefresh_calls s ref c with h | ⟨m, _, h⟩
    · exact Or.inl h
    · exact Or.inr ⟨_, h⟩
  unfold FileOperator.lsClosestNodeToParent
  repeat' split
  all_goals first
    | exact Or.inl rfl
    | exact key _ _

theorem crashed_remoteCall (s : FileOperator) (c : RemoteCall) (slot : Slot) :
    (s.remoteCall c slot).2.crashed = s.crashed := by
  unfold FileOperator.remoteCall
  split <;> rfl

theorem crashed_refreshTail (s0 : FileOperator) (trueNode : FileTreeNode) (p : Path) :
    (if trueNode.haveLStask = true then s0
      else
        match s0.remoteCall (RemoteCall.remoteLS trueNode.getFileData.fullPath)
            (Slot.deliverLSdata p) with
        | (none, s1) => s1.totalResetErrorProcedure
        | (some h, s1) => s1.onNode p (FileTreeNode.setLStask h)).crashed = s0.crashed := by
  split
  · rfl
  · have h1 := crashed_remoteCall s0 (RemoteCall.remoteLS trueNode.getFileData.fullPath)
      (Slot.deliverLSdata p)
    split
    · rename_i heq
      rw [heq] at h1
      exact h1
    · rename_i heq
      rw [heq] at h1
      exact h1

/-- A refresh does not stop the program. -/
theorem crashed_enactFolderRefresh (s : FileOperator) (ref : FileNodeRef) (c : Bool) :
    (s.enactFolderRefresh ref c).crashed = s.crashed := by
  unfold FileOperator.enactFolderRefresh
  split
  · rfl
  · refine (crashed_refreshTail _ _ _).trans ?_
    split <;> rfl

/-- The refresh of the closest known node stops the program exactly when the path has no
closest node in the mirror. -/
theorem lsClosestNode_crashed (s : FileOperator) (q : Path) (c : Bool) :
    (∀ closest, s.rootFileNode.getClosestNodeWithName q = some closest →
      (s.lsClosestNode q c).crashed = s.crashed) ∧
    (s.rootFileNode.getClosestNodeWithName q = none → s.lsClosestNode q c = s.crash) := by
  refine ⟨fun closest h => ?_, fun h => ?_⟩
  · unfold FileOperator.lsClosestNode
    rw [h]
    exact crashed_enactFolderRefresh s _ _
  · unfold FileOperator.lsClosestNode
    rw [h]

theorem lsClosestNodeToParent_crashed (s : FileOperator) (q : Path) (c : Bool) :
    (∀ closest, s.rootFileNode.getClosestNodeWithName q = some closest →
      (s.lsClosestNodeToParent q c).crashed = s.crashed) ∧
    (s.rootFileNode.getClosestNodeWithName q = none →
      s.lsClosestNodeToParent q c = s.crash) := by
  refine ⟨fun closest h => ?_, fun h => ?_⟩
  · cases hn : s.rootFileNode.getNodeWithName q with
    | some node =>
      unfold FileOperator.lsClosestNodeToParent
      rw [hn]
      dsimp only
      repeat' split
      all_goals first
        | rfl
        | exact crashed_enactFolderRefresh s _ _
    | none =>
      unfold FileOperator.lsClosestNodeToParent
      rw [hn, h]
      exact crashed_enactFolderRefresh s _ _
  · cases hn : s.rootFileNode.getNodeWithName q with
    | some node =>
      rw [FileTreeNode.getClosestNodeWithName_of_found _ q node hn] at h
      cases h
    | none =>
      unfold FileOperator.lsClosestNodeToParent
      rw [hn, h]

theorem andThen_running (s : FileOperator) (f : FileOperator → FileOperator)
    (h : s.crashed = false) : s.andThen f = f s := by
  unfold FileOperator.andThen
  rw [h]
  rfl

theorem andThen_crashed (s : FileOperator) (f : FileOperator → FileOperator)
    (h : s.crashed = true) : s.andThen f = s := by
  unfold FileOperator.andThen
  rw [h]
  rfl

/-- The statements after a refresh that left the program running: the event is emitted,
and nothing but the refresh and the event has happened since `s0`. -/
theorem emit_after_refresh (s0 X : FileOperator) (sig : Signal)
    (hf : FileOperator.RequestFrame s0 X) (hx : X.crashed = false) :
    X.andThen (fun s2 => s2.emit sig) = X.emit sig ∧
      (X.andThen (fun s2 => s2.emit sig)).crashed = false ∧
      (X.andThen (fun s2 => s2.emit sig)).signals = s0.signals ++ [sig] ∧
      (X.andThen (fun s2 => s2.emit sig)).fileOpPending = s0.fileOpPending ∧
      (X.andThen (fun s2 => s2.emit sig)).calls = X.calls := by
  rw [andThen_running X _ hx]
  refine ⟨rfl, hx, ?_, hf.fileOpPending, rfl⟩
  show X.signals ++ [sig] = _
  rw [hf.signals]

/-- C15: on a GOOD reply the handlers of delete, of upload and upload of a buffer, and of
mkdir release the lock and request one refresh; the program running and the path of the
reply having a closest node in the mirror, they then emit one operation-finished event
with status GOOD.  For delete and upload the refresh is that of `lsClosestNodeToParent`
on the affected path: when the path resolves to the root, of the root; when it resolves to
another node, of the parent of that node; when it does not resolve, of the deepest mirror
node on the path.  For mkdir it is the refresh of `lsClosestNode` on the containing path
of the new directory: of the node of that path when it resolves, else of the deepest
mirror node on it.  Nothing else is refreshed: at most one call is made, a list call.
When the path has no closest node in the mirror, which is when it does not begin at the
root, the handler dereferences a null pointer after it has released the lock: the program
stops, nothing is called and no event is emitted. -/
theorem good_reply_refreshes_parent (s : FileOperator) (d : FileMetaData) (p : Path)
    (hrun : s.crashed = false) :
    (s.getDeleteReply RequestState.GOOD p =
        (s.releaseFileOp.lsClosestNodeToParent p false).andThen
          (fun s2 => s2.emit (Signal.fileOpDone RequestState.GOOD)) ∧
      s.getUploadReply RequestState.GOOD d =
        (s.releaseFileOp.lsClosestNodeToParent d.fullPath false).andThen
          (fun s2 => s2.emit (Signal.fileOpDone RequestState.GOOD)) ∧
      s.getMkdirReply RequestState.GOOD d =
        (s.releaseFileOp.lsClosestNode d.getContainingPath false).andThen
          (fun s2 => s2.emit (Signal.fileOpDone RequestState.GOOD))) ∧
    (∀ q : Path,
      (∀ node, s.rootFileNode.getNodeWithName q = some node → q.length ≤ 1 →
        node = s.rootFileNode ∧
          s.releaseFileOp.lsClosestNodeToParent q false =
            s.releaseFileOp.enactFolderRefresh s.rootFileNode.getFileData false) ∧
      (∀ node, s.rootFileNode.getNodeWithName q = some node → 2 ≤ q.length →
        ∃ parent name, q = q.dropLast ++ [name] ∧
          s.rootFileNode.getNodeWithName q.dropLast = some parent ∧
          parent.getChildNodeWithName name = some node ∧
          s.releaseFileOp.lsClosestNodeToParent q false =
            s.releaseFileOp.enactFolderRefresh parent.getFileData false) ∧
      (s.rootFileNode.getNodeWithName q = none →
        ∀ closest, s.rootFileNode.getClosestNodeWithName q = some closest →
          (∃ k, 0 < k ∧ k ≤ q.length ∧
            s.rootFileNode.getNodeWithName (q.take k) = some closest ∧
            (k < q.length → s.rootFileNode.getNodeWithName (q.take (k + 1)) = none)) ∧
          s.releaseFileOp.lsClosestNodeToParent q false =
            s.releaseFileOp.enactFolderRefresh closest.getFileData false) ∧
      (∀ node, s.rootFileNode.getNodeWithName q = some node →
        s.releaseFileOp.lsClosestNode q false =
          s.releaseFileOp.enactFolderRefresh node.getFileData false) ∧
      (∀ closest, s.rootFileNode.getClosestNodeWithName q = some closest →
        (∃ k, 0 < k ∧ k ≤ q.length ∧
          s.rootFileNode.getNodeWithName (q.take k) = some closest ∧
          (k < q.length → s.rootFileNode.getNodeWithName (q.take (k + 1)) = none)) ∧
        s.releaseFileOp.lsClosestNode q false =
          s.releaseFileOp.enactFolderRefresh closest.getFileData false)) ∧
    (∀ (t : FileOperator) (q : Path),
      ((t = s.getDeleteReply RequestState.GOOD p ∧ q = p) ∨
        (t = s.getUploadReply RequestState.GOOD d ∧ q = d.fullPath)) →
      (∀ closest, s.rootFileNode.getClosestNodeWithName q = some closest →
        t = (s.releaseFileOp.lsClosestNodeToParent q false).emit
            (Signal.fileOpDone RequestState.GOOD) ∧
          t.crashed = false ∧
          t.signals = s.signals ++ [Signal.fileOpDone RequestState.GOOD] ∧
          t.fileOpPending = s.fileOpPending.release ∧
          (t.calls = s.calls ∨ ∃ r, t.calls = s.calls ++ [RemoteCall.remoteLS r])) ∧
      (s.rootFileNode.getClosestNodeWithName q = none →
        t = s.releaseFileOp.crash ∧ t.crashed = true ∧ t.signals = s.signals ∧
          t.calls = s.calls ∧ t.fileOpPending = s.fileOpPending.release)) ∧
    ((∀ closest, s.rootFileNode.getClosestNodeWithName d.getContainingPath = some closest →
        s.getMkdirReply RequestState.GOOD d =
            (s.releaseFileOp.lsClosestNode d.getContainingPath false).emit
              (Signal.fileOpDone RequestState.GOOD) ∧
          (s.getMkdirReply RequestState.GOOD d).crashed = false ∧
          (s.getMkdirReply RequestState.GOOD d).signals =
            s.signals ++ [Signal.fileOpDone RequestState.GOOD] ∧
          (s.getMkdirReply RequestState.GOOD d).fileOpPending = s.fileOpPending.release ∧
          ((s.getMkdirReply RequestState.GOOD d).calls = s.calls ∨
            ∃ r, (s.getMkdirReply RequestState.GOOD d).calls =
              s.calls ++ [RemoteCall.remoteLS r])) ∧
      (s.rootFileNode.getClosestNodeWithName d.getContainingPath = none →
        s.getMkdirReply RequestState.GOOD d = s.releaseFileOp.crash ∧
          (s.getMkdirReply RequestState.GOOD d).crashed = true ∧
          (s.getMkdirReply RequestState.GOOD d).signals = s.signals ∧
          (s.getMkdirReply RequestState.GOOD d).calls = s.calls ∧
          (s.getMkdirReply RequestState.GOOD d).fileOpPending = s.fileOpPending.release)) := by
  have h1 : s.getDeleteReply RequestState.GOOD p =
      (s.releaseFileOp.lsClosestNodeToParent p false).andThen
        (fun s2 => s2.emit (Signal.fileOpDone RequestState.GOOD)) := by
    unfold FileOperator.getDeleteReply
    simp only [if_true]
  have h2 : s.getUploadReply RequestState.GOOD d =
      (s.releaseFileOp.lsClosestNodeToParent d.fullPath false).andThen
        (fun s2 => s2.emit (Signal.fileOpDone RequestState.GOOD)) := by
    unfold FileOperator.getUploadReply
    simp only [if_true]
  have h3 : s.getMkdirReply RequestState.GOOD d =
      (s.releaseFileOp.lsClosestNode d.getContainingPath false).andThen
        (fun s2 => s2.emit (Signal.fileOpDone RequestState.GOOD)) := by
    unfold FileOperator.getMkdirReply
    simp only [if_true]
  have hrel : s.releaseFileOp.crashed = false := hrun
  have parent : ∀ (t : FileOperator) (q : Path),
      t = (s.releaseFileOp.lsClosestNodeToParent q false).andThen
        (fun s2 => s2.emit (Signal.fileOpDone RequestState.GOOD)) →
      (∀ closest, s.rootFileNode.getClosestNodeWithName q = some closest →
        t = (s.releaseFileOp.lsClosestNodeToParent q false).emit
            (Signal.fileOpDone RequestState.GOOD) ∧
          t.crashed = false ∧
          t.signals = s.signals ++ [Signal.fileOpDone RequestState.GOOD] ∧
          t.fileOpPending = s.fileOpPending.release ∧
          (t.calls = s.calls ∨ ∃ r, t.calls = s.calls ++ [RemoteCall.remoteLS r])) ∧
      (s.rootFileNode.getClosestNodeWithName q = none →
        t = s.releaseFileOp.crash ∧ t.crashed = true ∧ t.signals = s.signals ∧
          t.calls = s.calls ∧ t.fileOpPending = s.fileOpPending.release) := by
    intro t q ht
    refine ⟨fun closest hc => ?_, fun hc => ?_⟩
    · have hx : (s.releaseFileOp.lsClosestNodeToParent q false).crashed = false :=
        ((lsClosestNodeToParent_crashed s.releaseFileOp q false).1 closest hc).trans hrel
      have e := emit_after_refresh s.releaseFileOp _ (Signal.fileOpDone RequestState.GOOD)
        (FileOperator.frame_lsClosestNodeToParent s.releaseFileOp q false) hx
      rw [ht]
      refine ⟨e.1, e.2.1, e.2.2.1, e.2.2.2.1, ?_⟩
      rw [e.2.2.2.2]
      exact lsClosestNodeToParent_calls s.releaseFileOp q false
    · have hx := (lsClosestNodeToParent_crashed s.releaseFileOp q false).2 hc
      rw [ht, hx, andThen_crashed _ _ rfl]
      exact ⟨rfl, rfl, rfl, rfl, rfl⟩
  refine ⟨⟨h1, h2, h3⟩, ?_, ?_, ?_, ?_⟩
  · intro q
    have a := lsClosestNodeToParent_target s.releaseFileOp q false
    have b := lsClosestNode_target s.releaseFileOp q false
    exact ⟨a.1, a.2.1, a.2.2, b.1, b.2⟩
  · intro t q ht
    rcases ht with ⟨ht, hq⟩ | ⟨ht, hq⟩
    · exact parent t q (by rw [ht, hq, h1])
    · exact parent t q (by rw [ht, hq, h2])
  · intro closest hc
    have hx : (s.releaseFileOp.lsClosestNode d.getContainingPath false).crashed = false :=
      ((lsClosestNode_crashed s.releaseFileOp d.getContainingPath false).1 closest hc).trans hrel
    have e := emit_after_refresh s.releaseFileOp _ (Signal.fileOpDone RequestState.GOOD)
      (FileOperator.frame_lsClosestNode s.releaseFileOp d.getContainingPath false) hx
    rw [h3]
    refine ⟨e.1, e.2.1, e.2.2.1, e.2.2.2.1, ?_⟩
    rw [e.2.2.2.2]
    exact lsClosestNode_calls s.releaseFileOp d.getContainingPath false
  · intro hc
    have hx := (lsClosestNode_crashed s.releaseFileOp d.getContainingPath false).2 hc
    rw [h3, hx, andThen_crashed _ _ rfl]
    exact ⟨rfl, rfl, rfl, rfl, rfl⟩

/-! ## Lookups in a mirror after a pointer write -/

namespace FileTreeNode

theorem getChildList_setLStask (h : Nat) (n : FileTreeNode) :
    (n.setLStask h).getChildList = n.getChildList := by
  cases n; rfl

theorem getChildList_setBuffTask (h : Nat) (n : FileTreeNode) :
    (n.setBuffTask h).getChildList = n.getChildList := by
  cases n; rfl

theorem getFileData_modifyBelow (f : FileTreeNode → FileTreeNode)
    (hf : ∀ n, (f n).getFileData = n.getFileData) (n : FileTreeNode) (p : List String) :
    (modifyBelow f n p).getFileData = n.getFileData := by
  cases p with
  | nil => simp only [modifyBelow, hf]
  | cons c cs => cases n; rfl

/-- A child looked up by name after `modifyChild` is the child found before, as it was or
after `g`. -/
theorem find_modifyChild_any (c name : String) (g : FileTreeNode → FileTreeNode)
    (hg : ∀ x, (g x).getName = x.getName) :
    ∀ (ch : List FileTreeNode),
      (ch.find? (fun y => y.getName == name) = none →
        (modifyChild c g ch).find? (fun y => y.getName == name) = none) ∧
      (∀ x, ch.find? (fun y => y.getName == name) = some x →
        (modifyChild c g ch).find? (fun y => y.getName == name) = some x ∨
          (modifyChild c g ch).find? (fun y => y.getName == name) = some (g x))
  | [] => ⟨fun _ => rfl, fun x h => by simp at h⟩
  | y :: ys => by
    have ih := find_modifyChild_any c name g hg ys
    by_cases hc : (y.getName == c) = true
    · simp only [modifyChild, if_pos hc]
      by_cases hn : (y.getName == name) = true
      · refine ⟨fun h => ?_, fun x h => ?_⟩
        · simp only [List.find?_cons, hn] at h
          cases h
        · simp only [List.find?_cons, hn, Option.some.injEq] at h
          subst h
          right
          simp only [List.find?_cons, hg, hn]
      · refine ⟨fun h => ?_, fun x h => ?_⟩
        · simp only [List.find?_cons, hn] at h
          simp only [List.find?_cons, hg, hn]
          exact h
        · simp only [List.find?_cons, hn] at h
          left
          simp only [List.find?_cons, hg, hn]
          exact h
    · simp only [modifyChild, if_neg hc]
      by_cases hn : (y.getName == name) = true
      · refine ⟨fun h => ?_, fun x h => ?_⟩
        · simp only [List.find?_cons, hn] at h
          cases h
        · simp only [List.find?_cons, hn, Option.some.injEq] at h
          subst h
          left
          simp only [List.find?_cons, hn]
      · refine ⟨fun h => ?_, fun x h => ?_⟩
        · simp only [List.find?_cons, hn] at h
          simp only [List.find?_cons, hn]
          exact ih.1 h
        · simp only [List.find?_cons, hn] at h
          simp only [List.find?_cons, hn]
          exact ih.2 x h

theorem getChildNodeWithName_of_getChildList (a b : FileTreeNode)
    (h : a.getChildList = b.getChildList) (name : String) :
    a.getChildNodeWithName name = b.getChildNodeWithName name := by
  unfold getChildNodeWithName
  rw [h]

theorem descend_of_getChildList (a b : FileTreeNode) (h : a.getChildList = b.getChildList)
    (c : String) (cs : List String) : a.descend (c :: cs) = b.descend (c :: cs) := by
  simp only [descend, getChildNodeWithName_of_getChildList a b h]

/-- A lookup below `n` after a write that keeps data and children of the written node:
nothing is found where nothing was, and what is found is the node found before, as it was
or after the write at or below it. -/
theorem descend_modifyBelow_any (f : FileTreeNode → FileTreeNode)
    (hf : ∀ n, (f n).getFileData = n.getFileData)
    (hc : ∀ n, (f n).getChildList = n.getChildList) :
    ∀ (p : List String) (n : FileTreeNode) (q : List String),
      (n.descend q = none → (modifyBelow f n p).descend q = none) ∧
      (∀ m, n.descend q = some m →
        ∃ m2, (modifyBelow f n p).descend q = some m2 ∧ Touched f m m2)
  | [], n, [] => ⟨fun h => by simp [descend] at h, fun m h => by
      simp only [descend, Option.some.injEq] at h
      subst h
      exact ⟨f n, by simp only [modifyBelow, descend], Or.inr ⟨[], by simp only [modifyBelow]⟩⟩⟩
  | [], n, c :: cs => by
    simp only [modifyBelow]
    rw [descend_of_getChildList (f n) n (hc n) c cs]
    exact ⟨fun h => h, fun m h => ⟨m, h, Or.inl rfl⟩⟩
  | c :: cs, mk d st b l t ch, [] => ⟨fun h => by simp [descend] at h, fun m h => by
      simp only [descend, Option.some.injEq] at h
      subst h
      exact ⟨_, rfl, Or.inr ⟨c :: cs, rfl⟩⟩⟩
  | c :: cs, mk d st b l t ch, name :: rest => by
    have hg : ∀ x, (modifyBelow f x cs).getName = x.getName :=
      fun x => getName_modifyBelow f hf x cs
    have hfind := find_modifyChild_any c name (fun x => modifyBelow f x cs) hg ch
    simp only [modifyBelow, descend, getChildNodeWithName, getChildList]
    cases hx : ch.find? (fun y => y.getName == name) with
    | none =>
      rw [hfind.1 hx]
      exact ⟨fun _ => rfl, fun m h => by cases h⟩
    | some x =>
      rcases hfind.2 x hx with h1 | h1
      · rw [h1]
        exact ⟨fun h => h, fun m h => ⟨m, h, Or.inl rfl⟩⟩
      · rw [h1]
        exact descend_modifyBelow_any f hf hc cs x rest

/-- The closest node after such a write is the closest node before, as it was or after
the write at or below it. -/
theorem descendClosest_modifyBelow_any (f : FileTreeNode → FileTreeNode)
    (hf : ∀ n, (f n).getFileData = n.getFileData)
    (hc : ∀ n, (f n).getChildList = n.getChildList) :
    ∀ (p : List String) (n : FileTreeNode) (q : List String),
      Touched f (n.descendClosest q) ((modifyBelow f n p).descendClosest q)
  | [], n, [] => Or.inr ⟨[], by simp only [modifyBelow, descendClosest]⟩
  | [], n, c :: cs => by
    simp only [modifyBelow, descendClosest]
    rw [getChildNodeWithName_of_getChildList (f n) n (hc n)]
    cases n.getChildNodeWithName c with
    | none => exact Or.inr ⟨[], by simp only [modifyBelow]⟩
    | some x => exact Or.inl rfl
  | c :: cs, mk d st b l t ch, [] => Or.inr ⟨c :: cs, rfl⟩
  | c :: cs, mk d st b l t ch, name :: rest => by
    have hg : ∀ x, (modifyBelow f x cs).getName = x.getName :=
      fun x => getName_modifyBelow f hf x cs
    have hfind := find_modifyChild_any c name (fun x => modifyBelow f x cs) hg ch
    simp only [modifyBelow, descendClosest, getChildNodeWithName, getChildList]
    cases hx : ch.find? (fun y => y.getName == name) with
    | none =>
      rw [hfind.1 hx]
      exact Or.inr ⟨c :: cs, rfl⟩
    | some x =>
      rcases hfind.2 x hx with h1 | h1
      · rw [h1]
        exact Or.inl rfl
      · rw [h1]
        exact descendClosest_modifyBelow_any f hf hc cs x rest

theorem Touched.getFileData {f : FileTreeNode → FileTreeNode}
    (hf : ∀ n, (f n).getFileData = n.getFileData) {m m2 : FileTreeNode}
    (h : Touched f m m2) : m2.getFileData = m.getFileData := by
  rcases h with h | ⟨p, h⟩
  · rw [h]
  · rw [h, getFileData_modifyBelow f hf]

theorem getNodeWithName_modifyAt_any (f : FileTreeNode → FileTreeNode)
    (hf : ∀ n, (f n).getFileData = n.getFileData)
    (hc : ∀ n, (f n).getChildList = n.getChildList) (root : FileTreeNode) (p q : Path) :
    (root.getNodeWithName q = none → (root.modifyAt p f).getNodeWithName q = none) ∧
      (∀ m, root.getNodeWithName q = some m →
        ∃ m2, (root.modifyAt p f).getNodeWithName q = some m2 ∧ Touched f m m2) := by
  cases p with
  | nil => exact ⟨fun h => h, fun m h => ⟨m, h, Or.inl rfl⟩⟩
  | cons r rest =>
    simp only [modifyAt]
    by_cases hr : (r == root.getName) = true
    · rw [if_pos hr]
      cases q with
      | nil => exact ⟨fun _ => rfl, fun m h => by cases h⟩
      | cons r2 rest2 =>
        simp only [getNodeWithName, getName_modifyBelow f hf]
        by_cases hr2 : (r2 == root.getName) = true
        · simp only [if_pos hr2]
          exact descend_modifyBelow_any f hf hc rest root rest2
        · refine ⟨fun _ => if_neg hr2, fun m h => ?_⟩
          rw [if_neg hr2] at h
          cases h
    · rw [if_neg hr]
      exact ⟨fun h => h, fun m h => ⟨m, h, Or.inl rfl⟩⟩

theorem getClosestNodeWithName_modifyAt_any (f : FileTreeNode → FileTreeNode)
    (hf : ∀ n, (f n).getFileData = n.getFileData)
    (hc : ∀ n, (f n).getChildList = n.getChildList) (root : FileTreeNode) (p q : Path) :
    (root.getClosestNodeWithName q = none →
        (root.modifyAt p f).getClosestNodeWithName q = none) ∧
      (∀ m, root.getClosestNodeWithName q = some m →
        ∃ m2, (root.modifyAt p f).getClosestNodeWithName q = some m2 ∧ Touched f m m2) := by
  cases p with
  | nil => exact ⟨fun h => h, fun m h => ⟨m, h, Or.inl rfl⟩⟩
  | cons r rest =>
    simp only [modifyAt]
    by_cases hr : (r == root.getName) = true
    · rw [if_pos hr]
      cases q with
      | nil => exact ⟨fun _ => rfl, fun m h => by cases h⟩
      | cons r2 rest2 =>
        simp only [getClosestNodeWithName, getName_modifyBelow f hf]
        by_cases hr2 : (r2 == root.getName) = true
        · refine ⟨fun h => ?_, fun m h => ?_⟩
          · rw [if_pos hr2] at h
            cases h
          · rw [if_pos hr2] at h
            simp only [Option.some.injEq] at h
            subst h
            exact ⟨_, if_pos hr2, descendClosest_modifyBelow_any f hf hc rest root rest2⟩
        · refine ⟨fun _ => if_neg hr2, fun m h => ?_⟩
          rw [if_neg hr2] at h
          cases h
    · rw [if_neg hr]
      exact ⟨fun h => h, fun m h => ⟨m, h, Or.inl rfl⟩⟩

end FileTreeNode

/-! ## Two refreshes in a row -/

theorem FileTreeNode.SameLookups.same_lookups (a : FileTreeNode) : FileTreeNode.SameLookups a a :=
  ⟨fun _ h => h, fun _ m h => ⟨m, h, rfl⟩, fun _ h => h, fun _ m h => ⟨m, h, rfl⟩⟩

theorem FileTreeNode.sameLookups_modifyAt (root : FileTreeNode) (p : Path) (h : Nat) :
    FileTreeNode.SameLookups root (root.modifyAt p (FileTreeNode.setLStask h)) := by
  have hf := FileTreeNode.getFileData_setLStask h
  have hc := FileTreeNode.getChildList_setLStask h
  refine ⟨fun q hq => ?_, fun q m hq => ?_, fun q hq => ?_, fun q m hq => ?_⟩
  · exact (FileTreeNode.getNodeWithName_modifyAt_any _ hf hc root p q).1 hq
  · obtain ⟨m2, h1, h2⟩ := (FileTreeNode.getNodeWithName_modifyAt_any _ hf hc root p q).2 m hq
    exact ⟨m2, h1, h2.getFileData hf⟩
  · exact (FileTreeNode.getClosestNodeWithName_modifyAt_any _ hf hc root p q).1 hq
  · obtain ⟨m2, h1, h2⟩ :=
      (FileTreeNode.getClosestNodeWithName_modifyAt_any _ hf hc root p q).2 m hq
    exact ⟨m2, h1, h2.getFileData hf⟩

/-- The mirror after a refresh that clears nothing: as before, or with the list marker
written to the node of the reference. -/
theorem enactFolderRefresh_mirror (s : FileOperator) (ref : FileNodeRef) :
    (s.enactFolderRefresh ref false).rootFileNode = s.rootFileNode ∨
      ∃ h, (s.enactFolderRefresh ref false).rootFileNode =
        s.rootFileNode.modifyAt ref.fullPath (FileTreeNode.setLStask h) := by
  unfold FileOperator.enactFolderRefresh
  split
  · exact Or.inl rfl
  · simp only [Bool.false_eq_true, if_false]
    split
    · exact Or.inl rfl
    · cases hc : s.connection.headD true
      · rw [remoteCall_refused s _ _ hc]
        exact Or.inl rfl
      · rw [remoteCall_ok s _ _ hc]
        exact Or.inr ⟨_, rfl⟩

theorem sameLookups_enactFolderRefresh (s : FileOperator) (ref : FileNodeRef) :
    FileTreeNode.SameLookups s.rootFileNode (s.enactFolderRefresh ref false).rootFileNode := by
  rcases enactFolderRefresh_mirror s ref with h | ⟨k, h⟩
  · rw [h]; exact FileTreeNode.SameLookups.same_lookups _
  · rw [h]; exact FileTreeNode.sameLookups_modifyAt _ _ _

theorem sameLookups_lsClosestNodeToParent (s : FileOperator) (q : Path) :
    FileTreeNode.SameLookups s.rootFileNode (s.lsClosestNodeToParent q false).rootFileNode := by
  unfold FileOperator.lsClosestNodeToParent
  repeat' split
  all_goals first
    | exact FileTreeNode.SameLookups.same_lookups _
    | exact sameLookups_enactFolderRefresh s _

/-- The targets of `lsClosestNode` and `lsClosestNodeToParent` in a state `X` whose mirror
finds what the mirror `root` finds, told by the nodes of `root`. -/
theorem refresh_targets_transfer (root : FileTreeNode) (X : FileOperator)
    (hs : FileTreeNode.SameLookups root X.rootFileNode) (q : Path) :
    (∀ closest, root.getClosestNodeWithName q = some closest →
      X.lsClosestNode q false = X.enactFolderRefresh closest.getFileData false) ∧
    (∀ node, root.getNodeWithName q = some node → q.length ≤ 1 →
      X.lsClosestNodeToParent q false = X.enactFolderRefresh root.getFileData false) ∧
    (∀ node, root.getNodeWithName q = some node → 2 ≤ q.length →
      ∃ parent name, q = q.dropLast ++ [name] ∧
        root.getNodeWithName q.dropLast = some parent ∧
        parent.getChildNodeWithName name = some node ∧
        X.lsClosestNodeToParent q false = X.enactFolderRefresh parent.getFileData false) ∧
    (root.getNodeWithName q = none →
      ∀ closest, root.getClosestNodeWithName q = some closest →
        X.lsClosestNodeToParent q false = X.enactFolderRefresh closest.getFileData false) := by
  refine ⟨?_, ?_, ?_, ?_⟩
  · intro closest h
    obtain ⟨m2, h1, h2⟩ := hs.closest q closest h
    rw [((lsClosestNode_target X q false).2 m2 h1).2, h2]
  · intro node h hq
    obtain ⟨m2, h1, h2⟩ := hs.found q node h
    have e := FileTreeNode.getNodeWithName_root _ q node h hq
    have e2 := ((lsClosestNodeToParent_target X q false).1 m2 h1 hq)
    rw [e2.2, ← e2.1, h2, e]
  · intro node h hq
    obtain ⟨parent, name, a, b, c⟩ := FileTreeNode.getNodeWithName_parent _ q node h hq
    obtain ⟨m2, h1, _⟩ := hs.found q node h
    obtain ⟨p2, hp1, hp2⟩ := hs.found q.dropLast parent b
    refine ⟨parent, name, a, b, c, ?_⟩
    obtain ⟨p3, n3, _, b3, _, e3⟩ := (lsClosestNodeToParent_target X q false).2.1 m2 h1 hq
    rw [e3]
    rw [hp1] at b3
    cases b3
    rw [hp2]
  · intro h closest hcl
    obtain ⟨m2, h1, h2⟩ := hs.closest q closest hcl
    rw [((lsClosestNodeToParent_target X q false).2.2 (hs.missing q h) m2 h1).2, h2]

theorem calls_after_two (s a b : FileOperator) (p q : FileOperator → FileOperator)
    (ha : a = p s) (hb : b = q a)
    (hp : ∀ X, (p X).calls = X.calls ∨ ∃ r, (p X).calls = X.calls ++ [RemoteCall.remoteLS r])
    (hq : ∀ X, (q X).calls = X.calls ∨ ∃ r, (q X).calls = X.calls ++ [RemoteCall.remoteLS r]) :
    ∃ l : List RemoteCall, b.calls = s.calls ++ l ∧ l.length ≤ 2 ∧
      ∀ c ∈ l, ∃ r, c = RemoteCall.remoteLS r := by
  subst ha; subst hb
  rcases hp s with h1 | ⟨r1, h1⟩ <;> rcases hq (p s) with h2 | ⟨r2, h2⟩
  · exact ⟨[], by rw [h2, h1, List.append_nil], by decide, fun c hc => by cases hc⟩
  · refine ⟨[RemoteCall.remoteLS r2], by rw [h2, h1], by simp, fun c hc => ?_⟩
    rw [List.mem_singleton] at hc
    exact ⟨r2, hc⟩
  · refine ⟨[RemoteCall.remoteLS r1], by rw [h2, h1], by simp, fun c hc => ?_⟩
    rw [List.mem_singleton] at hc
    exact ⟨r1, hc⟩
  · refine ⟨[RemoteCall.remoteLS r1, RemoteCall.remoteLS r2],
      by rw [h2, h1, List.append_assoc]; rfl, by simp, fun c hc => ?_⟩
    simp only [List.mem_cons, List.mem_singleton, List.not_mem_nil, or_false] at hc
    rcases hc with hc | hc
    · exact ⟨r1, hc⟩
    · exact ⟨r2, hc⟩

theorem andThen_twice (X1 : FileOperator) (g f : FileOperator → FileOperator)
    (h1 : X1.crashed = false) :
    ((g X1).crashed = false → (X1.andThen g).andThen f = f (g X1)) ∧
      ((g X1).crashed = true → (X1.andThen g).andThen f = g X1) := by
  rw [andThen_running X1 g h1]
  exact ⟨fun h => andThen_running _ f h, fun h => andThen_crashed _ f h⟩

/-- C16: on a GOOD reply the handler of move requests the refresh that
`lsClosestNodeToParent` makes for the old path and then the refresh of the closest mirror
node of the new path; the handler of rename the refresh that `lsClosestNodeToParent` makes
for the old path and then the one it makes for the new path; the handler of copy only the
refresh of the closest mirror node of the new path.  The refresh of
`lsClosestNodeToParent` is that of the parent of the node of the path (of the root for the
root), else of the closest mirror node.  The second refresh is told here by the nodes of
the mirror before the reply: the first refresh changes no lookup.  Nothing else is
refreshed: move and rename make at most two calls, copy at most one, all of them list
calls; each handler releases the lock and, the program running and the paths it looks up
having a closest node in the mirror, emits one operation-finished event with status GOOD.
Where a path has no closest node in the mirror, which is when it does not begin at the
root, the handler dereferences a null pointer at that refresh: the program stops and no
event is emitted. -/
theorem good_reply_refreshes_both_ends (s : FileOperator) (d : FileMetaData) (from_ : Path)
    (hrun : s.crashed = false) :
    (s.getMoveReply RequestState.GOOD d from_ =
        ((s.releaseFileOp.lsClosestNodeToParent from_ false).andThen
          (fun s2 => s2.lsClosestNode d.fullPath false)).andThen
          (fun s3 => s3.emit (Signal.fileOpDone RequestState.GOOD)) ∧
      s.getRenameReply RequestState.GOOD d from_ =
        ((s.releaseFileOp.lsClosestNodeToParent from_ false).andThen
          (fun s2 => s2.lsClosestNodeToParent d.fullPath false)).andThen
          (fun s3 => s3.emit (Signal.fileOpDone RequestState.GOOD)) ∧
      s.getCopyReply RequestState.GOOD d =
        (s.releaseFileOp.lsClosestNode d.fullPath false).andThen
          (fun s2 => s2.emit (Signal.fileOpDone RequestState.GOOD))) ∧
    (∀ old, s.rootFileNode.getClosestNodeWithName from_ = some old →
      (∀ closest, s.rootFileNode.getClosestNodeWithName d.fullPath = some closest →
        s.getMoveReply RequestState.GOOD d from_ =
          ((s.releaseFileOp.lsClosestNodeToParent from_ false).enactFolderRefresh
            closest.getFileData false).emit (Signal.fileOpDone RequestState.GOOD)) ∧
      (∀ node, s.rootFileNode.getNodeWithName d.fullPath = some node →
        d.fullPath.length ≤ 1 →
        s.getRenameReply RequestState.GOOD d from_ =
          ((s.releaseFileOp.lsClosestNodeToParent from_ false).enactFolderRefresh
            s.rootFileNode.getFileData false).emit (Signal.fileOpDone RequestState.GOOD)) ∧
      (∀ node, s.rootFileNode.getNodeWithName d.fullPath = some node →
        2 ≤ d.fullPath.length →
        ∃ parent name, d.fullPath = d.fullPath.dropLast ++ [name] ∧
          s.rootFileNode.getNodeWithName d.fullPath.dropLast = some parent ∧
          parent.getChildNodeWithName name = some node ∧
          s.getRenameReply RequestState.GOOD d from_ =
            ((s.releaseFileOp.lsClosestNodeToParent from_ false).enactFolderRefresh
              parent.getFileData false).emit (Signal.fileOpDone RequestState.GOOD)) ∧
      (s.rootFileNode.getNodeWithName d.fullPath = none →
        ∀ closest, s.rootFileNode.getClosestNodeWithName d.fullPath = some closest →
          s.getRenameReply RequestState.GOOD d from_ =
            ((s.releaseFileOp.lsClosestNodeToParent from_ false).enactFolderRefresh
              closest.getFileData false).emit (Signal.fileOpDone RequestState.GOOD)) ∧
      (∀ closest, s.rootFileNode.getClosestNodeWithName d.fullPath = some closest →
        ∀ t : FileOperator,
          (t = s.getMoveReply RequestState.GOOD d from_ ∨
            t = s.getRenameReply RequestState.GOOD d from_) →
          t.crashed = false ∧
            t.signals = s.signals ++ [Signal.fileOpDone RequestState.GOOD] ∧
            t.fileOpPending = s.fileOpPending.release ∧
            ∃ l : List RemoteCall, t.calls = s.calls ++ l ∧ l.length ≤ 2 ∧
              ∀ c ∈ l, ∃ r, c = RemoteCall.remoteLS r) ∧
      (s.rootFileNode.getClosestNodeWithName d.fullPath = none →
        ∀ t : FileOperator,
          (t = s.getMoveReply RequestState.GOOD d from_ ∨
            t = s.getRenameReply RequestState.GOOD d from_) →
          t = (s.releaseFileOp.lsClosestNodeToParent from_ false).crash ∧
            t.crashed = true ∧ t.signals = s.signals ∧
            t.fileOpPending = s.fileOpPending.release)) ∧
    (s.rootFileNode.getClosestNodeWithName from_ = none →
      s.getMoveReply RequestState.GOOD d from_ = s.releaseFileOp.crash ∧
        s.getRenameReply RequestState.GOOD d from_ = s.releaseFileOp.crash) ∧
    ((∀ closest, s.rootFileNode.getClosestNodeWithName d.fullPath = some closest →
        s.getCopyReply RequestState.GOOD d =
            (s.releaseFileOp.enactFolderRefresh closest.getFileData false).emit
              (Signal.fileOpDone RequestState.GOOD) ∧
          (s.getCopyReply RequestState.GOOD d).crashed = false ∧
          (s.getCopyReply RequestState.GOOD d).signals =
            s.signals ++ [Signal.fileOpDone RequestState.GOOD] ∧
          (s.getCopyReply RequestState.GOOD d).fileOpPending = s.fileOpPending.release ∧
          ((s.getCopyReply RequestState.GOOD d).calls = s.calls ∨
            ∃ r, (s.getCopyReply RequestState.GOOD d).calls =
              s.calls ++ [RemoteCall.remoteLS r])) ∧
      (s.rootFileNode.getClosestNodeWithName d.fullPath = none →
        s.getCopyReply RequestState.GOOD d = s.releaseFileOp.crash)) ∧
    ((∀ node, s.rootFileNode.getNodeWithName from_ = some node → from_.length ≤ 1 →
        node = s.rootFileNode ∧
          s.releaseFileOp.lsClosestNodeToParent from_ false =
            s.releaseFileOp.enactFolderRefresh s.rootFileNode.getFileData false) ∧
      (∀ node, s.rootFileNode.getNodeWithName from_ = some node → 2 ≤ from_.length →
        ∃ parent name, from_ = from_.dropLast ++ [name] ∧
          s.rootFileNode.getNodeWithName from_.dropLast = some parent ∧
          parent.getChildNodeWithName name = some node ∧
          s.releaseFileOp.lsClosestNodeToParent from_ false =
            s.releaseFileOp.enactFolderRefresh parent.getFileData false) ∧
      (s.rootFileNode.getNodeWithName from_ = none →
        ∀ closest, s.rootFileNode.getClosestNodeWithName from_ = some closest →
          s.releaseFileOp.lsClosestNodeToParent from_ false =
            s.releaseFileOp.enactFolderRefresh closest.getFileData false)) := by
  have hrel : s.releaseFileOp.crashed = false := hrun
  have h1 : s.getMoveReply RequestState.GOOD d from_ =
      ((s.releaseFileOp.lsClosestNodeToParent from_ false).andThen
        (fun s2 => s2.lsClosestNode d.fullPath false)).andThen
        (fun s3 => s3.emit (Signal.fileOpDone RequestState.GOOD)) := by
    unfold FileOperator.getMoveReply
    simp only [if_true]
  have h2 : s.getRenameReply RequestState.GOOD d from_ =
      ((s.releaseFileOp.lsClosestNodeToParent from_ false).andThen
        (fun s2 => s2.lsClosestNodeToParent d.fullPath false)).andThen
        (fun s3 => s3.emit (Signal.fileOpDone RequestState.GOOD)) := by
    unfold FileOperator.getRenameReply
    simp only [if_true]
  have h3 : s.getCopyReply RequestState.GOOD d =
      (s.releaseFileOp.lsClosestNode d.fullPath false).andThen
        (fun s2 => s2.emit (Signal.fileOpDone RequestState.GOOD)) := by
    unfold FileOperator.getCopyReply
    simp only [if_true]
  have hsame : FileTreeNode.SameLookups s.rootFileNode
      (s.releaseFileOp.lsClosestNodeToParent from_ false).rootFileNode :=
    sameLookups_lsClosestNodeToParent s.releaseFileOp from_
  have tr := refresh_targets_transfer s.rootFileNode _ hsame d.fullPath
  have tr0 := refresh_targets_transfer s.rootFileNode s.releaseFileOp
    (FileTreeNode.SameLookups.same_lookups _) d.fullPath
  have f1 := FileOperator.frame_lsClosestNodeToParent s.releaseFileOp from_ false
  have old := lsClosestNodeToParent_target s.releaseFileOp from_ false
  refine ⟨⟨h1, h2, h3⟩, ?_, ?_, ⟨?_, ?_⟩,
    ⟨old.1, old.2.1, fun hn closest hc => (old.2.2 hn closest hc).2⟩⟩
  · intro o ho
    have hx1 : (s.releaseFileOp.lsClosestNodeToParent from_ false).crashed = false :=
      ((lsClosestNodeToParent_crashed s.releaseFileOp from_ false).1 o ho).trans hrel
    -- the second refresh leaves the program running when the new path has a closest node
    have run2 : ∀ closest, s.rootFileNode.getClosestNodeWithName d.fullPath = some closest →
        ((s.releaseFileOp.lsClosestNodeToParent from_ false).lsClosestNode
            d.fullPath false).crashed = false ∧
          ((s.releaseFileOp.lsClosestNodeToParent from_ false).lsClosestNodeToParent
            d.fullPath false).crashed = false := by
      intro closest hc
      obtain ⟨m2, hm2, _⟩ := hsame.closest d.fullPath closest hc
      exact ⟨((lsClosestNode_crashed _ d.fullPath false).1 m2 hm2).trans hx1,
        ((lsClosestNodeToParent_crashed _ d.fullPath false).1 m2 hm2).trans hx1⟩
    have hmove : ∀ closest, s.rootFileNode.getClosestNodeWithName d.fullPath = some closest →
        s.getMoveReply RequestState.GOOD d from_ =
          ((s.releaseFileOp.lsClosestNodeToParent from_ false).lsClosestNode
            d.fullPath false).emit (Signal.fileOpDone RequestState.GOOD) := by
      intro closest hc
      rw [h1]
      exact (andThen_twice _ (fun s2 => s2.lsClosestNode d.fullPath false) _ hx1).1
        (run2 closest hc).1
    have hren : ∀ closest, s.rootFileNode.getClosestNodeWithName d.fullPath = some closest →
        s.getRenameReply RequestState.GOOD d from_ =
          ((s.releaseFileOp.lsClosestNodeToParent from_ false).lsClosestNodeToParent
            d.fullPath false).emit (Signal.fileOpDone RequestState.GOOD) := by
      intro closest hc
      rw [h2]
      exact (andThen_twice _ (fun s2 => s2.lsClosestNodeToParent d.fullPath false) _ hx1).1
        (run2 closest hc).2
    refine ⟨?_, ?_, ?_, ?_, ?_, ?_⟩
    · intro closest hc
      rw [hmove closest hc, tr.1 closest hc]
    · intro node hn hq
      rw [hren node (FileTreeNode.getClosestNodeWithName_of_found _ _ node hn),
        tr.2.1 node hn hq]
    · intro node hn hq
      obtain ⟨parent, name, a, b, c, e⟩ := tr.2.2.1 node hn hq
      exact ⟨parent, name, a, b, c, by
        rw [hren node (FileTreeNode.getClosestNodeWithName_of_found _ _ node hn), e]⟩
    · intro hn closest hc
      rw [hren closest hc, tr.2.2.2 hn closest hc]
    · intro closest hc t ht
      rcases ht with ht | ht
      · rw [ht, hmove closest hc]
        have f2 := FileOperator.frame_lsClosestNode
          (s.releaseFileOp.lsClosestNodeToParent from_ false) d.fullPath false
        refine ⟨(run2 closest hc).1, ?_, ?_, ?_⟩
        · show FileOperator.signals _ ++ _ = _
          rw [f2.signals, f1.signals]; rfl
        · exact f2.fileOpPending.trans f1.fileOpPending
        · exact calls_after_two s.releaseFileOp _
            ((s.releaseFileOp.lsClosestNodeToParent from_ false).lsClosestNode d.fullPath false)
            (fun X => X.lsClosestNodeToParent from_ false)
            (fun X => X.lsClosestNode d.fullPath false) rfl rfl
            (fun X => lsClosestNodeToParent_calls X from_ false)
            (fun X => lsClosestNode_calls X d.fullPath false)
      · rw [ht, hren closest hc]
        have f2 := FileOperator.frame_lsClosestNodeToParent
          (s.releaseFileOp.lsClosestNodeToParent from_ false) d.fullPath false
        refine ⟨(run2 closest hc).2, ?_, ?_, ?_⟩
        · show FileOperator.signals _ ++ _ = _
          rw [f2.signals, f1.signals]; rfl
        · exact f2.fileOpPending.trans f1.fileOpPending
        · exact calls_after_two s.releaseFileOp _
            ((s.releaseFileOp.lsClosestNodeToParent from_ false).lsClosestNodeToParent
              d.fullPath false)
            (fun X => X.lsClosestNodeToParent from_ false)
            (fun X => X.lsClosestNodeToParent d.fullPath false) rfl rfl
            (fun X => lsClosestNodeToParent_calls X from_ false)
            (fun X => lsClosestNodeToParent_calls X d.fullPath false)
    · intro hc t ht
      have hc2 := hsame.closestMissing d.fullPath hc
      have e1 := (lsClosestNode_crashed (s.releaseFileOp.lsClosestNodeToParent from_ false)
        d.fullPath false).2 hc2
      have e2 := (lsClosestNodeToParent_crashed
        (s.releaseFileOp.lsClosestNodeToParent from_ false) d.fullPath false).2 hc2
      have key : t = (s.releaseFileOp.lsClosestNodeToParent from_ false).crash := by
        rcases ht with ht | ht
        · rw [ht, h1, (andThen_twice _ (fun s2 => s2.lsClosestNode d.fullPath false) _ hx1).2
            (by rw [e1]; rfl)]
          exact e1
        · rw [ht, h2, (andThen_twice _ (fun s2 => s2.lsClosestNodeToParent d.fullPath false) _
            hx1).2 (by rw [e2]; rfl)]
          exact e2
      rw [key]
      exact ⟨rfl, rfl, f1.signals, f1.fileOpPending⟩
  · intro ho
    have e := (lsClosestNodeToParent_crashed s.releaseFileOp from_ false).2 ho
    constructor
    · rw [h1, e, andThen_crashed s.releaseFileOp.crash _ rfl, andThen_crashed _ _ rfl]
    · rw [h2, e, andThen_crashed s.releaseFileOp.crash _ rfl, andThen_crashed _ _ rfl]
  · intro closest hc
    have hx : (s.releaseFileOp.lsClosestNode d.fullPath false).crashed = false :=
      ((lsClosestNode_crashed s.releaseFileOp d.fullPath false).1 closest hc).trans hrel
    have e := emit_after_refresh s.releaseFileOp _ (Signal.fileOpDone RequestState.GOOD)
      (FileOperator.frame_lsClosestNode s.releaseFileOp d.fullPath false) hx
    rw [h3]
    refine ⟨by rw [e.1, tr0.1 closest hc], e.2.1, e.2.2.1, e.2.2.2.1, ?_⟩
    rw [e.2.2.2.2]
    exact lsClosestNode_calls s.releaseFileOp d.fullPath false
  · intro hc
    have hx := (lsClosestNode_crashed s.releaseFileOp d.fullPath false).2 hc
    rw [h3, hx, andThen_crashed _ _ rfl]

/-! ## One pass of the upload walk -/

namespace FileOperator

theorem sendRecursiveCreateFolderReq_calls (s : FileOperator) (n : FileTreeNode)
    (name : String) :
    (s.sendRecursiveCreateFolderReq n name).2.calls = s.calls ∨
      (s.sendRecursiveCreateFolderReq n name).2.calls =
        s.calls ++ [RemoteCall.mkRemoteDir n.getFileData.fullPath name] := by
  unfold FileOperator.sendRecursiveCreateFolderReq
  simp only []
  split
  · exact Or.inl rfl
  · right
    cases hc : s.connection.headD true
    · rw [remoteCall_refused
        ({ s with recursivefileOpPending := s.recursivefileOpPending.checkAndClaim.2 } :
          FileOperator) _ _ hc]
      rfl
    · rw [remoteCall_ok
        ({ s with recursivefileOpPending := s.recursivefileOpPending.checkAndClaim.2 } :
          FileOperator) _ _ hc]

theorem sendRecursiveUploadReq_calls (s : FileOperator) (n : FileTreeNode)
    (f : String) :
    (s.sendRecursiveUploadReq n f).2.calls = s.calls ∨
      (s.sendRecursiveUploadReq n f).2.calls =
        s.calls ++ [RemoteCall.uploadFile n.getFileData.fullPath f] := by
  unfold FileOperator.sendRecursiveUploadReq
  simp only []
  split
  · exact Or.inl rfl
  · right
    cases hc : s.connection.headD true
    · rw [remoteCall_refused
        ({ s with recursivefileOpPending := s.recursivefileOpPending.checkAndClaim.2 } :
          FileOperator) _ _ hc]
      rfl
    · rw [remoteCall_ok
        ({ s with recursivefileOpPending := s.recursivefileOpPending.checkAndClaim.2 } :
          FileOperator) _ _ hc]

theorem UploadStep.lift_step {node child : FileTreeNode} {name : String} {c : RemoteCall}
    (hc : node.getChildNodeWithName name = some child) (h : UploadStep child c) :
    UploadStep node c := by
  rcases h with h | ⟨names, m, nm, h1, h2, h3, h4, h5⟩
  · exact Or.inl h
  · refine Or.inr ⟨name :: names, m, nm, ?_, h2, h3, h4, h5⟩
    simp only [FileTreeNode.descend, hc]
    exact h1

theorem UploadOutcome.lift_outcome {node child : FileTreeNode} {name : String} {s : FileOperator}
    {r : Bool × RecursiveErrorCodes × FileOperator}
    (hc : node.getChildNodeWithName name = some child) (h : UploadOutcome child s r) :
    UploadOutcome node s r := by
  refine ⟨h.1, ?_⟩
  rcases h.2 with h2 | ⟨c, h2, h3⟩
  · exact Or.inl h2
  · exact Or.inr ⟨c, h2, h3.lift_step hc⟩

theorem uploadOutcome_same (node : FileTreeNode) (s : FileOperator) (b : Bool)
    (e : RecursiveErrorCodes) : UploadOutcome node s (b, e, s) :=
  ⟨fun _ => rfl, Or.inl rfl⟩

mutual
theorem uploadOutcome_recursiveUploadHelper :
    ∀ (n : FileTreeNode) (q : QFileInfo) (a : String) (s : FileOperator),
      UploadOutcome n s (recursiveUploadHelper n q a s)
  | n, QFileInfo.dir name entries, a, s => by
    rw [recursiveUploadHelper]
    split
    · exact uploadOutcome_same _ _ _ _
    · split
      · exact uploadOutcome_same _ _ _ _
      · rename_i hf
        split
        · refine ⟨fun h => Bool.noConfusion h, ?_⟩
          rcases enactFolderRefresh_calls s n.getFileData false with h | ⟨m, _, h⟩
          · exact Or.inl h
          · exact Or.inr ⟨_, h, Or.inl ⟨_, rfl⟩⟩
        · rename_i hl
          exact uploadOutcome_recursiveUploadEntries n entries a _ s
            (by simpa using hf) (by simpa using hl)
  | n, QFileInfo.file name, a, s => by
    rw [recursiveUploadHelper]
    split
    · exact uploadOutcome_same _ _ _ _
    · split
      · exact uploadOutcome_same _ _ _ _
      · split
        · refine ⟨fun h => Bool.noConfusion h, ?_⟩
          rcases enactFolderRefresh_calls s n.getFileData false with h | ⟨m, _, h⟩
          · exact Or.inl h
          · exact Or.inr ⟨_, h, Or.inl ⟨_, rfl⟩⟩
        · exact uploadOutcome_same _ _ _ _
  | n, QFileInfo.other name, a, s => by
    rw [recursiveUploadHelper]
    split
    · exact uploadOutcome_same _ _ _ _
    · split
      · exact uploadOutcome_same _ _ _ _
      · split
        · refine ⟨fun h => Bool.noConfusion h, ?_⟩
          rcases enactFolderRefresh_calls s n.getFileData false with h | ⟨m, _, h⟩
          · exact Or.inl h
          · exact Or.inr ⟨_, h, Or.inl ⟨_, rfl⟩⟩
        · exact uploadOutcome_same _ _ _ _
theorem uploadOutcome_recursiveUploadEntries :
    ∀ (n : FileTreeNode) (es : List QFileInfo) (a : String) (e : RecursiveErrorCodes)
      (s : FileOperator), n.isFolder = true →
      n.getNodeState = NodeState.FOLDER_CONTENTS_LOADED →
      UploadOutcome n s (recursiveUploadEntries n es a e s)
  | n, [], a, e, s, _, _ => by
    rw [recursiveUploadEntries]; exact uploadOutcome_same _ _ _ _
  | n, QFileInfo.dir name entries :: rest, a, e, s, hf, hl => by
    rw [recursiveUploadEntries]
    split
    · rename_i hnone
      refine ⟨fun h => Bool.noConfusion h, ?_⟩
      rcases sendRecursiveCreateFolderReq_calls s n name with h | h
      · exact Or.inl h
      · exact Or.inr ⟨_, h, Or.inr ⟨[], n, name, rfl, hf, hl, hnone, Or.inl rfl⟩⟩
    · rename_i childNode hsome
      have h1 := uploadOutcome_recursiveUploadHelper childNode (QFileInfo.dir name entries)
        (a ++ "/" ++ name) s
      simp only []
      split
      · exact h1.lift_outcome hsome
      · rename_i ht
        have hs : (recursiveUploadHelper childNode (QFileInfo.dir name entries)
            (a ++ "/" ++ name) s).2.2 = s := h1.1 (by simpa using ht)
        rw [hs]
        exact uploadOutcome_recursiveUploadEntries n rest a _ s hf hl
  | n, QFileInfo.file name :: rest, a, e, s, hf, hl => by
    rw [recursiveUploadEntries]
    split
    · rename_i hnone
      refine ⟨fun h => Bool.noConfusion h, ?_⟩
      rcases sendRecursiveUploadReq_calls s n (a ++ "/" ++ name) with h | h
      · exact Or.inl h
      · exact Or.inr ⟨_, h, Or.inr ⟨[], n, name, rfl, hf, hl, hnone, Or.inr ⟨a, rfl⟩⟩⟩
    · split
      · exact uploadOutcome_same _ _ _ _
      · exact uploadOutcome_recursiveUploadEntries n rest a e s hf hl
  | n, QFileInfo.other name :: rest, a, e, s, hf, hl => by
    rw [recursiveUploadEntries]
    exact uploadOutcome_recursiveUploadEntries n rest a e s hf hl
end

end FileOperator

theorem FileTreeNode.getNodeWithName_append (root : FileTreeNode) (p q : List String)
    (head m : FileTreeNode) (h : root.getNodeWithName p = some head)
    (hq : head.descend q = some m) : root.getNodeWithName (p ++ q) = some m := by
  cases p with
  | nil => cases h
  | cons r rest =>
    simp only [FileTreeNode.getNodeWithName] at h
    simp only [List.cons_append, FileTreeNode.getNodeWithName]
    by_cases hr : (r == root.getName) = true
    · rw [if_pos hr] at h
      rw [if_pos hr, FileTreeNode.descend_append, h]
      exact hq
    · rw [if_neg hr] at h; cases h

/-- The first step of the upload walk: with the secondary lock open and no child of the
name of the local folder under the destination, exactly the mkdir of that folder. -/
theorem recursiveUploadProcessRetry_first (s : FileOperator) (head : FileTreeNode)
    (hopen : s.recursivefileOpPending.lockClosed = false)
    (hhead : s.remoteHeadNode = some head)
    (hnone : head.getChildNodeWithName s.recursiveLocalHead.dirName = none) :
    s.recursiveUploadProcessRetry.calls =
        s.calls ++ [RemoteCall.mkRemoteDir head.getFileData.fullPath
          s.recursiveLocalHead.dirName] ∧
      (s.connection.headD true = true →
        s.recursiveUploadProcessRetry.pending =
            s.pending ++ [⟨s.calls.length, Slot.getRecursiveMkdirReply⟩] ∧
          s.recursiveUploadProcessRetry.recursivefileOpPending.lockClosed = true) := by
  have hclaim := claim_unlocked s.recursivefileOpPending hopen
  unfold FileOperator.recursiveUploadProcessRetry
  rw [if_neg (by rw [hopen]; exact Bool.false_ne_true), hhead]
  simp only [hnone]
  unfold FileOperator.sendRecursiveCreateFolderReq
  simp only [hclaim, Bool.not_true, Bool.false_eq_true, if_false]
  cases hc : s.connection.headD true
  · rw [remoteCall_refused
      ({ s with recursivefileOpPending :=
          { s.recursivefileOpPending with
            myValue := true, claimed := s.recursivefileOpPending.claimed + 1 } } :
        FileOperator) _ _ hc]
    exact ⟨rfl, fun h => Bool.noConfusion h⟩
  · rw [remoteCall_ok
      ({ s with recursivefileOpPending :=
          { s.recursivefileOpPending with
            myValue := true, claimed := s.recursivefileOpPending.claimed + 1 } } :
        FileOperator) _ _ hc]
    exact ⟨rfl, fun _ => ⟨rfl, rfl⟩⟩

/-- A later pass of the upload walk, the folder of the upload being in the mirror: at
most one call, one that `UploadStep` allows below that folder. -/
theorem recursiveUploadProcessRetry_later (s : FileOperator) (head trueHead : FileTreeNode)
    (hhead : s.remoteHeadNode = some head)
    (hsome : head.getChildNodeWithName s.recursiveLocalHead.dirName = some trueHead) :
    s.recursiveUploadProcessRetry.calls = s.calls ∨
      ∃ c, s.recursiveUploadProcessRetry.calls = s.calls ++ [c] ∧
        FileOperator.UploadStep trueHead c := by
  have hw := FileOperator.uploadOutcome_recursiveUploadHelper trueHead
    s.recursiveLocalHead.info s.recursiveLocalHead.absolutePath s
  unfold FileOperator.recursiveUploadProcessRetry
  split
  · exact Or.inl rfl
  · rw [hhead]
    simp only [hsome]
    repeat' split
    all_goals exact hw.2

/-- One pass of the upload walk and its sub-calls.  A pass of
`recursiveUploadProcessRetry` with the secondary lock open, whose destination has no child
of the name of the local root folder, makes exactly one call, the mkdir of that name in
the destination; with the secondary lock closed a pass does nothing.  A pass of
`recursiveUploadHelper` that reports success has changed nothing, and any pass makes at
most one call: a listing, or a mkdir or an upload whose remote parent is a node reached by
child names from the node of the pass, a folder with contents loaded that has no child of
the name sent; that parent is found in the mirror under the remembered head.  The example:
local `proj` with `sub` and `x.txt` uploaded into `/home`, every call answered well and
no other listing under way, gives the mkdir of `proj` first, no call into `/home/proj`
before that node is in the mirror, and ends with `sub` and `x.txt` in the mirror and the
operation reported as done. -/
theorem upload_pass_orders_subcalls :
    (∀ (s : FileOperator) (head : FileTreeNode),
      s.recursivefileOpPending.lockClosed = false → s.remoteHeadNode = some head →
      head.getChildNodeWithName s.recursiveLocalHead.dirName = none →
      s.recursiveUploadProcessRetry.calls =
        s.calls ++ [RemoteCall.mkRemoteDir head.getFileData.fullPath
          s.recursiveLocalHead.dirName]) ∧
    (∀ s : FileOperator, s.recursivefileOpPending.lockClosed = true →
      s.recursiveUploadProcessRetry = s) ∧
    (∀ (n : FileTreeNode) (q : QFileInfo) (a : String) (s : FileOperator),
      ((FileOperator.recursiveUploadHelper n q a s).1 = true →
        (FileOperator.recursiveUploadHelper n q a s).2.2 = s) ∧
      ((FileOperator.recursiveUploadHelper n q a s).2.2.calls = s.calls ∨
        ∃ c, (FileOperator.recursiveUploadHelper n q a s).2.2.calls = s.calls ++ [c] ∧
          ((∃ p, c = RemoteCall.remoteLS p) ∨
            ∃ (names : List String) (m : FileTreeNode) (name : String),
              n.descend names = some m ∧ m.isFolder = true ∧
                m.getNodeState = NodeState.FOLDER_CONTENTS_LOADED ∧
                m.getChildNodeWithName name = none ∧
                (c = RemoteCall.mkRemoteDir m.getFileData.fullPath name ∨
                  ∃ dir, c = RemoteCall.uploadFile m.getFileData.fullPath
                    (dir ++ "/" ++ name))))) ∧
    (∀ (s : FileOperator) (head trueHead : FileTreeNode), s.remoteHeadNode = some head →
      head.getChildNodeWithName s.recursiveLocalHead.dirName = some trueHead →
      (s.recursiveUploadProcessRetry.calls = s.calls ∨
        ∃ c, s.recursiveUploadProcessRetry.calls = s.calls ++ [c] ∧
          FileOperator.UploadStep trueHead c) ∧
      ∀ (hp : Path) (names : List String) (m : FileTreeNode),
        s.recursiveRemoteHead = some hp → trueHead.descend names = some m →
        s.rootFileNode.getNodeWithName (hp ++ s.recursiveLocalHead.dirName :: names) =
          some m) ∧
    ((Example.start.run (Example.wholeUpload.take 2)).calls =
        [RemoteCall.mkRemoteDir ["home"] "proj", RemoteCall.remoteLS ["home"]] ∧
      ((Example.start.run (Example.wholeUpload.take 2)).rootFileNode.getNodeWithName
        ["home", "proj"]).isSome = false ∧
      ((Example.start.run (Example.wholeUpload.take 3)).rootFileNode.getNodeWithName
        ["home", "proj"]).isSome = true ∧
      (Example.start.run Example.wholeUpload).calls =
        [RemoteCall.mkRemoteDir ["home"] "proj", RemoteCall.remoteLS ["home"],
          RemoteCall.remoteLS ["home", "proj"], RemoteCall.mkRemoteDir ["home", "proj"] "sub",
          RemoteCall.remoteLS ["home", "proj"], RemoteCall.remoteLS ["home", "proj", "sub"],
          RemoteCall.uploadFile ["home", "proj"] "/tmp/proj/x.txt",
          RemoteCall.remoteLS ["home", "proj"]] ∧
      ((Example.start.run Example.wholeUpload).rootFileNode.getNodeWithName
        ["home", "proj", "x.txt"]).isSome = true ∧
      ((Example.start.run Example.wholeUpload).rootFileNode.getNodeWithName
        ["home", "proj", "sub"]).isSome = true ∧
      (Example.start.run Example.wholeUpload).currentRecursiveTask =
        FileOp_RecursiveTask.NONE ∧
      (Example.start.run Example.wholeUpload).fileOpPending.lockClosed = false ∧
      (Example.start.run Example.wholeUpload).pending = [] ∧
      (Example.start.run Example.wholeUpload).signals.getLast? =
        some (Signal.fileOpDone RequestState.GOOD)) := by
  refine ⟨?_, ?_, ?_, ?_, ?_⟩
  · intro s head hopen hhead hnone
    exact (recursiveUploadProcessRetry_first s head hopen hhead hnone).1
  · intro s hclosed
    unfold FileOperator.recursiveUploadProcessRetry
    rw [if_pos hclosed]
  · intro n q a s
    exact FileOperator.uploadOutcome_recursiveUploadHelper n q a s
  · intro s head trueHead hhead hsome
    refine ⟨recursiveUploadProcessRetry_later s head trueHead hhead hsome, ?_⟩
    intro hp names m hrh hm
    have hroot : s.rootFileNode.getNodeWithName hp = some head := by
      unfold FileOperator.remoteHeadNode at hhead
      rw [hrh] at hhead
      exact hhead
    refine FileTreeNode.getNodeWithName_append _ hp _ head m hroot ?_
    simp only [FileTreeNode.descend, hsome]
    exact hm
  · refine ⟨by decide, by decide, by decide, by decide, by decide, by decide, by decide,
      by decide, by decide, by decide⟩

/-- C13 (failing run): a refresh of `/home` is under way when the recursive upload of
`proj` into `/home` begins.  The mkdir of `proj` is sent and answered with status GOOD;
the refresh that its handler asks for is suppressed, because `/home` already waits for a
listing.  That listing, asked for before the mkdir, arrives with status GOOD and without
`proj`, the change re-enters the walk with the secondary lock open, and the walk sends the
mkdir of `proj` a second time. -/
theorem stale_listing_repeats_mkdir :
    Reachable (Example.start.run Example.staleListing) ∧
      Example.created.replyState = RequestState.GOOD ∧
      Example.homeStale.replyState = RequestState.GOOD ∧
      (Example.start.run (Example.staleListing.take 2)).calls =
        [RemoteCall.remoteLS ["home"], RemoteCall.mkRemoteDir ["home"] "proj"] ∧
      (Example.start.run (Example.staleListing.take 3)).calls =
        [RemoteCall.remoteLS ["home"], RemoteCall.mkRemoteDir ["home"] "proj"] ∧
      (Example.start.run (Example.staleListing.take 3)).recursivefileOpPending.lockClosed =
        false ∧
      (Example.start.run Example.staleListing).calls =
        [RemoteCall.remoteLS ["home"], RemoteCall.mkRemoteDir ["home"] "proj",
          RemoteCall.mkRemoteDir ["home"] "proj"] ∧
      (Example.start.run Example.staleListing).currentRecursiveTask =
        FileOp_RecursiveTask.UPLOAD ∧
      (Example.start.run Example.staleListing).crashed = false :=
  ⟨reachable_example _, by decide, by decide, by decide, by decide, by decide, by decide,
    by decide, by decide⟩


/-! ## Pending markers only grow during the retrieval walk -/

namespace FileTreeNode

theorem MarksGrow.same_marks (a : FileTreeNode) : MarksGrow a a :=
  fun _ m2 h => ⟨m2, h, rfl, fun x => x, fun x => x⟩

theorem MarksGrow.then_marks {a b c : FileTreeNode} (h1 : MarksGrow a b) (h2 : MarksGrow b c) :
    MarksGrow a c := by
  intro q m3 h
  obtain ⟨m2, e2, d2, b2, l2⟩ := h2 q m3 h
  obtain ⟨m1, e1, d1, b1, l1⟩ := h1 q m2 e2
  exact ⟨m1, e1, d2.trans d1, fun x => b2 (b1 x), fun x => l2 (l1 x)⟩

theorem haveBuffTask_modifyBelow (f : FileTreeNode → FileTreeNode)
    (hb : ∀ n, n.haveBuffTask = true → (f n).haveBuffTask = true) (m : FileTreeNode)
    (p : List String) (h : m.haveBuffTask = true) : (modifyBelow f m p).haveBuffTask = true := by
  cases p with
  | nil => simp only [modifyBelow]; exact hb m h
  | cons c cs => cases m; exact h

theorem haveLStask_modifyBelow (f : FileTreeNode → FileTreeNode)
    (hl : ∀ n, n.haveLStask = true → (f n).haveLStask = true) (m : FileTreeNode)
    (p : List String) (h : m.haveLStask = true) : (modifyBelow f m p).haveLStask = true := by
  cases p with
  | nil => simp only [modifyBelow]; exact hl m h
  | cons c cs => cases m; exact h

/-- A write that keeps file data and children and drops no marker lets the markers grow. -/
theorem marksGrow_modifyAt (f : FileTreeNode → FileTreeNode)
    (hf : ∀ n, (f n).getFileData = n.getFileData)
    (hc : ∀ n, (f n).getChildList = n.getChildList)
    (hb : ∀ n, n.haveBuffTask = true → (f n).haveBuffTask = true)
    (hl : ∀ n, n.haveLStask = true → (f n).haveLStask = true)
    (root : FileTreeNode) (p : Path) : MarksGrow root (root.modifyAt p f) := by
  intro q m2 h
  have key := getNodeWithName_modifyAt_any f hf hc root p q
  cases ha : root.getNodeWithName q with
  | none => rw [key.1 ha] at h; cases h
  | some m =>
    obtain ⟨m3, e3, t3⟩ := key.2 m ha
    rw [e3] at h
    simp only [Option.some.injEq] at h
    subst h
    refine ⟨m, rfl, t3.getFileData hf, ?_, ?_⟩
    · intro x
      rcases t3 with t | ⟨p2, t⟩
      · rw [t]; exact x
      · rw [t]; exact haveBuffTask_modifyBelow f hb m p2 x
    · intro x
      rcases t3 with t | ⟨p2, t⟩
      · rw [t]; exact x
      · rw [t]; exact haveLStask_modifyBelow f hl m p2 x

theorem marksGrow_setBuffTask (root : FileTreeNode) (p : Path) (h : Nat) :
    MarksGrow root (root.modifyAt p (setBuffTask h)) :=
  marksGrow_modifyAt _ (getFileData_setBuffTask h) (getChildList_setBuffTask h)
    (fun n _ => by cases n; rfl) (fun n x => by cases n; exact x) root p

theorem marksGrow_setLStask (root : FileTreeNode) (p : Path) (h : Nat) :
    MarksGrow root (root.modifyAt p (setLStask h)) :=
  marksGrow_modifyAt _ (getFileData_setLStask h) (getChildList_setLStask h)
    (fun n x => by cases n; exact x) (fun n _ => by cases n; rfl) root p

end FileTreeNode

/-- What a reference resolves to in a mirror with more markers, it resolves to before,
up to the markers. -/
theorem resolve_back (s0 s : FileOperator)
    (hg : FileTreeNode.MarksGrow s0.rootFileNode s.rootFileNode) (ref : FileNodeRef) (v : Bool)
    (n2 : FileTreeNode) (h : s.getFileNodeFromNodeRef ref v = some n2) :
    ∃ n, s0.getFileNodeFromNodeRef ref v = some n ∧ n2.getFileData = n.getFileData ∧
      (n.haveBuffTask = true → n2.haveBuffTask = true) ∧
      (n.haveLStask = true → n2.haveLStask = true) := by
  have hl := resolve_lookup s ref v n2 h
  obtain ⟨n, e, d, b, l⟩ := hg ref.fullPath n2 hl
  refine ⟨n, ?_, d, b, l⟩
  unfold FileOperator.getFileNodeFromNodeRef at h ⊢
  rw [hl] at h
  rw [e]
  cases hnil : ref.isNil <;> simp [hnil] at h ⊢
  cases v <;> simp at h ⊢
  rw [← d]
  exact h

/-- One buffer request: nothing happens, or the one call is made for a node that waits
for no buffer, and the mirror gains at most the marker. -/
theorem sendDownloadBuffReq_step (s : FileOperator) (ref : FileNodeRef) :
    s.sendDownloadBuffReq ref = s ∨
      ∃ n, s.getFileNodeFromNodeRef ref s.verifyDefault = some n ∧ n.haveBuffTask = false ∧
        (s.sendDownloadBuffReq ref).calls =
          s.calls ++ [RemoteCall.downloadBuffer ref.fullPath] ∧
        (s.sendDownloadBuffReq ref).verifyDefault = s.verifyDefault ∧
        FileTreeNode.MarksGrow s.rootFileNode (s.sendDownloadBuffReq ref).rootFileNode := by
  unfold FileOperator.sendDownloadBuffReq
  split
  · exact Or.inl rfl
  · split
    · exact Or.inl rfl
    · rename_i n hn
      split
      · exact Or.inl rfl
      · rename_i hm
        right
        refine ⟨n, hn, by simpa using hm, ?_⟩
        cases hc : s.connection.headD true
        · rw [remoteCall_refused s _ _ hc]
          exact ⟨rfl, rfl, FileTreeNode.MarksGrow.same_marks _⟩
        · rw [remoteCall_ok s _ _ hc]
          exact ⟨rfl, rfl, FileTreeNode.marksGrow_setBuffTask _ _ _⟩

/-- One refresh that clears nothing: nothing happens, or the one list call is made for a
node that waits for no listing, and the mirror gains at most the marker. -/
theorem enactFolderRefresh_step (s : FileOperator) (ref : FileNodeRef) :
    s.enactFolderRefresh ref false = s ∨
      ∃ n, s.getFileNodeFromNodeRef ref s.verifyDefault = some n ∧ n.haveLStask = false ∧
        (s.enactFolderRefresh ref false).calls =
          s.calls ++ [RemoteCall.remoteLS n.getFileData.fullPath] ∧
        (s.enactFolderRefresh ref false).verifyDefault = s.verifyDefault ∧
        FileTreeNode.MarksGrow s.rootFileNode (s.enactFolderRefresh ref false).rootFileNode := by
  unfold FileOperator.enactFolderRefresh
  split
  · exact Or.inl rfl
  · rename_i n hn
    simp only [Bool.false_eq_true, if_false]
    split
    · exact Or.inl rfl
    · rename_i hm
      right
      refine ⟨n, hn, by simpa using hm, ?_⟩
      cases hc : s.connection.headD true
      · rw [remoteCall_refused s _ _ hc]
        exact ⟨rfl, rfl, FileTreeNode.MarksGrow.same_marks _⟩
      · rw [remoteCall_ok s _ _ hc]
        exact ⟨rfl, rfl, FileTreeNode.marksGrow_setLStask _ _ _⟩

namespace FileOperator

theorem FetchesOnly.none_made (s0 : FileOperator) (ms : List FileTreeNode) (s : FileOperator) :
    FetchesOnly s0 ms s s :=
  ⟨FileTreeNode.MarksGrow.same_marks _, rfl, [], (List.append_nil _).symm,
    fun c hc => absurd hc (List.not_mem_nil c)⟩

theorem FetchesOnly.then_fetches {s0 s t u : FileOperator} {ms1 ms2 ms : List FileTreeNode}
    (h1 : FetchesOnly s0 ms1 s t) (h2 : FetchesOnly s0 ms2 t u)
    (i1 : ∀ m ∈ ms1, m ∈ ms) (i2 : ∀ m ∈ ms2, m ∈ ms) : FetchesOnly s0 ms s u := by
  obtain ⟨l1, e1, j1⟩ := h1.calls
  obtain ⟨l2, e2, j2⟩ := h2.calls
  refine ⟨h1.marks.then_marks h2.marks, h2.verify.trans h1.verify, l1 ++ l2, ?_, ?_⟩
  · rw [e2, e1, List.append_assoc]
  · intro c hc
    rcases List.mem_append.mp hc with hc | hc
    · obtain ⟨m, hm, hf⟩ := j1 c hc
      exact ⟨m, i1 m hm, hf⟩
    · obtain ⟨m, hm, hf⟩ := j2 c hc
      exact ⟨m, i2 m hm, hf⟩

theorem FetchesOnly.mono {s0 s t : FileOperator} {ms1 ms : List FileTreeNode}
    (h1 : FetchesOnly s0 ms1 s t) (i1 : ∀ m ∈ ms1, m ∈ ms) : FetchesOnly s0 ms s t :=
  h1.then_fetches (FetchesOnly.none_made s0 ms1 t) i1 i1

/-- The buffer request of the walk for a file without a buffer. -/
theorem fetchesOnly_file (s0 s : FileOperator) (m : FileTreeNode)
    (hg : FileTreeNode.MarksGrow s0.rootFileNode s.rootFileNode)
    (hv : s.verifyDefault = s0.verifyDefault) (hfile : m.isFile = true)
    (hbuf : m.getFileBuffer = none) :
    FetchesOnly s0 [m] s (s.sendDownloadBuffReq m.getFileData) := by
  rcases sendDownloadBuffReq_step s m.getFileData with h | ⟨n2, hn2, hm2, hc, hvd, hmg⟩
  · rw [h]; exact FetchesOnly.none_made _ _ _
  · refine ⟨hmg, hvd, _, hc, ?_⟩
    intro c hcm
    rw [List.mem_singleton] at hcm
    obtain ⟨n, e, _, b, _⟩ := resolve_back s0 s hg _ _ n2 hn2
    refine ⟨m, List.mem_singleton.mpr rfl, Or.inl ⟨hfile, hbuf, hcm, n, ?_, ?_⟩⟩
    · rw [← hv]; exact e
    · cases hb : n.haveBuffTask with
      | false => rfl
      | true => rw [b hb] at hm2; cases hm2

/-- The listing request of the walk for a folder that is not loaded. -/
theorem fetchesOnly_folder (s0 s : FileOperator) (m : FileTreeNode)
    (hg : FileTreeNode.MarksGrow s0.rootFileNode s.rootFileNode)
    (hv : s.verifyDefault = s0.verifyDefault) (hfile : m.isFile = false)
    (hfolder : m.isFolder = true)
    (hst : m.getNodeState ≠ NodeState.FOLDER_CONTENTS_LOADED) :
    FetchesOnly s0 [m] s (s.enactFolderRefresh m.getFileData false) := by
  rcases enactFolderRefresh_step s m.getFileData with h | ⟨n2, hn2, hm2, hc, hvd, hmg⟩
  · rw [h]; exact FetchesOnly.none_made _ _ _
  · refine ⟨hmg, hvd, _, hc, ?_⟩
    intro c hcm
    rw [List.mem_singleton] at hcm
    obtain ⟨n, e, d, _, l⟩ := resolve_back s0 s hg _ _ n2 hn2
    refine ⟨m, List.mem_singleton.mpr rfl, Or.inr ⟨hfile, hfolder, hst, n, ?_, ?_, ?_⟩⟩
    · rw [← hv]; exact e
    · cases hb : n.haveLStask with
      | false => rfl
      | true => rw [l hb] at hm2; cases hm2
    · rw [hcm, d]

theorem mem_subtree_self (m : FileTreeNode) : m ∈ m.subtree := by
  cases m
  simp only [FileTreeNode.subtree, List.mem_cons, true_or]

theorem mem_subtree_of_children (d : FileNodeRef) (st : NodeState) (b : Option (List Nat))
    (l t : Option Nat) (ch : List FileTreeNode) :
    ∀ m ∈ FileTreeNode.subtreeList ch, m ∈ (FileTreeNode.mk d st b l t ch).subtree := by
  intro m hm
  simp only [FileTreeNode.subtree, List.mem_cons]
  exact Or.inr hm

mutual
theorem retrievalOutcome_helper :
    ∀ (node : FileTreeNode) (s0 s : FileOperator),
      FileTreeNode.MarksGrow s0.rootFileNode s.rootFileNode →
      s.verifyDefault = s0.verifyDefault →
      RetrievalOutcome s0 node.subtree s true (recursiveDownloadRetrivalHelper node s)
  | FileTreeNode.mk d st b l t ch, s0, s, hg, hv => by
    rw [recursiveDownloadRetrivalHelper]
    split
    · rename_i hfile
      split
      · rename_i hb
        refine ⟨?_, fun h => Bool.noConfusion h⟩
        have hbuf : (FileTreeNode.mk d st b l t ch).getFileBuffer = none := by
          cases b with
          | none => rfl
          | some x => simp at hb
        exact (fetchesOnly_file s0 s _ hg hv hfile hbuf).mono
          (fun m hm => by rw [List.mem_singleton.mp hm]; exact mem_subtree_self _)
      · exact ⟨FetchesOnly.none_made _ _ _, fun _ => ⟨rfl, rfl⟩⟩
    · rename_i hfile
      split
      · exact ⟨FetchesOnly.none_made _ _ _, fun _ => ⟨rfl, rfl⟩⟩
      · rename_i hfolder
        split
        · rename_i hst
          have h1 := fetchesOnly_folder s0 s (FileTreeNode.mk d st b l t ch) hg hv
            (by simpa using hfile) (by simpa using hfolder) hst
          have h2 := retrievalOutcome_children ch false s0
            (s.enactFolderRefresh d false) (hg.then_marks h1.marks) (h1.verify.trans hv)
          refine ⟨h1.then_fetches h2.1
            (fun m hm => by rw [List.mem_singleton.mp hm]; exact mem_subtree_self _)
            (mem_subtree_of_children d st b l t ch), fun h => ?_⟩
          exact Bool.noConfusion (h2.2 h).2
        · have h2 := retrievalOutcome_children ch true s0 s hg hv
          exact ⟨h2.1.mono (mem_subtree_of_children d st b l t ch), fun h => ⟨(h2.2 h).1, rfl⟩⟩
theorem retrievalOutcome_children :
    ∀ (ch : List FileTreeNode) (b : Bool) (s0 s : FileOperator),
      FileTreeNode.MarksGrow s0.rootFileNode s.rootFileNode →
      s.verifyDefault = s0.verifyDefault →
      RetrievalOutcome s0 (FileTreeNode.subtreeList ch) s b
        (recursiveDownloadRetrivalChildren ch b s)
  | [], b, s0, s, _, _ => by
    rw [recursiveDownloadRetrivalChildren]
    exact ⟨FetchesOnly.none_made _ _ _, fun h => ⟨rfl, h⟩⟩
  | aChild :: rest, b, s0, s, hg, hv => by
    rw [recursiveDownloadRetrivalChildren]
    have h1 := retrievalOutcome_helper aChild s0 s hg hv
    have h2 := retrievalOutcome_children rest
      (if (!(recursiveDownloadRetrivalHelper aChild s).1) = true then false else b) s0
      (recursiveDownloadRetrivalHelper aChild s).2 (hg.then_marks h1.1.marks)
      (h1.1.verify.trans hv)
    refine ⟨h1.1.then_fetches h2.1 ?_ ?_, fun h => ?_⟩
    · intro m hm
      simp only [FileTreeNode.subtreeList, List.mem_append]
      exact Or.inl hm
    · intro m hm
      simp only [FileTreeNode.subtreeList, List.mem_append]
      exact Or.inr hm
    · obtain ⟨e2, hb2⟩ := h2.2 h
      rcases Bool.eq_false_or_eq_true (recursiveDownloadRetrivalHelper aChild s).1 with hr | hr
      · rw [hr] at hb2
        have e1 := (h1.2 hr).1
        refine ⟨?_, by simpa using hb2⟩
        rw [e2, e1]
      · rw [hr] at hb2
        simp at hb2
end

end FileOperator

theorem fileNodesChange_idle_quiet (s : FileOperator) (ref : FileNodeRef)
    (h : s.currentRecursiveTask = FileOp_RecursiveTask.NONE) :
    (s.fileNodesChange ref).localLog = s.localLog ∧ (s.fileNodesChange ref).calls = s.calls ∧
      (s.fileNodesChange ref).currentRecursiveTask = FileOp_RecursiveTask.NONE := by
  rw [fileNodesChange_idle s ref h]
  exact ⟨rfl, rfl, h⟩

theorem recursiveDownloadProcessRetry_satisfied (s : FileOperator) (head : FileTreeNode)
    (hhead : s.remoteHeadNode = some head)
    (ht : (FileOperator.recursiveDownloadRetrivalHelper head s).1 = true) :
    s.recursiveDownloadProcessRetry.currentRecursiveTask = FileOp_RecursiveTask.NONE ∧
      s.recursiveDownloadProcessRetry.calls =
        (FileOperator.recursiveDownloadRetrivalHelper head s).2.calls := by
  have hc := FileOperator.commit_recursiveDownloadFolderEmitHelper head RecursiveErrorCodes.NONE
    (FileOperator.recursiveDownloadRetrivalHelper head s).2
  unfold FileOperator.recursiveDownloadProcessRetry
  rw [hhead]
  simp only [ht, if_true]
  split
  · exact ⟨rfl, hc.calls⟩
  · exact ⟨rfl, hc.calls⟩

/-- The calls of `recursiveDownloadProcessRetry` are those of its retrieval walk. -/
theorem recursiveDownloadProcessRetry_calls (s : FileOperator) (head : FileTreeNode)
    (hhead : s.remoteHeadNode = some head) :
    s.recursiveDownloadProcessRetry.calls =
      (FileOperator.recursiveDownloadRetrivalHelper head s).2.calls := by
  rcases Bool.eq_false_or_eq_true (FileOperator.recursiveDownloadRetrivalHelper head s).1
    with ht | hf
  · exact (recursiveDownloadProcessRetry_satisfied s head hhead ht).2
  · unfold FileOperator.recursiveDownloadProcessRetry
    rw [hhead]
    simp only [hf, Bool.false_eq_true, if_false]

/-- C11: re-entry of the recursive download.  Whatever the mirror, every call that a pass
of the retrieval walk makes is a buffer fetch for a file of the walked subtree that has no
buffer and whose mirror node waits for no buffer, or a listing for a folder of the walked
subtree that is not loaded and whose mirror node waits for no listing: no fetch goes out
for a file with a buffer or a pending buffer task, no listing for a folder that is loaded
or has a pending list task.  A pass that finds everything has called nothing and changed
nothing, and `recursiveDownloadProcessRetry` calls what its walk calls and nothing more.
After the commit has run the flag is NONE, and a change notification then only
forwards the event: no second commit, no call.  The example: a listing of `/home` with the
known contents that arrives while both buffer fetches are outstanding causes no further
fetch and no write; after both buffers arrived the files are written once, and a further
notification writes nothing. -/
theorem retrieval_walk_is_idempotent :
    (∀ (s : FileOperator) (head : FileTreeNode),
      (∃ l : List RemoteCall,
        (FileOperator.recursiveDownloadRetrivalHelper head s).2.calls = s.calls ++ l ∧
          ∀ c ∈ l, ∃ m ∈ head.subtree,
            (m.isFile = true ∧ m.getFileBuffer = none ∧
                c = RemoteCall.downloadBuffer m.getFileData.fullPath ∧
                ∃ n, s.getFileNodeFromNodeRef m.getFileData s.verifyDefault = some n ∧
                  n.haveBuffTask = false) ∨
              (m.isFile = false ∧ m.isFolder = true ∧
                m.getNodeState ≠ NodeState.FOLDER_CONTENTS_LOADED ∧
                ∃ n, s.getFileNodeFromNodeRef m.getFileData s.verifyDefault = some n ∧
                  n.haveLStask = false ∧ c = RemoteCall.remoteLS n.getFileData.fullPath)) ∧
        ((FileOperator.recursiveDownloadRetrivalHelper head s).1 = true →
          (FileOperator.recursiveDownloadRetrivalHelper head s).2 = s)) ∧
    (∀ (s : FileOperator) (head : FileTreeNode), s.remoteHeadNode = some head →
      s.recursiveDownloadProcessRetry.calls =
          (FileOperator.recursiveDownloadRetrivalHelper head s).2.calls ∧
        ((FileOperator.recursiveDownloadRetrivalHelper head s).1 = true →
          s.recursiveDownloadProcessRetry.currentRecursiveTask = FileOp_RecursiveTask.NONE ∧
            s.recursiveDownloadProcessRetry.calls = s.calls)) ∧
    (∀ (s : FileOperator) (ref : FileNodeRef),
      s.currentRecursiveTask = FileOp_RecursiveTask.NONE →
      s.fileNodesChange ref = s.emit (Signal.fileSystemChange ref) ∧
        (s.fileNodesChange ref).localLog = s.localLog ∧
        (s.fileNodesChange ref).calls = s.calls ∧
        (s.fileNodesChange ref).currentRecursiveTask = FileOp_RecursiveTask.NONE) ∧
    ((Example.start.run [Example.downloadHome]).calls =
        [RemoteCall.downloadBuffer ["home", "a.txt"],
          RemoteCall.downloadBuffer ["home", "b.txt"]] ∧
      (Example.start.run [Example.downloadHome]).recursiveDownloadProcessRetry.calls =
        (Example.start.run [Example.downloadHome]).calls ∧
      (Example.start.run Example.downloadRelisted).calls =
        [RemoteCall.downloadBuffer ["home", "a.txt"],
          RemoteCall.downloadBuffer ["home", "b.txt"], RemoteCall.remoteLS ["home"]] ∧
      (Example.start.run Example.downloadRelisted).localLog = [LocalWrite.mkdir "home"] ∧
      (Example.start.run Example.wholeDownload).calls =
        [RemoteCall.downloadBuffer ["home", "a.txt"],
          RemoteCall.downloadBuffer ["home", "b.txt"]] ∧
      (Example.start.run Example.wholeDownload).localLog =
        [LocalWrite.mkdir "home", LocalWrite.writeFile "a.txt" [104, 105],
          LocalWrite.writeFile "b.txt" [111]] ∧
      (Example.start.run Example.wholeDownload).currentRecursiveTask =
        FileOp_RecursiveTask.NONE ∧
      ((Example.start.run Example.wholeDownload).fileNodesChange Example.homeRef).localLog =
        (Example.start.run Example.wholeDownload).localLog) := by
  refine ⟨?_, ?_, ?_, ?_⟩
  · intro s head
    have h := FileOperator.retrievalOutcome_helper head s s (FileTreeNode.MarksGrow.same_marks _) rfl
    exact ⟨h.1.calls, fun ht => (h.2 ht).1⟩
  · intro s head hhead
    have h := FileOperator.retrievalOutcome_helper head s s (FileTreeNode.MarksGrow.same_marks _) rfl
    refine ⟨recursiveDownloadProcessRetry_calls s head hhead, fun ht => ?_⟩
    have hc := recursiveDownloadProcessRetry_satisfied s head hhead ht
    exact ⟨hc.1, by rw [hc.2, (h.2 ht).1]⟩
  · intro s ref h
    exact ⟨fileNodesChange_idle s ref h, fileNodesChange_idle_quiet s ref h⟩
  · refine ⟨by decide, by decide, by decide, by decide, by decide, by decide, by decide,
      by decide⟩


/-! ## Speculative nodes: what a lookup keeps -/

namespace FileTreeNode

theorem Keeps.same_kept (a : FileTreeNode) : Keeps a a := fun _ m h => ⟨m, h, rfl⟩

theorem Keeps.then_kept {a b c : FileTreeNode} (h1 : Keeps a b) (h2 : Keeps b c) : Keeps a c := by
  intro q m h
  obtain ⟨m2, e2, d2⟩ := h1 q m h
  obtain ⟨m3, e3, d3⟩ := h2 q m2 e2
  exact ⟨m3, e3, d3.trans d2⟩

theorem SameLookups.keeps {a b : FileTreeNode} (h : SameLookups a b) : Keeps a b :=
  fun q m hq => h.found q m hq

theorem MarksGrow.keeps_back {a b : FileTreeNode} (h : MarksGrow a b) (q : Path)
    (m2 : FileTreeNode) (hq : b.getNodeWithName q = some m2) :
    ∃ m, a.getNodeWithName q = some m ∧ m2.getFileData = m.getFileData := by
  obtain ⟨m, e, d, _, _⟩ := h q m2 hq
  exact ⟨m, e, d⟩

theorem getFileData_addChild (c n : FileTreeNode) : (addChild c n).getFileData = n.getFileData := by
  cases n; rfl

theorem getChildNodeWithName_addChild_found (c n x : FileTreeNode) (name : String)
    (h : n.getChildNodeWithName name = some x) :
    (addChild c n).getChildNodeWithName name = some x := by
  cases n with
  | mk d st b l t ch =>
    simp only [getChildNodeWithName, getChildList] at h
    simp only [addChild, getChildNodeWithName, getChildList, List.find?_append, h]
    rfl

theorem getChildNodeWithName_addChild_new (c n : FileTreeNode) (name : String)
    (h : n.getChildNodeWithName name = none) (hc : (c.getName == name) = true) :
    (addChild c n).getChildNodeWithName name = some c := by
  cases n with
  | mk d st b l t ch =>
    simp only [getChildNodeWithName, getChildList] at h
    simp only [addChild, getChildNodeWithName, getChildList, List.find?_append, h,
      List.find?_cons, hc]
    rfl

/-- A lookup below `n` that finds a node still finds it, as it was or after the write at
or below it, when the write keeps the file data and every child that a name finds. -/
theorem descend_modifyBelow_found (f : FileTreeNode → FileTreeNode)
    (hf : ∀ n, (f n).getFileData = n.getFileData)
    (hk : ∀ n name x, n.getChildNodeWithName name = some x →
      (f n).getChildNodeWithName name = some x) :
    ∀ (p : List String) (n : FileTreeNode) (q : List String) (m : FileTreeNode),
      n.descend q = some m →
        ∃ m2, (modifyBelow f n p).descend q = some m2 ∧ Touched f m m2
  | [], n, [], m, h => by
    simp only [descend, Option.some.injEq] at h
    subst h
    exact ⟨f n, by simp only [modifyBelow, descend], Or.inr ⟨[], by simp only [modifyBelow]⟩⟩
  | [], n, c :: cs, m, h => by
    simp only [modifyBelow]
    simp only [descend] at h ⊢
    cases hx : n.getChildNodeWithName c with
    | none => rw [hx] at h; cases h
    | some x =>
      rw [hx] at h
      rw [hk n c x hx]
      exact ⟨m, h, Or.inl rfl⟩
  | c :: cs, mk d st b l t ch, [], m, h => by
    simp only [descend, Option.some.injEq] at h
    subst h
    exact ⟨_, rfl, Or.inr ⟨c :: cs, rfl⟩⟩
  | c :: cs, mk d st b l t ch, name :: rest, m, h => by
    have hg : ∀ x, (modifyBelow f x cs).getName = x.getName :=
      fun x => getName_modifyBelow f hf x cs
    have hfind := find_modifyChild_any c name (fun x => modifyBelow f x cs) hg ch
    simp only [descend, getChildNodeWithName, getChildList] at h
    simp only [modifyBelow, descend, getChildNodeWithName, getChildList]
    cases hx : ch.find? (fun y => y.getName == name) with
    | none => rw [hx] at h; cases h
    | some x =>
      rw [hx] at h
      rcases hfind.2 x hx with h1 | h1
      · rw [h1]
        exact ⟨m, h, Or.inl rfl⟩
      · rw [h1]
        exact descend_modifyBelow_found f hf hk cs x rest m h

theorem keeps_modifyAt (f : FileTreeNode → FileTreeNode)
    (hf : ∀ n, (f n).getFileData = n.getFileData)
    (hk : ∀ n name x, n.getChildNodeWithName name = some x →
      (f n).getChildNodeWithName name = some x)
    (root : FileTreeNode) (p : Path) : Keeps root (root.modifyAt p f) := by
  intro q m h
  cases p with
  | nil => exact ⟨m, h, rfl⟩
  | cons r rest =>
    simp only [modifyAt]
    by_cases hr : (r == root.getName) = true
    · rw [if_pos hr]
      cases q with
      | nil => cases h
      | cons r2 rest2 =>
        simp only [getNodeWithName] at h
        simp only [getNodeWithName, getName_modifyBelow f hf]
        by_cases hr2 : (r2 == root.getName) = true
        · rw [if_pos hr2] at h
          rw [if_pos hr2]
          obtain ⟨m2, e, t⟩ := descend_modifyBelow_found f hf hk rest root rest2 m h
          exact ⟨m2, e, t.getFileData hf⟩
        · rw [if_neg hr2] at h; cases h
    · rw [if_neg hr]
      exact ⟨m, h, rfl⟩

theorem keeps_addChild (root : FileTreeNode) (p : Path) (c : FileTreeNode) :
    Keeps root (root.modifyAt p (addChild c)) :=
  keeps_modifyAt _ (getFileData_addChild c)
    (fun n name x h => getChildNodeWithName_addChild_found c n x name h) root p

/-- The node added under the node at `pos` is found at `pos` followed by its name. -/
theorem getNodeWithName_addChild (root : FileTreeNode) (pos : Path) (X c : FileTreeNode)
    (name : String) (hX : root.getNodeWithName pos = some X)
    (hnone : X.getChildNodeWithName name = none) (hc : (c.getName == name) = true) :
    (root.modifyAt pos (addChild c)).getNodeWithName (pos ++ [name]) = some c := by
  have h1 := getNodeWithName_modifyAt (addChild c) (getFileData_addChild c) root pos X hX
  refine getNodeWithName_append _ pos [name] _ c h1 ?_
  simp only [descend, getChildNodeWithName_addChild_new c X name hnone hc]

end FileTreeNode

namespace FileTreeNode

theorem getChildList_modifyBelow_of_nil (f : FileTreeNode → FileTreeNode)
    (hc : ∀ n, (f n).getChildList = n.getChildList) (n : FileTreeNode) (p : List String)
    (h : n.getChildList = []) : (modifyBelow f n p).getChildList = [] := by
  cases p with
  | nil => simp only [modifyBelow, hc, h]
  | cons c cs =>
    cases n with
    | mk d st b l t ch =>
      simp only [getChildList] at h
      subst h
      rfl

theorem getNodeState_modifyBelow_setLStask (h : Nat) (n : FileTreeNode) (p : List String)
    (hn : n.getNodeState ≠ NodeState.FOLDER_CONTENTS_LOADED) :
    (modifyBelow (setLStask h) n p).getNodeState ≠ NodeState.FOLDER_CONTENTS_LOADED := by
  cases p with
  | nil =>
    cases n with
    | mk d st b l t ch =>
      simp only [modifyBelow, setLStask, getNodeState] at hn ⊢
      split
      · exact fun x => NodeState.noConfusion x
      · exact hn
  | cons c cs => cases n; exact hn

/-- A node without children that is not loaded stays so when touched by `setLStask`. -/
theorem Touched.blank {h : Nat} {n y : FileTreeNode} (ht : Touched (setLStask h) n y)
    (hch : n.getChildList = []) (hst : n.getNodeState ≠ NodeState.FOLDER_CONTENTS_LOADED) :
    y.getFileData = n.getFileData ∧ y.getChildList = [] ∧
      y.getNodeState ≠ NodeState.FOLDER_CONTENTS_LOADED := by
  refine ⟨ht.getFileData (getFileData_setLStask h), ?_, ?_⟩
  · rcases ht with e | ⟨p, e⟩
    · rw [e]; exact hch
    · rw [e]; exact getChildList_modifyBelow_of_nil _ (getChildList_setLStask h) n p hch
  · rcases ht with e | ⟨p, e⟩
    · rw [e]; exact hst
    · rw [e]; exact getNodeState_modifyBelow_setLStask h n p hst

end FileTreeNode

/-- The mirror after a buffer request: as before, or with the buffer marker written to the
node of the reference. -/
theorem sendDownloadBuffReq_mirror (s : FileOperator) (ref : FileNodeRef) :
    (s.sendDownloadBuffReq ref).rootFileNode = s.rootFileNode ∨
      ∃ h, (s.sendDownloadBuffReq ref).rootFileNode =
        s.rootFileNode.modifyAt ref.fullPath (FileTreeNode.setBuffTask h) := by
  unfold FileOperator.sendDownloadBuffReq
  split
  · exact Or.inl rfl
  · split
    · exact Or.inl rfl
    · split
      · exact Or.inl rfl
      · cases hc : s.connection.headD true
        · rw [remoteCall_refused s _ _ hc]
          exact Or.inl rfl
        · rw [remoteCall_ok s _ _ hc]
          exact Or.inr ⟨_, rfl⟩

theorem keeps_sendDownloadBuffReq (s : FileOperator) (ref : FileNodeRef) :
    FileTreeNode.Keeps s.rootFileNode (s.sendDownloadBuffReq ref).rootFileNode := by
  rcases sendDownloadBuffReq_mirror s ref with h | ⟨k, h⟩
  · rw [h]; exact FileTreeNode.Keeps.same_kept _
  · rw [h]
    exact FileTreeNode.keeps_modifyAt _ (FileTreeNode.getFileData_setBuffTask k)
      (fun n name x hx => by
        rw [FileTreeNode.getChildNodeWithName_of_getChildList _ n
          (FileTreeNode.getChildList_setBuffTask k n)]
        exact hx) _ _

theorem keeps_enactFolderRefresh (s : FileOperator) (ref : FileNodeRef) :
    FileTreeNode.Keeps s.rootFileNode (s.enactFolderRefresh ref false).rootFileNode :=
  (sameLookups_enactFolderRefresh s ref).keeps

/-- The loop of the speculation loses no node of the mirror. -/
theorem keeps_speculateFileWithNameLoop (folder : Bool) (stamp : Nat) :
    ∀ (parts : List String) (pos : Path) (s : FileOperator),
      FileTreeNode.Keeps s.rootFileNode
        (FileOperator.speculateFileWithNameLoop folder stamp parts pos s).2.rootFileNode
  | [], pos, s => by
    rw [FileOperator.speculateFileWithNameLoop]
    repeat' split
    all_goals first
      | exact FileTreeNode.Keeps.same_kept _
      | exact keeps_enactFolderRefresh s _
      | exact keeps_sendDownloadBuffReq s _
  | part :: rest, pos, s => by
    rw [FileOperator.speculateFileWithNameLoop]
    split
    · exact FileTreeNode.Keeps.same_kept _
    · split
      · exact keeps_speculateFileWithNameLoop folder stamp rest _ s
      · split
        · exact FileTreeNode.Keeps.same_kept _
        · split
          · exact FileTreeNode.Keeps.same_kept _
          · refine FileTreeNode.Keeps.then_kept ?_
              (keeps_speculateFileWithNameLoop folder stamp rest _ _)
            exact (FileTreeNode.keeps_addChild s.rootFileNode pos _).then_kept
              (keeps_enactFolderRefresh (s.onNode pos _) _)

/-- The loop of the speculation walks along existing children without any effect. -/
theorem speculateFileWithNameLoop_follow (folder : Bool) (stamp : Nat) (s : FileOperator) :
    ∀ (pre rest : List String) (pos : Path) (X m : FileTreeNode),
      s.rootFileNode.getNodeWithName pos = some X → X.descend pre = some m →
      FileOperator.speculateFileWithNameLoop folder stamp (pre ++ rest) pos s =
          FileOperator.speculateFileWithNameLoop folder stamp rest (pos ++ pre) s ∧
        s.rootFileNode.getNodeWithName (pos ++ pre) = some m
  | [], rest, pos, X, m, hX, hm => by
    simp only [FileTreeNode.descend, Option.some.injEq] at hm
    subst hm
    rw [List.nil_append, List.append_nil]
    exact ⟨rfl, hX⟩
  | c :: cs, rest, pos, X, m, hX, hm => by
    simp only [FileTreeNode.descend] at hm
    cases hx : X.getChildNodeWithName c with
    | none => rw [hx] at hm; cases hm
    | some ch =>
      rw [hx] at hm
      have hch : s.rootFileNode.getNodeWithName (pos ++ [c]) = some ch :=
        FileTreeNode.getNodeWithName_append _ pos [c] X ch hX
          (by simp only [FileTreeNode.descend, hx])
      have ih := speculateFileWithNameLoop_follow folder stamp s cs rest (pos ++ [c]) ch m hch hm
      have e : pos ++ [c] ++ cs = pos ++ c :: cs := by
        rw [List.append_assoc]; rfl
      rw [e] at ih
      refine ⟨?_, ih.2⟩
      rw [← ih.1, List.cons_append, FileOperator.speculateFileWithNameLoop, hX]
      simp only [hx]

/-- The first missing component under a node that is no folder, or under a loaded folder:
the nil reference, and nothing has happened. -/
theorem speculateFileWithNameLoop_refused (folder : Bool) (stamp : Nat) (s : FileOperator)
    (c : String) (post : List String) (pos : Path) (m : FileTreeNode)
    (hm : s.rootFileNode.getNodeWithName pos = some m)
    (hnone : m.getChildNodeWithName c = none)
    (hbad : m.isFolder = false ∨ m.getNodeState = NodeState.FOLDER_CONTENTS_LOADED) :
    FileOperator.speculateFileWithNameLoop folder stamp (c :: post) pos s =
      (FileNodeRef.nil, s) := by
  rw [FileOperator.speculateFileWithNameLoop, hm]
  simp only [hnone]
  rcases hbad with h | h
  · simp only [h, Bool.not_false, if_true]
  · cases hf : m.isFolder
    · simp only [Bool.not_false, if_true]
    · simp only [Bool.not_true, Bool.false_eq_true, if_false, h, if_true]

theorem getName_fresh_snoc (p : Path) (c : String) (k : FileType) (stamp : Nat) :
    ((FileTreeNode.fresh { fullPath := p ++ [c], fileType := k, size := 0 } stamp).getName == c) =
      true := by
  simp [FileTreeNode.fresh, FileTreeNode.getName, FileTreeNode.getFileData,
    FileMetaData.getFileName]

/-- The node made for a missing component, as the loop finds it after the refresh of its
parent was requested: it carries the data it was made with, has no children and is not
loaded. -/
theorem speculated_node_found (s : FileOperator) (pos : Path) (X : FileTreeNode) (c : String)
    (k : FileType) (stamp : Nat) (hX : s.rootFileNode.getNodeWithName pos = some X)
    (hnone : X.getChildNodeWithName c = none) :
    ∃ Y, ((s.onNode pos (FileTreeNode.addChild (FileTreeNode.fresh
          { fullPath := X.getFileData.fullPath ++ [c], fileType := k, size := 0 }
          stamp))).enactFolderRefresh X.getFileData false).rootFileNode.getNodeWithName
          (pos ++ [c]) = some Y ∧
      Y.getFileData = { fullPath := X.getFileData.fullPath ++ [c], fileType := k, size := 0,
                        timestamp := stamp, isNil := false } ∧
      Y.getChildList = [] ∧ Y.getNodeState ≠ NodeState.FOLDER_CONTENTS_LOADED := by
  have h1 : (s.onNode pos (FileTreeNode.addChild (FileTreeNode.fresh
      { fullPath := X.getFileData.fullPath ++ [c], fileType := k, size := 0 }
      stamp))).rootFileNode.getNodeWithName (pos ++ [c]) = some (FileTreeNode.fresh
      { fullPath := X.getFileData.fullPath ++ [c], fileType := k, size := 0 } stamp) :=
    FileTreeNode.getNodeWithName_addChild _ pos X _ c hX hnone (getName_fresh_snoc _ _ _ _)
  rcases enactFolderRefresh_mirror (s.onNode pos (FileTreeNode.addChild (FileTreeNode.fresh
      { fullPath := X.getFileData.fullPath ++ [c], fileType := k, size := 0 } stamp)))
      X.getFileData with h | ⟨j, h⟩
  · rw [h]
    exact ⟨_, h1, rfl, rfl, fun x => NodeState.noConfusion x⟩
  · rw [h]
    obtain ⟨Y, e, t⟩ := (FileTreeNode.getNodeWithName_modifyAt_any _
      (FileTreeNode.getFileData_setLStask j) (FileTreeNode.getChildList_setLStask j) _
      X.getFileData.fullPath (pos ++ [c])).2 _ h1
    have hb := t.blank rfl (fun x => NodeState.noConfusion x)
    exact ⟨Y, e, hb.1, hb.2.1, hb.2.2⟩


/-- The tail of the speculation at a node found at `pos`: the reference of that node, and
the node is still found there. -/
theorem speculateFileWithNameLoop_tail (folder : Bool) (stamp : Nat) (s : FileOperator)
    (pos : Path) (Y : FileTreeNode) (hY : s.rootFileNode.getNodeWithName pos = some Y) :
    (FileOperator.speculateFileWithNameLoop folder stamp [] pos s).1 = Y.getFileData ∧
      ∃ p, (FileOperator.speculateFileWithNameLoop folder stamp [] pos
          s).2.rootFileNode.getNodeWithName pos = some p ∧ p.getFileData = Y.getFileData := by
  rw [FileOperator.speculateFileWithNameLoop, hY]
  cases folder
  · simp only [Bool.false_eq_true, if_false]
    split
    · exact ⟨rfl, keeps_sendDownloadBuffReq s _ pos Y hY⟩
    · exact ⟨rfl, Y, hY, rfl⟩
  · simp only [if_true]
    split
    · exact ⟨rfl, keeps_enactFolderRefresh s _ pos Y hY⟩
    · exact ⟨rfl, Y, hY, rfl⟩

/-- From the first missing component on, under a folder that is not loaded, the loop makes
a node for every component. -/
theorem speculateFileWithNameLoop_creates (folder : Bool) (stamp : Nat) :
    ∀ (post : List String) (c : String) (pos : Path) (s : FileOperator) (X : FileTreeNode)
      (r : FileNodeRef × FileOperator),
      s.rootFileNode.getNodeWithName pos = some X → X.getChildNodeWithName c = none →
      X.isFolder = true → X.getNodeState ≠ NodeState.FOLDER_CONTENTS_LOADED →
      FileOperator.speculateFileWithNameLoop folder stamp (c :: post) pos s = r →
      r.1.fullPath = X.getFileData.fullPath ++ c :: post ∧
        r.1.fileType = (if folder then FileType.DIR else FileType.FILE) ∧
        r.1.isNil = false ∧
        (∃ p, r.2.rootFileNode.getNodeWithName (pos ++ c :: post) = some p ∧
          p.getFileData = r.1) ∧
        ∀ k, k ≤ post.length →
          ∃ p, r.2.rootFileNode.getNodeWithName (pos ++ c :: post.take k) = some p ∧
            p.getFileData.fullPath = X.getFileData.fullPath ++ c :: post.take k ∧
            p.getFileData.fileType =
              (if k = post.length ∧ folder = false then FileType.FILE else FileType.DIR)
  | [], c, pos, s, X, r, hX, hnone, hfolder, hst, hr => by
    rw [FileOperator.speculateFileWithNameLoop, hX] at hr
    simp only [hnone, hfolder, Bool.not_true, Bool.false_eq_true, if_false, hst] at hr
    obtain ⟨Y, hY, hd, _, _⟩ := speculated_node_found s pos X c
      (if ([] : List String).isEmpty && !folder then FileType.FILE else FileType.DIR) stamp
      hX hnone
    have ht := speculateFileWithNameLoop_tail folder stamp _ (pos ++ [c]) Y hY
    rw [hr] at ht
    obtain ⟨h1, p, hp, hpd⟩ := ht
    have hk : (if ([] : List String).isEmpty && !folder then FileType.FILE else FileType.DIR) =
        (if folder then FileType.DIR else FileType.FILE) := by
      cases folder <;> rfl
    refine ⟨by rw [h1, hd], by rw [h1, hd]; exact hk, by rw [h1, hd], ⟨p, hp, hpd.trans h1.symm⟩,
      ?_⟩
    intro k hk0
    have hk1 : k = 0 := Nat.le_zero.mp hk0
    subst hk1
    refine ⟨p, hp, by rw [hpd, hd]; rfl, ?_⟩
    rw [hpd, hd]
    cases folder <;> simp
  | c2 :: post2, c, pos, s, X, r, hX, hnone, hfolder, hst, hr => by
    rw [FileOperator.speculateFileWithNameLoop, hX] at hr
    simp only [hnone, hfolder, Bool.not_true, Bool.false_eq_true, if_false, hst] at hr
    obtain ⟨Y, hY, hd, hch, hys⟩ := speculated_node_found s pos X c
      (if (c2 :: post2).isEmpty && !folder then FileType.FILE else FileType.DIR) stamp
      hX hnone
    have hkind : (if (c2 :: post2).isEmpty && !folder then FileType.FILE else FileType.DIR) =
        FileType.DIR := rfl
    rw [hkind] at hd
    have hYnone : Y.getChildNodeWithName c2 = none := by
      unfold FileTreeNode.getChildNodeWithName
      rw [hch]; rfl
    have hYfolder : Y.isFolder = true := by
      unfold FileTreeNode.isFolder
      rw [hd]; rfl
    have ih := speculateFileWithNameLoop_creates folder stamp post2 c2 (pos ++ [c]) _ Y r hY
      hYnone hYfolder hys hr
    have hpath : ∀ l : List String, pos ++ [c] ++ l = pos ++ c :: l := by
      intro l; rw [List.append_assoc]; rfl
    have hfull : Y.getFileData.fullPath = X.getFileData.fullPath ++ [c] := by rw [hd]
    have hfp : ∀ l : List String, Y.getFileData.fullPath ++ l = X.getFileData.fullPath ++ c :: l := by
      intro l; rw [hfull, List.append_assoc]; rfl
    obtain ⟨i1, i2, i3, i4, i5⟩ := ih
    refine ⟨by rw [i1, hfp], i2, i3, ?_, ?_⟩
    · rw [hpath] at i4; exact i4
    · intro k hk0
      cases k with
      | zero =>
        have hkeep := keeps_speculateFileWithNameLoop folder stamp (c2 :: post2) (pos ++ [c]) _
          (pos ++ [c]) Y hY
        rw [hr] at hkeep
        obtain ⟨p, hp, hpd⟩ := hkeep
        refine ⟨p, hp, by rw [hpd, hd]; rfl, ?_⟩
        rw [hpd, hd]
        simp
      | succ k2 =>
        obtain ⟨p, hp, hpp, hpk⟩ := i5 k2 (Nat.le_of_succ_le_succ hk0)
        rw [hpath] at hp
        rw [hfp] at hpp
        refine ⟨p, hp, hpp, ?_⟩
        rw [hpk]
        simp

theorem FileTreeNode.getNodeWithName_snoc_none (root : FileTreeNode) (p : Path) (c : String)
    (m : FileTreeNode) (h : root.getNodeWithName p = some m)
    (hnone : m.getChildNodeWithName c = none) : root.getNodeWithName (p ++ [c]) = none := by
  cases p with
  | nil => cases h
  | cons r rest =>
    simp only [FileTreeNode.getNodeWithName] at h
    simp only [List.cons_append, FileTreeNode.getNodeWithName]
    by_cases hr : (r == root.getName) = true
    · rw [if_pos hr] at h
      rw [if_pos hr, FileTreeNode.descend_snoc, h]
      exact hnone
    · rw [if_neg hr]

/-- C20: `speculateFileWithName(baseNode, addedPath, folder)` for a base reference that
resolves, the components `pre` of the added path being existing children down to the node
`m` and the next component `c` being no child of `m`.  When `m` is no folder, or a folder
whose contents are loaded, the result is the nil reference and the operator is unchanged:
no node is made, nothing is requested.  When `m` is a folder that is not loaded, nothing
was found at `c` before, and afterwards a node is found for `c` and for every later
component; the full path of each is the full path of `m` followed by the components down
to it, that is the full path of its parent followed by its own component; its kind is
DIR, but FILE for the last one when `folder` is false; the reference returned is not nil
and is the data of the deepest of these nodes. -/
theorem speculateFileWithName_places (s : FileOperator) (baseNode : FileNodeRef)
    (pre : List String) (c : String) (post : List String) (folder : Bool) (stamp : Nat)
    (b m : FileTreeNode)
    (hb : s.getFileNodeFromNodeRef baseNode s.verifyDefault = some b)
    (hpre : b.descend pre = some m) (hnone : m.getChildNodeWithName c = none) :
    ((m.isFolder = false ∨ m.getNodeState = NodeState.FOLDER_CONTENTS_LOADED) →
        s.speculateFileWithName baseNode (pre ++ c :: post) folder stamp =
          (FileNodeRef.nil, s)) ∧
      (m.isFolder = true → m.getNodeState ≠ NodeState.FOLDER_CONTENTS_LOADED →
        s.rootFileNode.getNodeWithName (baseNode.fullPath ++ pre ++ [c]) = none ∧
          (s.speculateFileWithName baseNode (pre ++ c :: post) folder stamp).1.fullPath =
            m.getFileData.fullPath ++ c :: post ∧
          (s.speculateFileWithName baseNode (pre ++ c :: post) folder stamp).1.fileType =
            (if folder then FileType.DIR else FileType.FILE) ∧
          (s.speculateFileWithName baseNode (pre ++ c :: post) folder stamp).1.isNil = false ∧
          (∃ p, (s.speculateFileWithName baseNode (pre ++ c :: post) folder
                stamp).2.rootFileNode.getNodeWithName
                (baseNode.fullPath ++ pre ++ c :: post) = some p ∧
              p.getFileData =
                (s.speculateFileWithName baseNode (pre ++ c :: post) folder stamp).1) ∧
          ∀ k, k ≤ post.length →
            ∃ p, (s.speculateFileWithName baseNode (pre ++ c :: post) folder
                  stamp).2.rootFileNode.getNodeWithName
                  (baseNode.fullPath ++ pre ++ c :: post.take k) = some p ∧
              p.getFileData.fullPath = m.getFileData.fullPath ++ c :: post.take k ∧
              p.getFileData.fileType =
                (if k = post.length ∧ folder = false then FileType.FILE
                  else FileType.DIR)) := by
  have hroot := resolve_lookup s baseNode _ b hb
  have hfollow := speculateFileWithNameLoop_follow folder stamp s pre (c :: post)
    baseNode.fullPath b m hroot hpre
  have hun : s.speculateFileWithName baseNode (pre ++ c :: post) folder stamp =
      FileOperator.speculateFileWithNameLoop folder stamp (c :: post)
        (baseNode.fullPath ++ pre) s := by
    unfold FileOperator.speculateFileWithName
    rw [hb]
    exact hfollow.1
  rw [hun]
  refine ⟨fun hbad => ?_, fun hfolder hst => ?_⟩
  · exact speculateFileWithNameLoop_refused folder stamp s c post _ m hfollow.2 hnone hbad
  · have hc := speculateFileWithNameLoop_creates folder stamp post c (baseNode.fullPath ++ pre)
      s m _ hfollow.2 hnone hfolder hst rfl
    exact ⟨FileTreeNode.getNodeWithName_snoc_none _ _ c m hfollow.2 hnone, hc⟩

/-- Witness for C20: under the loaded folder `/home` the missing name `zzz` is refused;
under the unlisted folder `/home` the path `docs/n.txt` is speculated. -/
theorem speculateFileWithName_places_witness :
    Example.start.speculateFileWithName Example.homeRef ["zzz"] false 20 =
        (FileNodeRef.nil, Example.start) ∧
      (Example.unlisted.speculateFileWithName Example.homeRef ["docs", "n.txt"] false
        20).1.fullPath = ["home", "docs", "n.txt"] :=
  ⟨(speculateFileWithName_places Example.start Example.homeRef [] "zzz" [] false 20
      Example.home Example.home rfl rfl rfl).1 (Or.inr rfl),
    ((speculateFileWithName_places Example.unlisted Example.homeRef [] "docs" ["n.txt"] false
      20 Example.unlisted.rootFileNode Example.unlisted.rootFileNode rfl rfl rfl).2 rfl
      (by decide)).2.1⟩


/-- Witness for C15: the delete of `/home/a.txt` is answered well; the path resolves to a
node that is not the root, and the refresh is that of its parent `/home`. -/
theorem good_reply_refreshes_parent_witness :
    Example.start.crashed = false ∧
      ∃ parent name, ["home", "a.txt"] = ["home", "a.txt"].dropLast ++ [name] ∧
        Example.start.rootFileNode.getNodeWithName ["home", "a.txt"].dropLast = some parent ∧
        parent.getChildNodeWithName name = some Example.fileA ∧
        Example.start.releaseFileOp.lsClosestNodeToParent ["home", "a.txt"] false =
          Example.start.releaseFileOp.enactFolderRefresh parent.getFileData false :=
  ⟨rfl, ((good_reply_refreshes_parent Example.start Example.projData ["home", "a.txt"] rfl).2.1
    ["home", "a.txt"]).2.1 Example.fileA rfl (by decide)⟩

/-- Witness for C16: the rename of `/home/b.txt` to `c.txt` is answered well; nothing is
known at the new path, and the second refresh is that of the closest node `/home`. -/
theorem good_reply_refreshes_both_ends_witness :
    Example.start.crashed = false ∧
      Example.start.getRenameReply RequestState.GOOD
          { fullPath := ["home", "c.txt"], fileType := FileType.FILE, size := 1 }
          ["home", "b.txt"] =
        ((Example.start.releaseFileOp.lsClosestNodeToParent ["home", "b.txt"]
          false).enactFolderRefresh Example.home.getFileData false).emit
          (Signal.fileOpDone RequestState.GOOD) :=
  ⟨rfl, ((good_reply_refreshes_both_ends Example.start
    { fullPath := ["home", "c.txt"], fileType := FileType.FILE, size := 1 }
    ["home", "b.txt"] rfl).2.1 Example.fileB rfl).2.2.2.1 rfl Example.home rfl⟩


/-! ## The recursive-task flag and the top-level lock -/

/-- C26 (code bug): a recursive walk can be active while the top-level lock is open.  A
recursive upload is aborted and a delete is accepted; the late failing reply to the mkdir
of the aborted upload releases the lock that the delete holds; a new recursive upload
claims the lock and sets the flag; the reply to the delete then releases the lock, and the
flag is UPLOAD with the lock open.  Only triggers, an abort and reply deliveries occur. -/
theorem upload_runs_with_lock_open :
    Reachable (Example.start.run Example.lockLostUnderUpload) ∧
      (Example.start.run Example.lockLostUnderUpload).currentRecursiveTask =
        FileOp_RecursiveTask.UPLOAD ∧
      (Example.start.run Example.lockLostUnderUpload).fileOpPending.lockClosed = false ∧
      (Example.start.run Example.lockLostUnderUpload).pending =
        [⟨2, Slot.getRecursiveMkdirReply⟩] ∧
      (Example.start.run (Example.lockLostUnderUpload.take 5)).currentRecursiveTask =
        FileOp_RecursiveTask.UPLOAD ∧
      (Example.start.run (Example.lockLostUnderUpload.take 5)).fileOpPending.lockClosed =
        true ∧
      (Example.start.run (Example.lockLostUnderUpload.take 3)).fileOpPending.lockClosed =
        true ∧
      (Example.start.run (Example.lockLostUnderUpload.take 4)).fileOpPending.lockClosed =
        false :=
  ⟨reachable_example _, by decide, by decide, by decide, by decide, by decide, by decide,
    by decide⟩

/-! ## Late replies and change notifications -/

namespace FileOperator

theorem signals_sendRecursiveCreateFolderReq (s : FileOperator) (n : FileTreeNode)
    (name : String) : (s.sendRecursiveCreateFolderReq n name).2.signals = s.signals := by
  unfold FileOperator.sendRecursiveCreateFolderReq
  simp only []
  split
  · rfl
  · cases hc : s.connection.headD true
    · rw [remoteCall_refused
        ({ s with recursivefileOpPending := s.recursivefileOpPending.checkAndClaim.2 } :
          FileOperator) _ _ hc]
      rfl
    · rw [remoteCall_ok
        ({ s with recursivefileOpPending := s.recursivefileOpPending.checkAndClaim.2 } :
          FileOperator) _ _ hc]

theorem signals_sendRecursiveUploadReq (s : FileOperator) (n : FileTreeNode)
    (f : String) : (s.sendRecursiveUploadReq n f).2.signals = s.signals := by
  unfold FileOperator.sendRecursiveUploadReq
  simp only []
  split
  · rfl
  · cases hc : s.connection.headD true
    · rw [remoteCall_refused
        ({ s with recursivefileOpPending := s.recursivefileOpPending.checkAndClaim.2 } :
          FileOperator) _ _ hc]
      rfl
    · rw [remoteCall_ok
        ({ s with recursivefileOpPending := s.recursivefileOpPending.checkAndClaim.2 } :
          FileOperator) _ _ hc]

mutual
theorem signals_recursiveUploadHelper :
    ∀ (n : FileTreeNode) (q : QFileInfo) (a : String) (s : FileOperator),
      (recursiveUploadHelper n q a s).2.2.signals = s.signals
  | n, QFileInfo.dir name entries, a, s => by
    rw [recursiveUploadHelper]
    split
    · rfl
    · split
      · rfl
      · split
        · exact (frame_enactFolderRefresh s _ false).signals
        · exact signals_recursiveUploadEntries n entries a _ s
  | n, QFileInfo.file name, a, s => by
    rw [recursiveUploadHelper]
    split
    · rfl
    · split
      · rfl
      · split
        · exact (frame_enactFolderRefresh s _ false).signals
        · rfl
  | n, QFileInfo.other name, a, s => by
    rw [recursiveUploadHelper]
    split
    · rfl
    · split
      · rfl
      · split
        · exact (frame_enactFolderRefresh s _ false).signals
        · rfl
theorem signals_recursiveUploadEntries :
    ∀ (n : FileTreeNode) (es : List QFileInfo) (a : String) (e : RecursiveErrorCodes)
      (s : FileOperator), (recursiveUploadEntries n es a e s).2.2.signals = s.signals
  | n, [], a, e, s => by
    rw [recursiveUploadEntries]
  | n, QFileInfo.dir name entries :: rest, a, e, s => by
    rw [recursiveUploadEntries]
    split
    · exact signals_sendRecursiveCreateFolderReq s _ _
    · rename_i childNode _
      have h1 := signals_recursiveUploadHelper childNode (QFileInfo.dir name entries)
        (a ++ "/" ++ name) s
      simp only []
      split
      · exact h1
      · exact (signals_recursiveUploadEntries n rest a _ _).trans h1
  | n, QFileInfo.file name :: rest, a, e, s => by
    rw [recursiveUploadEntries]
    split
    · exact signals_sendRecursiveUploadReq s _ _
    · split
      · rfl
      · exact signals_recursiveUploadEntries n rest a e s
  | n, QFileInfo.other name :: rest, a, e, s => by
    rw [recursiveUploadEntries]
    exact signals_recursiveUploadEntries n rest a e s
end

/-- The upload walk emits nothing, or the one operation-finished event. -/
theorem signals_recursiveUploadProcessRetry (s : FileOperator) :
    ∃ l, s.recursiveUploadProcessRetry.signals = s.signals ++ l := by
  unfold FileOperator.recursiveUploadProcessRetry
  split
  · exact ⟨[], (List.append_nil _).symm⟩
  · split
    · exact ⟨[], (List.append_nil _).symm⟩
    · split
      · exact ⟨[], by rw [signals_sendRecursiveCreateFolderReq, List.append_nil]⟩
      · rename_i trueRemoteHead _
        have hw := signals_recursiveUploadHelper trueRemoteHead s.recursiveLocalHead.info
          s.recursiveLocalHead.absolutePath s
        have e1 : ∀ sig : Signal,
            (({ (recursiveUploadHelper trueRemoteHead s.recursiveLocalHead.info
                  s.recursiveLocalHead.absolutePath s).2.2 with
                currentRecursiveTask := FileOp_RecursiveTask.NONE } :
              FileOperator).releaseFileOp.emit sig).signals = s.signals ++ [sig] := by
          intro sig
          show FileOperator.signals _ ++ _ = _
          congr 1
        simp only []
        repeat' split
        all_goals first
          | exact ⟨[], hw.trans (List.append_nil _).symm⟩
          | exact ⟨[_], e1 _⟩

/-- The download walk emits nothing, or the one operation-finished event. -/
theorem signals_recursiveDownloadProcessRetry (s : FileOperator) :
    ∃ l, s.recursiveDownloadProcessRetry.signals = s.signals ++ l := by
  unfold FileOperator.recursiveDownloadProcessRetry
  split
  · exact ⟨[], (List.append_nil _).symm⟩
  · rename_i head _
    have hw := frame_recursiveDownloadRetrivalHelper head s
    have hc := commit_recursiveDownloadFolderEmitHelper head RecursiveErrorCodes.NONE
      (recursiveDownloadRetrivalHelper head s).2
    have e1 : ∀ sig : Signal,
        (({ (recursiveDownloadFolderEmitHelper head RecursiveErrorCodes.NONE
              (recursiveDownloadRetrivalHelper head s).2).2.2 with
            currentRecursiveTask := FileOp_RecursiveTask.NONE } :
          FileOperator).releaseFileOp.emit sig).signals = s.signals ++ [sig] := by
      intro sig
      show FileOperator.signals _ ++ _ = _
      congr 1
      exact hc.signals.trans hw.signals
    simp only []
    repeat' split
    all_goals first
      | exact ⟨[], hw.signals.trans (List.append_nil _).symm⟩
      | exact ⟨[_], e1 _⟩

end FileOperator

theorem fileNodesChange_idle_many (refs : List FileNodeRef) :
    ∀ (s : FileOperator), s.currentRecursiveTask = FileOp_RecursiveTask.NONE →
      refs.foldl FileOperator.fileNodesChange s =
          refs.foldl (fun t r => t.emit (Signal.fileSystemChange r)) s ∧
        (refs.foldl FileOperator.fileNodesChange s).calls = s.calls ∧
        (refs.foldl FileOperator.fileNodesChange s).currentRecursiveTask =
          FileOp_RecursiveTask.NONE := by
  induction refs with
  | nil => intro s h; exact ⟨rfl, rfl, h⟩
  | cons r rest ih =>
    intro s h
    simp only [List.foldl_cons]
    rw [fileNodesChange_idle s r h]
    exact ih (s.emit (Signal.fileSystemChange r)) h

/-- C25: a reply that arrives after the cancellation.  With the flag at NONE the handlers
of the mkdir and upload sub-calls, whatever the status of the reply, release the secondary
lock and leave the flag at NONE; they call nothing but, at most, one listing; and any
number of change notifications that follow only forward their events: no walk is entered
and nothing is called.  In every state `fileNodesChange` first forwards the notification
and then enters the download walk when the flag is DOWNLOAD, the upload walk when it is
UPLOAD, and no walk when it is NONE. -/
theorem late_reply_is_discarded (s : FileOperator) (st : RequestState) (d : FileMetaData)
    (hidle : s.currentRecursiveTask = FileOp_RecursiveTask.NONE) :
    (∀ t : FileOperator,
      (t = s.getRecursiveMkdirReply st d ∨ t = s.getRecursiveUploadReply st d) →
      t.recursivefileOpPending = s.recursivefileOpPending.release ∧
        t.recursivefileOpPending.lockClosed = false ∧
        t.currentRecursiveTask = FileOp_RecursiveTask.NONE ∧
        (t.calls = s.calls ∨ ∃ p, t.calls = s.calls ++ [RemoteCall.remoteLS p]) ∧
        ∀ refs : List FileNodeRef,
          refs.foldl FileOperator.fileNodesChange t =
              refs.foldl (fun u r => u.emit (Signal.fileSystemChange r)) t ∧
            (refs.foldl FileOperator.fileNodesChange t).calls = t.calls ∧
            (refs.foldl FileOperator.fileNodesChange t).currentRecursiveTask =
              FileOp_RecursiveTask.NONE) ∧
    (∀ (u : FileOperator) (ref : FileNodeRef),
      (u.currentRecursiveTask = FileOp_RecursiveTask.DOWNLOAD →
        u.fileNodesChange ref =
          (u.emit (Signal.fileSystemChange ref)).recursiveDownloadProcessRetry) ∧
      (u.currentRecursiveTask = FileOp_RecursiveTask.UPLOAD →
        u.fileNodesChange ref =
          (u.emit (Signal.fileSystemChange ref)).recursiveUploadProcessRetry) ∧
      (u.currentRecursiveTask = FileOp_RecursiveTask.NONE →
        u.fileNodesChange ref = u.emit (Signal.fileSystemChange ref)) ∧
      ∃ l, (u.fileNodesChange ref).signals = u.signals ++ Signal.fileSystemChange ref :: l) := by
  constructor
  · intro t ht
    have key : t.recursivefileOpPending = s.recursivefileOpPending.release ∧
        t.currentRecursiveTask = FileOp_RecursiveTask.NONE ∧
        (t.calls = s.calls ∨ ∃ p, t.calls = s.calls ++ [RemoteCall.remoteLS p]) := by
      rcases ht with ht | ht
      · rw [ht]
        unfold FileOperator.getRecursiveMkdirReply
        simp only []
        split
        · exact ⟨rfl, rfl, Or.inl rfl⟩
        · have f := FileOperator.frame_lsClosestNode s.releaseRecursive d.getContainingPath false
          exact ⟨f.recursivefileOpPending, f.currentRecursiveTask.trans hidle,
            lsClosestNode_calls s.releaseRecursive d.getContainingPath false⟩
      · rw [ht]
        unfold FileOperator.getRecursiveUploadReply
        simp only []
        split
        · exact ⟨rfl, rfl, Or.inl rfl⟩
        · have f := FileOperator.frame_lsClosestNodeToParent s.releaseRecursive d.fullPath false
          exact ⟨f.recursivefileOpPending, f.currentRecursiveTask.trans hidle,
            lsClosestNodeToParent_calls s.releaseRecursive d.fullPath false⟩
    refine ⟨key.1, by rw [key.1]; rfl, key.2.1, key.2.2, fun refs => ?_⟩
    exact fileNodesChange_idle_many refs t key.2.1
  · intro u ref
    refine ⟨?_, ?_, fun h => fileNodesChange_idle u ref h, ?_⟩
    · intro h
      unfold FileOperator.fileNodesChange FileOperator.performingRecursiveDownload
      have h1 : (u.emit (Signal.fileSystemChange ref)).currentRecursiveTask =
          FileOp_RecursiveTask.DOWNLOAD := h
      simp only [h1, beq_self_eq_true, if_true]
    · intro h
      unfold FileOperator.fileNodesChange FileOperator.performingRecursiveDownload
        FileOperator.performingRecursiveUpload
      have h1 : (u.emit (Signal.fileSystemChange ref)).currentRecursiveTask =
          FileOp_RecursiveTask.UPLOAD := h
      simp only [h1, beq_self_eq_true, if_true]
      rfl
    · unfold FileOperator.fileNodesChange
      simp only []
      split
      · obtain ⟨l, hl⟩ := FileOperator.signals_recursiveDownloadProcessRetry
          (u.emit (Signal.fileSystemChange ref))
        exact ⟨l, by rw [hl]; show (u.signals ++ _) ++ l = _; rw [List.append_assoc]; rfl⟩
      · split
        · obtain ⟨l, hl⟩ := FileOperator.signals_recursiveUploadProcessRetry
            (u.emit (Signal.fileSystemChange ref))
          exact ⟨l, by rw [hl]; show (u.signals ++ _) ++ l = _; rw [List.append_assoc]; rfl⟩
        · exact ⟨[], rfl⟩

/-- Witness for C25: the upload of `proj` is aborted while its first mkdir is outstanding;
the good reply that arrives afterwards leaves the flag at NONE and opens the secondary
lock. -/
theorem late_reply_is_discarded_witness :
    ((Example.start.run [Example.uploadProj,
        Action.abortRecursiveProcess]).getRecursiveMkdirReply RequestState.GOOD
        Example.projData).currentRecursiveTask = FileOp_RecursiveTask.NONE ∧
      ((Example.start.run [Example.uploadProj,
        Action.abortRecursiveProcess]).getRecursiveMkdirReply RequestState.GOOD
        Example.projData).recursivefileOpPending.lockClosed = false :=
  ⟨((late_reply_is_discarded (Example.start.run [Example.uploadProj,
      Action.abortRecursiveProcess]) RequestState.GOOD Example.projData (by decide)).1 _
      (Or.inl rfl)).2.2.1,
    ((late_reply_is_discarded (Example.start.run [Example.uploadProj,
      Action.abortRecursiveProcess]) RequestState.GOOD Example.projData (by decide)).1 _
      (Or.inl rfl)).2.1⟩


/-! ## The path handed on by the speculation from a full path -/

theorem foldl_slash_acc : ∀ (p : List String) (acc : String),
    p.foldl (fun a c => a ++ "/" ++ c) acc = acc ++ p.foldl (fun a c => a ++ "/" ++ c) ""
  | [], acc => by simp only [List.foldl_nil, String.append_empty]
  | c :: cs, acc => by
    simp only [List.foldl_cons]
    rw [foldl_slash_acc cs (acc ++ "/" ++ c), foldl_slash_acc cs ("" ++ "/" ++ c)]
    simp only [String.empty_append, String.append_assoc]

theorem pathString_append (a b : Path) : pathString (a ++ b) = pathString a ++ pathString b := by
  unfold pathString
  rw [List.foldl_append, foldl_slash_acc b]

theorem speculatePathSoFar_eq : ∀ (parts : List String) (k : Nat) (acc : String),
    FileOperator.speculatePathSoFar parts k acc =
      (parts.drop k).foldl (fun a c => a ++ "/" ++ c) acc
  | [], k, acc => by simp only [FileOperator.speculatePathSoFar, List.drop_nil, List.foldl_nil]
  | part :: rest, 0, acc => by
    simp only [FileOperator.speculatePathSoFar, Nat.le_refl, if_true, List.drop_zero,
      List.foldl_cons]
    rw [speculatePathSoFar_eq rest 0 (acc ++ "/" ++ part), List.drop_zero]
  | part :: rest, k + 1, acc => by
    simp only [FileOperator.speculatePathSoFar, Nat.add_sub_cancel, List.drop_succ_cons]
    rw [if_neg (Nat.not_succ_le_zero k)]
    exact speculatePathSoFar_eq rest k acc

/-- C27: `speculateFileWithName(fullPath, folder)`.  When the full path resolves to a
mirror node the reference of that node is returned and the operator is unchanged: no node
is made, nothing is requested.  Otherwise, with `k` the number of components of the stored
path of the closest known node, the string handed on to the speculation from that node is
made of the components of the full path after its first `k`, each behind a slash, in
order; when the stored path of the closest node is the beginning of the full path, that
path followed by the components handed on is the full path, as lists and as strings; and
nothing is handed on when the full path has at most `k` components.  When there is no
closest node the nil reference is returned. -/
theorem speculateFileWithNameByPath_hands_on (s : FileOperator) (fullPath : Path)
    (folder : Bool) (stamp : Nat) :
    (∀ node, s.rootFileNode.getNodeWithName fullPath = some node →
      s.speculateFileWithNameByPath fullPath folder stamp = (node.getFileData, s)) ∧
    (s.rootFileNode.getNodeWithName fullPath = none →
      s.rootFileNode.getClosestNodeWithName fullPath = none →
      s.speculateFileWithNameByPath fullPath folder stamp = (FileNodeRef.nil, s)) ∧
    (∀ closest, s.rootFileNode.getNodeWithName fullPath = none →
      s.rootFileNode.getClosestNodeWithName fullPath = some closest →
      FileOperator.speculatePathSoFar fullPath closest.getFileData.fullPath.length "" =
          pathString (fullPath.drop closest.getFileData.fullPath.length) ∧
        s.speculateFileWithNameByPath fullPath folder stamp =
          s.speculateFileWithName closest.getFileData
            (FileMetaData.getPathNameList
              (pathString (fullPath.drop closest.getFileData.fullPath.length)))
            folder stamp ∧
        ((∃ t, fullPath = closest.getFileData.fullPath ++ t) →
          closest.getFileData.fullPath ++
              fullPath.drop closest.getFileData.fullPath.length = fullPath ∧
            pathString closest.getFileData.fullPath ++
              pathString (fullPath.drop closest.getFileData.fullPath.length) =
                pathString fullPath) ∧
        (fullPath.length ≤ closest.getFileData.fullPath.length →
          pathString (fullPath.drop closest.getFileData.fullPath.length) = "")) := by
  refine ⟨?_, ?_, ?_⟩
  · intro node h
    unfold FileOperator.speculateFileWithNameByPath
    rw [h]
  · intro h hc
    unfold FileOperator.speculateFileWithNameByPath
    rw [h]
    simp only [hc]
  · intro closest h hc
    have hp : FileOperator.speculatePathSoFar fullPath closest.getFileData.fullPath.length "" =
        pathString (fullPath.drop closest.getFileData.fullPath.length) := by
      rw [speculatePathSoFar_eq]
      rfl
    refine ⟨hp, ?_, ?_, ?_⟩
    · unfold FileOperator.speculateFileWithNameByPath
      rw [h]
      simp only [hc, hp]
    · rintro ⟨t, ht⟩
      have hd : fullPath.drop closest.getFileData.fullPath.length = t := by
        rw [ht, List.drop_left]
      rw [hd]
      exact ⟨ht.symm, by rw [← pathString_append, ← ht]⟩
    · intro hle
      rw [List.drop_eq_nil_of_le hle]
      rfl

/-- Witness for C27: over the unlisted root `/home` the full path `/home/docs/n.txt` does
not resolve, the closest node is the root, and `/docs/n.txt` is handed on; the full path
`/home` resolves and is answered from the mirror. -/
theorem speculateFileWithNameByPath_hands_on_witness :
    Example.unlisted.speculateFileWithNameByPath ["home", "docs", "n.txt"] false 20 =
        Example.unlisted.speculateFileWithName Example.homeRef
          (FileMetaData.getPathNameList "/docs/n.txt") false 20 ∧
      FileMetaData.getPathNameList "/docs/n.txt" = ["docs", "n.txt"] ∧
      (Example.unlisted.speculateFileWithNameByPath ["home", "docs", "n.txt"] false
        20).1.fullPath = ["home", "docs", "n.txt"] ∧
      Example.unlisted.speculateFileWithNameByPath ["home"] false 20 =
        (Example.homeRef, Example.unlisted) :=
  ⟨((speculateFileWithNameByPath_hands_on Example.unlisted ["home", "docs", "n.txt"] false
      20).2.2 Example.unlisted.rootFileNode rfl rfl).2.1.trans
      (by rw [show pathString (List.drop
            Example.unlisted.rootFileNode.getFileData.fullPath.length
            ["home", "docs", "n.txt"]) = "/docs/n.txt" from by decide]; rfl),
    by decide, by decide,
    (speculateFileWithNameByPath_hands_on Example.unlisted ["home"] false 20).1
      Example.unlisted.rootFileNode rfl⟩


/-! ## What the retrieval walk returns and requests -/

namespace FileOperator

theorem unsatisfied_file (d : FileNodeRef) (st : NodeState) (b : Option (List Nat))
    (l t : Option Nat) (ch : List FileTreeNode)
    (hfile : (FileTreeNode.mk d st b l t ch).isFile = true) :
    (FileTreeNode.mk d st b l t ch).unsatisfied = b.isNone := by
  unfold FileTreeNode.unsatisfied FileTreeNode.needsFetch FileTreeNode.needsListing
  rw [hfile]
  simp [FileTreeNode.getFileBuffer]

theorem unsatisfied_other (m : FileTreeNode) (hfile : m.isFile = false)
    (hfolder : m.isFolder = false) : m.unsatisfied = false := by
  unfold FileTreeNode.unsatisfied FileTreeNode.needsFetch FileTreeNode.needsListing
  rw [hfile, hfolder]
  rfl

theorem unsatisfied_folder (d : FileNodeRef) (st : NodeState) (b : Option (List Nat))
    (l t : Option Nat) (ch : List FileTreeNode)
    (hfile : (FileTreeNode.mk d st b l t ch).isFile = false)
    (hfolder : (FileTreeNode.mk d st b l t ch).isFolder = true) :
    (FileTreeNode.mk d st b l t ch).unsatisfied =
      (st != NodeState.FOLDER_CONTENTS_LOADED) := by
  unfold FileTreeNode.unsatisfied FileTreeNode.needsFetch FileTreeNode.needsListing
  rw [hfile, hfolder]
  simp [FileTreeNode.getNodeState]

mutual
theorem recursiveDownloadRetrivalHelper_eq :
    ∀ (node : FileTreeNode) (s : FileOperator),
      recursiveDownloadRetrivalHelper node s =
        (node.walked.all (fun m => !m.unsatisfied),
          (node.walked.filter FileTreeNode.unsatisfied).foldl retrievalRequest s)
  | FileTreeNode.mk d st b l t ch, s => by
    rw [recursiveDownloadRetrivalHelper, FileTreeNode.walked]
    by_cases hfile : (FileTreeNode.mk d st b l t ch).isFile = true
    · rw [if_pos hfile, if_pos hfile]
      have hu := unsatisfied_file d st b l t ch hfile
      cases b with
      | none =>
        have hu2 : (FileTreeNode.mk d st none l t ch).unsatisfied = true := hu
        simp only [Option.isNone_none, if_true, List.all_cons, List.all_nil, hu2,
          Bool.not_true, Bool.false_and, List.filter_cons, List.filter_nil, List.foldl_cons,
          List.foldl_nil, retrievalRequest, hfile]
        rfl
      | some x =>
        have hu2 : (FileTreeNode.mk d st (some x) l t ch).unsatisfied = false := hu
        simp only [Option.isNone_some, Bool.false_eq_true, if_false, List.all_cons,
          List.all_nil, hu2, Bool.not_false, Bool.and_true, List.filter_cons, List.filter_nil,
          List.foldl_nil]
    · rw [if_neg hfile, if_neg hfile]
      have hfile2 : (FileTreeNode.mk d st b l t ch).isFile = false := by
        simpa using hfile
      by_cases hfolder : (FileTreeNode.mk d st b l t ch).isFolder = true
      · have hnf : ¬ ((!(FileTreeNode.mk d st b l t ch).isFolder) = true) := by
          rw [hfolder]; decide
        rw [if_neg hnf, if_neg hnf]
        have hu := unsatisfied_folder d st b l t ch hfile2 hfolder
        by_cases hst : st = NodeState.FOLDER_CONTENTS_LOADED
        · have hu2 : (FileTreeNode.mk d st b l t ch).unsatisfied = false := by
            rw [hu, hst]; rfl
          rw [if_neg (not_not.mpr hst), recursiveDownloadRetrivalChildren_eq ch true s]
          simp only [List.all_cons, hu2, Bool.not_false, Bool.true_and, List.filter_cons,
            Bool.false_eq_true, if_false]
        · have hu2 : (FileTreeNode.mk d st b l t ch).unsatisfied = true := by
            rw [hu]; simpa using hst
          rw [if_pos hst, recursiveDownloadRetrivalChildren_eq ch false _]
          simp only [List.all_cons, hu2, Bool.not_true, Bool.false_and, List.filter_cons,
            if_true, List.foldl_cons, retrievalRequest, hfile2, Bool.false_eq_true, if_false]
          rfl
      · have hnf : (!(FileTreeNode.mk d st b l t ch).isFolder) = true := by
          simpa using hfolder
        rw [if_pos hnf, if_pos hnf]
        have hfolder2 : (FileTreeNode.mk d st b l t ch).isFolder = false := by
          simpa using hfolder
        have hu2 := unsatisfied_other _ hfile2 hfolder2
        simp only [List.all_cons, List.all_nil, hu2, Bool.not_false, Bool.and_true,
          List.filter_cons, List.filter_nil, Bool.false_eq_true, if_false, List.foldl_nil]
theorem recursiveDownloadRetrivalChildren_eq :
    ∀ (ch : List FileTreeNode) (b : Bool) (s : FileOperator),
      recursiveDownloadRetrivalChildren ch b s =
        (b && (FileTreeNode.walkedList ch).all (fun m => !m.unsatisfied),
          ((FileTreeNode.walkedList ch).filter FileTreeNode.unsatisfied).foldl
            retrievalRequest s)
  | [], b, s => by
    rw [recursiveDownloadRetrivalChildren, FileTreeNode.walkedList]
    simp only [List.all_nil, Bool.and_true, List.filter_nil, List.foldl_nil]
  | aChild :: rest, b, s => by
    rw [recursiveDownloadRetrivalChildren, FileTreeNode.walkedList]
    rw [recursiveDownloadRetrivalChildren_eq rest, recursiveDownloadRetrivalHelper_eq aChild s]
    simp only [List.all_append, List.filter_append, List.foldl_append]
    congr 1
    cases b <;> cases (aChild.walked.all fun m => !m.unsatisfied) <;> rfl
end

end FileOperator

theorem FileTreeNode.isFile_of_isFolder (m : FileTreeNode) (h : m.isFolder = true) :
    m.isFile = false := by
  unfold FileTreeNode.isFolder at h
  unfold FileTreeNode.isFile
  cases hk : m.getFileData.fileType <;> rw [hk] at h <;> first | rfl | cases h

mutual
theorem FileTreeNode.walked_eq_subtree :
    ∀ (n : FileTreeNode), n.onlyFoldersHaveChildren = true → n.walked = n.subtree
  | FileTreeNode.mk d st b l t ch, h => by
    rw [FileTreeNode.onlyFoldersHaveChildren, Bool.and_eq_true, Bool.or_eq_true] at h
    rw [FileTreeNode.walked, FileTreeNode.subtree]
    congr 1
    rcases h.1 with hf | he
    · rw [if_neg (by rw [FileTreeNode.isFile_of_isFolder _ hf]; decide),
        if_neg (by rw [hf]; decide)]
      exact FileTreeNode.walkedList_eq_subtreeList ch h.2
    · have hch : ch = [] := List.isEmpty_iff.mp he
      subst hch
      simp only [FileTreeNode.walkedList, FileTreeNode.subtreeList, ite_self]
theorem FileTreeNode.walkedList_eq_subtreeList :
    ∀ (ch : List FileTreeNode), FileTreeNode.onlyFoldersHaveChildrenList ch = true →
      FileTreeNode.walkedList ch = FileTreeNode.subtreeList ch
  | [], _ => by rw [FileTreeNode.walkedList, FileTreeNode.subtreeList]
  | c :: cs, h => by
    rw [FileTreeNode.onlyFoldersHaveChildrenList, Bool.and_eq_true] at h
    rw [FileTreeNode.walkedList, FileTreeNode.subtreeList,
      FileTreeNode.walked_eq_subtree c h.1, FileTreeNode.walkedList_eq_subtreeList cs h.2]
end

theorem FileTreeNode.unsatisfied_iff (m : FileTreeNode) :
    m.unsatisfied = true ↔
      (m.isFile = true ∧ m.getFileBuffer = none) ∨
        (m.isFolder = true ∧ m.getNodeState ≠ NodeState.FOLDER_CONTENTS_LOADED) := by
  unfold FileTreeNode.unsatisfied FileTreeNode.needsFetch FileTreeNode.needsListing
  constructor
  · intro h
    simp only [Bool.or_eq_true, Bool.and_eq_true, Option.isNone_iff_eq_none,
      Bool.not_eq_true', bne_iff_ne, ne_eq] at h
    rcases h with h | h
    · exact Or.inl h
    · exact Or.inr ⟨h.1.2, h.2⟩
  · intro h
    simp only [Bool.or_eq_true, Bool.and_eq_true, Option.isNone_iff_eq_none,
      Bool.not_eq_true', bne_iff_ne, ne_eq]
    rcases h with h | h
    · exact Or.inl h
    · exact Or.inr ⟨⟨FileTreeNode.isFile_of_isFolder m h.1, h.1⟩, h.2⟩

/-- C21: what one run of the retrieval walk returns and requests.  The walk visits the
node and, below a folder, every child in turn; these are all nodes of the subtree when
only folders have children.  It returns true exactly when every file it visits has a
cached buffer and every folder it visits is in state FOLDER_CONTENTS_LOADED; a node that
is neither counts as satisfied.  The state it leaves is the one reached by requesting, in
the order of the walk and for every visited node that is unsatisfied, the buffer fetch for
a file without a buffer and the refresh for a folder that is not loaded: every such node
is requested and no other, whether or not an earlier one was unsatisfied. -/
theorem retrieval_walk_returns_and_requests (node : FileTreeNode) (s : FileOperator) :
    ((FileOperator.recursiveDownloadRetrivalHelper node s).1 = true ↔
        ∀ m ∈ node.walked,
          (m.isFile = true → m.getFileBuffer.isSome = true) ∧
            (m.isFolder = true → m.getNodeState = NodeState.FOLDER_CONTENTS_LOADED)) ∧
      (FileOperator.recursiveDownloadRetrivalHelper node s).2 =
        (node.walked.filter FileTreeNode.unsatisfied).foldl FileOperator.retrievalRequest s ∧
      (∀ m : FileTreeNode,
        (m.unsatisfied = true ↔
          (m.isFile = true ∧ m.getFileBuffer = none) ∨
            (m.isFolder = true ∧ m.getNodeState ≠ NodeState.FOLDER_CONTENTS_LOADED)) ∧
        (∀ u : FileOperator, m.isFile = true →
          u.retrievalRequest m = u.sendDownloadBuffReq m.getFileData) ∧
        (∀ u : FileOperator, m.isFile = false →
          u.retrievalRequest m = u.enactFolderRefresh m.getFileData false)) ∧
      (node.onlyFoldersHaveChildren = true → node.walked = node.subtree) ∧
      (Example.home.walked = [Example.home, Example.fileA, Example.fileB] ∧
        (FileOperator.recursiveDownloadRetrivalHelper Example.home Example.start).1 = false ∧
        (FileOperator.recursiveDownloadRetrivalHelper Example.home Example.start).2.calls =
          [RemoteCall.downloadBuffer ["home", "a.txt"],
            RemoteCall.downloadBuffer ["home", "b.txt"]]) := by
  rw [FileOperator.recursiveDownloadRetrivalHelper_eq]
  refine ⟨?_, rfl, fun m => ⟨m.unsatisfied_iff, fun u h => ?_, fun u h => ?_⟩,
    FileTreeNode.walked_eq_subtree node, ⟨rfl, by decide, by decide⟩⟩
  · simp only [List.all_eq_true, Bool.not_eq_true']
    constructor
    · intro h m hm
      have hu := h m hm
      refine ⟨fun hf => ?_, fun hd => ?_⟩
      · cases hb : m.getFileBuffer with
        | some x => rfl
        | none =>
          have := (m.unsatisfied_iff).mpr (Or.inl ⟨hf, hb⟩)
          rw [hu] at this; cases this
      · by_contra hne
        have := (m.unsatisfied_iff).mpr (Or.inr ⟨hd, hne⟩)
        rw [hu] at this; cases this
    · intro h m hm
      cases hu : m.unsatisfied with
      | false => rfl
      | true =>
        rcases (m.unsatisfied_iff).mp hu with ⟨hf, hb⟩ | ⟨hd, hne⟩
        · have := (h m hm).1 hf
          rw [hb] at this; cases this
        · exact absurd ((h m hm).2 hd) hne
  · unfold FileOperator.retrievalRequest
    rw [if_pos h]
  · unfold FileOperator.retrievalRequest
    rw [if_neg (by rw [h]; decide)]


/-! ## The upload walk follows its verdict -/

namespace FileOperator

theorem uploadResult_under (s : FileOperator) (name : String) (v : UploadVerdict) :
    s.uploadResult (v.under name) = s.uploadResult v := by
  cases v <;> rfl

theorem uploadResult_complete (s : FileOperator) (v : UploadVerdict)
    (h : v.isComplete = true) : s.uploadResult v = (true, RecursiveErrorCodes.NONE, s) := by
  cases v <;> first | rfl | cases h

theorem uploadResult_fst (s : FileOperator) (v : UploadVerdict) :
    (s.uploadResult v).1 = v.isComplete := by
  cases v <;> rfl

mutual
theorem recursiveUploadHelper_eq :
    ∀ (n : FileTreeNode) (q : QFileInfo) (a : String) (s : FileOperator),
      s.recursivefileOpPending.lockClosed = false →
      recursiveUploadHelper n q a s = s.uploadResult (n.uploadVerdict q a)
  | n, QFileInfo.dir name entries, a, s, ho => by
    rw [recursiveUploadHelper, FileTreeNode.uploadVerdict, if_neg (by rw [ho]; decide)]
    split
    · rfl
    · split
      · rfl
      · exact recursiveUploadEntries_eq n entries a s ho
  | n, QFileInfo.file name, a, s, ho => by
    rw [recursiveUploadHelper, FileTreeNode.uploadVerdict, if_neg (by rw [ho]; decide)]
    split
    · rfl
    · split
      · rfl
      · rfl
  | n, QFileInfo.other name, a, s, ho => by
    rw [recursiveUploadHelper, FileTreeNode.uploadVerdict, if_neg (by rw [ho]; decide)]
    split
    · rfl
    · split
      · rfl
      · rfl
theorem recursiveUploadEntries_eq :
    ∀ (n : FileTreeNode) (es : List QFileInfo) (a : String) (s : FileOperator),
      s.recursivefileOpPending.lockClosed = false →
      recursiveUploadEntries n es a RecursiveErrorCodes.NONE s =
        s.uploadResult (n.uploadVerdictEntries es a)
  | n, [], a, s, _ => by
    rw [recursiveUploadEntries, FileTreeNode.uploadVerdictEntries]; rfl
  | n, QFileInfo.dir name entries :: rest, a, s, ho => by
    rw [recursiveUploadEntries, FileTreeNode.uploadVerdictEntries]
    cases hc : n.getChildNodeWithName name with
    | none => rfl
    | some childNode =>
      simp only []
      rw [recursiveUploadHelper_eq childNode (QFileInfo.dir name entries) (a ++ "/" ++ name) s ho,
        uploadResult_fst]
      rcases Bool.eq_false_or_eq_true
        (childNode.uploadVerdict (QFileInfo.dir name entries) (a ++ "/" ++ name)).isComplete
        with ht | hf
      · rw [ht, uploadResult_complete s _ ht]
        simp only [Bool.not_true, Bool.false_eq_true, if_false]
        exact recursiveUploadEntries_eq n rest a s ho
      · rw [hf]
        simp only [Bool.not_false, if_true]
        exact (uploadResult_under s name _).symm
  | n, QFileInfo.file name :: rest, a, s, ho => by
    rw [recursiveUploadEntries, FileTreeNode.uploadVerdictEntries]
    cases hc : n.getChildNodeWithName name with
    | none => rfl
    | some childNode =>
      simp only []
      split
      · rfl
      · exact recursiveUploadEntries_eq n rest a s ho
  | n, QFileInfo.other name :: rest, a, s, ho => by
    rw [recursiveUploadEntries, FileTreeNode.uploadVerdictEntries]
    exact recursiveUploadEntries_eq n rest a s ho
end

end FileOperator

/-! ## When the upload walk returns true -/

theorem UploadVerdict.isComplete_under (name : String) (v : UploadVerdict) :
    (v.under name).isComplete = v.isComplete := by
  cases v <;> rfl

/-- The loop of the walk is complete exactly when every local directory has its child
with the walk complete on it and every local file has a child that is a file. -/
theorem FileTreeNode.uploadVerdictEntries_complete (n : FileTreeNode) (a : String) :
    ∀ (es : List QFileInfo),
      (n.uploadVerdictEntries es a).isComplete = true ↔
        ∀ e ∈ es,
          (∀ f sub, e = QFileInfo.dir f sub →
            ∃ c, n.getChildNodeWithName f = some c ∧
              (c.uploadVerdict e (a ++ "/" ++ f)).isComplete = true) ∧
          (∀ f, e = QFileInfo.file f →
            ∃ c, n.getChildNodeWithName f = some c ∧ c.isFile = true)
  | [] => by
    rw [FileTreeNode.uploadVerdictEntries]
    exact ⟨fun _ e he => absurd he (List.not_mem_nil e), fun _ => rfl⟩
  | QFileInfo.dir name entries :: rest => by
    have ih := FileTreeNode.uploadVerdictEntries_complete n a rest
    rw [FileTreeNode.uploadVerdictEntries]
    rw [List.forall_mem_cons]
    cases hc : n.getChildNodeWithName name with
    | none =>
      dsimp only
      constructor
      · intro h; cases h
      · intro h
        obtain ⟨c, hc2, _⟩ := h.1.1 name entries rfl
        rw [hc] at hc2; cases hc2
    | some childNode =>
      dsimp only
      rcases Bool.eq_false_or_eq_true
        (childNode.uploadVerdict (QFileInfo.dir name entries) (a ++ "/" ++ name)).isComplete
        with ht | hf
      · rw [ht]
        simp only [Bool.not_true, Bool.false_eq_true, if_false]
        rw [ih]
        constructor
        · intro h
          refine ⟨⟨fun f sub he => ?_, fun f he => by cases he⟩, h⟩
          cases he
          exact ⟨childNode, hc, ht⟩
        · exact fun h => h.2
      · rw [hf]
        simp only [Bool.not_false, if_true]
        rw [UploadVerdict.isComplete_under, hf]
        constructor
        · intro h; cases h
        · intro h
          obtain ⟨c, hc2, h3⟩ := h.1.1 name entries rfl
          rw [hc] at hc2
          cases hc2
          rw [hf] at h3; cases h3
  | QFileInfo.file name :: rest => by
    have ih := FileTreeNode.uploadVerdictEntries_complete n a rest
    rw [FileTreeNode.uploadVerdictEntries]
    rw [List.forall_mem_cons]
    cases hc : n.getChildNodeWithName name with
    | none =>
      dsimp only
      constructor
      · intro h; cases h
      · intro h
        obtain ⟨c, hc2, _⟩ := h.1.2 name rfl
        rw [hc] at hc2; cases hc2
    | some childNode =>
      dsimp only
      rcases Bool.eq_false_or_eq_true childNode.isFile with ht | hf
      · rw [ht]
        simp only [Bool.not_true, Bool.false_eq_true, if_false]
        rw [ih]
        constructor
        · intro h
          refine ⟨⟨fun f sub he => (by cases he), fun f he => ?_⟩, h⟩
          cases he
          exact ⟨childNode, hc, ht⟩
        · exact fun h => h.2
      · rw [hf]
        simp only [Bool.not_false, if_true]
        constructor
        · intro h; cases h
        · intro h
          obtain ⟨c, hc2, h3⟩ := h.1.2 name rfl
          rw [hc] at hc2
          cases hc2
          rw [hf] at h3; cases h3
  | QFileInfo.other name :: rest => by
    have ih := FileTreeNode.uploadVerdictEntries_complete n a rest
    rw [FileTreeNode.uploadVerdictEntries]
    rw [List.forall_mem_cons]
    rw [ih]
    constructor
    · intro h
      exact ⟨⟨fun f sub he => (by cases he), fun f he => by cases he⟩, h⟩
    · exact fun h => h.2

/-- The walk on a node is complete exactly when the node is a loaded folder and the loop
over the local entries is complete. -/
theorem FileTreeNode.uploadVerdict_complete (n : FileTreeNode) (q : QFileInfo) (a : String) :
    (n.uploadVerdict q a).isComplete = true ↔
      n.isFolder = true ∧ n.getNodeState = NodeState.FOLDER_CONTENTS_LOADED ∧
        (n.uploadVerdictEntries q.entryInfoList a).isComplete = true := by
  have hnil : (n.uploadVerdictEntries [] a).isComplete = true := by
    rw [FileTreeNode.uploadVerdictEntries]; rfl
  rcases Bool.eq_false_or_eq_true n.isFolder with hf | hf
  · by_cases hl : n.getNodeState = NodeState.FOLDER_CONTENTS_LOADED
    · cases q with
      | dir name entries =>
        rw [FileTreeNode.uploadVerdict, if_neg (by rw [hf]; decide), if_neg (fun h => h hl)]
        exact ⟨fun h => ⟨hf, hl, h⟩, fun h => h.2.2⟩
      | file name =>
        rw [FileTreeNode.uploadVerdict, if_neg (by rw [hf]; decide), if_neg (fun h => h hl)]
        exact ⟨fun _ => ⟨hf, hl, hnil⟩, fun _ => rfl⟩
      | other name =>
        rw [FileTreeNode.uploadVerdict, if_neg (by rw [hf]; decide), if_neg (fun h => h hl)]
        exact ⟨fun _ => ⟨hf, hl, hnil⟩, fun _ => rfl⟩
    · cases q <;>
        (rw [FileTreeNode.uploadVerdict, if_neg (by rw [hf]; decide), if_pos hl]
         exact ⟨fun h => (by cases h), fun h => absurd h.2.1 hl⟩)
  · cases q <;>
      (rw [FileTreeNode.uploadVerdict, if_pos (by rw [hf]; rfl)]
       exact ⟨fun h => (by cases h), fun h => by rw [hf] at h; cases h.1⟩)

/-- A complete pass of `recursiveUploadProcessRetry`: the flag is reset, the top-level lock
released and the success reported, nothing else. -/
theorem FileOperator.recursiveUploadProcessRetry_complete (s : FileOperator)
    (head trueHead : FileTreeNode)
    (hopen : s.recursivefileOpPending.lockClosed = false)
    (hhead : s.remoteHeadNode = some head)
    (hsome : head.getChildNodeWithName s.recursiveLocalHead.dirName = some trueHead)
    (ht : (FileOperator.recursiveUploadHelper trueHead s.recursiveLocalHead.info
      s.recursiveLocalHead.absolutePath s).1 = true) :
    s.recursiveUploadProcessRetry =
      ({ s with currentRecursiveTask := FileOp_RecursiveTask.NONE }).releaseFileOp.emit
        (Signal.fileOpDone RequestState.GOOD) := by
  have hs := (FileOperator.uploadOutcome_recursiveUploadHelper trueHead s.recursiveLocalHead.info
    s.recursiveLocalHead.absolutePath s).1 ht
  unfold FileOperator.recursiveUploadProcessRetry
  rw [if_neg (by rw [hopen]; decide), hhead]
  simp only [hsome, ht, if_true]
  rw [hs]

/-- C22: when the upload walk returns true.  With the secondary lock open,
`recursiveUploadHelper` on a mirror node and a local directory returns true exactly when
the node is a folder with contents loaded, every local subdirectory has a child of its
name on which the helper returns true, and every local regular file has a child of its
name that is a file.  A pass that returns true leaves the operator as it was, so nothing
has been called; `recursiveUploadProcessRetry` then sets the flag to NONE, releases the
top-level lock and emits the one event `fileOpDone` with status GOOD. -/
theorem upload_walk_true_iff_matched (n : FileTreeNode) (q : QFileInfo) (a : String)
    (s : FileOperator) (hopen : s.recursivefileOpPending.lockClosed = false) :
    ((FileOperator.recursiveUploadHelper n q a s).1 = true ↔
        n.isFolder = true ∧ n.getNodeState = NodeState.FOLDER_CONTENTS_LOADED ∧
          ∀ e ∈ q.entryInfoList,
            (∀ f sub, e = QFileInfo.dir f sub →
              ∃ c, n.getChildNodeWithName f = some c ∧
                (FileOperator.recursiveUploadHelper c e (a ++ "/" ++ f) s).1 = true) ∧
            (∀ f, e = QFileInfo.file f →
              ∃ c, n.getChildNodeWithName f = some c ∧ c.isFile = true)) ∧
      ((FileOperator.recursiveUploadHelper n q a s).1 = true →
        (FileOperator.recursiveUploadHelper n q a s).2.2 = s ∧
          (FileOperator.recursiveUploadHelper n q a s).2.2.calls = s.calls) ∧
      (∀ head trueHead : FileTreeNode, s.remoteHeadNode = some head →
        head.getChildNodeWithName s.recursiveLocalHead.dirName = some trueHead →
        (FileOperator.recursiveUploadHelper trueHead s.recursiveLocalHead.info
          s.recursiveLocalHead.absolutePath s).1 = true →
        s.recursiveUploadProcessRetry.currentRecursiveTask = FileOp_RecursiveTask.NONE ∧
          s.recursiveUploadProcessRetry.fileOpPending = s.fileOpPending.release ∧
          s.recursiveUploadProcessRetry.fileOpPending.lockClosed = false ∧
          s.recursiveUploadProcessRetry.signals =
            s.signals ++ [Signal.fileOpDone RequestState.GOOD] ∧
          s.recursiveUploadProcessRetry.calls = s.calls ∧
          s.recursiveUploadProcessRetry.pending = s.pending ∧
          s.recursiveUploadProcessRetry.rootFileNode = s.rootFileNode) := by
  refine ⟨?_, fun h => ?_, fun head trueHead hhead hsome ht => ?_⟩
  · rw [FileOperator.recursiveUploadHelper_eq n q a s hopen, FileOperator.uploadResult_fst,
      FileTreeNode.uploadVerdict_complete, FileTreeNode.uploadVerdictEntries_complete]
    constructor
    · intro h
      refine ⟨h.1, h.2.1, fun e he => ⟨fun f sub hd => ?_, (h.2.2 e he).2⟩⟩
      obtain ⟨c, hc, hv⟩ := (h.2.2 e he).1 f sub hd
      exact ⟨c, hc, by
        rw [FileOperator.recursiveUploadHelper_eq c e _ s hopen, FileOperator.uploadResult_fst]
        exact hv⟩
    · intro h
      refine ⟨h.1, h.2.1, fun e he => ⟨fun f sub hd => ?_, (h.2.2 e he).2⟩⟩
      obtain ⟨c, hc, hv⟩ := (h.2.2 e he).1 f sub hd
      rw [FileOperator.recursiveUploadHelper_eq c e _ s hopen,
        FileOperator.uploadResult_fst] at hv
      exact ⟨c, hc, hv⟩
  · have hs := (FileOperator.uploadOutcome_recursiveUploadHelper n q a s).1 h
    exact ⟨hs, by rw [hs]⟩
  · rw [FileOperator.recursiveUploadProcessRetry_complete s head trueHead hopen hhead hsome ht]
    exact ⟨rfl, rfl, rfl, rfl, rfl, rfl, rfl⟩

/-- Witness for C22: on the example mirror `/home`, whose file `a.txt` is in the mirror, the
walk for a local folder holding only `a.txt` returns true and leaves the operator as it
was. -/
theorem upload_walk_true_iff_matched_witness :
    Example.start.recursivefileOpPending.lockClosed = false ∧
      (FileOperator.recursiveUploadHelper Example.home
        (QFileInfo.dir "home" [QFileInfo.file "a.txt"]) "/tmp/home" Example.start).1 = true ∧
      (FileOperator.recursiveUploadHelper Example.home
        (QFileInfo.dir "home" [QFileInfo.file "a.txt"]) "/tmp/home" Example.start).2.2 =
          Example.start :=
  ⟨by decide,
    (upload_walk_true_iff_matched Example.home (QFileInfo.dir "home" [QFileInfo.file "a.txt"])
      "/tmp/home" Example.start (by decide)).1.mpr
      ⟨by decide, by decide, fun e he => by
        rw [QFileInfo.entryInfoList, List.mem_singleton] at he
        subst he
        exact ⟨fun f sub h => (by cases h), fun f h => by
          cases h
          exact ⟨Example.fileA, rfl, by decide⟩⟩⟩,
    ((upload_walk_true_iff_matched Example.home (QFileInfo.dir "home" [QFileInfo.file "a.txt"])
      "/tmp/home" Example.start (by decide)).2.1 (by decide)).1⟩


/-! ## Where the loop of the upload walk stops -/

theorem UploadVerdict.under_of_complete (name : String) (v : UploadVerdict)
    (h : v.isComplete = true) : v.under name = UploadVerdict.complete := by
  cases v <;> first | rfl | cases h

theorem UploadVerdict.isTypeMismatch_under (name : String) (v : UploadVerdict) :
    (v.under name).isTypeMismatch = v.isTypeMismatch := by
  cases v <;> rfl

theorem UploadVerdict.not_complete_of_typeMismatch (v : UploadVerdict)
    (h : v.isTypeMismatch = true) : v.isComplete = false := by
  cases v <;> first | rfl | cases h

/-- The loop takes the verdict of the first entry on which its body stops. -/
theorem FileTreeNode.uploadVerdictEntries_cons (n : FileTreeNode) (e : QFileInfo)
    (rest : List QFileInfo) (a : String) :
    n.uploadVerdictEntries (e :: rest) a =
      if (n.uploadVerdictEntry e a).isComplete then n.uploadVerdictEntries rest a
      else n.uploadVerdictEntry e a := by
  cases e with
  | dir name entries =>
    rw [FileTreeNode.uploadVerdictEntries, FileTreeNode.uploadVerdictEntry]
    cases hc : n.getChildNodeWithName name with
    | none => rfl
    | some childNode =>
      dsimp only
      rw [UploadVerdict.isComplete_under]
      rcases Bool.eq_false_or_eq_true
        (childNode.uploadVerdict (QFileInfo.dir name entries) (a ++ "/" ++ name)).isComplete
        with ht | hf
      · rw [ht]; rfl
      · rw [hf]; rfl
  | file name =>
    rw [FileTreeNode.uploadVerdictEntries, FileTreeNode.uploadVerdictEntry]
    cases hc : n.getChildNodeWithName name with
    | none => rfl
    | some childNode =>
      dsimp only
      rcases Bool.eq_false_or_eq_true childNode.isFile with ht | hf
      · rw [ht]; rfl
      · rw [hf]; rfl
  | other name =>
    rw [FileTreeNode.uploadVerdictEntries, FileTreeNode.uploadVerdictEntry]
    rfl

/-- The loop stops on an entry exactly when its body is complete on every entry before it
and stops on this one. -/
theorem FileTreeNode.uploadVerdictEntries_stop (n : FileTreeNode) (a : String) :
    ∀ (es : List QFileInfo), (n.uploadVerdictEntries es a).isComplete = false →
      ∃ pre e post, es = pre ++ e :: post ∧
        (n.uploadVerdictEntries pre a).isComplete = true ∧
        (n.uploadVerdictEntry e a).isComplete = false ∧
        n.uploadVerdictEntries es a = n.uploadVerdictEntry e a
  | [], h => by
    rw [FileTreeNode.uploadVerdictEntries] at h; cases h
  | e :: rest, h => by
    rw [FileTreeNode.uploadVerdictEntries_cons] at h ⊢
    rcases Bool.eq_false_or_eq_true (n.uploadVerdictEntry e a).isComplete with ht | hf
    · rw [ht, if_pos rfl] at h
      obtain ⟨pre, e2, post, h1, h2, h3, h4⟩ := FileTreeNode.uploadVerdictEntries_stop n a rest h
      refine ⟨e :: pre, e2, post, by rw [h1]; rfl, ?_, h3, ?_⟩
      · rw [FileTreeNode.uploadVerdictEntries_cons, ht, if_pos rfl]; exact h2
      · rw [ht, if_pos rfl]; exact h4
    · refine ⟨[], e, rest, rfl, ?_, hf, ?_⟩
      · rw [FileTreeNode.uploadVerdictEntries]; rfl
      · rw [hf]; rfl

theorem FileTreeNode.uploadVerdictEntries_at (n : FileTreeNode) (a : String) (e : QFileInfo)
    (post : List QFileInfo) :
    ∀ (pre : List QFileInfo), (n.uploadVerdictEntries pre a).isComplete = true →
      (n.uploadVerdictEntry e a).isComplete = false →
      n.uploadVerdictEntries (pre ++ e :: post) a = n.uploadVerdictEntry e a
  | [], _, h => by
    rw [List.nil_append, FileTreeNode.uploadVerdictEntries_cons, h]; rfl
  | e0 :: pre, hp, h => by
    rw [FileTreeNode.uploadVerdictEntries_cons] at hp
    rw [List.cons_append, FileTreeNode.uploadVerdictEntries_cons]
    rcases Bool.eq_false_or_eq_true (n.uploadVerdictEntry e0 a).isComplete with ht | hf
    · rw [ht, if_pos rfl] at hp
      rw [ht, if_pos rfl]
      exact FileTreeNode.uploadVerdictEntries_at n a e post pre hp h
    · rw [hf] at hp
      rw [if_neg (by decide)] at hp
      rw [hf] at hp; cases hp

/-! ## The upload walk on a node of the wrong kind -/

theorem FileOperator.uploadResult_typeMismatch (s : FileOperator) (v : UploadVerdict) :
    ((s.uploadResult v).2.1 = RecursiveErrorCodes.TYPE_MISSMATCH ↔ v.isTypeMismatch = true) ∧
      (v.isTypeMismatch = true →
        s.uploadResult v = (false, RecursiveErrorCodes.TYPE_MISSMATCH, s)) := by
  cases v with
  | complete => exact ⟨⟨fun h => (by cases h), fun h => (by cases h)⟩, fun h => (by cases h)⟩
  | typeMismatch => exact ⟨⟨fun _ => rfl, fun _ => rfl⟩, fun _ => rfl⟩
  | notLoaded pos node => exact ⟨⟨fun h => (by cases h), fun h => (by cases h)⟩, fun h => (by cases h)⟩
  | missingDir pos parent name =>
    refine ⟨⟨fun h => ?_, fun h => (by cases h)⟩, fun h => (by cases h)⟩
    simp only [FileOperator.uploadResult] at h
    split at h <;> cases h
  | missingFile pos parent name localFile =>
    refine ⟨⟨fun h => ?_, fun h => (by cases h)⟩, fun h => (by cases h)⟩
    simp only [FileOperator.uploadResult] at h
    split at h <;> cases h

theorem FileTreeNode.uploadVerdict_typeMismatch (n : FileTreeNode) (q : QFileInfo)
    (a : String) :
    (n.uploadVerdict q a).isTypeMismatch = true ↔
      n.isFolder = false ∨
        (n.isFolder = true ∧ n.getNodeState = NodeState.FOLDER_CONTENTS_LOADED ∧
          (n.uploadVerdictEntries q.entryInfoList a).isTypeMismatch = true) := by
  have hnil : (n.uploadVerdictEntries [] a).isTypeMismatch = false := by
    rw [FileTreeNode.uploadVerdictEntries]; rfl
  rcases Bool.eq_false_or_eq_true n.isFolder with hf | hf
  · by_cases hl : n.getNodeState = NodeState.FOLDER_CONTENTS_LOADED
    · cases q with
      | dir name entries =>
        rw [FileTreeNode.uploadVerdict, if_neg (by rw [hf]; decide), if_neg (fun h => h hl)]
        exact ⟨fun h => Or.inr ⟨hf, hl, h⟩, fun h => h.elim (fun h1 => by rw [hf] at h1; cases h1)
          (fun h1 => h1.2.2)⟩
      | file name =>
        rw [FileTreeNode.uploadVerdict, if_neg (by rw [hf]; decide), if_neg (fun h => h hl)]
        refine ⟨fun h => (by cases h), fun h => h.elim (fun h1 => by rw [hf] at h1; cases h1)
          (fun h1 => ?_)⟩
        have h2 := h1.2.2
        rw [QFileInfo.entryInfoList, hnil] at h2
        cases h2
      | other name =>
        rw [FileTreeNode.uploadVerdict, if_neg (by rw [hf]; decide), if_neg (fun h => h hl)]
        refine ⟨fun h => (by cases h), fun h => h.elim (fun h1 => by rw [hf] at h1; cases h1)
          (fun h1 => ?_)⟩
        have h2 := h1.2.2
        rw [QFileInfo.entryInfoList, hnil] at h2
        cases h2
    · cases q <;>
        (rw [FileTreeNode.uploadVerdict, if_neg (by rw [hf]; decide), if_pos hl]
         exact ⟨fun h => (by cases h), fun h => h.elim (fun h1 => by rw [hf] at h1; cases h1)
          (fun h1 => absurd h1.2.1 hl)⟩)
  · cases q <;>
      (rw [FileTreeNode.uploadVerdict, if_pos (by rw [hf]; rfl)]
       exact ⟨fun _ => Or.inl hf, fun _ => rfl⟩)

theorem FileTreeNode.uploadVerdictEntry_typeMismatch (n : FileTreeNode) (e : QFileInfo)
    (a : String) :
    (n.uploadVerdictEntry e a).isTypeMismatch = true ↔
      (∃ f sub c, e = QFileInfo.dir f sub ∧ n.getChildNodeWithName f = some c ∧
        (c.uploadVerdict e (a ++ "/" ++ f)).isTypeMismatch = true) ∨
      (∃ f c, e = QFileInfo.file f ∧ n.getChildNodeWithName f = some c ∧ c.isFile = false) := by
  cases e with
  | dir name entries =>
    rw [FileTreeNode.uploadVerdictEntry]
    cases hc : n.getChildNodeWithName name with
    | none =>
      dsimp only
      constructor
      · intro h; cases h
      · rintro (⟨f, sub, c, he, hc2, _⟩ | ⟨f, c, he, _⟩)
        · cases he; rw [hc] at hc2; cases hc2
        · cases he
    | some childNode =>
      dsimp only
      rw [UploadVerdict.isTypeMismatch_under]
      constructor
      · exact fun h => Or.inl ⟨name, entries, childNode, rfl, hc, h⟩
      · rintro (⟨f, sub, c, he, hc2, h⟩ | ⟨f, c, he, _⟩)
        · cases he; rw [hc] at hc2; cases hc2; exact h
        · cases he
  | file name =>
    rw [FileTreeNode.uploadVerdictEntry]
    cases hc : n.getChildNodeWithName name with
    | none =>
      dsimp only
      constructor
      · intro h; cases h
      · rintro (⟨f, sub, c, he, _⟩ | ⟨f, c, he, hc2, _⟩)
        · cases he
        · cases he; rw [hc] at hc2; cases hc2
    | some childNode =>
      dsimp only
      rcases Bool.eq_false_or_eq_true childNode.isFile with ht | hf
      · rw [ht]
        constructor
        · intro h; cases h
        · rintro (⟨f, sub, c, he, _⟩ | ⟨f, c, he, hc2, h⟩)
          · cases he
          · cases he; rw [hc] at hc2; cases hc2; rw [ht] at h; cases h
      · rw [hf]
        exact ⟨fun _ => Or.inr ⟨name, childNode, rfl, hc, hf⟩, fun _ => rfl⟩
  | other name =>
    rw [FileTreeNode.uploadVerdictEntry]
    constructor
    · intro h; cases h
    · rintro (⟨f, sub, c, he, _⟩ | ⟨f, c, he, _⟩) <;> cases he

theorem FileTreeNode.uploadVerdictEntries_typeMismatch (n : FileTreeNode) (a : String)
    (es : List QFileInfo) :
    (n.uploadVerdictEntries es a).isTypeMismatch = true ↔
      ∃ pre e post, es = pre ++ e :: post ∧
        (n.uploadVerdictEntries pre a).isComplete = true ∧
        (n.uploadVerdictEntry e a).isTypeMismatch = true := by
  constructor
  · intro h
    obtain ⟨pre, e, post, h1, h2, _, h4⟩ := FileTreeNode.uploadVerdictEntries_stop n a es
      (UploadVerdict.not_complete_of_typeMismatch _ h)
    exact ⟨pre, e, post, h1, h2, by rw [← h4]; exact h⟩
  · rintro ⟨pre, e, post, h1, h2, h3⟩
    rw [h1, FileTreeNode.uploadVerdictEntries_at n a e post pre h2
      (UploadVerdict.not_complete_of_typeMismatch _ h3)]
    exact h3

/-- A pass of `recursiveUploadProcessRetry` whose walk reports a wrong kind: the flag is
reset, the top-level lock released and the failure reported, nothing else. -/
theorem FileOperator.recursiveUploadProcessRetry_typeMismatch (s : FileOperator)
    (head trueHead : FileTreeNode)
    (hopen : s.recursivefileOpPending.lockClosed = false)
    (hhead : s.remoteHeadNode = some head)
    (hsome : head.getChildNodeWithName s.recursiveLocalHead.dirName = some trueHead)
    (ht : (FileOperator.recursiveUploadHelper trueHead s.recursiveLocalHead.info
      s.recursiveLocalHead.absolutePath s).2.1 = RecursiveErrorCodes.TYPE_MISSMATCH) :
    s.recursiveUploadProcessRetry =
      ({ s with currentRecursiveTask := FileOp_RecursiveTask.NONE }).releaseFileOp.emit
        (Signal.fileOpDone RequestState.UNCLASSIFIED) := by
  have he := FileOperator.recursiveUploadHelper_eq trueHead s.recursiveLocalHead.info
    s.recursiveLocalHead.absolutePath s hopen
  rw [he] at ht
  have hv := (FileOperator.uploadResult_typeMismatch s _).2
    ((FileOperator.uploadResult_typeMismatch s _).1.mp ht)
  rw [hv] at he
  unfold FileOperator.recursiveUploadProcessRetry
  rw [if_neg (by rw [hopen]; decide), hhead]
  simp only [hsome, he]
  rfl

theorem FileOperator.recursiveUploadHelper_fst (n : FileTreeNode) (q : QFileInfo) (a : String)
    (s : FileOperator) (hopen : s.recursivefileOpPending.lockClosed = false) :
    (FileOperator.recursiveUploadHelper n q a s).1 = (n.uploadVerdict q a).isComplete := by
  rw [FileOperator.recursiveUploadHelper_eq n q a s hopen, FileOperator.uploadResult_fst]

theorem FileOperator.recursiveUploadHelper_err (n : FileTreeNode) (q : QFileInfo) (a : String)
    (s : FileOperator) (hopen : s.recursivefileOpPending.lockClosed = false) :
    (FileOperator.recursiveUploadHelper n q a s).2.1 = RecursiveErrorCodes.TYPE_MISSMATCH ↔
      (n.uploadVerdict q a).isTypeMismatch = true := by
  rw [FileOperator.recursiveUploadHelper_eq n q a s hopen]
  exact (FileOperator.uploadResult_typeMismatch s _).1

/-- C23: a node of the wrong kind aborts the recursive upload.  With the secondary lock
open, `recursiveUploadHelper` reports TYPE_MISSMATCH exactly when its node is no folder,
or its node is a loaded folder and the local entries, in their order, come to an entry
with every entry before it matched (the helper returns true on the child of each
directory, the child of each file is a file) that is a directory on whose child the
helper reports TYPE_MISSMATCH, or a file whose child is not a file.  The pass then
returns false and leaves the operator as it was, so nothing has been called, and
`recursiveUploadProcessRetry` sets the flag to NONE, releases the top-level lock and emits
the one event `fileOpDone` with status UNCLASSIFIED, which is not GOOD; the change
notifications that follow only forward their events and enter no walk. -/
theorem upload_walk_aborts_on_wrong_kind (n : FileTreeNode) (q : QFileInfo) (a : String)
    (s : FileOperator) (hopen : s.recursivefileOpPending.lockClosed = false) :
    ((FileOperator.recursiveUploadHelper n q a s).2.1 = RecursiveErrorCodes.TYPE_MISSMATCH ↔
        n.isFolder = false ∨
          (n.isFolder = true ∧ n.getNodeState = NodeState.FOLDER_CONTENTS_LOADED ∧
            ∃ pre e post, q.entryInfoList = pre ++ e :: post ∧
              (∀ x ∈ pre,
                (∀ f sub, x = QFileInfo.dir f sub →
                  ∃ c, n.getChildNodeWithName f = some c ∧
                    (FileOperator.recursiveUploadHelper c x (a ++ "/" ++ f) s).1 = true) ∧
                (∀ f, x = QFileInfo.file f →
                  ∃ c, n.getChildNodeWithName f = some c ∧ c.isFile = true)) ∧
              ((∃ f sub c, e = QFileInfo.dir f sub ∧ n.getChildNodeWithName f = some c ∧
                  (FileOperator.recursiveUploadHelper c e (a ++ "/" ++ f) s).2.1 =
                    RecursiveErrorCodes.TYPE_MISSMATCH) ∨
                (∃ f c, e = QFileInfo.file f ∧ n.getChildNodeWithName f = some c ∧
                  c.isFile = false)))) ∧
      ((FileOperator.recursiveUploadHelper n q a s).2.1 = RecursiveErrorCodes.TYPE_MISSMATCH →
        (FileOperator.recursiveUploadHelper n q a s).1 = false ∧
          (FileOperator.recursiveUploadHelper n q a s).2.2 = s) ∧
      (∀ head trueHead : FileTreeNode, s.remoteHeadNode = some head →
        head.getChildNodeWithName s.recursiveLocalHead.dirName = some trueHead →
        (FileOperator.recursiveUploadHelper trueHead s.recursiveLocalHead.info
          s.recursiveLocalHead.absolutePath s).2.1 = RecursiveErrorCodes.TYPE_MISSMATCH →
        s.recursiveUploadProcessRetry.currentRecursiveTask = FileOp_RecursiveTask.NONE ∧
          s.recursiveUploadProcessRetry.fileOpPending = s.fileOpPending.release ∧
          s.recursiveUploadProcessRetry.fileOpPending.lockClosed = false ∧
          s.recursiveUploadProcessRetry.signals =
            s.signals ++ [Signal.fileOpDone RequestState.UNCLASSIFIED] ∧
          RequestState.UNCLASSIFIED ≠ RequestState.GOOD ∧
          s.recursiveUploadProcessRetry.calls = s.calls ∧
          s.recursiveUploadProcessRetry.pending = s.pending ∧
          ∀ refs : List FileNodeRef,
            refs.foldl FileOperator.fileNodesChange s.recursiveUploadProcessRetry =
                refs.foldl (fun u r => u.emit (Signal.fileSystemChange r))
                  s.recursiveUploadProcessRetry ∧
              (refs.foldl FileOperator.fileNodesChange s.recursiveUploadProcessRetry).calls =
                s.calls ∧
              (refs.foldl FileOperator.fileNodesChange
                s.recursiveUploadProcessRetry).currentRecursiveTask =
                  FileOp_RecursiveTask.NONE) := by
  refine ⟨?_, fun h => ?_, fun head trueHead hhead hsome ht => ?_⟩
  · simp only [FileOperator.recursiveUploadHelper_err _ _ _ s hopen,
      FileOperator.recursiveUploadHelper_fst _ _ _ s hopen]
    rw [FileTreeNode.uploadVerdict_typeMismatch, FileTreeNode.uploadVerdictEntries_typeMismatch]
    simp only [FileTreeNode.uploadVerdictEntries_complete,
      FileTreeNode.uploadVerdictEntry_typeMismatch]
  · rw [FileOperator.recursiveUploadHelper_eq n q a s hopen] at h ⊢
    rw [(FileOperator.uploadResult_typeMismatch s _).2
      ((FileOperator.uploadResult_typeMismatch s _).1.mp h)]
    exact ⟨rfl, rfl⟩
  · rw [FileOperator.recursiveUploadProcessRetry_typeMismatch s head trueHead hopen hhead hsome
      ht]
    refine ⟨rfl, rfl, rfl, rfl, by decide, rfl, rfl, fun refs => ?_⟩
    exact fileNodesChange_idle_many refs _ rfl

/-- Witness for C23: on the example mirror `/home`, where `a.txt` is a file, the walk for
a local folder holding a directory `a.txt` reports the wrong kind and leaves the operator
as it was. -/
theorem upload_walk_aborts_on_wrong_kind_witness :
    Example.start.recursivefileOpPending.lockClosed = false ∧
      (FileOperator.recursiveUploadHelper Example.home
        (QFileInfo.dir "home" [QFileInfo.dir "a.txt" []]) "/tmp/home" Example.start).1 = false ∧
      (FileOperator.recursiveUploadHelper Example.home
        (QFileInfo.dir "home" [QFileInfo.dir "a.txt" []]) "/tmp/home" Example.start).2.2 =
          Example.start :=
  ⟨by decide,
    (upload_walk_aborts_on_wrong_kind Example.home
      (QFileInfo.dir "home" [QFileInfo.dir "a.txt" []]) "/tmp/home" Example.start
      (by decide)).2.1 (by decide)⟩


/-! ## The measure of the recursive upload -/

namespace FileTreeNode

mutual
theorem unmatchedEntry_le : ∀ (e : QFileInfo) (n : FileTreeNode),
    n.unmatchedEntry e ≤ e.entryCount
  | QFileInfo.file f, n => by
    rw [unmatchedEntry, QFileInfo.entryCount]
    split <;> omega
  | QFileInfo.dir f sub, n => by
    rw [unmatchedEntry, QFileInfo.entryCount]
    cases hc : n.getChildNodeWithName f with
    | none => exact Nat.le_refl _
    | some c =>
      have h := unmatchedIn_le sub c
      dsimp only
      omega
  | QFileInfo.other f, n => by
    rw [unmatchedEntry, QFileInfo.entryCount]
theorem unmatchedIn_le : ∀ (es : List QFileInfo) (n : FileTreeNode),
    n.unmatchedIn es ≤ QFileInfo.entryCountList es
  | [], n => by rw [unmatchedIn, QFileInfo.entryCountList]
  | e :: es, n => by
    rw [unmatchedIn, QFileInfo.entryCountList]
    have h1 := unmatchedEntry_le e n
    have h2 := unmatchedIn_le es n
    omega
end

/-- The measure does not grow from `n` to `n2` when every child a name finds in `n` has
a counterpart under that name in `n2` on which the measure is not larger. -/
theorem unmatchedEntry_mono (n n2 : FileTreeNode)
    (h : ∀ name x, n.getChildNodeWithName name = some x →
      ∃ x2, n2.getChildNodeWithName name = some x2 ∧
        ∀ es, x2.unmatchedIn es ≤ x.unmatchedIn es) :
    ∀ e : QFileInfo, n2.unmatchedEntry e ≤ n.unmatchedEntry e
  | QFileInfo.file f => by
    rw [unmatchedEntry, unmatchedEntry]
    cases hc : n.getChildNodeWithName f with
    | none =>
      simp only [Option.isNone_none, if_true]
      split <;> omega
    | some x =>
      obtain ⟨x2, hx2, _⟩ := h f x hc
      rw [hx2]
      exact Nat.le_refl _
  | QFileInfo.dir f sub => by
    rw [unmatchedEntry, unmatchedEntry]
    cases hc : n.getChildNodeWithName f with
    | none =>
      dsimp only
      cases hc2 : n2.getChildNodeWithName f with
      | none => exact Nat.le_refl _
      | some x2 =>
        have := unmatchedIn_le sub x2
        dsimp only
        omega
    | some x =>
      obtain ⟨x2, hx2, hle⟩ := h f x hc
      rw [hx2]
      exact hle sub
  | QFileInfo.other f => by
    rw [unmatchedEntry, unmatchedEntry]

theorem unmatchedIn_mono (n n2 : FileTreeNode)
    (h : ∀ e : QFileInfo, n2.unmatchedEntry e ≤ n.unmatchedEntry e) :
    ∀ es : List QFileInfo, n2.unmatchedIn es ≤ n.unmatchedIn es
  | [] => by rw [unmatchedIn, unmatchedIn]
  | e :: es => by
    rw [unmatchedIn, unmatchedIn]
    have h1 := h e
    have h2 := unmatchedIn_mono n n2 h es
    omega

/-- A change that keeps the children, made anywhere below a node, does not let the
measure grow. -/
theorem unmatchedEntry_modifyBelow (g : FileTreeNode → FileTreeNode) (hg : KeepsChildren g) :
    ∀ (pos : List String) (n : FileTreeNode) (e : QFileInfo),
      (n.modifyBelow g pos).unmatchedEntry e ≤ n.unmatchedEntry e
  | [], n, e => by
    have hm : n.modifyBelow g [] = g n := by simp only [modifyBelow]
    rw [hm]
    exact unmatchedEntry_mono n (g n)
      (fun name x hx => ⟨x, hg.2 n name x hx, fun _ => Nat.le_refl _⟩) e
  | c :: cs, mk d st b l t ch, e => by
    have ih : ∀ (m : FileTreeNode) (es : List QFileInfo),
        (m.modifyBelow g cs).unmatchedIn es ≤ m.unmatchedIn es :=
      fun m es => unmatchedIn_mono m _ (unmatchedEntry_modifyBelow g hg cs m) es
    refine unmatchedEntry_mono _ _ (fun name x hx => ?_) e
    have hfind := (find_modifyChild_any c name (fun y => modifyBelow g y cs)
      (fun y => getName_modifyBelow g hg.1 y cs) ch).2 x hx
    rcases hfind with h1 | h1
    · exact ⟨x, h1, fun _ => Nat.le_refl _⟩
    · exact ⟨_, h1, ih x⟩

theorem unmatchedIn_modifyBelow (g : FileTreeNode → FileTreeNode) (hg : KeepsChildren g)
    (pos : List String) (n : FileTreeNode) (es : List QFileInfo) :
    (n.modifyBelow g pos).unmatchedIn es ≤ n.unmatchedIn es :=
  unmatchedIn_mono n _ (unmatchedEntry_modifyBelow g hg pos n) es

end FileTreeNode

namespace FileTreeNode

mutual
/-- The first unmatched entry gaining its node makes the measure smaller. -/
theorem unmatchedEntry_created (g : FileTreeNode → FileTreeNode) (hg : KeepsChildren g) :
    ∀ (e0 : QFileInfo) (n : FileTreeNode) (pos : List String) (e : QFileInfo),
      n.firstUnmatchedEntry e0 = some (pos, e) →
      (∀ x, ((g x).getChildNodeWithName e.fileName).isSome = true) →
      (n.modifyBelow g pos).unmatchedEntry e0 < n.unmatchedEntry e0
  | QFileInfo.file f, n, pos, e, h, hadd => by
    rw [firstUnmatchedEntry] at h
    by_cases hc : (n.getChildNodeWithName f).isNone = true
    · rw [if_pos hc] at h
      cases h
      have hm : n.modifyBelow g [] = g n := by simp only [modifyBelow]
      have h1 := hadd n
      rw [hm, unmatchedEntry, unmatchedEntry, if_pos hc]
      cases hc2 : (g n).getChildNodeWithName f with
      | none =>
        simp only [QFileInfo.fileName] at h1
        rw [hc2] at h1; cases h1
      | some x => simp only [Option.isNone_some, Bool.false_eq_true, if_false]; omega
    · rw [if_neg hc] at h; cases h
  | QFileInfo.dir f sub, n, pos, e, h, hadd => by
    rw [firstUnmatchedEntry] at h
    cases hc : n.getChildNodeWithName f with
    | none =>
      rw [hc] at h
      cases h
      have hm : n.modifyBelow g [] = g n := by simp only [modifyBelow]
      have h1 := hadd n
      rw [hm, unmatchedEntry, unmatchedEntry, hc]
      cases hc2 : (g n).getChildNodeWithName f with
      | none =>
        simp only [QFileInfo.fileName] at h1
        rw [hc2] at h1; cases h1
      | some x =>
        have := unmatchedIn_le sub x
        dsimp only
        omega
    | some c =>
      rw [hc] at h
      dsimp only at h
      cases hr : c.firstUnmatchedIn sub with
      | none => rw [hr] at h; cases h
      | some r =>
        rw [hr] at h
        cases h
        have ih := unmatchedIn_created g hg sub c r.1 r.2 hr hadd
        cases n with
        | mk d st b l t ch =>
          have hfind := find_modifyChild f (fun y => modifyBelow g y r.1)
            (fun y => getName_modifyBelow g hg.1 y r.1) ch c hc
          have hfind2 : ((mk d st b l t ch).modifyBelow g (f :: r.1)).getChildNodeWithName f =
              some (c.modifyBelow g r.1) := hfind
          rw [unmatchedEntry, unmatchedEntry, hc, hfind2]
          exact ih
  | QFileInfo.other f, n, pos, e, h, hadd => by
    rw [firstUnmatchedEntry] at h; cases h
theorem unmatchedIn_created (g : FileTreeNode → FileTreeNode) (hg : KeepsChildren g) :
    ∀ (es : List QFileInfo) (n : FileTreeNode) (pos : List String) (e : QFileInfo),
      n.firstUnmatchedIn es = some (pos, e) →
      (∀ x, ((g x).getChildNodeWithName e.fileName).isSome = true) →
      (n.modifyBelow g pos).unmatchedIn es < n.unmatchedIn es
  | [], n, pos, e, h, _ => by
    rw [firstUnmatchedIn] at h; cases h
  | e0 :: es, n, pos, e, h, hadd => by
    rw [firstUnmatchedIn] at h
    rw [unmatchedIn, unmatchedIn]
    cases hr : n.firstUnmatchedEntry e0 with
    | some r =>
      rw [hr] at h
      cases h
      have h1 := unmatchedEntry_created g hg e0 n pos e hr hadd
      have h2 := unmatchedIn_modifyBelow g hg pos n es
      omega
    | none =>
      rw [hr] at h
      have h1 := unmatchedEntry_modifyBelow g hg pos n e0
      have h2 := unmatchedIn_created g hg es n pos e h hadd
      omega
end

mutual
/-- Nothing is unmatched exactly when there is no first unmatched entry. -/
theorem unmatchedEntry_eq_zero : ∀ (e : QFileInfo) (n : FileTreeNode),
    n.unmatchedEntry e = 0 ↔ n.firstUnmatchedEntry e = none
  | QFileInfo.file f, n => by
    rw [unmatchedEntry, firstUnmatchedEntry]
    split
    · exact ⟨fun h => (by cases h), fun h => (by cases h)⟩
    · exact ⟨fun _ => rfl, fun _ => rfl⟩
  | QFileInfo.dir f sub, n => by
    rw [unmatchedEntry, firstUnmatchedEntry]
    cases hc : n.getChildNodeWithName f with
    | none =>
      dsimp only
      exact ⟨fun h => (by omega), fun h => (by cases h)⟩
    | some c =>
      dsimp only
      rw [unmatchedIn_eq_zero sub c]
      cases hr : c.firstUnmatchedIn sub with
      | none => exact ⟨fun _ => rfl, fun _ => rfl⟩
      | some r => exact ⟨fun h => (by cases h), fun h => (by cases h)⟩
  | QFileInfo.other f, n => by
    rw [unmatchedEntry, firstUnmatchedEntry]
    exact ⟨fun _ => rfl, fun _ => rfl⟩
theorem unmatchedIn_eq_zero : ∀ (es : List QFileInfo) (n : FileTreeNode),
    n.unmatchedIn es = 0 ↔ n.firstUnmatchedIn es = none
  | [], n => by
    rw [unmatchedIn, firstUnmatchedIn]
    exact ⟨fun _ => rfl, fun _ => rfl⟩
  | e :: es, n => by
    rw [unmatchedIn, firstUnmatchedIn, Nat.add_eq_zero_iff, unmatchedEntry_eq_zero e n,
      unmatchedIn_eq_zero es n]
    cases hr : n.firstUnmatchedEntry e with
    | none => exact ⟨fun h => h.2, fun h => ⟨rfl, h⟩⟩
    | some r => exact ⟨fun h => (by cases h.1), fun h => (by cases h)⟩
end

end FileTreeNode

/-! ## The entry a pass of the upload walk asks for -/

namespace FileTreeNode

theorem firstUnmatchedEntry_of_complete_aux (n : FileTreeNode) (e : QFileInfo) (a : String)
    (hrec : ∀ f sub c, e = QFileInfo.dir f sub → n.getChildNodeWithName f = some c →
      (c.uploadVerdict e (a ++ "/" ++ f)).isComplete = true → c.firstUnmatchedIn sub = none)
    (h : (n.uploadVerdictEntry e a).isComplete = true) : n.firstUnmatchedEntry e = none := by
  cases e with
  | dir f sub =>
    rw [uploadVerdictEntry] at h
    rw [firstUnmatchedEntry]
    cases hc : n.getChildNodeWithName f with
    | none => rw [hc] at h; cases h
    | some c =>
      rw [hc] at h
      dsimp only at h ⊢
      rw [UploadVerdict.isComplete_under] at h
      rw [hrec f sub c rfl hc h]
      rfl
  | file f =>
    rw [uploadVerdictEntry] at h
    rw [firstUnmatchedEntry]
    cases hc : n.getChildNodeWithName f with
    | none => rw [hc] at h; cases h
    | some c => rfl
  | other f => rw [firstUnmatchedEntry]

mutual
theorem firstUnmatchedIn_of_complete : ∀ (q : QFileInfo) (n : FileTreeNode) (a : String),
    (n.uploadVerdict q a).isComplete = true → n.firstUnmatchedIn q.entryInfoList = none
  | QFileInfo.dir f sub, n, a, h =>
    firstUnmatchedIn_of_complete_entries sub n a ((uploadVerdict_complete n _ a).mp h).2.2
  | QFileInfo.file f, n, a, _ => by rw [QFileInfo.entryInfoList, firstUnmatchedIn]
  | QFileInfo.other f, n, a, _ => by rw [QFileInfo.entryInfoList, firstUnmatchedIn]
theorem firstUnmatchedIn_of_complete_entries :
    ∀ (es : List QFileInfo) (n : FileTreeNode) (a : String),
      (n.uploadVerdictEntries es a).isComplete = true → n.firstUnmatchedIn es = none
  | [], n, a, _ => by rw [firstUnmatchedIn]
  | QFileInfo.dir f sub :: rest, n, a, h => by
    rw [uploadVerdictEntries_cons] at h
    rcases Bool.eq_false_or_eq_true (n.uploadVerdictEntry (QFileInfo.dir f sub) a).isComplete
      with ht | hf
    · rw [ht, if_pos rfl] at h
      rw [firstUnmatchedIn, firstUnmatchedEntry_of_complete_aux n _ a
        (fun f2 sub2 c he hc hv => by
          cases he
          exact firstUnmatchedIn_of_complete (QFileInfo.dir f sub) c _ hv) ht]
      exact firstUnmatchedIn_of_complete_entries rest n a h
    · rw [hf, if_neg (by decide), hf] at h; cases h
  | QFileInfo.file f :: rest, n, a, h => by
    rw [uploadVerdictEntries_cons] at h
    rcases Bool.eq_false_or_eq_true (n.uploadVerdictEntry (QFileInfo.file f) a).isComplete
      with ht | hf
    · rw [ht, if_pos rfl] at h
      rw [firstUnmatchedIn, firstUnmatchedEntry_of_complete_aux n _ a
        (fun f2 sub2 c he _ _ => by cases he) ht]
      exact firstUnmatchedIn_of_complete_entries rest n a h
    · rw [hf, if_neg (by decide), hf] at h; cases h
  | QFileInfo.other f :: rest, n, a, h => by
    rw [uploadVerdictEntries_cons] at h
    have ht : (n.uploadVerdictEntry (QFileInfo.other f) a).isComplete = true := rfl
    rw [ht, if_pos rfl] at h
    rw [firstUnmatchedIn, firstUnmatchedEntry]
    exact firstUnmatchedIn_of_complete_entries rest n a h
end

theorem firstUnmatchedEntry_of_complete (n : FileTreeNode) (e : QFileInfo) (a : String)
    (h : (n.uploadVerdictEntry e a).isComplete = true) : n.firstUnmatchedEntry e = none :=
  firstUnmatchedEntry_of_complete_aux n e a
    (fun f sub c he _ hv => by
      have := firstUnmatchedIn_of_complete e c _ hv
      rw [he] at this
      exact this) h

end FileTreeNode

namespace UploadVerdict

theorem Finds.of_under {v : UploadVerdict} {n c : FileTreeNode} {f : String}
    {first : Option (List String × QFileInfo)} (h : v.Finds c first)
    (hc : n.getChildNodeWithName f = some c) :
    (v.under f).Finds n (FileTreeNode.underName f first) := by
  cases v with
  | complete => trivial
  | typeMismatch => trivial
  | notLoaded pos node => trivial
  | missingDir pos parent name =>
    obtain ⟨h1, sub, h2⟩ := h
    refine ⟨?_, sub, by rw [h2]; rfl⟩
    rw [FileTreeNode.descend, hc]
    exact h1
  | missingFile pos parent name localFile =>
    obtain ⟨h1, h2, h3⟩ := h
    refine ⟨?_, by rw [h2]; rfl, h3⟩
    rw [FileTreeNode.descend, hc]
    exact h1

theorem Finds.of_entry {v : UploadVerdict} {n : FileTreeNode} {e : QFileInfo}
    (rest : List QFileInfo) (h : v.Finds n (n.firstUnmatchedEntry e)) :
    v.Finds n (n.firstUnmatchedIn (e :: rest)) := by
  cases v with
  | complete => trivial
  | typeMismatch => trivial
  | notLoaded pos node => trivial
  | missingDir pos parent name =>
    obtain ⟨h1, sub, h2⟩ := h
    exact ⟨h1, sub, by rw [FileTreeNode.firstUnmatchedIn, h2]⟩
  | missingFile pos parent name localFile =>
    obtain ⟨h1, h2, h3⟩ := h
    exact ⟨h1, by rw [FileTreeNode.firstUnmatchedIn, h2], h3⟩

end UploadVerdict

namespace FileTreeNode

theorem finds_uploadVerdictEntry (n : FileTreeNode) (e : QFileInfo) (a : String)
    (hrec : ∀ f sub c, e = QFileInfo.dir f sub → n.getChildNodeWithName f = some c →
      (c.uploadVerdict e (a ++ "/" ++ f)).Finds c (c.firstUnmatchedIn sub)) :
    (n.uploadVerdictEntry e a).Finds n (n.firstUnmatchedEntry e) := by
  cases e with
  | dir f sub =>
    rw [uploadVerdictEntry, firstUnmatchedEntry]
    cases hc : n.getChildNodeWithName f with
    | none => exact ⟨rfl, sub, rfl⟩
    | some c => exact (hrec f sub c rfl hc).of_under hc
  | file f =>
    rw [uploadVerdictEntry, firstUnmatchedEntry]
    cases hc : n.getChildNodeWithName f with
    | none => exact ⟨rfl, rfl, a, rfl⟩
    | some c =>
      dsimp only
      split <;> trivial
  | other f =>
    rw [uploadVerdictEntry]
    trivial

mutual
theorem finds_uploadVerdict : ∀ (q : QFileInfo) (n : FileTreeNode) (a : String),
    (n.uploadVerdict q a).Finds n (n.firstUnmatchedIn q.entryInfoList)
  | QFileInfo.dir f sub, n, a => by
    rw [uploadVerdict]
    split
    · trivial
    · split
      · trivial
      · exact finds_uploadVerdictEntries sub n a
  | QFileInfo.file f, n, a => by
    rw [uploadVerdict]
    split
    · trivial
    · split <;> trivial
  | QFileInfo.other f, n, a => by
    rw [uploadVerdict]
    split
    · trivial
    · split <;> trivial
theorem finds_uploadVerdictEntries : ∀ (es : List QFileInfo) (n : FileTreeNode) (a : String),
    (n.uploadVerdictEntries es a).Finds n (n.firstUnmatchedIn es)
  | [], n, a => by
    rw [uploadVerdictEntries]
    trivial
  | QFileInfo.dir f sub :: rest, n, a => by
    have he := finds_uploadVerdictEntry n (QFileInfo.dir f sub) a
      (fun f2 sub2 c he hc => by
        cases he
        exact finds_uploadVerdict (QFileInfo.dir f sub) c _)
    rw [uploadVerdictEntries_cons]
    rcases Bool.eq_false_or_eq_true (n.uploadVerdictEntry (QFileInfo.dir f sub) a).isComplete
      with ht | hf
    · rw [ht, if_pos rfl, firstUnmatchedIn, firstUnmatchedEntry_of_complete n _ a ht]
      exact finds_uploadVerdictEntries rest n a
    · rw [hf, if_neg (by decide)]
      exact he.of_entry rest
  | QFileInfo.file f :: rest, n, a => by
    have he := finds_uploadVerdictEntry n (QFileInfo.file f) a
      (fun f2 sub2 c he _ => by cases he)
    rw [uploadVerdictEntries_cons]
    rcases Bool.eq_false_or_eq_true (n.uploadVerdictEntry (QFileInfo.file f) a).isComplete
      with ht | hf
    · rw [ht, if_pos rfl, firstUnmatchedIn, firstUnmatchedEntry_of_complete n _ a ht]
      exact finds_uploadVerdictEntries rest n a
    · rw [hf, if_neg (by decide)]
      exact he.of_entry rest
  | QFileInfo.other f :: rest, n, a => by
    rw [uploadVerdictEntries_cons]
    have ht : (n.uploadVerdictEntry (QFileInfo.other f) a).isComplete = true := rfl
    rw [ht, if_pos rfl, firstUnmatchedIn, firstUnmatchedEntry]
    exact finds_uploadVerdictEntries rest n a
end

end FileTreeNode

theorem FileOperator.recursiveUploadProcessRetry_calls_walk (s : FileOperator)
    (head trueHead : FileTreeNode)
    (hopen : s.recursivefileOpPending.lockClosed = false)
    (hhead : s.remoteHeadNode = some head)
    (hsome : head.getChildNodeWithName s.recursiveLocalHead.dirName = some trueHead) :
    s.recursiveUploadProcessRetry.calls =
      (FileOperator.recursiveUploadHelper trueHead s.recursiveLocalHead.info
        s.recursiveLocalHead.absolutePath s).2.2.calls := by
  unfold FileOperator.recursiveUploadProcessRetry
  rw [if_neg (by rw [hopen]; decide), hhead]
  simp only [hsome]
  repeat' split
  all_goals rfl

/-- What a pass of `recursiveUploadProcessRetry` calls: nothing, or one listing, or the
mkdir or the upload for the first unmatched entry, into the folder above it. -/
theorem FileOperator.recursiveUploadProcessRetry_asks (s : FileOperator) :
    s.recursiveUploadProcessRetry.calls = s.calls ∨
      (∃ p, s.recursiveUploadProcessRetry.calls = s.calls ++ [RemoteCall.remoteLS p]) ∨
      ∃ (head : FileTreeNode) (pos : List String) (e : QFileInfo) (parent : FileTreeNode),
        s.remoteHeadNode = some head ∧
        head.firstUnmatchedIn [s.recursiveLocalHead.asEntry] = some (pos, e) ∧
        head.descend pos = some parent ∧
        ((∃ name sub, e = QFileInfo.dir name sub ∧
            s.recursiveUploadProcessRetry.calls =
              s.calls ++ [RemoteCall.mkRemoteDir parent.getFileData.fullPath name]) ∨
          (∃ name d, e = QFileInfo.file name ∧
            s.recursiveUploadProcessRetry.calls =
              s.calls ++ [RemoteCall.uploadFile parent.getFileData.fullPath
                (d ++ "/" ++ name)])) := by
  rcases Bool.eq_false_or_eq_true s.recursivefileOpPending.lockClosed with hcl | hopen
  · left
    rw [recursiveUploadProcessRetry_closed s hcl]
  · cases hhead : s.remoteHeadNode with
    | none =>
      left
      unfold FileOperator.recursiveUploadProcessRetry
      rw [if_neg (by rw [hopen]; decide), hhead]
    | some head =>
      cases hc : head.getChildNodeWithName s.recursiveLocalHead.dirName with
      | none =>
        have hres : s.recursiveUploadProcessRetry =
            (s.sendRecursiveCreateFolderReq head s.recursiveLocalHead.dirName).2 := by
          unfold FileOperator.recursiveUploadProcessRetry
          rw [if_neg (by rw [hopen]; decide), hhead]
          simp only [hc]
        rw [hres]
        rcases sendRecursiveCreateFolderReq_calls s head s.recursiveLocalHead.dirName
          with h | h
        · exact Or.inl h
        · refine Or.inr (Or.inr ⟨head, [], s.recursiveLocalHead.asEntry, head, rfl, ?_, rfl,
            Or.inl ⟨_, _, rfl, h⟩⟩)
          rw [FileTreeNode.firstUnmatchedIn, QDir.asEntry, FileTreeNode.firstUnmatchedEntry, hc]
      | some trueHead =>
        rw [FileOperator.recursiveUploadProcessRetry_calls_walk s head trueHead hopen hhead hc,
          FileOperator.recursiveUploadHelper_eq _ _ _ s hopen]
        have hfind := FileTreeNode.finds_uploadVerdict s.recursiveLocalHead.info trueHead
          s.recursiveLocalHead.absolutePath
        have hfirst : head.firstUnmatchedIn [s.recursiveLocalHead.asEntry] =
            FileTreeNode.underName s.recursiveLocalHead.dirName
              (trueHead.firstUnmatchedIn s.recursiveLocalHead.info.entryInfoList) := by
          rw [FileTreeNode.firstUnmatchedIn, QDir.asEntry, FileTreeNode.firstUnmatchedEntry, hc]
          dsimp only
          cases FileTreeNode.underName s.recursiveLocalHead.dirName
            (trueHead.firstUnmatchedIn s.recursiveLocalHead.info.entryInfoList) <;> rfl
        have hdesc : ∀ pos parent, trueHead.descend pos = some parent →
            head.descend (s.recursiveLocalHead.dirName :: pos) = some parent := by
          intro pos parent h
          rw [FileTreeNode.descend, hc]
          exact h
        cases hv : trueHead.uploadVerdict s.recursiveLocalHead.info
            s.recursiveLocalHead.absolutePath with
        | complete => exact Or.inl rfl
        | typeMismatch => exact Or.inl rfl
        | notLoaded pos node =>
          rcases enactFolderRefresh_calls s node.getFileData false with h | ⟨m, _, h⟩
          · exact Or.inl h
          · exact Or.inr (Or.inl ⟨_, h⟩)
        | missingDir pos parent name =>
          rw [hv] at hfind
          obtain ⟨h1, sub, h2⟩ := hfind
          rcases sendRecursiveCreateFolderReq_calls s parent name with h | h
          · exact Or.inl h
          · exact Or.inr (Or.inr ⟨head, s.recursiveLocalHead.dirName :: pos,
              QFileInfo.dir name sub, parent, rfl, by rw [hfirst, h2]; rfl, hdesc pos parent h1,
              Or.inl ⟨name, sub, rfl, h⟩⟩)
        | missingFile pos parent name localFile =>
          rw [hv] at hfind
          obtain ⟨h1, h2, d, h3⟩ := hfind
          rcases sendRecursiveUploadReq_calls s parent localFile with h | h
          · exact Or.inl h
          · exact Or.inr (Or.inr ⟨head, s.recursiveLocalHead.dirName :: pos,
              QFileInfo.file name, parent, rfl, by rw [hfirst, h2]; rfl, hdesc pos parent h1,
              Or.inr ⟨name, d, rfl, by rw [← h3]; exact h⟩⟩)

theorem FileTreeNode.keepsChildren_addChild (child : FileTreeNode) :
    FileTreeNode.KeepsChildren (FileTreeNode.addChild child) ∧
      ∀ x : FileTreeNode,
        ((FileTreeNode.addChild child x).getChildNodeWithName child.getName).isSome = true := by
  refine ⟨⟨fun x => by cases x; rfl, fun x name c h => ?_⟩, fun x => ?_⟩
  · cases x with
    | mk d st b l t ch =>
      have h2 : ch.find? (fun y => y.getName == name) = some c := h
      show (ch ++ [child]).find? (fun y => y.getName == name) = some c
      rw [List.find?_append, h2]
      rfl
  · cases x with
    | mk d st b l t ch =>
      show ((ch ++ [child]).find? (fun y => y.getName == child.getName)).isSome = true
      rw [List.find?_append]
      cases ch.find? (fun y => y.getName == child.getName) with
      | some y => rfl
      | none =>
        simp only [Option.none_or, List.find?_cons, beq_self_eq_true, Option.isSome_some]

/-- C24 (failing run): the upload of `proj`, a local tree of three entries, begun while a
refresh of `/home` is under way, every reply of status GOOD.  After the good reply to the
first mkdir of `proj` and the listing that was asked for before it, still three entries
are unmatched, and the mkdir of `proj` is sent again.  The upload ends well after four
mkdir or upload calls. -/
theorem stale_listing_costs_extra_call :
    Reachable (Example.start.run Example.staleUpload) ∧
      QFileInfo.entryCountList [Example.proj.asEntry] = 3 ∧
      (Example.start.run Example.staleUpload).calls =
        [RemoteCall.remoteLS ["home"], RemoteCall.mkRemoteDir ["home"] "proj",
          RemoteCall.mkRemoteDir ["home"] "proj", RemoteCall.remoteLS ["home"],
          RemoteCall.remoteLS ["home", "proj"], RemoteCall.mkRemoteDir ["home", "proj"] "sub",
          RemoteCall.remoteLS ["home", "proj"], RemoteCall.remoteLS ["home", "proj", "sub"],
          RemoteCall.uploadFile ["home", "proj"] "/tmp/proj/x.txt",
          RemoteCall.remoteLS ["home", "proj"]] ∧
      ((Example.start.run Example.staleUpload).calls.filter
        RemoteCall.isMkdirOrUpload).length = 4 ∧
      ([2, 3, 4].map (fun k =>
        (Example.start.run (Example.staleUpload.take k)).rootFileNode.unmatchedIn
          [Example.proj.asEntry])) = [3, 3, 3] ∧
      (Example.staleUpload.all (fun a =>
        match a with
        | Action.deliver _ r => r.replyState == RequestState.GOOD
        | _ => true)) = true ∧
      (Example.start.run Example.staleUpload).signals.getLast? =
        some (Signal.fileOpDone RequestState.GOOD) ∧
      (Example.start.run Example.staleUpload).currentRecursiveTask =
        FileOp_RecursiveTask.NONE ∧
      (Example.start.run Example.staleUpload).pending = [] ∧
      (Example.start.run Example.staleUpload).crashed = false :=
  ⟨reachable_example _, by decide, by decide, by decide, by decide, by decide, by decide,
    by decide, by decide, by decide⟩

end AgaveClient
